import Mathlib

/-!
# The GDB session controller of `parts/debugger/gdbcontroller.cpp`

A shallow embedding of `GDBController`: the session flags, the command queue
(`queueCmd`, `executeCmd`, `removeInfoRequests`, `pauseApp`), the output framer
(`slotDbgStdout`, `parse`, `parseCmdBlock`, `parseOther`), the line classifier
(`parseLine`) and the slots, followed by the properties proved about them.

Conventions of the embedding.

* Bytes are natural numbers; a C string inside the output buffer is addressed
  by its index into `gdbOutput_`.
* `gdbOutput_` is the part of the `char` array that the program has written so
  far (a prefix of the array, whose capacity is `gdbSizeofBuf_`).  A read
  outside that prefix is a read of memory the program never wrote: it yields
  `0` and raises the ghost flag `undefinedRead_`.
* Signals emitted to collaborators, writes to the debugger process and calls
  into the widgets are appended, in program order, to the ghost field `log_`.
  Output that only feeds the console view (`gdbStdout`, `DBG_DISPLAY`) is not
  recorded.
-/

namespace GDBDebugger

/-! ## Session flags -/

/-- Modelled from the spec: the flag constants `s_dbgNotStarted` ... of
`dbgcontroller.h` are not among the sources; the spec describes the session
state as a bitset of orthogonal flags, so `state_` is a record with one boolean
per flag used by `gdbcontroller.cpp`. -/
structure DBGStateFlags where
  dbgNotStarted : Bool
  appNotStarted : Bool
  appBusy : Bool
  waitForWrite : Bool
  programExited : Bool
  silent : Bool
  viewLocals : Bool
  attached : Bool
  core : Bool
  waitTimer : Bool
  shuttingDown : Bool
  viewThreads : Bool
deriving DecidableEq, Repr

/-- The empty bitset. -/
@[simp] def noFlags : DBGStateFlags :=
  ⟨false, false, false, false, false, false, false, false, false, false, false, false⟩

@[simp] def s_dbgNotStarted : DBGStateFlags := { noFlags with dbgNotStarted := true }
@[simp] def s_appNotStarted : DBGStateFlags := { noFlags with appNotStarted := true }
@[simp] def s_appBusy : DBGStateFlags := { noFlags with appBusy := true }
@[simp] def s_waitForWrite : DBGStateFlags := { noFlags with waitForWrite := true }
@[simp] def s_programExited : DBGStateFlags := { noFlags with programExited := true }
@[simp] def s_silent : DBGStateFlags := { noFlags with silent := true }
@[simp] def s_viewLocals : DBGStateFlags := { noFlags with viewLocals := true }
@[simp] def s_attached : DBGStateFlags := { noFlags with attached := true }
@[simp] def s_core : DBGStateFlags := { noFlags with core := true }
@[simp] def s_waitTimer : DBGStateFlags := { noFlags with waitTimer := true }
@[simp] def s_shuttingDown : DBGStateFlags := { noFlags with shuttingDown := true }
@[simp] def s_viewThreads : DBGStateFlags := { noFlags with viewThreads := true }

/-- Bitwise or of two flag sets (`a | b`). -/
@[simp] def DBGStateFlags.bor (a b : DBGStateFlags) : DBGStateFlags :=
  ⟨a.dbgNotStarted || b.dbgNotStarted, a.appNotStarted || b.appNotStarted,
   a.appBusy || b.appBusy, a.waitForWrite || b.waitForWrite,
   a.programExited || b.programExited, a.silent || b.silent,
   a.viewLocals || b.viewLocals, a.attached || b.attached, a.core || b.core,
   a.waitTimer || b.waitTimer, a.shuttingDown || b.shuttingDown,
   a.viewThreads || b.viewThreads⟩

/-- Bitwise and of two flag sets (`a & b`). -/
@[simp] def DBGStateFlags.band (a b : DBGStateFlags) : DBGStateFlags :=
  ⟨a.dbgNotStarted && b.dbgNotStarted, a.appNotStarted && b.appNotStarted,
   a.appBusy && b.appBusy, a.waitForWrite && b.waitForWrite,
   a.programExited && b.programExited, a.silent && b.silent,
   a.viewLocals && b.viewLocals, a.attached && b.attached, a.core && b.core,
   a.waitTimer && b.waitTimer, a.shuttingDown && b.shuttingDown,
   a.viewThreads && b.viewThreads⟩

/-- Bitwise complement (`~a`). -/
@[simp] def DBGStateFlags.compl (a : DBGStateFlags) : DBGStateFlags :=
  ⟨!a.dbgNotStarted, !a.appNotStarted, !a.appBusy, !a.waitForWrite,
   !a.programExited, !a.silent, !a.viewLocals, !a.attached, !a.core,
   !a.waitTimer, !a.shuttingDown, !a.viewThreads⟩

/-- True when the flag set has at least one bit (`a != 0`). -/
@[simp] def DBGStateFlags.nonZero (a : DBGStateFlags) : Bool :=
  a.dbgNotStarted || a.appNotStarted || a.appBusy || a.waitForWrite ||
  a.programExited || a.silent || a.viewLocals || a.attached || a.core ||
  a.waitTimer || a.shuttingDown || a.viewThreads

instance : OrOp DBGStateFlags := ⟨DBGStateFlags.bor⟩
instance : AndOp DBGStateFlags := ⟨DBGStateFlags.band⟩

/-- The test `stateIsOn(mask)`: `state_ & mask`. -/
@[simp] def stateIsOn (state mask : DBGStateFlags) : Bool := (state.band mask).nonZero

/-- The update `setStateOn(mask)`: `state_ |= mask`. -/
@[simp] def setStateOn (state mask : DBGStateFlags) : DBGStateFlags := state.bor mask

/-- The update `setStateOff(mask)`: `state_ &= ~mask`. -/
@[simp] def setStateOff (state mask : DBGStateFlags) : DBGStateFlags := state.band mask.compl

/-! ## Commands -/

/-- The subclass of a command (`GDBCommand`, `GDBSetBreakpointCommand` with its
key, `GDBItemCommand` / `GDBPointerCommand` with the identity of their item). -/
inductive CmdKind where
  | plain
  | setBreakpoint (key : Int)
  | item (item : Nat)
deriving DecidableEq, Repr

/-- Modelled from the spec: `dbgcommand.h` and `gdbcommand.h` are not among the
sources.  A command carries the raw text, the two kind bits `isRun` and
`isInfo`, the routing tag (`prompt_`, `0` for none), whether a reply is awaited
and whether the text has already been handed to the transport. -/
structure DbgCommand where
  command_ : String
  isRunCmd_ : Bool
  isInfoCmd_ : Bool
  prompt_ : Nat
  sent_ : Bool
  waitForReply_ : Bool
  kind_ : CmdKind
deriving DecidableEq, Repr

def DbgCommand.isARunCmd (cmd : DbgCommand) : Bool := cmd.isRunCmd_
def DbgCommand.isAnInfoCmd (cmd : DbgCommand) : Bool := cmd.isInfoCmd_
def DbgCommand.moreToSend (cmd : DbgCommand) : Bool := !cmd.sent_
def DbgCommand.expectReply (cmd : DbgCommand) : Bool := cmd.waitForReply_
def DbgCommand.rawDbgCommand (cmd : DbgCommand) : String := cmd.command_

/-- The test `typeMatch(cmdType)`: a reply is awaited and the tags agree. -/
def DbgCommand.typeMatch (cmd : DbgCommand) (cmdType : Nat) : Bool :=
  cmd.waitForReply_ && cmd.prompt_ == cmdType

/-- The state of a command after `cmdToSend()` has been called on it. -/
def DbgCommand.markSent (cmd : DbgCommand) : DbgCommand := { cmd with sent_ := true }

def RUNCMD : Bool := true
def NOTRUNCMD : Bool := false
def INFOCMD : Bool := true
def NOTINFOCMD : Bool := false

/-- Modelled from the spec: the constructor `GDBCommand(text, isRun, isInfo, tag)`;
a command built with a tag waits for the block carrying that tag. -/
def GDBCommand (text : String) (isRun isInfo : Bool) (tag : Nat) : DbgCommand :=
  { command_ := text, isRunCmd_ := isRun, isInfoCmd_ := isInfo, prompt_ := tag,
    sent_ := false, waitForReply_ := tag != 0, kind_ := CmdKind.plain }

/-! ## Observable effects -/

inductive Signal where
  | SIGINT
  | SIGKILL
deriving DecidableEq, Repr

/-- One observable effect of the controller. -/
inductive Event where
  /-- The call `dbgProcess_->writeStdin` with the raw text of the command. -/
  | writeStdin (text : String)
  /-- The call `dbgProcess_->kill`. -/
  | kill (sig : Signal)
  | dbgStatus (msg : List Nat) (state : DBGStateFlags)
  | showStepInSource (file : List Nat) (line : Int) (addr : List Nat)
  | unableToSetBPNow (bpNo : Int)
  | acceptPendingBPs
  | rawGDBBreakpointList (buf : List Nat)
  | rawGDBBreakpointSet (buf : List Nat) (key : Int)
  | rawGDBDisassemble (buf : List Nat)
  | rawGDBMemoryDump (buf : List Nat)
  | rawGDBRegisters (buf : List Nat)
  | rawGDBLibraries (buf : List Nat)
  /-- The call `KMessageBox::error`. -/
  | messageBox (msg : List Nat)
  /-- A call into the variable tree or the frame stack widget. -/
  | widget (method : String) (arg : List Nat)
  /-- Ghost: `parseCmdBlock` reached the `case` of the tag with this payload. -/
  | handler (cmdType : Nat) (buf : List Nat)
  /-- Ghost: `parseLine` was called with this line. -/
  | line (buf : List Nat)
deriving DecidableEq, Repr

/-! ## The controller -/

/-- The fields of `GDBController` that the embedded member functions use,
with the two ghost fields `log_` and `undefinedRead_`. -/
structure GDBController where
  currentFrame_ : Int
  viewedThread_ : Int
  gdbSizeofBuf_ : Nat
  gdbOutputLen_ : Nat
  gdbOutput_ : List Nat
  cmdList_ : List DbgCommand
  currentCmd_ : Option DbgCommand
  tty_ : Bool
  dbgProcess_ : Bool
  badCore_ : List Nat
  state_ : DBGStateFlags
  programHasExited_ : Bool
  backtraceDueToProgramStop_ : Bool
  config_breakOnLoadingLibrary_ : Bool
  config_forceBPSet_ : Bool
  config_displayStaticMembers_ : Bool
  config_asmDemangle_ : Bool
  config_dbgTerminal_ : Bool
  config_runAppInAppDirectory_ : Bool
  config_gdbPath_ : String
  config_programArgs_ : String
  log_ : List Event
  undefinedRead_ : Bool
deriving DecidableEq, Repr

/-- Append one effect to the log. -/
def GDBController.emit (c : GDBController) (e : Event) : GDBController :=
  { c with log_ := c.log_ ++ [e] }

/-- The statement `setStateOn(mask)`. -/
def GDBController.setOn (c : GDBController) (mask : DBGStateFlags) : GDBController :=
  { c with state_ := setStateOn c.state_ mask }

/-- The statement `setStateOff(mask)`. -/
def GDBController.setOff (c : GDBController) (mask : DBGStateFlags) : GDBController :=
  { c with state_ := setStateOff c.state_ mask }

/-- The assignment `state_ = s`. -/
def GDBController.setState (c : GDBController) (s : DBGStateFlags) : GDBController :=
  { c with state_ := s }

/-- The assignments `viewedThread_ = thread; currentFrame_ = frame`. -/
def GDBController.setViewed (c : GDBController) (thread frame : Int) : GDBController :=
  { c with viewedThread_ := thread, currentFrame_ := frame }

/-- The assignment `viewedThread_ = thread`. -/
def GDBController.setViewedThread (c : GDBController) (thread : Int) : GDBController :=
  { c with viewedThread_ := thread }

/-- The assignment `backtraceDueToProgramStop_ = v`. -/
def GDBController.setBacktraceDue (c : GDBController) (v : Bool) : GDBController :=
  { c with backtraceDueToProgramStop_ := v }

/-- The assignment `programHasExited_ = v`. -/
def GDBController.setProgramHasExited (c : GDBController) (v : Bool) : GDBController :=
  { c with programHasExited_ := v }

/-- The assignment `badCore_ = text`. -/
def GDBController.setBadCore (c : GDBController) (text : List Nat) : GDBController :=
  { c with badCore_ := text }

/-- The statements `delete currentCmd_; currentCmd_ = 0`. -/
def GDBController.clearCurrentCmd (c : GDBController) : GDBController :=
  { c with currentCmd_ := none }

/-- The creation or deletion of `dbgProcess_` and of `tty_`. -/
def GDBController.setProcess (c : GDBController) (dbgProcess tty : Bool) : GDBController :=
  { c with dbgProcess_ := dbgProcess, tty_ := tty }

/-- New values of `gdbSizeofBuf_`, `gdbOutputLen_` and of the array `gdbOutput_`. -/
def GDBController.setBuffer (c : GDBController) (size len : Nat) (mem : List Nat) :
    GDBController :=
  { c with gdbSizeofBuf_ := size, gdbOutputLen_ := len, gdbOutput_ := mem }

/-- The bytes of a string literal. -/
def str (s : String) : List Nat := s.toList.map Char.toNat

/-! ## The command queue -/

/-- Lines 288-306 of `executeCmd`, from the write to the transport on, with
`cmd` the command held by `currentCmd_`. -/
def executeCmdWrite (c : GDBController) (cmd : DbgCommand) : GDBController :=
  let c1 := { c with currentCmd_ := some cmd.markSent }
  let c2 := c1.emit (Event.writeStdin cmd.command_)
  let c3 := { c2 with state_ := setStateOn c2.state_ s_waitForWrite }
  let busy := setStateOn c3.state_ s_appBusy
  let c4 :=
    if cmd.isARunCmd then
      { c3 with state_ := setStateOff busy (s_appNotStarted.bor (s_programExited.bor s_silent)) }
    else c3
  if !stateIsOn c4.state_ s_silent then c4.emit (Event.dbgStatus [] c4.state_) else c4

/-- Lines 273-307 of `executeCmd`, with `cmd` the command held by `currentCmd_`. -/
def executeCmdCurrent (c : GDBController) (cmd : DbgCommand) : GDBController :=
  if !cmd.moreToSend then
    if cmd.expectReply then c
    else
      match c.cmdList_ with
      | [] => { c with currentCmd_ := none }
      | next :: rest =>
        executeCmdWrite { c with currentCmd_ := some next, cmdList_ := rest } next
  else executeCmdWrite c cmd

/-- The member function `executeCmd`. -/
def executeCmd (c : GDBController) : GDBController :=
  if stateIsOn c.state_ (s_dbgNotStarted.bor (s_waitForWrite.bor s_appBusy)) then c
  else
    match c.currentCmd_ with
    | some cmd => executeCmdCurrent c cmd
    | none =>
      match c.cmdList_ with
      | [] => c
      | cmd :: rest =>
        executeCmdCurrent { c with currentCmd_ := some cmd, cmdList_ := rest } cmd

/-- The loop shared by `removeInfoRequests` and `pauseApp`: `i` runs from the
given index down to zero and the command at index `i` is taken out of the list
when `doomed` holds of it. -/
def removeLoop (doomed : DbgCommand → Bool) : Nat → List DbgCommand → List DbgCommand
  | 0, l => l
  | i + 1, l =>
    match l.get? i with
    | some cmd => if doomed cmd then removeLoop doomed i (l.eraseIdx i) else removeLoop doomed i l
    | none => removeLoop doomed i l

/-- The member function `removeInfoRequests`. -/
def removeInfoRequests (c : GDBController) : GDBController :=
  let doomed := fun (cmd : DbgCommand) => cmd.isAnInfoCmd || cmd.isARunCmd
  { c with cmdList_ := removeLoop doomed c.cmdList_.length c.cmdList_ }

/-- The member function `queueCmd` up to, and without, its call of `executeCmd`. -/
def queueCmdInsert (c : GDBController) (cmd : DbgCommand) (executeNext : Bool) :
    GDBController :=
  let c1 := if cmd.isARunCmd then removeInfoRequests c else c
  if executeNext then { c1 with cmdList_ := cmd :: c1.cmdList_ }
  else { c1 with cmdList_ := c1.cmdList_ ++ [cmd] }

/-- The member function `queueCmd`. -/
def queueCmd (c : GDBController) (cmd : DbgCommand) (executeNext : Bool) : GDBController :=
  executeCmd (queueCmdInsert c cmd executeNext)

/-- The member function `destroyCmds`. -/
def destroyCmds (c : GDBController) : GDBController :=
  { c with currentCmd_ := none, cmdList_ := [] }

/-- The member function `pauseApp`. -/
def pauseApp (c : GDBController) : GDBController :=
  let doomed := fun (cmd : DbgCommand) =>
    (stateIsOn c.state_ s_silent && cmd.isAnInfoCmd) || cmd.isARunCmd
  let c1 := { c with cmdList_ := removeLoop doomed c.cmdList_.length c.cmdList_ }
  if c1.dbgProcess_ && stateIsOn c1.state_ s_appBusy then c1.emit (Event.kill Signal.SIGINT)
  else c1

/-! ## Reading the output buffer -/

/-- What `gdbcontroller.cpp` uses and the sources at hand do not define. -/
structure Env where
  /-- Modelled from the spec: the routing tags of `gdbcommand.h` (one byte each). -/
  ARGS : Nat
  BACKTRACE : Nat
  BPLIST : Nat
  DATAREQUEST : Nat
  DETACH : Nat
  DISASSEMBLE : Nat
  FRAME : Nat
  INFOTHREAD : Nat
  LIBRARIES : Nat
  LOCALS : Nat
  MEMDUMP : Nat
  REGISTERS : Nat
  SET_BREAKPT : Nat
  SWITCHTHREAD : Nat
  USERCMD : Nat
  WHATIS : Nat
  /-- Modelled from the spec: the tag of a command that is built without one,
  the default value of the fourth parameter of the constructor `GDBCommand`
  (declared in `gdbcommand.h`). -/
  defaultPrompt : Nat
  /-- The bytes of `i18n("No such file or directory.").local8Bit()`. -/
  noSuchFileLocal : List Nat
  /-- The answer of `frameStack_->viewedThread()` after the frame stack has read
  a thread list. -/
  viewedThread : List Nat → Int
  /-- The predicate `QChar::isSpace` on a UTF-16 code unit, the class `\s` of
  `QRegExp`; it follows the Unicode tables of Qt. -/
  qIsSpace : Nat → Bool
  /-- The predicate `QChar::isDigit` on a UTF-16 code unit, the class `\d` of
  `QRegExp`; it follows the Unicode tables of Qt. -/
  qIsDigit : Nat → Bool
  /-- The value of `QString::toInt` on a string of characters of the class `\d`. -/
  qToInt : List Nat → Int
  /-- The byte that `QString::latin1()` yields for a `QChar` above U+00FF (below
  256; Qt 3 stores a question mark, its manual leaves the byte open). -/
  latin1Other : Nat → Nat

/-- Modelled from the spec: the start-of-block marker, ASCII 0x1A (spec section
6; `\032` in the header comment of the source file). -/
def BLOCK_START : Nat := 26

/-- Modelled from the spec: the tag of a program location, which gdb announces
by `\032\032` (comment above `parseProgramLocation`). -/
def SRC_POSITION : Nat := 26

/-- Modelled from the spec: the idle tag; the prompt is reset to `\032i` (header
comment of the source file). -/
def IDLE : Nat := 105

/-- The tags that `parseCmdBlock` has a `case` for, besides `SRC_POSITION`. -/
def Env.handled (T : Env) : List Nat :=
  [T.FRAME, T.SET_BREAKPT, T.ARGS, T.LOCALS, T.DATAREQUEST, T.WHATIS, T.BPLIST,
   T.BACKTRACE, T.INFOTHREAD, T.DISASSEMBLE, T.MEMDUMP, T.REGISTERS, T.LIBRARIES, T.DETACH]

/-- The byte stored at index `i`, `0` when nothing has been written there. -/
def byteAt (mem : List Nat) (i : Nat) : Nat := mem.getD i 0

/-- The C string that starts at index `i`: the bytes up to the first NUL. -/
def cstr (mem : List Nat) (i : Nat) : List Nat := (mem.drop i).takeWhile (fun b => b != 0)

/-- There is a NUL at or after index `i` in the written part of the array. -/
def terminated (mem : List Nat) (i : Nat) : Bool := (mem.drop i).any (fun b => b == 0)

/-- The array after `bs` has been stored from index `i` on. -/
def writeAt (mem : List Nat) (i : Nat) (bs : List Nat) : List Nat :=
  mem.take i ++ List.replicate (i - mem.length) 0 ++ bs ++ mem.drop (i + bs.length)

/-- Record that a read was outside the written part of the array when `ok` is false. -/
def GDBController.touch (c : GDBController) (ok : Bool) : GDBController :=
  if ok then c else { c with undefinedRead_ := true }

/-- The statement `*p = b` on the output buffer. -/
def GDBController.poke (c : GDBController) (p b : Nat) : GDBController :=
  c.setBuffer c.gdbSizeofBuf_ c.gdbOutputLen_ (c.gdbOutput_.set p b)

/-- The offset of the first occurrence of `needle` in `hay` (`strstr` on two
NUL-free strings). -/
def strstr (hay needle : List Nat) : Option Nat :=
  match hay with
  | [] => if needle.isEmpty then some 0 else none
  | b :: rest =>
    if needle.isPrefixOf (b :: rest) then some 0
    else (strstr rest needle).map (fun k => k + 1)

/-- The offset of the first occurrence of the byte `ch` in `hay` (`strchr`). -/
def strchr (hay : List Nat) (ch : Nat) : Option Nat :=
  match hay with
  | [] => none
  | b :: rest => if b = ch then some 0 else (strchr rest ch).map (fun k => k + 1)

/-- The test `strncmp(s, lit, n) == 0` for NUL-free `s` and `lit`. -/
def strncmpEq (s : List Nat) (lit : String) (n : Nat) : Bool :=
  (s ++ [0]).take n == (str lit ++ [0]).take n

/-- The test `strstr(s, lit) != 0`. -/
def hasSub (s : List Nat) (lit : String) : Bool := (strstr s (str lit)).isSome

def isDigit (b : Nat) : Bool := 48 ≤ b && b ≤ 57
def isLower (b : Nat) : Bool := 97 ≤ b && b ≤ 122

/-- The character class `[abcdef0-9]`. -/
def isHex (b : Nat) : Bool := isDigit b || (97 ≤ b && b ≤ 102)

/-- The C predicate `isspace`. -/
def isSpace (b : Nat) : Bool := b == 32 || (9 ≤ b && b ≤ 13)

/-- The value of a string of decimal digits. -/
def digitsValue (ds : List Nat) : Nat := ds.foldl (fun acc d => 10 * acc + (d - 48)) 0

/-- The conversion of a `long` to an `int`: the low 32 bits, read in two's
complement. -/
def truncInt (v : Int) : Int :=
  let m := v % 4294967296
  if m < 2147483648 then m else m - 4294967296

/-- The C function `atoi` on the bytes that follow the pointer: white space,
an optional sign, then digits.  The value is that of `(int) strtol(s, 0, 10)`
with a 64-bit `long`, which is how the C library computes it: `strtol` stops at
the bounds of `long` and the conversion to `int` keeps the low 32 bits.  (The C
standard leaves the result open when the number does not fit an `int`;
`atoiDefined` tells whether it does.) -/
def atoi (s : List Nat) : Int :=
  let t := s.dropWhile isSpace
  match t with
  | 45 :: r =>
    truncInt (max (- (digitsValue (r.takeWhile isDigit) : Int)) (-9223372036854775808))
  | 43 :: r => truncInt (min (digitsValue (r.takeWhile isDigit) : Int) 9223372036854775807)
  | _ => truncInt (min (digitsValue (t.takeWhile isDigit) : Int) 9223372036854775807)

/-- The bytes `atoi` looks at stay inside the written part of the array and the
value fits an `int`. -/
def atoiDefined (s : List Nat) : Bool :=
  let t := s.dropWhile isSpace
  let r := match t with
    | 45 :: r => r
    | 43 :: r => r
    | _ => t
  (r.dropWhile isDigit != []) && decide (digitsValue (r.takeWhile isDigit) < 2147483648)

/-- Split a string at every occurrence of the byte `sep`. -/
def splitOnByte (sep : Nat) : List Nat → List (List Nat)
  | [] => [[]]
  | b :: bs =>
    if b = sep then [] :: splitOnByte sep bs
    else
      match splitOnByte sep bs with
      | hd :: tl => (b :: hd) :: tl
      | [] => [[b]]

/-- The bytes of `QString::toInt` applied to a string of digits: `0` when the
value does not fit an `int`. -/
def toInt (ds : List Nat) : Int :=
  if digitsValue ds < 2147483648 then (digitsValue ds : Int) else 0

/-- The search of `regExp1`, `(.*):(\d+):\d+:[a-z]+:(0x[abcdef0-9]+)$`, in a line:
the three captures when the line is `file:line:col:tag:0xaddress`.  The last
four colon-separated fields are fixed by the pattern, the first capture is what
stands before them. -/
def regExp1 (s : List Nat) : Option (List Nat × List Nat × List Nat) :=
  match (splitOnByte 58 s).reverse with
  | addr :: tag :: col :: line :: f :: fs =>
    if addr.take 2 == [48, 120] && addr.drop 2 != [] && (addr.drop 2).all isHex
        && tag != [] && tag.all isLower && col != [] && col.all isDigit
        && line != [] && line.all isDigit then
      some (List.intercalate [58] (f :: fs).reverse, line, addr)
    else none
  | _ => none

/-- The search of `regExp3`, `^(0x[abcdef0-9]+)`, in a line: the capture. -/
def regExp3 (s : List Nat) : Option (List Nat) :=
  if s.take 2 == [48, 120] && (s.drop 2).takeWhile isHex != [] then
    some ([48, 120] ++ (s.drop 2).takeWhile isHex)
  else none

/-- The text of an `int` as `sprintf("%d")` prints it. -/
def intText (n : Int) : String := toString n

/-! ## Program stops -/

/-- The member function `actOnProgramPause`. -/
def actOnProgramPause (T : Env) (c : GDBController) (msg : List Nat) : GDBController :=
  if stateIsOn c.state_ s_appBusy then
    let c1 := c.setOff s_appBusy
    if stateIsOn c1.state_ s_silent then c1
    else
      let c2 := c1.emit (Event.dbgStatus msg c1.state_)
      let c3 := c2.setViewed (-1) 0
      let c4 := c3.emit (Event.widget "setActiveFlag" [])
      let c5 := c4.setBacktraceDue true
      let c6 :=
        if stateIsOn c5.state_ s_viewThreads then
          queueCmd c5 (GDBCommand "info thread" NOTRUNCMD INFOCMD T.INFOTHREAD) true
        else c5
      let c7 := queueCmd c6 (GDBCommand "backtrace" NOTRUNCMD INFOCMD T.BACKTRACE) true
      let c8 :=
        if stateIsOn c7.state_ s_viewLocals then
          queueCmd (queueCmd c7 (GDBCommand "info args" NOTRUNCMD INFOCMD T.ARGS) false)
            (GDBCommand "info local" NOTRUNCMD INFOCMD T.LOCALS) false
        else c7
      let c9 := (c8.emit (Event.widget "requestWatchVars" [])).emit (Event.widget "setActive" [])
      c9.emit Event.acceptPendingBPs
  else c

/-- The member function `programNoApp`. -/
def programNoApp (c : GDBController) (msg : List Nat) (msgBox : Bool) : GDBController :=
  let kept := c.state_.band (s_viewLocals.bor s_shuttingDown)
  let c1 := c.setState (s_appNotStarted.bor (s_programExited.bor kept))
  let c2 := destroyCmds c1
  let c3 := c2.emit (Event.dbgStatus msg c2.state_)
  let c4 := c3.setViewed (-1) 0
  let c5 := (c4.emit (Event.widget "setActiveFlag" [])).emit (Event.widget "trim" [])
  let c6 := c5.emit (Event.widget "clear" [])
  if msgBox then c6.emit (Event.messageBox (str "gdb message:\n" ++ msg)) else c6

/-- The member function `parseProgramLocation`, on the C string it is given. -/
def parseProgramLocation (T : Env) (c : GDBController) (buf : List Nat) : GDBController :=
  if stateIsOn c.state_ s_silent then c.setOff s_appBusy
  else
    match regExp1 buf with
    | some (file, line, addr) =>
      (actOnProgramPause T c []).emit (Event.showStepInSource file (toInt line) addr)
    | none =>
      let c1 :=
        if stateIsOn c.state_ s_appBusy then actOnProgramPause T c (str "No source: " ++ buf)
        else c.emit (Event.dbgStatus (str "No source: " ++ buf) c.state_)
      match regExp3 buf with
      | some addr => c1.emit (Event.showStepInSource [] (-1) addr)
      | none => c1.emit (Event.showStepInSource [] (-1) [])

/-! ## The line classifier -/

/-- The member function `parseLine`; `buf` is the index of the line in the
output buffer. -/
def parseLine (T : Env) (c0 : GDBController) (buf : Nat) : GDBController :=
  let s := cstr c0.gdbOutput_ buf
  let c := c0.emit (Event.line s)
  if s = [] then c
  else if strncmpEq s "Prog" 4 then
    if strncmpEq s "Program exited" 14 then
      (programNoApp c s false).setProgramHasExited true
    else if strncmpEq s "Program terminated" 18 then
      let c1 :=
        if stateIsOn c.state_ s_core then actOnProgramPause T (destroyCmds c) s
        else programNoApp c s false
      c1.setProgramHasExited true
    else if strncmpEq s "Program received signal" 23 && hasSub (s.drop 23) "SIGINT"
        && stateIsOn c.state_ s_silent then c
    else if strncmpEq s "Program received signal" 23
        && (hasSub (s.drop 23) "SIGSEGV" || hasSub (s.drop 23) "SIGFPE") then
      (actOnProgramPause T (destroyCmds c) s).setProgramHasExited true
    else actOnProgramPause T c s
  else if strncmpEq s "Cann" 4 then
    if strncmpEq s "Cannot insert breakpoint" 24 then
      if c.programHasExited_ then
        let c1 := c.setOn s_silent
        let c2 := actOnProgramPause T c1 []
        let digits := c2.gdbOutput_.drop (buf + 25)
        let BPNo := atoi digits
        let c3 := c2.touch (atoiDefined digits)
        if BPNo != 0 then
          let c4 := c3.emit (Event.unableToSetBPNow BPNo)
          let c5 := queueCmd c4 (GDBCommand ("delete " ++ intText BPNo) NOTRUNCMD NOTINFOCMD T.defaultPrompt) false
          let c6 := queueCmd c5 (GDBCommand "info breakpoints" NOTRUNCMD NOTINFOCMD T.BPLIST) false
          queueCmd c6 (GDBCommand "continue" RUNCMD NOTINFOCMD 0) false
        else c3
      else c
    else actOnProgramPause T c s
  else if strncmpEq s "[New Thread" 11 then
    c.setOn s_viewThreads
  else if strncmpEq s "[Switching to Thread" 20 then c
  else if strncmpEq s "Current language:" 17 then c
  else if strncmpEq s "Watc" 4 then
    let c1 :=
      if strncmpEq s "Watchpoint" 10
          && hasSub s "deleted because the program has left the block" then
        let digits := c.gdbOutput_.drop (buf + 11)
        let BPNo := atoi digits
        let c2 := c.touch (atoiDefined digits)
        let c3 :=
          if BPNo != 0 then
            queueCmd c2 (GDBCommand ("delete " ++ intText BPNo) NOTRUNCMD NOTINFOCMD T.defaultPrompt) false
          else c2
        actOnProgramPause T c3 s
      else c
    queueCmd c1 (GDBCommand "info breakpoints" NOTRUNCMD NOTINFOCMD T.BPLIST) false
  else if strncmpEq s "Brea" 4 || strncmpEq s "Hard" 4 then
    queueCmd c (GDBCommand "info breakpoints" NOTRUNCMD NOTINFOCMD T.BPLIST) false
  else if strncmpEq s "Temp" 4 then
    if strncmpEq s "Temporarily disabling shared library breakpoints:" 49 then c
    else actOnProgramPause T c s
  else if strncmpEq s "Stop" 4 then
    if strncmpEq s "Stopped due to shared library event" 35 then
      let running :=
        match c.currentCmd_ with
        | some cmd => cmd.rawDbgCommand == "run" || cmd.rawDbgCommand == "continue"
        | none => false
      if running then
        let c1 := (c.setOn s_silent).setOff s_appBusy
        let c2 := c1.emit Event.acceptPendingBPs
        queueCmd c2 (GDBCommand "continue" RUNCMD NOTINFOCMD 0) false
      else actOnProgramPause T c s
    else actOnProgramPause T c s
  else if strncmpEq s "No s" 4 || strncmpEq s "Sing" 4 then c
  else if strncmpEq s "warn" 4 then
    let c1 :=
      if strncmpEq s "warning: core file may not match" 32
          || strncmpEq s "warning: exec file is newer" 27 then
        c.setBadCore s
      else c
    actOnProgramPause T c1 []
  else if strncmpEq s "Core" 4 then
    let c1 := actOnProgramPause T c s
    if c1.badCore_ != [] && strncmpEq s "Core was generated by" 21 then
      c1.emit (Event.messageBox (str "gdb message:\n" ++ c1.badCore_ ++ str "\n" ++ s
        ++ str "\n\nAny symbols gdb resolves are suspect"))
    else c1
  else if isDigit (s.headD 0) then parseProgramLocation T c s
  else if hasSub s "not in executable format:" || hasSub s "No such file or directory."
      || (strstr s T.noSuchFileLocal).isSome || hasSub s "is not a core dump:"
      || strncmpEq s "ptrace: No such process." 24
      || strncmpEq s "ptrace: Operation not permitted." 32 then
    programNoApp c s true
  else if stateIsOn c.state_ s_appBusy then
    if strncmpEq s "No " 3 && hasSub s "not meaningful" then actOnProgramPause T c s
    else actOnProgramPause T c []
  else c

/-! ## Tagged blocks -/

/-- The member function `parseFrameSelected`; `buf` is the index of the payload. -/
def parseFrameSelected (T : Env) (c : GDBController) (buf : Nat) : GDBController :=
  let s := cstr c.gdbOutput_ buf
  match strstr s [BLOCK_START, SRC_POSITION] with
  | some k =>
    let start := buf + k
    let c1 :=
      match strchr (cstr c.gdbOutput_ start) 10 with
      | some j => c.poke (start + j) 0
      | none => c
    parseProgramLocation T c1 (cstr c1.gdbOutput_ (start + 2))
  | none =>
    if !stateIsOn c.state_ s_silent then
      (c.emit (Event.showStepInSource [] (-1) [])).emit
        (Event.dbgStatus (str "No source: " ++ s) c.state_)
    else c

/-- The member function `parseBreakpointSet`. -/
def parseBreakpointSet (c : GDBController) (buf : List Nat) : GDBController :=
  match c.currentCmd_ with
  | some cmd =>
    match cmd.kind_ with
    | CmdKind.setBreakpoint key =>
      if key != -1 then c.emit (Event.rawGDBBreakpointSet buf key) else c
    | _ => c
  | none => c

/-- The member functions `parseRequestedData` (`method` is `updateValue`) and
`parseWhatis` (`method` is `updateType`). -/
def parseItemReply (c : GDBController) (method : String) (buf : List Nat) : GDBController :=
  match c.currentCmd_ with
  | some cmd =>
    match cmd.kind_ with
    | CmdKind.item _ => c.emit (Event.widget method buf)
    | _ => c
  | none => c

/-- The member function `parseLocals`. -/
def parseLocals (T : Env) (c : GDBController) (type : Nat) (buf : List Nat) : GDBController :=
  if type = T.ARGS then c.emit (Event.widget "setParams" buf)
  else (c.emit (Event.widget "setLocals" buf)).emit (Event.widget "trim" [])

/-- The member function `parseBacktraceList`. -/
def parseBacktraceList (c : GDBController) (buf : List Nat) : GDBController :=
  let c1 := c.emit (Event.widget "parseGDBBacktraceList" buf)
  if c1.backtraceDueToProgramStop_ then
    (c1.emit (Event.widget "trimExcessFrames" [])).setBacktraceDue false
  else c1

/-- The member function `parseThreadList`. -/
def parseThreadList (T : Env) (c : GDBController) (buf : List Nat) : GDBController :=
  let c1 := c.emit (Event.widget "parseGDBThreadList" buf)
  let c2 := c1.setViewedThread (T.viewedThread buf)
  c2.emit (Event.widget "setCurrentThread" [])

/-- The second `switch` of `parseCmdBlock`: the handler of the tag `cmdType`,
called on the payload that starts at index `buf`. -/
def dispatchBlock (T : Env) (c : GDBController) (cmdType buf : Nat) : GDBController :=
  let s := cstr c.gdbOutput_ buf
  let h := c.emit (Event.handler cmdType s)
  if cmdType = T.FRAME then parseFrameSelected T h buf
  else if cmdType = T.SET_BREAKPT then parseBreakpointSet h s
  else if cmdType = SRC_POSITION then parseProgramLocation T h s
  else if cmdType = T.ARGS ∨ cmdType = T.LOCALS then parseLocals T h cmdType s
  else if cmdType = T.DATAREQUEST then parseItemReply h "updateValue" s
  else if cmdType = T.WHATIS then parseItemReply h "updateType" s
  else if cmdType = T.BPLIST then h.emit (Event.rawGDBBreakpointList s)
  else if cmdType = T.BACKTRACE then parseBacktraceList h s
  else if cmdType = T.INFOTHREAD then parseThreadList T h s
  else if cmdType = T.DISASSEMBLE then h.emit (Event.rawGDBDisassemble s)
  else if cmdType = T.MEMDUMP then h.emit (Event.rawGDBMemoryDump s)
  else if cmdType = T.REGISTERS then h.emit (Event.rawGDBRegisters s)
  else if cmdType = T.LIBRARIES then h.emit (Event.rawGDBLibraries s)
  else if cmdType = T.DETACH then h.setOff s_attached
  else c

/-- Lines 958-1019 of `parseCmdBlock`, for a block whose end has been found:
the handler, then the removal of the current command when its tag matches. -/
def finishBlock (T : Env) (c : GDBController) (buf : Nat) : GDBController :=
  let cmdType := byteAt c.gdbOutput_ (buf + 1)
  let c1 := dispatchBlock T c cmdType (buf + 2)
  match c1.currentCmd_ with
  | some cmd => if cmd.typeMatch cmdType then c1.clearCurrentCmd else c1
  | none => c1

/-- The member function `parseCmdBlock`; `buf` is the index of the start marker
and the result is the index `end`, if any. -/
def parseCmdBlock (T : Env) (c0 : GDBController) (buf : Nat) : Option Nat × GDBController :=
  let tag := byteAt c0.gdbOutput_ (buf + 1)
  let c := c0.touch (buf + 1 < c0.gdbOutput_.length)
  if tag = IDLE then (some (buf + 1), c)
  else if tag = SRC_POSITION then
    let c1 := c.touch (terminated c.gdbOutput_ buf)
    match strchr (cstr c.gdbOutput_ buf) 10 with
    | some k => (some (buf + k), finishBlock T (c1.poke (buf + k) 0) buf)
    | none => (none, c1)
  else
    let lookup := if tag = 0 then [BLOCK_START] else [BLOCK_START, tag]
    let c1 := c.touch (terminated c.gdbOutput_ (buf + 2))
    match strstr (cstr c.gdbOutput_ (buf + 2)) lookup with
    | some k => (some (buf + 2 + k + 1), finishBlock T (c1.poke (buf + 2 + k) 0) buf)
    | none => (none, c1)

/-! ## Untagged text -/

/-- The loop of `parseOther`; `buf` is the start of the text and `e` the
position of the scan (`end` in the source). -/
def parseOtherLoop (T : Env) :
    Nat → GDBController → Nat → Nat → Option Nat × GDBController
  | 0, c, _, _ => (none, c)
  | fuel + 1, c, buf, e =>
    let mem := c.gdbOutput_
    let ch := byteAt mem e
    if ch = 0 then (none, c.touch (e < mem.length))
    else if ch = 40 ∧ (mem.drop e).take 31 = str "(no debugging symbols found)..." then
      (some (e + 30), c)
    else
      let c1 :=
        if ch = 40 then
          c.touch (!(decide ((mem.drop e).length < 31) &&
            (mem.drop e).isPrefixOf (str "(no debugging symbols found)...")))
        else c
      if ch = 10 then
        if decide (e - buf > 2) && (byteAt mem (e - 1) == 32 && byteAt mem (e - 2) == 44) then
          parseOtherLoop T fuel (c1.poke e 32) buf (e + 1)
        else
          let c2 := c1.touch (decide (0 < e))
          if 0 < e ∧ byteAt mem (e - 1) = 58 then
            parseOtherLoop T fuel (c2.poke e 32) buf (e + 1)
          else (some e, parseLine T (c2.poke e 0) buf)
      else if ch = BLOCK_START then (some (e - 1), c1)
      else parseOtherLoop T fuel c1 buf (e + 1)

/-- The member function `parseOther`. -/
def parseOther (T : Env) (c : GDBController) (buf : Nat) : Option Nat × GDBController :=
  parseOtherLoop T (c.gdbOutput_.length + 1 - buf) c buf buf

/-- The loop of `parse`; the result is the final value of `unparsed`. -/
def parseLoop (T : Env) : Nat → GDBController → Nat → Nat × GDBController
  | 0, c, unparsed => (unparsed, c)
  | fuel + 1, c, unparsed =>
    let ch := byteAt c.gdbOutput_ unparsed
    let c1 := c.touch (unparsed < c.gdbOutput_.length)
    if ch = 0 then (unparsed, c1)
    else
      let r := if ch = BLOCK_START then parseCmdBlock T c1 unparsed else parseOther T c1 unparsed
      match r.1 with
      | none => (unparsed, r.2)
      | some parsed => parseLoop T fuel r.2 (parsed + 1)

/-- The member function `parse`. -/
def parse (T : Env) (c : GDBController) (buf : Nat) : Option Nat × GDBController :=
  let r := parseLoop T (c.gdbOutput_.length + 1 - buf) c buf
  (if r.1 = buf then none else some r.1, r.2)

/-- Lines 1792-1807 of `slotDbgStdout`: the array is replaced by a larger one
when the bytes `buf[0 .. buflen)` and a NUL do not fit, then the bytes are
copied behind the retained ones and the NUL is stored. -/
def appendOutput (c : GDBController) (buf : List Nat) : GDBController :=
  let buflen := buf.length
  let c1 :=
    if c.gdbOutputLen_ + buflen + 1 > c.gdbSizeofBuf_ then
      let kept := if c.gdbOutputLen_ != 0 then c.gdbOutput_.take (c.gdbOutputLen_ + 1) else []
      let grown := c.setBuffer (c.gdbOutputLen_ + buflen + 1) c.gdbOutputLen_ kept
      grown.touch (c.gdbOutputLen_ == 0 || decide (c.gdbOutputLen_ < c.gdbOutput_.length))
    else c
  let c2 := c1.touch (decide (c1.gdbOutputLen_ ≤ c1.gdbOutput_.length))
  c2.setBuffer c2.gdbSizeofBuf_ (c2.gdbOutputLen_ + buflen)
    (writeAt c2.gdbOutput_ c2.gdbOutputLen_ (buf ++ [0]))

/-- Lines 1809-1816 of `slotDbgStdout`: what `parse` has left is moved to the
head of the array; `r` is the result of `parse`. -/
def compactOutput (r : Option Nat × GDBController) : GDBController :=
  match r.1 with
  | some nowAt =>
    let len := (cstr r.2.gdbOutput_ nowAt).length
    let c5 := r.2.touch (terminated r.2.gdbOutput_ nowAt)
    let moved :=
      if len != 0 then writeAt c5.gdbOutput_ 0 ((c5.gdbOutput_.drop nowAt).take len)
      else c5.gdbOutput_
    c5.setBuffer c5.gdbSizeofBuf_ len moved
  | none => r.2

/-- The member function `slotDbgStdout`, given the bytes `buf[0 .. buflen)`. -/
def slotDbgStdout (T : Env) (c : GDBController) (buf : List Nat) : GDBController :=
  executeCmd (compactOutput (parse T (appendOutput c buf) 0))

/-- The member function `slotDbgStderr`. -/
def slotDbgStderr (T : Env) (c : GDBController) (buf : List Nat) : GDBController :=
  slotDbgStdout T c buf

/-! ## Construction and configuration -/

/-- The entries that `configure` reads from the project document. -/
structure Config where
  forceBPSet : Bool
  dbgTerminal : Bool
  runAppInAppDirectory : Bool
  gdbPath : String
  programArgs : String
  displayStaticMembers : Bool
  asmDemangle : Bool
  breakOnLoadingLibrary : Bool
deriving DecidableEq, Repr

/-- The values of the member initialiser list of the constructor. -/
def initialController : GDBController :=
  { currentFrame_ := 0, viewedThread_ := -1, gdbSizeofBuf_ := 2048, gdbOutputLen_ := 0,
    gdbOutput_ := [], cmdList_ := [], currentCmd_ := none, tty_ := false,
    dbgProcess_ := false, badCore_ := [],
    state_ := s_dbgNotStarted.bor (s_appNotStarted.bor s_silent),
    programHasExited_ := false, backtraceDueToProgramStop_ := false,
    config_breakOnLoadingLibrary_ := true, config_forceBPSet_ := true,
    config_displayStaticMembers_ := false, config_asmDemangle_ := true,
    config_dbgTerminal_ := false, config_runAppInAppDirectory_ := true,
    config_gdbPath_ := "", config_programArgs_ := "", log_ := [], undefinedRead_ := false }

/-- The assignments of `configure` to the `config_` members. -/
def GDBController.setConfig (c : GDBController) (cfg : Config) : GDBController :=
  { c with
    config_forceBPSet_ := cfg.forceBPSet, config_dbgTerminal_ := cfg.dbgTerminal,
    config_runAppInAppDirectory_ := cfg.runAppInAppDirectory, config_gdbPath_ := cfg.gdbPath,
    config_programArgs_ := cfg.programArgs,
    config_displayStaticMembers_ := cfg.displayStaticMembers,
    config_asmDemangle_ := cfg.asmDemangle,
    config_breakOnLoadingLibrary_ := cfg.breakOnLoadingLibrary }

/-- The text `on` or `off` of a boolean setting. -/
def onOff (b : Bool) : String := if b then "on" else "off"

/-- The member function `configure`, given the entries of the project document. -/
def configure (T : Env) (c : GDBController) (cfg : Config) : GDBController :=
  let old_displayStatic := c.config_displayStaticMembers_
  let old_asmDemangle := c.config_asmDemangle_
  let old_breakOnLoadingLibrary := c.config_breakOnLoadingLibrary_
  let c1 := c.setConfig cfg
  if (old_displayStatic != c1.config_displayStaticMembers_
      || old_asmDemangle != c1.config_asmDemangle_
      || old_breakOnLoadingLibrary != c1.config_breakOnLoadingLibrary_) && c1.dbgProcess_ then
    let restart := stateIsOn c1.state_ s_appBusy
    let c2 :=
      if restart then pauseApp (c1.setOn s_silent) else c1
    let c3 :=
      if old_displayStatic != c2.config_displayStaticMembers_ then
        queueCmd c2 (GDBCommand ("set print static-members " ++ onOff c2.config_displayStaticMembers_)
          NOTRUNCMD NOTINFOCMD T.defaultPrompt) false
      else c2
    let c4 :=
      if old_asmDemangle != c3.config_asmDemangle_ then
        queueCmd c3 (GDBCommand ("set print asm-demangle " ++ onOff c3.config_asmDemangle_)
          NOTRUNCMD NOTINFOCMD T.defaultPrompt) false
      else c3
    let c5 :=
      if old_breakOnLoadingLibrary != c4.config_breakOnLoadingLibrary_ then
        queueCmd c4 (GDBCommand (if c4.config_breakOnLoadingLibrary_ then "set stop-on 1"
          else "set stop-on 0") NOTRUNCMD NOTINFOCMD T.defaultPrompt) false
      else c4
    if restart then queueCmd c5 (GDBCommand "continue" RUNCMD NOTINFOCMD 0) false else c5
  else c1

/-- The constructor: the initialiser list, then `configure()`. -/
def GDBController.construct (T : Env) (cfg : Config) : GDBController :=
  configure T initialController cfg

/-! ## Slots -/

/-- Queue the commands of a list one after the other, each at the tail. -/
def queueAll (c : GDBController) (cmds : List DbgCommand) : GDBController :=
  cmds.foldl (fun acc cmd => queueCmd acc cmd false) c

/-- The member function `slotStart`.  `tty` is the name of the slave terminal
(`tty_->getSlave()`), `appDir` the directory of the application and `envvars`
the environment pairs of the project.  The text of the message box is the
untranslated one. -/
def slotStart (T : Env) (c : GDBController) (tty appDir : String)
    (envvars : List (String × String)) : GDBController :=
  let c0 := (c.setBadCore []).setProcess c.dbgProcess_ true
  if tty.isEmpty then
    (c0.emit (Event.messageBox (str ("GDB cannot use the tty* or pty* devices.\n"
      ++ "Check the settings on /dev/tty* and /dev/pty*\n"
      ++ "As root you may need to \x22chmod ug+rw\x22 tty* and pty* devices "
      ++ "and/or add the user to the tty group using "
      ++ "\x22usermod -G tty username\x22.")))).setProcess
      c.dbgProcess_ false
  else
    let c1 := (c0.setProcess true true).setOff s_dbgNotStarted
    let c2 := c1.emit (Event.dbgStatus [] c1.state_)
    let plain := fun (text : String) => GDBCommand text NOTRUNCMD NOTINFOCMD T.defaultPrompt
    let c3 := queueAll c2
      ([GDBCommand "set edit off" NOTRUNCMD NOTINFOCMD 0, plain "set confirm off",
        plain ("set print static-members " ++ onOff c2.config_displayStaticMembers_),
        plain ("tty " ++ tty)]
       ++ (if !c2.config_programArgs_.isEmpty then [plain ("set args " ++ c2.config_programArgs_)]
           else [])
       ++ [plain "set width 0", plain "set height 0",
           plain (if c2.config_breakOnLoadingLibrary_ then "set stop-on 1" else "set stop-on 0"),
           plain "handle SIG32 pass nostop noprint", plain "handle SIG43 pass nostop noprint",
           plain ("set print asm-demangle " ++ onOff c2.config_asmDemangle_)]
       ++ (if c2.config_runAppInAppDirectory_ then [plain ("cd " ++ appDir)] else [])
       ++ envvars.map (fun kv => plain ("set environment " ++ kv.1 ++ "=" ++ kv.2)))
    c3.emit Event.acceptPendingBPs

/-- The guard of `slotStopDebugger`. -/
def stopGuard (c : GDBController) : Bool := !stateIsOn c.state_ s_shuttingDown && c.dbgProcess_

/-- Lines 1304-1319 of `slotStopDebugger`: up to the first wait loop. -/
def stopBegin (T : Env) (c : GDBController) : GDBController :=
  let c1 := c.setOn (s_shuttingDown.bor s_silent)
  let c2 := pauseApp (destroyCmds c1)
  let c3 := c2.setOn s_waitTimer
  if stateIsOn c3.state_ s_attached then
    queueCmd c3 (GDBCommand "detach" NOTRUNCMD NOTINFOCMD T.DETACH) false
  else c3

/-- Lines 1328-1333 of `slotStopDebugger`: the quit directive, up to the second
wait loop. -/
def stopQuit (c : GDBController) : GDBController :=
  let c1 := c.setOn (s_waitTimer.bor s_appBusy)
  c1.emit (Event.writeStdin "quit\n")

/-- Lines 1341-1351 of `slotStopDebugger`: after the second wait loop. -/
def stopEnd (c : GDBController) : GDBController :=
  let c1 := if !stateIsOn c.state_ s_programExited then c.emit (Event.kill Signal.SIGKILL) else c
  let c2 := (c1.setProcess false false).setState
    (s_dbgNotStarted.bor (s_appNotStarted.bor s_silent))
  c2.emit (Event.dbgStatus (str "Debugger stopped") c2.state_)

/-- The post-load refresh shared by `slotCoreFile` and `slotAttachTo`. -/
def queueRefresh (T : Env) (c : GDBController) : GDBController :=
  let c1 :=
    if stateIsOn c.state_ s_viewThreads then
      queueCmd c (GDBCommand "info thread" NOTRUNCMD INFOCMD T.INFOTHREAD) true
    else c
  let c2 := queueCmd c1 (GDBCommand "backtrace" NOTRUNCMD INFOCMD T.BACKTRACE) false
  if stateIsOn c2.state_ s_viewLocals then
    queueCmd (queueCmd c2 (GDBCommand "info args" NOTRUNCMD INFOCMD T.ARGS) false)
      (GDBCommand "info local" NOTRUNCMD INFOCMD T.LOCALS) false
  else c2

/-- The member function `slotCoreFile`. -/
def slotCoreFile (T : Env) (c : GDBController) (coreFile : String) : GDBController :=
  let c1 := (c.setOff s_silent).setOn s_core
  queueRefresh T (queueCmd c1 (GDBCommand ("core " ++ coreFile) NOTRUNCMD NOTINFOCMD 0) false)

/-- The member function `slotAttachTo`. -/
def slotAttachTo (T : Env) (c : GDBController) (pid : Int) : GDBController :=
  let c1 := (c.setOff (s_appNotStarted.bor (s_programExited.bor s_silent))).setOn s_attached
  queueRefresh T (queueCmd c1 (GDBCommand ("attach " ++ intText pid) NOTRUNCMD NOTINFOCMD 0) false)

/-- The member function `slotRun`. -/
def slotRun (c : GDBController) : GDBController :=
  if stateIsOn c.state_ (s_appBusy.bor (s_dbgNotStarted.bor s_shuttingDown)) then c
  else
    queueCmd c (GDBCommand (if stateIsOn c.state_ s_appNotStarted then "run" else "continue")
      RUNCMD NOTINFOCMD 0) false

/-- The member function `slotRunUntil`. -/
def slotRunUntil (c : GDBController) (fileName : String) (lineNum : Int) : GDBController :=
  if stateIsOn c.state_ (s_appBusy.bor (s_dbgNotStarted.bor s_shuttingDown)) then c
  else if fileName.isEmpty then
    queueCmd c (GDBCommand ("until " ++ intText lineNum) RUNCMD NOTINFOCMD 0) false
  else
    queueCmd c (GDBCommand ("until " ++ fileName ++ ":" ++ intText lineNum) RUNCMD NOTINFOCMD 0)
      false

/-- The body shared by `slotStepInto`, `slotStepIntoIns`, `slotStepOver`,
`slotStepOverIns` and `slotStepOutOff`, which differ in the text only. -/
def slotStep (c : GDBController) (text : String) : GDBController :=
  if stateIsOn c.state_ (s_appBusy.bor (s_appNotStarted.bor s_shuttingDown)) then c
  else queueCmd c (GDBCommand text RUNCMD NOTINFOCMD 0) false

def slotStepInto (c : GDBController) : GDBController := slotStep c "step"
def slotStepIntoIns (c : GDBController) : GDBController := slotStep c "stepi"
def slotStepOver (c : GDBController) : GDBController := slotStep c "next"
def slotStepOverIns (c : GDBController) : GDBController := slotStep c "nexti"
def slotStepOutOff (c : GDBController) : GDBController := slotStep c "finish"

/-- The member function `slotBreakInto`. -/
def slotBreakInto (c : GDBController) : GDBController := pauseApp c

/-- What the controller asks of a `Breakpoint`. -/
structure Breakpoint where
  isPending : Bool
  isActionDie : Bool
  isActionAdd : Bool
  isActionClear : Bool
  isActionModify : Bool
  dbgSetCommand : String
  dbgRemoveCommand : String
  key : Int
  dbgId : Int
  changedCondition : Bool
  conditional : String
  changedIgnoreCount : Bool
  ignoreCount : Int
  changedEnable : Bool
  isEnabled : Bool
deriving DecidableEq, Repr

/-- Modelled from the spec: the constructor `GDBSetBreakpointCommand(text, key)`,
a command that is neither run-type nor info-type and waits for the block
tagged `SET_BREAKPT`. -/
def GDBSetBreakpointCommand (T : Env) (text : String) (key : Int) : DbgCommand :=
  { GDBCommand text NOTRUNCMD NOTINFOCMD T.SET_BREAKPT with kind_ := CmdKind.setBreakpoint key }

/-- Modelled from the spec: the constructor `GDBItemCommand(item, text, isRun, tag)`,
an info-type command that carries the tree item awaiting the value. -/
def GDBItemCommand (item : Nat) (text : String) (isRun : Bool) (tag : Nat) : DbgCommand :=
  { GDBCommand text isRun INFOCMD tag with kind_ := CmdKind.item item }

/-- The member function `setBreakpoint`. -/
def setBreakpoint (T : Env) (c : GDBController) (BPSetCmd : String) (key : Int) :
    GDBController :=
  queueCmd c (GDBSetBreakpointCommand T BPSetCmd key) false

/-- The member function `clearBreakpoint`. -/
def clearBreakpoint (T : Env) (c : GDBController) (BPClearCmd : String) : GDBController :=
  queueCmd (queueCmd c (GDBCommand BPClearCmd NOTRUNCMD NOTINFOCMD T.defaultPrompt) false)
    (GDBCommand "info breakpoints" NOTRUNCMD NOTINFOCMD T.BPLIST) false

/-- The member function `modifyBreakpoint`. -/
def modifyBreakpoint (T : Env) (c : GDBController) (BP : Breakpoint) : GDBController :=
  if BP.dbgId > 0 then
    let c1 :=
      if BP.changedCondition then
        queueCmd c (GDBCommand ("condition " ++ intText BP.dbgId ++ " " ++ BP.conditional)
          NOTRUNCMD NOTINFOCMD T.defaultPrompt) false
      else c
    let c2 :=
      if BP.changedIgnoreCount then
        queueCmd c1 (GDBCommand ("ignore " ++ intText BP.dbgId ++ " " ++ intText BP.ignoreCount)
          NOTRUNCMD NOTINFOCMD T.defaultPrompt) false
      else c1
    let c3 :=
      if BP.changedEnable then
        queueCmd c2 (GDBCommand ((if BP.isEnabled then "enable" else "disable") ++ " "
          ++ intText BP.dbgId) NOTRUNCMD NOTINFOCMD T.defaultPrompt) false
      else c2
    queueCmd c3 (GDBCommand "info breakpoints" NOTRUNCMD NOTINFOCMD T.BPLIST) false
  else c

/-- The member function `slotBPState`. -/
def slotBPState (T : Env) (c : GDBController) (BP : Breakpoint) : GDBController :=
  if stateIsOn c.state_ (s_dbgNotStarted.bor s_shuttingDown) || !BP.isPending
      || BP.isActionDie then c
  else if stateIsOn c.state_ s_appBusy && !c.config_forceBPSet_ then c
  else
    let restart := stateIsOn c.state_ s_appBusy
    let c1 :=
      if restart then pauseApp (c.setOn s_silent) else c
    let c2 :=
      if BP.isActionAdd then setBreakpoint T c1 BP.dbgSetCommand BP.key
      else if BP.isActionClear then clearBreakpoint T c1 BP.dbgRemoveCommand
      else if BP.isActionModify then modifyBreakpoint T c1 BP
      else c1
    if restart then queueCmd c2 (GDBCommand "continue" RUNCMD NOTINFOCMD 0) false else c2

/-- The member function `slotClearAllBreakpoints`. -/
def slotClearAllBreakpoints (T : Env) (c : GDBController) : GDBController :=
  if stateIsOn c.state_ (s_dbgNotStarted.bor s_shuttingDown) then c
  else if stateIsOn c.state_ s_appBusy && !c.config_forceBPSet_ then c
  else
    let restart := stateIsOn c.state_ s_appBusy
    let c1 :=
      if restart then pauseApp (c.setOn s_silent) else c
    let c2 := queueCmd c1 (GDBCommand "delete" NOTRUNCMD NOTINFOCMD T.defaultPrompt) false
    let c3 := queueCmd c2 (GDBCommand "info breakpoints" NOTRUNCMD NOTINFOCMD T.BPLIST) false
    if restart then queueCmd c3 (GDBCommand "continue" RUNCMD NOTINFOCMD 0) false else c3

/-- The body shared by `slotDisassemble`, `slotMemoryDump`, `slotRegisters` and
`slotLibraries`: one info-type command, unless busy, not started or shutting down. -/
def slotInfo (c : GDBController) (text : String) (tag : Nat) : GDBController :=
  if stateIsOn c.state_ (s_appBusy.bor (s_dbgNotStarted.bor s_shuttingDown)) then c
  else queueCmd c (GDBCommand text NOTRUNCMD INFOCMD tag) false

def slotDisassemble (T : Env) (c : GDBController) (start stop : String) : GDBController :=
  slotInfo c ("disassemble " ++ start ++ " " ++ stop) T.DISASSEMBLE
def slotMemoryDump (T : Env) (c : GDBController) (address amount : String) : GDBController :=
  slotInfo c ("x/" ++ amount ++ "b " ++ address) T.MEMDUMP
def slotRegisters (T : Env) (c : GDBController) : GDBController :=
  slotInfo c "info all-registers" T.REGISTERS
def slotLibraries (T : Env) (c : GDBController) : GDBController :=
  slotInfo c "info sharedlibrary" T.LIBRARIES

/-- The member function `slotSelectFrame`; `needLocals` is the answer of
`frame->needLocals()`. -/
def slotSelectFrame (T : Env) (c : GDBController) (frameNo threadNo : Int)
    (needFrames needLocals : Bool) : GDBController :=
  if stateIsOn c.state_ (s_appBusy.bor (s_dbgNotStarted.bor s_shuttingDown)) then c
  else
    let frameCmd := GDBCommand ("frame " ++ intText frameNo) NOTRUNCMD INFOCMD T.FRAME
    let c1 :=
      if threadNo != -1 then
        if c.viewedThread_ != -1 then
          let a :=
            if c.viewedThread_ != threadNo then
              queueCmd c (GDBCommand ("thread " ++ intText threadNo) NOTRUNCMD INFOCMD
                T.SWITCHTHREAD) false
            else c
          let b :=
            if needFrames then
              queueCmd a (GDBCommand "backtrace" NOTRUNCMD INFOCMD T.BACKTRACE) false
            else a
          if needFrames || b.viewedThread_ != threadNo || b.currentFrame_ != frameNo then
            queueCmd b frameCmd false
          else b
        else c
      else if c.currentFrame_ != frameNo then queueCmd c frameCmd false
      else c
    let c2 := c1.setViewed threadNo frameNo
    if stateIsOn c2.state_ s_viewLocals && needLocals then
      queueCmd (queueCmd c2 (GDBCommand "info args" NOTRUNCMD INFOCMD T.ARGS) false)
        (GDBCommand "info local" NOTRUNCMD INFOCMD T.LOCALS) false
    else c2

/-- What the controller asks of a `VarItem`. -/
structure VarItem where
  id : Nat
  fullName : String
  isPointer : Bool
deriving DecidableEq, Repr

/-- The member function `slotVarItemConstructed`. -/
def slotVarItemConstructed (T : Env) (c : GDBController) (item : VarItem) : GDBController :=
  if stateIsOn c.state_ (s_appBusy.bor (s_dbgNotStarted.bor s_shuttingDown)) then c
  else queueCmd c (GDBItemCommand item.id ("whatis " ++ item.fullName) false T.WHATIS) false

/-- The member function `slotExpandItem`; `none` is an item that is not a `VarItem`. -/
def slotExpandItem (T : Env) (c : GDBController) (genericItem : Option VarItem) :
    GDBController :=
  if stateIsOn c.state_ (s_appBusy.bor (s_dbgNotStarted.bor s_shuttingDown)) then c
  else
    match genericItem with
    | some varItem =>
      if varItem.isPointer then
        queueCmd c (GDBItemCommand varItem.id ("print *" ++ varItem.fullName) false T.DATAREQUEST)
          false
      else
        queueCmd c (GDBItemCommand varItem.id ("print " ++ varItem.fullName) false T.DATAREQUEST)
          false
    | none => c

/-- The member function `slotExpandUserItem`. -/
def slotExpandUserItem (T : Env) (c : GDBController) (item : VarItem) (userRequest : String) :
    GDBController :=
  if stateIsOn c.state_ (s_appBusy.bor (s_dbgNotStarted.bor s_shuttingDown)) then c
  else if userRequest.isEmpty then c
  else queueCmd c (GDBItemCommand item.id ("print " ++ userRequest) false T.DATAREQUEST) false

/-- The member function `slotSetLocalViewState`. -/
def slotSetLocalViewState (c : GDBController) (onOff : Bool) : GDBController :=
  if onOff then c.setOn s_viewLocals else c.setOff s_viewLocals

/-- The member function `slotDbgWroteStdin`. -/
def slotDbgWroteStdin (c : GDBController) : GDBController :=
  executeCmd (c.setOff s_waitForWrite)

/-- The member function `slotDbgProcessExited`. -/
def slotDbgProcessExited (c : GDBController) : GDBController :=
  let c1 := destroyCmds c
  let kept := c1.state_.band (s_viewLocals.bor s_shuttingDown)
  let c2 := c1.setState (s_appNotStarted.bor (s_programExited.bor kept))
  c2.emit (Event.dbgStatus (str "Process exited") c2.state_)

/-- The member function `slotAbortTimedEvent`. -/
def slotAbortTimedEvent (c : GDBController) : GDBController :=
  c.setOff s_waitTimer

/-- The `QChar`s of the `QString` that holds a text: its UTF-16 code units. -/
def qchars (cmd : String) : List Nat :=
  cmd.toList.flatMap (fun ch =>
    if ch.toNat < 65536 then [ch.toNat]
    else [55296 + (ch.toNat - 65536) / 1024, 56320 + (ch.toNat - 65536) % 1024])

/-- The 8-bit text `cmd.latin1()`: a `QChar` up to U+00FF gives the byte of the
same value, each other one the byte `latin1Other`. -/
def latin1 (T : Env) (cmd : String) : String :=
  String.mk ((qchars cmd).map
    (fun u => Char.ofNat (if u ≤ 255 then u else T.latin1Other u % 256)))

/-- The number captured by `^fr[ame]*\s+(\d+)` (with `head` the characters `fr`
and `cls` the class `[ame]`) or by `^th[read]*\s+(\d+)`, when the search in the
`QChar`s `cmd` succeeds.  The classes `\s` and `\d` are `QChar::isSpace` and
`QChar::isDigit` and the capture is converted by `QString::toInt`; a character
belongs to one Unicode category, so the longest runs are the match. -/
def numberedCmd (T : Env) (head : List Nat) (cls : Nat → Bool) (cmd : List Nat) :
    Option Int :=
  if head.isPrefixOf cmd then
    let r := (cmd.drop head.length).dropWhile cls
    let d := r.dropWhile T.qIsSpace
    if r.takeWhile T.qIsSpace != [] && d.takeWhile T.qIsDigit != [] then
      some (T.qToInt (d.takeWhile T.qIsDigit))
    else none
  else none

/-- The test `cmd.startsWith(lit)` for an ASCII literal; on such a literal the
comparison of characters and the comparison of `QChar`s agree. -/
def startsWith (cmd : String) (lit : String) : Bool := (str lit).isPrefixOf (str cmd)

/-- The member function `slotUserGDBCmd`.  The second component tells that the
function ends by calling `slotStopDebugger()`, which is then run on the first;
`needLocals` is the answer of `frame->needLocals()` in `slotSelectFrame`. -/
def slotUserGDBCmd (T : Env) (c : GDBController) (cmd : String) (needLocals : Bool) :
    GDBController × Bool :=
  if startsWith cmd "step" || startsWith cmd "c" then
    (queueCmd c (GDBCommand (latin1 T cmd) RUNCMD NOTINFOCMD 0) false, false)
  else if startsWith cmd "info lo" then
    (queueCmd c (GDBCommand "info local" NOTRUNCMD INFOCMD T.LOCALS) false, false)
  else if startsWith cmd "info ar" then
    (queueCmd c (GDBCommand "info args" NOTRUNCMD INFOCMD T.ARGS) false, false)
  else if startsWith cmd "info th" then
    (queueCmd c (GDBCommand "info thread" NOTRUNCMD INFOCMD T.INFOTHREAD) true, false)
  else if startsWith cmd "ba" || startsWith cmd "bt" then
    (queueCmd c (GDBCommand "backtrace" NOTRUNCMD INFOCMD T.BACKTRACE) true, false)
  else
    match numberedCmd T (str "fr") (fun b => b == 97 || b == 109 || b == 101) (qchars cmd) with
    | some frameNo => (slotSelectFrame T c frameNo c.viewedThread_ true needLocals, false)
    | none =>
      match numberedCmd T (str "th")
          (fun b => b == 114 || b == 101 || b == 97 || b == 100) (qchars cmd) with
      | some threadNo =>
        let frameNo := if threadNo != c.viewedThread_ then 0 else c.currentFrame_
        (slotSelectFrame T c frameNo threadNo true needLocals, false)
      | none =>
        if startsWith cmd "qu" then (c, true)
        else (queueCmd c (GDBCommand (latin1 T cmd) NOTRUNCMD INFOCMD T.USERCMD) false, false)

/-! ## Requests and events -/

/-- A call of a slot by the environment (the user interface, the breakpoint
and variable views, the debugger process), with its arguments.  The slot
`slotStopDebugger`, which waits in two loops, is treated apart. -/
inductive Op where
  | configure (cfg : Config)
  | slotStart (tty appDir : String) (envvars : List (String × String))
  | slotCoreFile (coreFile : String)
  | slotAttachTo (pid : Int)
  | slotRun
  | slotRunUntil (fileName : String) (lineNum : Int)
  | slotStepInto
  | slotStepIntoIns
  | slotStepOver
  | slotStepOverIns
  | slotStepOutOff
  | slotBreakInto
  | slotBPState (BP : Breakpoint)
  | slotClearAllBreakpoints
  | slotDisassemble (start stop : String)
  | slotMemoryDump (address amount : String)
  | slotRegisters
  | slotLibraries
  | slotSelectFrame (frameNo threadNo : Int) (needFrames needLocals : Bool)
  | slotVarItemConstructed (item : VarItem)
  | slotExpandItem (genericItem : Option VarItem)
  | slotExpandUserItem (item : VarItem) (userRequest : String)
  | slotSetLocalViewState (onOff : Bool)
  | slotDbgStdout (buf : List Nat)
  | slotDbgStderr (buf : List Nat)
  | slotDbgWroteStdin
  | slotDbgProcessExited
  | slotAbortTimedEvent
  | slotUserGDBCmd (cmd : String) (needLocals : Bool)

/-- The effect of a call on the controller; for `slotUserGDBCmd` this is the
part before the call of `slotStopDebugger`, if any. -/
def applyOp (T : Env) (c : GDBController) : Op → GDBController
  | Op.configure cfg => configure T c cfg
  | Op.slotStart tty appDir envvars => slotStart T c tty appDir envvars
  | Op.slotCoreFile coreFile => slotCoreFile T c coreFile
  | Op.slotAttachTo pid => slotAttachTo T c pid
  | Op.slotRun => slotRun c
  | Op.slotRunUntil fileName lineNum => slotRunUntil c fileName lineNum
  | Op.slotStepInto => slotStepInto c
  | Op.slotStepIntoIns => slotStepIntoIns c
  | Op.slotStepOver => slotStepOver c
  | Op.slotStepOverIns => slotStepOverIns c
  | Op.slotStepOutOff => slotStepOutOff c
  | Op.slotBreakInto => slotBreakInto c
  | Op.slotBPState BP => slotBPState T c BP
  | Op.slotClearAllBreakpoints => slotClearAllBreakpoints T c
  | Op.slotDisassemble start stop => slotDisassemble T c start stop
  | Op.slotMemoryDump address amount => slotMemoryDump T c address amount
  | Op.slotRegisters => slotRegisters T c
  | Op.slotLibraries => slotLibraries T c
  | Op.slotSelectFrame frameNo threadNo needFrames needLocals =>
    slotSelectFrame T c frameNo threadNo needFrames needLocals
  | Op.slotVarItemConstructed item => slotVarItemConstructed T c item
  | Op.slotExpandItem genericItem => slotExpandItem T c genericItem
  | Op.slotExpandUserItem item userRequest => slotExpandUserItem T c item userRequest
  | Op.slotSetLocalViewState onOff => slotSetLocalViewState c onOff
  | Op.slotDbgStdout buf => slotDbgStdout T c buf
  | Op.slotDbgStderr buf => slotDbgStderr T c buf
  | Op.slotDbgWroteStdin => slotDbgWroteStdin c
  | Op.slotDbgProcessExited => slotDbgProcessExited c
  | Op.slotAbortTimedEvent => slotAbortTimedEvent c
  | Op.slotUserGDBCmd cmd needLocals => (slotUserGDBCmd T c cmd needLocals).1

/-- Where the controller is with respect to `slotStopDebugger`: outside it, in
its first wait loop (detach) or in its second wait loop (quit).  Both loops
pump the event loop, so slots are called while the controller is in them. -/
inductive Phase where
  | idle
  | detachWait
  | quitWait
deriving DecidableEq, Repr

/-- The states of the controller, as seen between two slot calls, that can be
reached from the constructed controller. -/
inductive Reachable (T : Env) : Phase → GDBController → Prop where
  | construct (cfg : Config) : Reachable T Phase.idle (GDBController.construct T cfg)
  /-- A slot is called and returns, outside or inside a wait loop.  (A call of
  `slotStopDebugger` from inside one of its wait loops returns at once, the
  flag `s_shuttingDown` being set there.) -/
  | call {p : Phase} {c : GDBController} (op : Op) :
      Reachable T p c → Reachable T p (applyOp T c op)
  /-- The slot `slotStopDebugger` runs up to its first wait loop. -/
  | stopAttached {c : GDBController} :
      Reachable T Phase.idle c → stopGuard c = true →
      stateIsOn (stopBegin T c).state_ s_attached = true →
      Reachable T Phase.detachWait (stopBegin T c)
  /-- The slot `slotStopDebugger` runs up to its second wait loop, the
  controller not being attached. -/
  | stopDetached {c : GDBController} :
      Reachable T Phase.idle c → stopGuard c = true →
      stateIsOn (stopBegin T c).state_ s_attached = false →
      Reachable T Phase.quitWait (stopQuit (stopBegin T c))
  /-- The first wait loop is left. -/
  | detachDone {c : GDBController} :
      Reachable T Phase.detachWait c →
      (stateIsOn c.state_ s_waitTimer = false ∨ stateIsOn c.state_ s_attached = false) →
      Reachable T Phase.quitWait (stopQuit c)
  /-- The second wait loop is left and the slot returns. -/
  | quitDone {c : GDBController} :
      Reachable T Phase.quitWait c →
      (stateIsOn c.state_ s_waitTimer = false ∨ stateIsOn c.state_ s_programExited = true) →
      Reachable T Phase.idle (stopEnd c)

/-! ## A worked environment -/

/-- The decimal digits of Unicode below U+0700: ASCII, Arabic-Indic and
extended Arabic-Indic; the value of a digit is its offset in its block. -/
def sampleDigitValue (u : Nat) : Option Nat :=
  if 48 ≤ u ∧ u ≤ 57 then some (u - 48)
  else if 1632 ≤ u ∧ u ≤ 1641 then some (u - 1632)
  else if 1776 ≤ u ∧ u ≤ 1785 then some (u - 1776)
  else none

/-- An assignment of distinct letters to the routing tags, used in the worked
examples; the translation catalogue is the English one and the frame stack
reports no thread.  White space is U+0009 to U+000D and the Unicode space,
line and paragraph separators; the digits are those of `sampleDigitValue`, and
a number that does not fit an `int` converts to 0. -/
def sampleEnv : Env :=
  { ARGS := 65, BACKTRACE := 75, BPLIST := 66, DATAREQUEST := 68, DETACH := 122,
    DISASSEMBLE := 100, FRAME := 70, INFOTHREAD := 84, LIBRARIES := 76, LOCALS := 108,
    MEMDUMP := 77, REGISTERS := 82, SET_BREAKPT := 98, SWITCHTHREAD := 116, USERCMD := 85,
    WHATIS := 72, defaultPrompt := 48, noSuchFileLocal := str "No such file or directory.",
    viewedThread := fun _ => -1,
    qIsSpace := fun u => (9 ≤ u && u ≤ 13) || u == 32 || u == 160 || u == 5760
      || (8192 ≤ u && u ≤ 8202) || u == 8232 || u == 8233 || u == 8239 || u == 8287
      || u == 12288,
    qIsDigit := fun u => (sampleDigitValue u).isSome,
    qToInt := fun ds =>
      let v := ds.foldl (fun acc u => 10 * acc + (sampleDigitValue u).getD 0) 0
      if v < 2147483648 then (v : Int) else 0,
    latin1Other := fun _ => 63 }

/-- The settings every worked example is configured with. -/
def sampleConfig : Config :=
  { forceBPSet := true, dbgTerminal := false, runAppInAppDirectory := false, gdbPath := "",
    programArgs := "", displayStaticMembers := false, asmDemangle := true,
    breakOnLoadingLibrary := true }

/-- The controller after construction and `slotStart`. -/
def startedController : GDBController :=
  slotStart sampleEnv (GDBController.construct sampleEnv sampleConfig) "/dev/pts/1" "/tmp" []

/-- The log entry records a handler of a tagged block or a call of `parseLine`. -/
def isDispatch : Event → Bool
  | Event.handler _ _ => true
  | Event.line _ => true
  | _ => false

/-- The log entries that record a handler of a tagged block or a call of
`parseLine`. -/
def dispatches (log : List Event) : List Event := log.filter isDispatch

/-- The dispatches recorded so far are `k`. -/
structure Disp (k : List Event) (c : GDBController) : Prop where
  eq : dispatches c.log_ = k

/-- The stream of the worked example of fragmentation, cut in three: a line
and an idle block, then a start marker alone, then the idle tag and a newline. -/
def splitStream : List (List Nat) := [str "x\n" ++ [BLOCK_START, IDLE], [BLOCK_START], [IDLE, 10]]

/-- The same stream in one piece. -/
def wholeStream : List Nat := splitStream.flatten

/-- Deliver the fragments of a stream one after the other. -/
def deliver (T : Env) (c : GDBController) (fragments : List (List Nat)) : GDBController :=
  fragments.foldl (fun acc buf => slotDbgStdout T acc buf) c

/-- A request to the queue or the acknowledgement of a write by the transport. -/
inductive QueueEvent where
  | queueCmd (cmd : DbgCommand) (executeNext : Bool)
  | wroteStdin
deriving DecidableEq, Repr

/-- The controller after a sequence of queue requests and acknowledgements. -/
def runQueueEvents (c : GDBController) (evs : List QueueEvent) : GDBController :=
  evs.foldl (fun acc ev =>
    match ev with
    | QueueEvent.queueCmd cmd executeNext => queueCmd acc cmd executeNext
    | QueueEvent.wroteStdin => slotDbgWroteStdin acc) c

/-- The pending list that `queueCmd` is specified to build from the list `L`:
the info-type and run-type commands leave when `cmd` is run-type, then `cmd`
goes to the head or to the tail. -/
def queuedList (L : List DbgCommand) (cmd : DbgCommand) (executeNext : Bool) :
    List DbgCommand :=
  let kept := if cmd.isARunCmd then L.filter (fun x => !(x.isAnInfoCmd || x.isARunCmd)) else L
  if executeNext then cmd :: kept else kept ++ [cmd]

/-- The controller after a sequence of slot calls. -/
def runOps (T : Env) (c : GDBController) (ops : List Op) : GDBController :=
  ops.foldl (fun acc op => applyOp T acc op) c

/-- The reply of gdb to a command sent with the default tag of the worked
environment: an empty block with that tag, then the idle prompt. -/
def emptyReply : List Nat :=
  [BLOCK_START, sampleEnv.defaultPrompt, BLOCK_START, sampleEnv.defaultPrompt, BLOCK_START, IDLE]

/-- The controller after `slotStart`, the acknowledgement of every write of the
start-up commands and the reply to each of them that waits for one: nothing is
pending and nothing is in flight. -/
def settledController : GDBController :=
  runOps sampleEnv startedController
    (Op.slotDbgWroteStdin ::
      (List.replicate 9 [Op.slotDbgWroteStdin, Op.slotDbgStdout emptyReply]).flatten)

/-- The settled controller after `slotRegisters`: the command `info all-registers`
has been written and its reply is awaited. -/
def registersInFlight : GDBController := slotRegisters sampleEnv settledController

/-- The started controller after `slotAttachTo`: Silent is clear and the
refresh commands wait behind the start-up commands. -/
def attachedController : GDBController := slotAttachTo sampleEnv startedController 4242

/-! ## The two invariants -/

/-- The pending list holds at most one run-type command. -/
structure AtMostOneRun (l : List DbgCommand) : Prop where
  le : (l.filter (fun x => x.isARunCmd)).length ≤ 1

/-- AppBusy and AppNotStarted are not both set. -/
structure BusyExcludesNotStarted (s : DBGStateFlags) : Prop where
  excl : ¬ (s.appBusy = true ∧ s.appNotStarted = true)

/-- The invariant of the queue, with the invariant of the flags when `flags` is set. -/
structure InvC (flags : Bool) (c : GDBController) : Prop where
  run : AtMostOneRun c.cmdList_
  busy : flags = true → BusyExcludesNotStarted c.state_

/-- The flag invariant is asserted outside the second wait loop of
`slotStopDebugger`, which sets AppBusy before it sends the quit directive. -/
def Phase.flagsHold : Phase → Bool
  | Phase.idle => true
  | Phase.detachWait => true
  | Phase.quitWait => false

/-- The started controller inside the second wait loop of `slotStopDebugger`:
the quit directive has been written and gdb has not exited yet. -/
def quittingController : GDBController := stopQuit (stopBegin sampleEnv startedController)

/-- The output buffer of `c` against the array `m`: the retained length is `n`,
the array has the size of `m`, and each byte is the byte of `m` or a NUL that
a handler has stored in its place. -/
structure BufZ (m : List Nat) (n : Nat) (c : GDBController) : Prop where
  len : c.gdbOutputLen_ = n
  size : c.gdbOutput_.length = m.length
  zero : ∀ i, byteAt c.gdbOutput_ i = byteAt m i ∨ byteAt c.gdbOutput_ i = 0

/-- The settled controller while frame 2 of thread 5 is viewed. -/
def viewingController : GDBController := slotSelectFrame sampleEnv settledController 2 5 false false

/-- The same after `slotRun`: the command `run` has been written, the
application is busy and Silent is clear. -/
def runningController : GDBController := slotRun viewingController

/-- The running controller after `slotClearAllBreakpoints`, the forced setting
of breakpoints being enabled: the application is busy and Silent is set. -/
def interruptedController : GDBController := slotClearAllBreakpoints sampleEnv runningController

/-- A pending request to add a breakpoint at `main.cpp:10`. -/
def sampleBreakpoint : Breakpoint :=
  { isPending := true, isActionDie := false, isActionAdd := true, isActionClear := false,
    isActionModify := false, dbgSetCommand := "break main.cpp:10", dbgRemoveCommand := "",
    key := 7, dbgId := -1, changedCondition := false, conditional := "",
    changedIgnoreCount := false, ignoreCount := 0, changedEnable := false, isEnabled := true }

/-- The running controller after the forced setting of breakpoints has been
disabled in the project settings. -/
def unforcedController : GDBController :=
  configure sampleEnv runningController { sampleConfig with forceBPSet := false }

/-- The running controller at the call of `parseLine` on the line
`Program exited normally.`: the bytes have been appended to the output buffer
and `parseOther` has replaced the newline by a NUL. -/
def exitLineController : GDBController :=
  (appendOutput runningController (str "Program exited normally.\n")).poke 24 0

/-- A wait loop of `slotStopDebugger`,
`while (stateIsOn(s_waitTimer)) { if (leave) break; kapp->processEvents(20); }`.
Each element of `rounds` lists the slots that one call of `processEvents` runs
(a call of `slotStopDebugger` among them returns at once, ShuttingDown being
set); the result is `none` when the loop is still waiting after the last round. -/
def waitLoop (T : Env) (leave : GDBController → Bool) :
    List (List Op) → GDBController → Option GDBController
  | [], c => if !stateIsOn c.state_ s_waitTimer || leave c then some c else none
  | ops :: rounds, c =>
    if !stateIsOn c.state_ s_waitTimer || leave c then some c
    else waitLoop T leave rounds (runOps T c ops)

/-- The member function `slotStopDebugger`, given what the event loop delivers
in each round of its two wait loops. -/
def slotStopDebugger (T : Env) (c : GDBController) (detachRounds quitRounds : List (List Op)) :
    Option GDBController :=
  if !stateIsOn c.state_ s_shuttingDown && c.dbgProcess_ then
    let c1 := c.setOn (s_shuttingDown.bor s_silent)
    let c2 := pauseApp (destroyCmds c1)
    let c3 := c2.setOn s_waitTimer
    let detached :=
      if stateIsOn c3.state_ s_attached then
        waitLoop T (fun d => !stateIsOn d.state_ s_attached) detachRounds
          (queueCmd c3 (GDBCommand "detach" NOTRUNCMD NOTINFOCMD T.DETACH) false)
      else some c3
    match detached with
    | some c4 =>
      match waitLoop T (fun d => stateIsOn d.state_ s_programExited) quitRounds (stopQuit c4) with
      | some c5 => some (stopEnd c5)
      | none => none
    | none => none
  else some c

/-- The texts written to gdb (`writeStdin`), in the order of the log. -/
def written (log : List Event) : List String :=
  log.filterMap (fun e => match e with
    | Event.writeStdin text => some text
    | _ => none)

/-- A pending request to modify a breakpoint that gdb has not numbered yet:
`modifyBreakpoint` queues nothing for it. -/
def unnumberedBreakpoint : Breakpoint :=
  { sampleBreakpoint with isActionAdd := false, isActionModify := true, changedEnable := true }

/-- What follows the forced request `sampleBreakpoint` on the running
controller: the write of `run` is acknowledged, gdb reports the stop caused by
the interrupt, the write of the `break` command is acknowledged and gdb
confirms the breakpoint. -/
def confirmBreakpoint : List Op :=
  [Op.slotDbgWroteStdin,
   Op.slotDbgStdout ([BLOCK_START, SRC_POSITION] ++ str "/x.c:1:1:beg:0x1\n"),
   Op.slotDbgWroteStdin,
   Op.slotDbgStdout ([BLOCK_START, sampleEnv.SET_BREAKPT]
     ++ str "Breakpoint 1 at 0x1: file main.cpp, line 10.\n"
     ++ [BLOCK_START, sampleEnv.SET_BREAKPT, BLOCK_START, IDLE])]

/-- The settled controller after gdb has announced a thread (ViewThreads is
set) and `slotRun` has written `run`: the application is busy and the write has
not been acknowledged yet. -/
def threadRunController : GDBController :=
  slotRun (slotDbgStdout sampleEnv settledController (str "[New Thread 1]\n"))

/-- A line by which gdb reports a stop. -/
def stopLine : List Nat := str "Program received signal SIGTRAP, Trace/breakpoint trap.\n"

/-- The queue is well formed: the in-flight command, if any, has been written
to gdb and no pending command has. -/
structure QueueWF (c : GDBController) : Prop where
  sent : ∀ x, c.currentCmd_ = some x → x.moreToSend = false
  unsent : ∀ x ∈ c.cmdList_, x.moreToSend = true

/-- The texts written to gdb so far, followed by the texts of the pending
commands from the head of the list on. -/
def sendOrder (c : GDBController) : List String :=
  written c.log_ ++ c.cmdList_.map (fun x => x.command_)

/-- The running controller after the program has exited and has been started
again with `slotRun`, the write of `run` acknowledged. -/
def rerunController : GDBController :=
  runOps sampleEnv runningController
    [Op.slotDbgStdout (str "Program exited normally.\n"), Op.slotRun, Op.slotDbgWroteStdin]

/-- That controller at the call of `parseLine` on the line
`Cannot insert breakpoint 3`: the bytes have been appended to the output buffer
and `parseOther` has replaced the newline by a NUL. -/
def cannotInsertController : GDBController :=
  (appendOutput rerunController (str "Cannot insert breakpoint 3\n")).poke 26 0

/-- What follows the line: the write of `delete 3` is acknowledged and answered,
then the write of `info breakpoints` is acknowledged and answered. -/
def drainBreakpointCmds : List Op :=
  [Op.slotDbgWroteStdin, Op.slotDbgStdout emptyReply, Op.slotDbgWroteStdin,
   Op.slotDbgStdout ([BLOCK_START, sampleEnv.BPLIST] ++ str "No breakpoints.\n"
     ++ [BLOCK_START, sampleEnv.BPLIST, BLOCK_START, IDLE])]

/-- The log entry is a step-location event (`showStepInSource`). -/
def isStep : Event → Bool
  | Event.showStepInSource _ _ _ => true
  | _ => false

/-- The step-location events emitted so far are `k`. -/
structure Steps (k : List Event) (c : GDBController) : Prop where
  eq : c.log_.filter isStep = k

/-- The application is stopped and what the queue sends next does not start it:
AppBusy is clear, the queue is well formed, and either a write is outstanding
or the command at the head of the pending list is not run-type. -/
structure Paused (c : GDBController) : Prop where
  idle : c.state_.appBusy = false
  wf : QueueWF c
  next : c.state_.waitForWrite = true ∨ ∃ x rest, c.cmdList_ = x :: rest ∧ x.isARunCmd = false

/-- The running controller once gdb has taken the `run` command: the
application is busy, Silent is clear and nothing is retained of the output. -/
def busyController : GDBController := slotDbgWroteStdin runningController

/-- The bytes of the line `file:line:col:tag:0xhex`. -/
def locationLine (file line col tag hex : List Nat) : List Nat :=
  file ++ 58 :: (line ++ 58 :: (col ++ 58 :: (tag ++ 58 :: (48 :: 120 :: hex))))

/-- The busy controller at the call of `parseLine` on the line
`Stopped due to shared library event`: the bytes have been appended to the
output buffer and `parseOther` has replaced the newline by a NUL. -/
def libEventController : GDBController :=
  (appendOutput busyController (str "Stopped due to shared library event\n")).poke 35 0

/-- The settled controller with `info all-registers` in flight, its write
acknowledged, and a `run` pending behind it. -/
def runPendingController : GDBController :=
  runOps sampleEnv settledController [Op.slotRegisters, Op.slotDbgWroteStdin, Op.slotRun]

/-- The reply to `info all-registers` with the text `eax 0`, followed by the idle block. -/
def registersReply : List Nat :=
  [BLOCK_START, sampleEnv.REGISTERS] ++ str "eax 0" ++
    [BLOCK_START, sampleEnv.REGISTERS, BLOCK_START, IDLE]

/-- The settled controller at the call of `parseLine` on the line
`Breakpoint 1, main () at main.cpp:10`. -/
def breakLineController : GDBController :=
  (appendOutput settledController (str "Breakpoint 1, main () at main.cpp:10\n")).poke 36 0

/-- The tests of `parseLine` that precede the test for a file or ptrace
diagnostic (lines 438-681), on a non-empty line: one of the prefixes `Prog`,
`Cann`, `[New Thread`, `[Switching to Thread`, `Current language:`, `Watc`,
`Brea`, `Hard`, `Temp`, `Stop`, `No s`, `Sing`, `warn`, `Core`, or a leading
digit. -/
def earlierRule (s : List Nat) : Bool :=
  strncmpEq s "Prog" 4 || strncmpEq s "Cann" 4 || strncmpEq s "[New Thread" 11
    || strncmpEq s "[Switching to Thread" 20 || strncmpEq s "Current language:" 17
    || strncmpEq s "Watc" 4 || strncmpEq s "Brea" 4 || strncmpEq s "Hard" 4
    || strncmpEq s "Temp" 4 || strncmpEq s "Stop" 4 || strncmpEq s "No s" 4
    || strncmpEq s "Sing" 4 || strncmpEq s "warn" 4 || strncmpEq s "Core" 4
    || isDigit (s.headD 0)

/-- The test of lines 684-690 of `parseLine`: the line is a file or ptrace
diagnostic. -/
def isDiagnostic (T : Env) (s : List Nat) : Bool :=
  hasSub s "not in executable format:" || hasSub s "No such file or directory."
    || (strstr s T.noSuchFileLocal).isSome || hasSub s "is not a core dump:"
    || strncmpEq s "ptrace: No such process." 24
    || strncmpEq s "ptrace: Operation not permitted." 32

/-- The rules that the specification lists before the diagnostics: a line that
begins with `Program`, `Cannot insert breakpoint`, `[New Thread`, `Watchpoint`,
`Breakpoint`, `Hardware breakpoint` or `Stopped due to shared library event`,
or with a digit. -/
def listedRule (s : List Nat) : Bool :=
  strncmpEq s "Program" 7 || strncmpEq s "Cannot insert breakpoint" 24
    || strncmpEq s "[New Thread" 11 || strncmpEq s "Watchpoint" 10
    || strncmpEq s "Breakpoint" 10 || strncmpEq s "Hardware breakpoint" 19
    || strncmpEq s "Stopped due to shared library event" 35 || isDigit (s.headD 0)

/-- The busy controller at the call of `parseLine` on the line
`/tmp/a.out: No such file or directory.`. -/
def noFileController : GDBController :=
  (appendOutput busyController (str "/tmp/a.out: No such file or directory.\n")).poke 38 0

/-- The log entry records a call of `parseLine` on a line that starts with the
block marker, that is, a call in which the assertion
`Q_ASSERT(*buf != (char)BLOCK_START)` of `parseLine` fails. -/
def isBadLine : Event → Bool
  | Event.line s => s.headD 0 == BLOCK_START
  | _ => false

/-- The calls of `parseLine` recorded so far in which its assertion failed are `k`. -/
structure Bad (k : List Event) (c : GDBController) : Prop where
  eq : c.log_.filter isBadLine = k

/-- The busy controller at the call of `parseLine` on the line `hello world`. -/
def otherLineController : GDBController :=
  (appendOutput busyController (str "hello world\n")).poke 11 0

/-- The command `x` is the one in flight. -/
structure InFlight (x : DbgCommand) (c : GDBController) : Prop where
  cur : c.currentCmd_ = some x

/-- The case labels of the second `switch` of `parseCmdBlock` are pairwise
distinct, as C++ requires of the labels of one `switch`. -/
def Env.distinctCases (T : Env) : Prop := (SRC_POSITION :: T.handled).Nodup

instance (T : Env) : Decidable T.distinctCases := by
  unfold Env.distinctCases
  infer_instance

/-- The settled controller at the call of the handler of a breakpoint-list
block with the text `x`: the bytes have been appended to the output buffer and
`parseCmdBlock` has stored the NUL behind the text. -/
def staleListController : GDBController :=
  (appendOutput settledController
    ([BLOCK_START, sampleEnv.BPLIST] ++ str "x" ++ [BLOCK_START, sampleEnv.BPLIST])).poke 3 0

/-- The test of line 1054 of `parseOther` on the text between `buf` and the
newline at `end`, for a text that is not empty: the text has more than two
bytes and ends in `, `, or it ends in `:`. -/
def continuation (text : List Nat) : Bool :=
  (decide (text.length > 2) &&
    (text.getD (text.length - 1) 0 == 32 && text.getD (text.length - 2) 0 == 44))
  || text.getD (text.length - 1) 0 == 58

/-- The bytes of a line on which the scan of `parseOther` does not stop: no
NUL, no newline, no block marker, and the text `(no debugging symbols found)...`
does not occur. -/
structure PlainText (l : List Nat) : Prop where
  bytes : ∀ b ∈ l, b ≠ 0 ∧ b ≠ 10 ∧ b ≠ BLOCK_START
  noSymbols : ¬ str "(no debugging symbols found)..." <:+: l

/-- The settled controller with the bytes `a, `, newline, `foo`, newline and a
NUL in its output buffer, as `slotDbgStdout` stores them before it calls
`parse`. -/
def joinController : GDBController := appendOutput settledController (str "a, \nfoo\n")

/-- A stream that `parse` consumes completely: the line `x`, an idle block and
the line `ZZ`. -/
def staleStream : List Nat := str "x\n" ++ [BLOCK_START, IDLE] ++ str "ZZ\n"

/-- The started controller after `staleStream` has been delivered and parsed,
with a fragment that is a start marker alone stored in its output buffer, as
`slotDbgStdout` stores it before it calls `parse`. -/
def loneMarkerController : GDBController :=
  appendOutput (deliver sampleEnv startedController [staleStream]) [BLOCK_START]

/-- The user command `c` followed by the character U+4E2D. -/
def wideCommand : String := String.mk ['c', Char.ofNat 20013]

/-- The user command `frame`, a no-break space (U+00A0) and `5`. -/
def frameNbspCommand : String := String.mk ("frame".toList ++ [Char.ofNat 160, '5'])

/-- The controller of `rerunController` after the user has typed `continue`
while the restarted program runs: `slotUserGDBCmd` has queued the run-type
command, which waits for the program to stop. -/
def pendingContinueController : GDBController :=
  (slotUserGDBCmd sampleEnv rerunController "continue" false).1

/-- The queue cannot send: WaitingOnWrite, NotStarted or AppBusy is set, or the
in-flight command has been written and awaits its reply. -/
def Stuck (d : GDBController) : Prop :=
  d.state_.waitForWrite = true ∨ d.state_.dbgNotStarted = true ∨ d.state_.appBusy = true ∨
    ∃ y, d.currentCmd_ = some y ∧ y.moreToSend = false ∧ y.expectReply = true

/-- What the handler of a program location has done to flags and queue when it
leaves the controller `c` as `r`.  Under Silent only AppBusy is cleared.
Without Silent and without AppBusy nothing changes.  Without Silent and with
AppBusy the stop is acted on: AppBusy is clear, and the command in flight is
the one of `c` or a refresh command (`info thread`, `backtrace`) that the stop
has queued and the queue has written at once. -/
structure StopHandled (T : Env) (c r : GDBController) : Prop where
  silent : c.state_.silent = true →
    r.state_ = { c.state_ with appBusy := false } ∧ r.cmdList_ = c.cmdList_ ∧
    r.currentCmd_ = c.currentCmd_
  idle : c.state_.silent = false → c.state_.appBusy = false →
    r.state_ = c.state_ ∧ r.cmdList_ = c.cmdList_ ∧ r.currentCmd_ = c.currentCmd_
  stop : c.state_.silent = false → c.state_.appBusy = true →
    r.state_.appBusy = false ∧
    (r.currentCmd_ = c.currentCmd_ ∨
      r.currentCmd_ = some (GDBCommand "info thread" NOTRUNCMD INFOCMD T.INFOTHREAD).markSent ∨
      r.currentCmd_ = some (GDBCommand "backtrace" NOTRUNCMD INFOCMD T.BACKTRACE).markSent)

/-- The busy controller at the call of the handler of the program-location
block `/x.c:1:1:beg:0x1`: the bytes have been appended to the output buffer and
`parseCmdBlock` has stored the NUL over the newline. -/
def positionBlockController : GDBController :=
  (appendOutput busyController ([BLOCK_START, SRC_POSITION] ++ str "/x.c:1:1:beg:0x1\n")).poke
    18 0

/-! # Properties -/

set_option maxRecDepth 100000

/-! ## The purge loop -/

theorem removeLoop_eq_take_filter (doomed : DbgCommand → Bool) :
    ∀ (i : Nat) (l : List DbgCommand), i ≤ l.length →
      removeLoop doomed i l = (l.take i).filter (fun cmd => !doomed cmd) ++ l.drop i := by
  intro i
  induction i with
  | zero => intro l _; simp [removeLoop]
  | succ i ih =>
    intro l hl
    have hi : i < l.length := by omega
    have hget : l.get? i = some l[i] := by
      rw [List.get?_eq_getElem?, List.getElem?_eq_getElem hi]
    have htake : l.take (i + 1) = l.take i ++ [l[i]] := by
      rw [List.take_succ]; simp [List.getElem?_eq_getElem hi]
    rw [removeLoop, hget]
    by_cases hd : doomed l[i] = true
    · have hlen : i ≤ (l.eraseIdx i).length := by
        rw [List.length_eraseIdx]; simp [hi]; omega
      simp only [hd, if_true]
      rw [ih _ hlen, List.eraseIdx_eq_take_drop_succ]
      have h1 : (List.take i l ++ List.drop (i + 1) l).take i = l.take i := by
        rw [List.take_append_of_le_length (by simp; omega)]
        simp [List.take_take]
      have h2 : (List.take i l ++ List.drop (i + 1) l).drop i = l.drop (i + 1) := by
        rw [List.drop_append_of_le_length (by simp; omega)]
        simp [List.drop_take]
      rw [h1, h2, htake, List.filter_append]
      simp [List.filter_cons, hd]
    · have hd2 : doomed l[i] = false := by simpa using hd
      simp only [hd2]
      rw [ih l (by omega), htake, List.filter_append, List.append_assoc,
        List.drop_eq_getElem_cons hi]
      simp [List.filter_cons, hd2]

theorem removeLoop_eq_filter (doomed : DbgCommand → Bool) (l : List DbgCommand) :
    removeLoop doomed l.length l = l.filter (fun cmd => !doomed cmd) := by
  rw [removeLoop_eq_take_filter doomed l.length l (le_refl _)]
  simp

/-! ## The command queue -/

theorem executeCmd_in_flight (c : GDBController) (cmd : DbgCommand)
    (hcur : c.currentCmd_ = some cmd) (hsent : cmd.moreToSend = false)
    (hreply : cmd.expectReply = true) : executeCmd c = c := by
  unfold executeCmd
  split
  · rfl
  · simp [hcur, executeCmdCurrent, hsent, hreply]

theorem executeCmd_blocked (c : GDBController)
    (h : stateIsOn c.state_ (s_dbgNotStarted.bor (s_waitForWrite.bor s_appBusy)) = true) :
    executeCmd c = c := by
  unfold executeCmd
  rw [if_pos h]

theorem queueCmdInsert_cmdList (c : GDBController) (cmd : DbgCommand) (executeNext : Bool) :
    queueCmdInsert c cmd executeNext =
      { c with cmdList_ := queuedList c.cmdList_ cmd executeNext } := by
  unfold queueCmdInsert queuedList removeInfoRequests
  simp only [removeLoop_eq_filter]
  cases cmd.isARunCmd <;> cases executeNext <;> simp

theorem runQueueEvents_in_flight (cmd : DbgCommand) (hsent : cmd.moreToSend = false)
    (hreply : cmd.expectReply = true) (evs : List QueueEvent) :
    ∀ c : GDBController, c.currentCmd_ = some cmd →
      (runQueueEvents c evs).currentCmd_ = some cmd ∧ (runQueueEvents c evs).log_ = c.log_ := by
  induction evs with
  | nil => intro c hc; exact ⟨hc, rfl⟩
  | cons ev evs ih =>
    intro c hc
    cases ev with
    | queueCmd x executeNext =>
      have hstep : queueCmd c x executeNext = queueCmdInsert c x executeNext := by
        unfold queueCmd
        apply executeCmd_in_flight _ cmd _ hsent hreply
        rw [queueCmdInsert_cmdList]; exact hc
      have h := ih (queueCmd c x executeNext) (by rw [hstep, queueCmdInsert_cmdList]; exact hc)
      have hl : (queueCmd c x executeNext).log_ = c.log_ := by
        rw [hstep, queueCmdInsert_cmdList]
      exact ⟨h.1, h.2.trans hl⟩
    | wroteStdin =>
      have hstep : slotDbgWroteStdin c = c.setOff s_waitForWrite := by
        unfold slotDbgWroteStdin
        exact executeCmd_in_flight _ cmd hc hsent hreply
      have h := ih (slotDbgWroteStdin c) (by rw [hstep]; exact hc)
      have hl : (slotDbgWroteStdin c).log_ = c.log_ := by rw [hstep]; rfl
      exact ⟨h.1, h.2.trans hl⟩

/-- C3: a command that has been sent and still expects its reply stays in
flight: `executeCmd` returns the controller as it is (nothing is written, the
in-flight command and the pending list are unchanged), and after every
sequence of `queueCmd` calls and write acknowledgements the same command is in
flight and nothing has been written. -/
theorem C3_in_flight_command_is_kept (c : GDBController) (cmd : DbgCommand)
    (hcur : c.currentCmd_ = some cmd) (hsent : cmd.moreToSend = false)
    (hreply : cmd.expectReply = true) :
    executeCmd c = c ∧
    ∀ evs : List QueueEvent,
      (runQueueEvents c evs).currentCmd_ = some cmd ∧ (runQueueEvents c evs).log_ = c.log_ :=
  ⟨executeCmd_in_flight c cmd hcur hsent hreply,
   fun evs => runQueueEvents_in_flight cmd hsent hreply evs c hcur⟩

theorem executeCmdWrite_cmdList (c : GDBController) (cmd : DbgCommand) :
    (executeCmdWrite c cmd).cmdList_ = c.cmdList_ := by
  unfold executeCmdWrite
  simp only [GDBController.emit]
  split <;> split <;> rfl

theorem executeCmd_cmdList_subset (c : GDBController) :
    ∀ x ∈ (executeCmd c).cmdList_, x ∈ c.cmdList_ := by
  intro x hx
  unfold executeCmd at hx
  split at hx
  · exact hx
  · split at hx
    · unfold executeCmdCurrent at hx
      split at hx
      · split at hx
        · exact hx
        · split at hx
          · exact hx
          · rename_i next rest hl
            rw [executeCmdWrite_cmdList] at hx
            rw [hl]; exact List.mem_cons_of_mem _ hx
      · rw [executeCmdWrite_cmdList] at hx; exact hx
    · split at hx
      · exact hx
      · rename_i cmd rest hl
        unfold executeCmdCurrent at hx
        rw [hl]
        split at hx
        · split at hx
          · exact List.mem_cons_of_mem _ hx
          · split at hx
            · rename_i h0; simp at h0; simp [h0] at hx
            · rename_i next rest2 hl2
              rw [executeCmdWrite_cmdList] at hx
              simp only at hl2 hx
              rw [hl2]
              exact List.mem_cons_of_mem _ (List.mem_cons_of_mem _ hx)
        · rw [executeCmdWrite_cmdList] at hx
          exact List.mem_cons_of_mem _ hx

theorem C3_witness :
    registersInFlight.currentCmd_ =
        some (GDBCommand "info all-registers" NOTRUNCMD INFOCMD sampleEnv.REGISTERS).markSent ∧
      executeCmd registersInFlight = registersInFlight ∧
      (runQueueEvents registersInFlight
          [QueueEvent.queueCmd (GDBCommand "continue" RUNCMD NOTINFOCMD 0) false,
           QueueEvent.wroteStdin]).log_ = registersInFlight.log_ :=
  have h := C3_in_flight_command_is_kept registersInFlight
    (GDBCommand "info all-registers" NOTRUNCMD INFOCMD sampleEnv.REGISTERS).markSent
    (by decide) (by decide) (by decide)
  ⟨by decide, h.1, (h.2 _).2⟩

/-- C5: `queueCmd(cmd, executeNext)` runs `executeCmd` on the controller whose
pending list is `queuedList`: the former list without its info-type and
run-type commands when `cmd` is run-type (unchanged otherwise), in the former
order, with `cmd` at the head when `executeNext` is set and at the tail
otherwise. -/
theorem C5_queueCmd_builds_queuedList (c : GDBController) (cmd : DbgCommand)
    (executeNext : Bool) :
    queueCmd c cmd executeNext =
        executeCmd { c with cmdList_ := queuedList c.cmdList_ cmd executeNext } ∧
      queuedList c.cmdList_ cmd executeNext =
        (if executeNext then
          cmd :: (if cmd.isARunCmd then
            c.cmdList_.filter (fun x => !(x.isAnInfoCmd || x.isARunCmd)) else c.cmdList_)
        else
          (if cmd.isARunCmd then
            c.cmdList_.filter (fun x => !(x.isAnInfoCmd || x.isARunCmd)) else c.cmdList_)
            ++ [cmd]) ∧
      (c.cmdList_.filter (fun x => !(x.isAnInfoCmd || x.isARunCmd))).Sublist c.cmdList_ := by
  refine ⟨?_, rfl, List.filter_sublist _⟩
  unfold queueCmd
  rw [queueCmdInsert_cmdList]

/-- C6 as stated fails: with Silent clear, `slotRun` queues the run-type
command `continue` and the pending info-type command `backtrace` is discarded:
it is no longer pending, it is not in flight and it was never written. -/
theorem C6_counterexample :
    attachedController.state_.silent = false ∧
      GDBCommand "backtrace" NOTRUNCMD INFOCMD sampleEnv.BACKTRACE ∈ attachedController.cmdList_ ∧
      slotRun attachedController =
        queueCmd attachedController (GDBCommand "continue" RUNCMD NOTINFOCMD 0) false ∧
      GDBCommand "backtrace" NOTRUNCMD INFOCMD sampleEnv.BACKTRACE ∉
        (slotRun attachedController).cmdList_ ∧
      (slotRun attachedController).currentCmd_ =
        some (GDBCommand "set edit off" NOTRUNCMD NOTINFOCMD 0).markSent ∧
      (slotRun attachedController).log_ = attachedController.log_ := by
  decide

theorem queueCmd_run_purges (c : GDBController) (cmd : DbgCommand)
    (executeNext : Bool) (hrun : cmd.isARunCmd = true) :
    ∀ x ∈ (queueCmd c cmd executeNext).cmdList_,
      x = cmd ∨ (x ∈ c.cmdList_ ∧ x.isAnInfoCmd = false ∧ x.isARunCmd = false) := by
  have hq : ∀ x ∈ queuedList c.cmdList_ cmd executeNext,
      x = cmd ∨ (x ∈ c.cmdList_ ∧ x.isAnInfoCmd = false ∧ x.isARunCmd = false) := by
    intro x hx
    unfold queuedList at hx
    simp only [hrun, if_true] at hx
    cases executeNext <;> simp [List.mem_filter] at hx <;> tauto
  have hsub : ∀ x ∈ (queueCmd c cmd executeNext).cmdList_,
      x ∈ queuedList c.cmdList_ cmd executeNext := by
    intro x hx
    unfold queueCmd at hx
    rw [queueCmdInsert_cmdList] at hx
    exact executeCmd_cmdList_subset _ x hx
  exact fun x hx => hq x (hsub x hx)

/-- C6, amended: whatever the Silent flag is, after `queueCmd` of a run-type
command `cmd` every pending command other than `cmd` was pending before and is
neither info-type nor run-type: the queued info-type commands are discarded
together with the run-type ones. -/
theorem C6_run_command_purges_info_and_run (c : GDBController) (cmd : DbgCommand)
    (executeNext : Bool) (hrun : cmd.isARunCmd = true) :
    ∀ x ∈ (queueCmd c cmd executeNext).cmdList_,
      x = cmd ∨ (x ∈ c.cmdList_ ∧ x.isAnInfoCmd = false ∧ x.isARunCmd = false) :=
  queueCmd_run_purges c cmd executeNext hrun

theorem C6_witness :
    (GDBCommand "continue" RUNCMD NOTINFOCMD 0).isARunCmd = true ∧
    GDBCommand "set confirm off" NOTRUNCMD NOTINFOCMD sampleEnv.defaultPrompt ∈
      (queueCmd attachedController (GDBCommand "continue" RUNCMD NOTINFOCMD 0) false).cmdList_ ∧
    (GDBCommand "set confirm off" NOTRUNCMD NOTINFOCMD sampleEnv.defaultPrompt = GDBCommand "continue" RUNCMD NOTINFOCMD 0 ∨
      (GDBCommand "set confirm off" NOTRUNCMD NOTINFOCMD sampleEnv.defaultPrompt ∈ attachedController.cmdList_ ∧
        (GDBCommand "set confirm off" NOTRUNCMD NOTINFOCMD sampleEnv.defaultPrompt).isAnInfoCmd = false ∧
        (GDBCommand "set confirm off" NOTRUNCMD NOTINFOCMD sampleEnv.defaultPrompt).isARunCmd = false)) :=
  ⟨by decide, by decide,
    C6_run_command_purges_info_and_run attachedController _ false (by decide) _ (by decide)⟩

theorem pauseApp_spec (c : GDBController) :
    (pauseApp c).cmdList_ =
        c.cmdList_.filter (fun x => !((c.state_.silent && x.isAnInfoCmd) || x.isARunCmd)) ∧
      (c.cmdList_.filter
        (fun x => !((c.state_.silent && x.isAnInfoCmd) || x.isARunCmd))).Sublist c.cmdList_ ∧
      (pauseApp c).state_ = c.state_ ∧
      (pauseApp c).currentCmd_ = c.currentCmd_ ∧
      (pauseApp c).log_ =
        c.log_ ++ (if c.dbgProcess_ && c.state_.appBusy then [Event.kill Signal.SIGINT] else []) := by
  unfold pauseApp
  simp only [removeLoop_eq_filter, GDBController.emit]
  refine ⟨?_, List.filter_sublist _, ?_, ?_, ?_⟩
  · split <;> simp
  · split <;> rfl
  · split <;> rfl
  · cases hp : c.dbgProcess_ <;> cases hb : c.state_.appBusy <;> simp [hp, hb]

/-- C7: `pauseApp` leaves the pending list without its run-type commands and,
when Silent is set, without its info-type commands, the others in their former
order; the flags and the in-flight command are unchanged, and the only effect
recorded is the interrupt signal, sent exactly when the process exists and
AppBusy is set. -/
theorem C7_pauseApp_effect (c : GDBController) :
    (pauseApp c).cmdList_ =
        c.cmdList_.filter (fun x => !((c.state_.silent && x.isAnInfoCmd) || x.isARunCmd)) ∧
      (c.cmdList_.filter
        (fun x => !((c.state_.silent && x.isAnInfoCmd) || x.isARunCmd))).Sublist c.cmdList_ ∧
      (pauseApp c).state_ = c.state_ ∧
      (pauseApp c).currentCmd_ = c.currentCmd_ ∧
      (pauseApp c).log_ =
        c.log_ ++ (if c.dbgProcess_ && c.state_.appBusy then [Event.kill Signal.SIGINT] else []) :=
  pauseApp_spec c

/-- C8 as stated fails in its last clause: in the started controller the write
of `set edit off` is not yet acknowledged (WaitingOnWrite is set), and
`slotStopDebugger` passes its guard and writes the quit directive all the same. -/
theorem C8_counterexample :
    stopGuard startedController = true ∧
      stateIsOn (stopBegin sampleEnv startedController).state_ s_attached = false ∧
      (stopBegin sampleEnv startedController).state_.waitForWrite = true ∧
      (stopQuit (stopBegin sampleEnv startedController)).log_ =
        (stopBegin sampleEnv startedController).log_ ++ [Event.writeStdin "quit\n"] := by
  decide

/-- C8, amended: in every state in which NotStarted, WaitingOnWrite or AppBusy
is set, `executeCmd` returns the controller as it is, and `queueCmd`, which
goes through it, writes nothing and leaves the flags and the in-flight command
as they were; the quit directive of `slotStopDebugger` does not go through
`executeCmd` and is written whatever the flags are. -/
theorem C8_no_write_while_blocked (c : GDBController)
    (h : c.state_.dbgNotStarted = true ∨ c.state_.waitForWrite = true ∨
      c.state_.appBusy = true) :
    executeCmd c = c ∧
    (∀ (cmd : DbgCommand) (executeNext : Bool),
      (queueCmd c cmd executeNext).log_ = c.log_ ∧
      (queueCmd c cmd executeNext).state_ = c.state_ ∧
      (queueCmd c cmd executeNext).currentCmd_ = c.currentCmd_) ∧
    (∀ d : GDBController, (stopQuit d).log_ = d.log_ ++ [Event.writeStdin "quit\n"]) := by
  have hb : ∀ d : GDBController, d.state_ = c.state_ → executeCmd d = d := by
    intro d hd
    apply executeCmd_blocked
    rw [hd]
    rcases h with h | h | h <;> simp [h]
  refine ⟨hb c rfl, ?_, fun d => rfl⟩
  intro cmd executeNext
  unfold queueCmd
  rw [hb _ (by rw [queueCmdInsert_cmdList]), queueCmdInsert_cmdList]
  exact ⟨rfl, rfl, rfl⟩

theorem C8_witness :
    executeCmd startedController = startedController ∧
      (queueCmd startedController (GDBCommand "continue" RUNCMD NOTINFOCMD 0) false).log_ =
        startedController.log_ :=
  have h := C8_no_write_while_blocked startedController (Or.inr (Or.inl (by decide)))
  ⟨h.1, (h.2.1 _ false).1⟩

theorem executeCmdWrite_spec (c : GDBController) (x : DbgCommand) :
    (executeCmdWrite c x).currentCmd_ = some x.markSent ∧
    (∃ rest, (executeCmdWrite c x).log_ = c.log_ ++ Event.writeStdin x.command_ :: rest) ∧
    (executeCmdWrite c x).state_ =
      (if x.isARunCmd then
        { c.state_ with appBusy := true, waitForWrite := true, appNotStarted := false,
                        programExited := false, silent := false }
      else { c.state_ with waitForWrite := true }) := by
  unfold executeCmdWrite
  simp only [GDBController.emit]
  cases hr : x.isARunCmd <;> cases hs : c.state_.silent <;> simp [hs]

theorem executeCmd_cases (d : GDBController) :
    ((executeCmd d).log_ = d.log_ ∧ (executeCmd d).state_ = d.state_ ∧
      (executeCmd d).cmdList_.Sublist d.cmdList_) ∨
    ∃ (e : GDBController) (x : DbgCommand),
      executeCmd d = executeCmdWrite e x ∧ e.state_ = d.state_ ∧ e.log_ = d.log_ ∧
        e.cmdList_.Sublist d.cmdList_ := by
  unfold executeCmd executeCmdCurrent
  by_cases hg : stateIsOn d.state_ (s_dbgNotStarted.bor (s_waitForWrite.bor s_appBusy)) = true
  · left; rw [if_pos hg]; exact ⟨rfl, rfl, List.Sublist.refl _⟩
  · rw [if_neg hg]
    cases hcur : d.currentCmd_ with
    | none =>
      cases hl : d.cmdList_ with
      | nil => left; simp [hl]
      | cons x rest =>
        cases hm : x.moreToSend
        · cases he : x.expectReply
          · cases rest with
            | nil => left; simp [hm, he]
            | cons y rest2 =>
              simp only [hm, he, Bool.not_false, if_true, Bool.false_eq_true, if_false]
              exact Or.inr ⟨_, _, rfl, rfl, rfl,
                (List.sublist_cons_self _ _).trans (List.sublist_cons_self _ _)⟩
          · left; simp [hm, he]
        · simp only [hm, Bool.not_true, Bool.false_eq_true, if_false]
          exact Or.inr ⟨_, _, rfl, rfl, rfl, List.sublist_cons_self _ _⟩
    | some x =>
      cases hm : x.moreToSend
      · cases he : x.expectReply
        · cases hl : d.cmdList_ with
          | nil => left; simp [hm, he, hl]
          | cons y rest2 =>
            simp only [hm, he, Bool.not_false, if_true, Bool.false_eq_true, if_false]
            exact Or.inr ⟨_, _, rfl, rfl, rfl, List.sublist_cons_self _ _⟩
        · left; simp [hm, he]
      · simp only [hm, Bool.not_true, Bool.false_eq_true, if_false]
        exact Or.inr ⟨_, _, rfl, rfl, rfl, List.Sublist.refl _⟩

/-- C9: AppBusy is set when a run-type command is written, not when it is
queued.  `queueCmd` of a command, run-type or not, while a write is
unacknowledged and the application is not busy leaves every flag as it was
(AppBusy clear), the command pending and nothing written; and whenever `executeCmd` writes, the
command `x` it wrote is in flight and the flags are the former ones with
AppBusy and WaitingOnWrite set and AppNotStarted, ProgramExited and Silent
cleared when `x` is run-type, and with only WaitingOnWrite set otherwise. -/
theorem C9_busy_is_set_at_dispatch (c : GDBController) (cmd : DbgCommand) (executeNext : Bool)
    (hwait : c.state_.waitForWrite = true)
    (hidle : c.state_.appBusy = false) :
    ((queueCmd c cmd executeNext).state_ = c.state_ ∧
      (queueCmd c cmd executeNext).state_.appBusy = false ∧
      cmd ∈ (queueCmd c cmd executeNext).cmdList_ ∧
      (queueCmd c cmd executeNext).log_ = c.log_) ∧
    (∀ d : GDBController, (executeCmd d).log_ ≠ d.log_ →
      ∃ x : DbgCommand,
        (executeCmd d).currentCmd_ = some x.markSent ∧
        (∃ rest, (executeCmd d).log_ = d.log_ ++ Event.writeStdin x.command_ :: rest) ∧
        (executeCmd d).state_ =
          (if x.isARunCmd then
            { d.state_ with appBusy := true, waitForWrite := true, appNotStarted := false,
                            programExited := false, silent := false }
          else { d.state_ with waitForWrite := true })) := by
  constructor
  · have hq : queueCmd c cmd executeNext =
        { c with cmdList_ := queuedList c.cmdList_ cmd executeNext } := by
      unfold queueCmd
      rw [queueCmdInsert_cmdList]
      apply executeCmd_blocked
      simp [hwait]
    rw [hq]
    refine ⟨rfl, hidle, ?_, rfl⟩
    unfold queuedList
    cases executeNext <;> simp
  · intro d hd
    rcases executeCmd_cases d with h | ⟨e, x, hx, hs, hl, _⟩
    · exact absurd h.1 hd
    · have hspec := executeCmdWrite_spec e x
      rw [← hx, hs, hl] at hspec
      exact ⟨x, hspec⟩

theorem C9_witness :
    ((queueCmd startedController (GDBCommand "run" RUNCMD NOTINFOCMD 0) false).state_.appBusy
        = false ∧
      GDBCommand "run" RUNCMD NOTINFOCMD 0 ∈
        (queueCmd startedController (GDBCommand "run" RUNCMD NOTINFOCMD 0) false).cmdList_) ∧
    (executeCmd (queueCmdInsert settledController (GDBCommand "run" RUNCMD NOTINFOCMD 0) false)).log_
        ≠ settledController.log_ ∧
    (slotRun settledController).state_.appBusy = true ∧
    (slotRun settledController).state_.appNotStarted = false :=
  have h := C9_busy_is_set_at_dispatch startedController (GDBCommand "run" RUNCMD NOTINFOCMD 0)
    false (by decide) (by decide)
  ⟨⟨h.1.2.1, h.1.2.2.1⟩, by decide, by decide, by decide⟩

/-! ## Preservation of the invariants -/

theorem AtMostOneRun_sublist {l l2 : List DbgCommand} (h : l2.Sublist l)
    (hl : AtMostOneRun l) : AtMostOneRun l2 := by
  exact ⟨le_trans (List.Sublist.length_le (List.Sublist.filter _ h)) hl.le⟩

theorem AtMostOneRun_nil : AtMostOneRun [] := ⟨by simp⟩

theorem InvC_ite_iff {b : Bool} {p : Prop} [Decidable p] {x y : GDBController} :
    InvC b (if p then x else y) ↔ (p → InvC b x) ∧ (¬ p → InvC b y) := by
  split <;> simp [*]

theorem InvC_congr {b : Bool} {c d : GDBController} (hl : d.cmdList_ = c.cmdList_)
    (hs : d.state_ = c.state_) : InvC b d ↔ InvC b c :=
  ⟨fun h => ⟨hl ▸ h.run, fun hb => hs ▸ h.busy hb⟩,
   fun h => ⟨hl.symm ▸ h.run, fun hb => hs.symm ▸ h.busy hb⟩⟩

theorem InvC_emit {b : Bool} {c : GDBController} {e : Event} : InvC b (c.emit e) ↔ InvC b c :=
  InvC_congr rfl rfl

theorem InvC_touch {b : Bool} {c : GDBController} {ok : Bool} : InvC b (c.touch ok) ↔ InvC b c := by
  unfold GDBController.touch
  split
  · rfl
  · exact InvC_congr rfl rfl

theorem InvC_poke {b : Bool} {c : GDBController} {p v : Nat} : InvC b (c.poke p v) ↔ InvC b c :=
  InvC_congr rfl rfl

theorem InvC_setViewed {b : Bool} {c : GDBController} {t f : Int} :
    InvC b (c.setViewed t f) ↔ InvC b c := InvC_congr rfl rfl

theorem InvC_setViewedThread {b : Bool} {c : GDBController} {t : Int} :
    InvC b (c.setViewedThread t) ↔ InvC b c := InvC_congr rfl rfl

theorem InvC_setBacktraceDue {b : Bool} {c : GDBController} {v : Bool} :
    InvC b (c.setBacktraceDue v) ↔ InvC b c := InvC_congr rfl rfl

theorem InvC_setProgramHasExited {b : Bool} {c : GDBController} {v : Bool} :
    InvC b (c.setProgramHasExited v) ↔ InvC b c := InvC_congr rfl rfl

theorem InvC_setBadCore {b : Bool} {c : GDBController} {v : List Nat} :
    InvC b (c.setBadCore v) ↔ InvC b c := InvC_congr rfl rfl

theorem InvC_clearCurrentCmd {b : Bool} {c : GDBController} :
    InvC b c.clearCurrentCmd ↔ InvC b c := InvC_congr rfl rfl

theorem InvC_setProcess {b : Bool} {c : GDBController} {p t : Bool} :
    InvC b (c.setProcess p t) ↔ InvC b c := InvC_congr rfl rfl

theorem InvC_setBuffer {b : Bool} {c : GDBController} {n m : Nat} {mem : List Nat} :
    InvC b (c.setBuffer n m mem) ↔ InvC b c := InvC_congr rfl rfl

theorem InvC_setConfig {b : Bool} {c : GDBController} {cfg : Config} :
    InvC b (c.setConfig cfg) ↔ InvC b c := InvC_congr rfl rfl

theorem Busy_setStateOn {s m : DBGStateFlags} (h1 : m.appBusy = false)
    (h2 : m.appNotStarted = false) (h : BusyExcludesNotStarted s) :
    BusyExcludesNotStarted (setStateOn s m) := by
  have h0 := h.excl
  exact ⟨by simpa [h1, h2] using h0⟩

theorem Busy_setStateOff {s m : DBGStateFlags} (h : BusyExcludesNotStarted s) :
    BusyExcludesNotStarted (setStateOff s m) := by
  refine ⟨?_⟩
  simp only [setStateOff, DBGStateFlags.band, DBGStateFlags.compl]
  intro h2
  apply h.excl
  simp only [Bool.and_eq_true] at h2
  exact ⟨h2.1.1, h2.2.1⟩

theorem Busy_notBusy {s : DBGStateFlags} (h : s.appBusy = false) : BusyExcludesNotStarted s :=
  ⟨by simp [h]⟩

theorem executeCmd_sublist (c : GDBController) : (executeCmd c).cmdList_.Sublist c.cmdList_ := by
  rcases executeCmd_cases c with h | ⟨e, x, hx, _, _, hl⟩
  · exact h.2.2
  · rw [hx, executeCmdWrite_cmdList]; exact hl

theorem InvC_executeCmd {b : Bool} {c : GDBController} (hi : InvC b c) :
    InvC b (executeCmd c) := by
  refine ⟨AtMostOneRun_sublist (executeCmd_sublist c) hi.run, fun hb => ?_⟩
  have hj := hi.busy hb
  rcases executeCmd_cases c with h | ⟨e, x, hx, hs, _, _⟩
  · rw [h.2.1]; exact hj
  · rw [hx, (executeCmdWrite_spec e x).2.2, hs]
    have h0 := hj.excl
    refine ⟨?_⟩
    cases x.isARunCmd
    · simpa using h0
    · simp

theorem AtMostOneRun_queuedList (l : List DbgCommand) (cmd : DbgCommand) (executeNext : Bool)
    (h0 : AtMostOneRun l) : AtMostOneRun (queuedList l cmd executeNext) := by
  have h := h0.le
  refine ⟨?_⟩
  unfold queuedList
  cases hr : cmd.isARunCmd
  · cases executeNext <;> simpa [List.filter_cons, List.filter_append, hr] using h
  · have hz : List.filter (fun x => x.isARunCmd)
        (List.filter (fun x => !(x.isAnInfoCmd || x.isARunCmd)) l) = [] := by
      rw [List.filter_filter, List.filter_eq_nil_iff]
      intro a _
      cases a.isAnInfoCmd <;> cases a.isARunCmd <;> simp
    cases executeNext
    · simp only [if_true, Bool.false_eq_true, if_false, List.filter_append, hz,
        List.filter_cons, hr, List.filter_nil, List.nil_append, List.length_singleton, le_refl]
    · simp only [if_true, List.filter_cons, hr, hz, List.length_singleton, le_refl]

theorem InvC_queueCmd {b : Bool} {c : GDBController} (cmd : DbgCommand) (executeNext : Bool)
    (hi : InvC b c) : InvC b (queueCmd c cmd executeNext) := by
  unfold queueCmd
  apply InvC_executeCmd
  rw [queueCmdInsert_cmdList]
  exact ⟨AtMostOneRun_queuedList _ _ _ hi.run, hi.busy⟩

theorem InvC_pauseApp {b : Bool} {c : GDBController} (hi : InvC b c) : InvC b (pauseApp c) := by
  have h := pauseApp_spec c
  refine ⟨?_, ?_⟩
  · rw [h.1]; exact AtMostOneRun_sublist h.2.1 hi.run
  · rw [h.2.2.1]; exact hi.busy

theorem InvC_destroyCmds {b : Bool} {c : GDBController} (hi : InvC b c) :
    InvC b (destroyCmds c) :=
  ⟨AtMostOneRun_nil, hi.busy⟩


theorem InvC_setOff {b : Bool} {c : GDBController} (m : DBGStateFlags) (hi : InvC b c) :
    InvC b (c.setOff m) :=
  ⟨hi.run, fun hb => Busy_setStateOff (hi.busy hb)⟩

theorem InvC_setOn {b : Bool} {c : GDBController} {m : DBGStateFlags} (h1 : m.appBusy = false)
    (h2 : m.appNotStarted = false) (hi : InvC b c) : InvC b (c.setOn m) :=
  ⟨hi.run, fun hb => Busy_setStateOn h1 h2 (hi.busy hb)⟩

theorem InvC_setState {b b2 : Bool} {c : GDBController} {s : DBGStateFlags}
    (h1 : s.appBusy = false) (hi : InvC b2 c) : InvC b (c.setState s) :=
  ⟨hi.run, fun _ => Busy_notBusy h1⟩

theorem InvC_actOnProgramPause {b : Bool} (T : Env) {c : GDBController} (msg : List Nat)
    (hi : InvC b c) : InvC b (actOnProgramPause T c msg) := by
  unfold actOnProgramPause
  dsimp only
  repeat' first
    | with_reducible apply InvC_queueCmd
    | with_reducible apply InvC_setOff
    | simp only [InvC_ite_iff, InvC_emit, InvC_setViewed, InvC_setBacktraceDue]
    | refine And.intro ?_ ?_
    | intro _
    | with_reducible exact hi

theorem InvC_programNoApp {b : Bool} {c : GDBController} (msg : List Nat) (msgBox : Bool)
    (hi : InvC b c) : InvC b (programNoApp c msg msgBox) := by
  unfold programNoApp
  dsimp only
  repeat' first
    | with_reducible apply InvC_destroyCmds
    | exact InvC_setState (by simp) hi
    | simp only [InvC_ite_iff, InvC_emit, InvC_setViewed]
    | refine And.intro ?_ ?_
    | intro _

theorem InvC_parseProgramLocation {b : Bool} (T : Env) {c : GDBController} (buf : List Nat)
    (hi : InvC b c) : InvC b (parseProgramLocation T c buf) := by
  unfold parseProgramLocation
  dsimp only
  repeat' first
    | with_reducible apply InvC_actOnProgramPause
    | with_reducible apply InvC_setOff
    | simp only [InvC_ite_iff, InvC_emit]
    | refine And.intro ?_ ?_
    | intro _
    | with_reducible exact hi
    | split

theorem InvC_parseLine {b : Bool} (T : Env) {c : GDBController} (buf : Nat)
    (hi : InvC b c) : InvC b (parseLine T c buf) := by
  unfold parseLine
  dsimp only
  repeat' first
    | with_reducible apply InvC_queueCmd
    | with_reducible apply InvC_actOnProgramPause
    | with_reducible apply InvC_programNoApp
    | with_reducible apply InvC_parseProgramLocation
    | with_reducible apply InvC_destroyCmds
    | with_reducible apply InvC_setOff
    | with_reducible refine InvC_setOn ?_ ?_ ?_
    | rfl
    | simp only [InvC_ite_iff, InvC_emit, InvC_touch, InvC_setProgramHasExited, InvC_setBadCore]
    | refine And.intro ?_ ?_
    | intro _
    | with_reducible exact hi

theorem InvC_parseFrameSelected {b : Bool} (T : Env) {c : GDBController} (buf : Nat)
    (hi : InvC b c) : InvC b (parseFrameSelected T c buf) := by
  unfold parseFrameSelected
  dsimp only
  repeat' first
    | with_reducible apply InvC_parseProgramLocation
    | simp only [InvC_ite_iff, InvC_emit, InvC_poke]
    | refine And.intro ?_ ?_
    | intro _
    | with_reducible exact hi
    | split

theorem InvC_dispatchBlock {b : Bool} (T : Env) {c : GDBController} (cmdType buf : Nat)
    (hi : InvC b c) : InvC b (dispatchBlock T c cmdType buf) := by
  unfold dispatchBlock parseBreakpointSet parseItemReply parseLocals parseBacktraceList
    parseThreadList
  dsimp only
  repeat' first
    | with_reducible apply InvC_parseProgramLocation
    | with_reducible apply InvC_parseFrameSelected
    | with_reducible apply InvC_setOff
    | simp only [InvC_ite_iff, InvC_emit, InvC_setBacktraceDue, InvC_setViewedThread]
    | refine And.intro ?_ ?_
    | intro _
    | with_reducible exact hi
    | split

theorem InvC_finishBlock {b : Bool} (T : Env) {c : GDBController} (buf : Nat)
    (hi : InvC b c) : InvC b (finishBlock T c buf) := by
  unfold finishBlock
  dsimp only
  repeat' first
    | with_reducible apply InvC_dispatchBlock
    | simp only [InvC_ite_iff, InvC_clearCurrentCmd]
    | refine And.intro ?_ ?_
    | intro _
    | with_reducible exact hi
    | split

theorem InvC_parseCmdBlock {b : Bool} (T : Env) {c : GDBController} (buf : Nat)
    (hi : InvC b c) : InvC b (parseCmdBlock T c buf).2 := by
  unfold parseCmdBlock
  dsimp only
  repeat' first
    | with_reducible apply InvC_finishBlock
    | simp only [InvC_ite_iff, InvC_touch, InvC_poke]
    | refine And.intro ?_ ?_
    | intro _
    | with_reducible exact hi
    | split

theorem InvC_parseOtherLoop {b : Bool} (T : Env) (fuel : Nat) :
    ∀ (c : GDBController) (buf e : Nat), InvC b c → InvC b (parseOtherLoop T fuel c buf e).2 := by
  induction fuel with
  | zero => intro c buf e hi; exact hi
  | succ n ih =>
    intro c buf e hi
    unfold parseOtherLoop
    dsimp only
    repeat' first
      | with_reducible apply ih
      | with_reducible apply InvC_parseLine
      | simp only [InvC_ite_iff, InvC_touch, InvC_poke]
      | refine And.intro ?_ ?_
      | intro _
      | with_reducible exact hi
      | split

theorem InvC_parseOther {b : Bool} (T : Env) {c : GDBController} (buf : Nat)
    (hi : InvC b c) : InvC b (parseOther T c buf).2 :=
  InvC_parseOtherLoop T _ c buf buf hi

theorem InvC_parseLoop {b : Bool} (T : Env) (fuel : Nat) :
    ∀ (c : GDBController) (unparsed : Nat), InvC b c → InvC b (parseLoop T fuel c unparsed).2 := by
  induction fuel with
  | zero => intro c unparsed hi; exact hi
  | succ n ih =>
    intro c unparsed hi
    unfold parseLoop
    dsimp only
    have h1 : InvC b (c.touch (decide (unparsed < c.gdbOutput_.length))) := InvC_touch.2 hi
    split
    · exact h1
    · have h2 : InvC b (if byteAt c.gdbOutput_ unparsed = BLOCK_START then
          parseCmdBlock T (c.touch (decide (unparsed < c.gdbOutput_.length))) unparsed
          else parseOther T (c.touch (decide (unparsed < c.gdbOutput_.length))) unparsed).2 := by
        split
        · exact InvC_parseCmdBlock T _ h1
        · exact InvC_parseOther T _ h1
      split
      · exact h2
      · exact ih _ _ h2

theorem InvC_parse {b : Bool} (T : Env) {c : GDBController} (buf : Nat)
    (hi : InvC b c) : InvC b (parse T c buf).2 :=
  InvC_parseLoop T _ c buf hi

theorem InvC_appendOutput {b : Bool} {c : GDBController} (buf : List Nat) (hi : InvC b c) :
    InvC b (appendOutput c buf) := by
  unfold appendOutput
  dsimp only
  simp only [InvC_setBuffer, InvC_touch, InvC_ite_iff]
  exact ⟨fun _ => hi, fun _ => hi⟩

theorem InvC_compactOutput {b : Bool} {r : Option Nat × GDBController} (hi : InvC b r.2) :
    InvC b (compactOutput r) := by
  unfold compactOutput
  split
  · simp only [InvC_setBuffer, InvC_touch]; exact hi
  · exact hi

theorem InvC_slotDbgStdout {b : Bool} (T : Env) {c : GDBController} (buf : List Nat)
    (hi : InvC b c) : InvC b (slotDbgStdout T c buf) :=
  InvC_executeCmd (InvC_compactOutput (InvC_parse T 0 (InvC_appendOutput buf hi)))

theorem InvC_queueAll {b : Bool} (cmds : List DbgCommand) :
    ∀ c : GDBController, InvC b c → InvC b (queueAll c cmds) := by
  induction cmds with
  | nil => intro c hi; exact hi
  | cons x rest ih => intro c hi; exact ih _ (InvC_queueCmd x false hi)

theorem InvC_configure {b : Bool} (T : Env) {c : GDBController} (cfg : Config)
    (hi : InvC b c) : InvC b (configure T c cfg) := by
  unfold configure
  dsimp only
  repeat' first
    | with_reducible apply InvC_queueCmd
    | with_reducible apply InvC_pauseApp
    | with_reducible refine InvC_setOn ?_ ?_ ?_
    | rfl
    | simp only [InvC_ite_iff, InvC_setConfig]
    | refine And.intro ?_ ?_
    | intro _
    | with_reducible exact hi

theorem InvC_slotStart {b : Bool} (T : Env) {c : GDBController} (tty appDir : String)
    (envvars : List (String × String)) (hi : InvC b c) :
    InvC b (slotStart T c tty appDir envvars) := by
  unfold slotStart
  dsimp only
  repeat' first
    | with_reducible apply InvC_queueAll
    | with_reducible apply InvC_setOff
    | simp only [InvC_ite_iff, InvC_emit, InvC_setProcess, InvC_setBadCore]
    | refine And.intro ?_ ?_
    | intro _
    | with_reducible exact hi

theorem InvC_queueRefresh {b : Bool} (T : Env) {c : GDBController} (hi : InvC b c) :
    InvC b (queueRefresh T c) := by
  unfold queueRefresh
  dsimp only
  repeat' first
    | with_reducible apply InvC_queueCmd
    | simp only [InvC_ite_iff]
    | refine And.intro ?_ ?_
    | intro _
    | with_reducible exact hi

theorem InvC_modifyBreakpoint {b : Bool} (T : Env) {c : GDBController} (BP : Breakpoint)
    (hi : InvC b c) : InvC b (modifyBreakpoint T c BP) := by
  unfold modifyBreakpoint
  dsimp only
  repeat' first
    | with_reducible apply InvC_queueCmd
    | simp only [InvC_ite_iff]
    | refine And.intro ?_ ?_
    | intro _
    | with_reducible exact hi

theorem InvC_slotSelectFrame {b : Bool} (T : Env) {c : GDBController} (frameNo threadNo : Int)
    (needFrames needLocals : Bool) (hi : InvC b c) :
    InvC b (slotSelectFrame T c frameNo threadNo needFrames needLocals) := by
  unfold slotSelectFrame
  dsimp only
  repeat' first
    | with_reducible apply InvC_queueCmd
    | simp only [InvC_ite_iff, InvC_setViewed]
    | refine And.intro ?_ ?_
    | intro _
    | with_reducible exact hi

theorem InvC_applyOp {b : Bool} (T : Env) {c : GDBController} (op : Op) (hi : InvC b c) :
    InvC b (applyOp T c op) := by
  cases op <;>
  · unfold applyOp
    try unfold slotCoreFile
    try unfold slotAttachTo
    try unfold slotRun
    try unfold slotRunUntil
    try unfold slotStepInto
    try unfold slotStepIntoIns
    try unfold slotStepOver
    try unfold slotStepOverIns
    try unfold slotStepOutOff
    try unfold slotStep
    try unfold slotBreakInto
    try unfold slotBPState setBreakpoint clearBreakpoint
    try unfold slotClearAllBreakpoints
    try unfold slotDisassemble
    try unfold slotMemoryDump
    try unfold slotRegisters
    try unfold slotLibraries
    try unfold slotInfo
    try unfold slotVarItemConstructed
    try unfold slotExpandItem
    try unfold slotExpandUserItem
    try unfold slotSetLocalViewState
    try unfold slotDbgStderr
    try unfold slotDbgWroteStdin
    try unfold slotDbgProcessExited
    try unfold slotAbortTimedEvent
    try unfold slotUserGDBCmd
    try dsimp only
    repeat' first
      | with_reducible apply InvC_queueCmd
      | with_reducible apply InvC_executeCmd
      | with_reducible apply InvC_pauseApp
      | with_reducible apply InvC_destroyCmds
      | with_reducible apply InvC_configure
      | with_reducible apply InvC_slotStart
      | with_reducible apply InvC_queueRefresh
      | with_reducible apply InvC_modifyBreakpoint
      | with_reducible apply InvC_slotSelectFrame
      | with_reducible apply InvC_slotDbgStdout
      | with_reducible apply InvC_setOff
      | with_reducible refine @InvC_setState _ b _ _ (by simp) ?_
      | with_reducible refine InvC_setOn ?_ ?_ ?_
      | rfl
      | simp only [InvC_ite_iff, InvC_emit]
      | refine And.intro ?_ ?_
      | intro _
      | with_reducible exact hi
      | split

theorem InvC_weaken {b : Bool} {c : GDBController} (hi : InvC b c) : InvC false c :=
  ⟨hi.run, fun h => by cases h⟩

theorem InvC_stopBegin {b : Bool} (T : Env) {c : GDBController} (hi : InvC b c) :
    InvC b (stopBegin T c) := by
  unfold stopBegin
  dsimp only
  repeat' first
    | with_reducible apply InvC_queueCmd
    | with_reducible apply InvC_pauseApp
    | with_reducible apply InvC_destroyCmds
    | with_reducible refine InvC_setOn ?_ ?_ ?_
    | rfl
    | simp only [InvC_ite_iff]
    | refine And.intro ?_ ?_
    | intro _
    | with_reducible exact hi

theorem InvC_stopQuit {b : Bool} {c : GDBController} (hi : InvC b c) :
    InvC false (stopQuit c) :=
  ⟨hi.run, fun h => by cases h⟩

theorem InvC_stopEnd {b : Bool} {c : GDBController} (hi : InvC b c) :
    InvC true (stopEnd c) := by
  unfold stopEnd
  dsimp only
  simp only [InvC_emit]
  refine InvC_setState (by simp) (?_ : InvC b _)
  simp only [InvC_setProcess, InvC_ite_iff, InvC_emit]
  exact ⟨fun _ => hi, fun _ => hi⟩

theorem InvC_initial : InvC true initialController :=
  ⟨AtMostOneRun_nil, fun _ => Busy_notBusy rfl⟩

theorem InvC_reachable (T : Env) {p : Phase} {c : GDBController} (h : Reachable T p c) :
    InvC p.flagsHold c := by
  induction h with
  | construct cfg => exact InvC_configure T cfg InvC_initial
  | call op _ ih => exact InvC_applyOp T op ih
  | stopAttached _ _ _ ih => exact InvC_stopBegin T ih
  | stopDetached _ _ _ ih => exact InvC_stopQuit (InvC_stopBegin T ih)
  | detachDone _ _ ih => exact InvC_stopQuit ih
  | quitDone _ _ ih => exact InvC_stopEnd ih

theorem reachable_runOps {T : Env} {p : Phase} (ops : List Op) :
    ∀ {c : GDBController}, Reachable T p c → Reachable T p (runOps T c ops) := by
  induction ops with
  | nil => intro c h; exact h
  | cons op rest ih => intro c h; exact ih (Reachable.call op h)

/-! ## Reachable states -/

theorem reachable_started : Reachable sampleEnv Phase.idle startedController :=
  Reachable.call (Op.slotStart "/dev/pts/1" "/tmp" []) (Reachable.construct sampleConfig)

theorem reachable_quitting : Reachable sampleEnv Phase.quitWait quittingController :=
  Reachable.stopDetached reachable_started (by decide) (by decide)

/-- C4: in every reachable state, inside the wait loops of `slotStopDebugger`
too, the pending list holds at most one run-type command; and after
`queueCmd` of a run-type command `cmd` every run-type command still pending is
`cmd` itself. -/
theorem C4_at_most_one_run_command_pending (T : Env) (p : Phase) (c : GDBController)
    (h : Reachable T p c) :
    (c.cmdList_.filter (fun x => x.isARunCmd)).length ≤ 1 ∧
    ∀ (cmd : DbgCommand) (executeNext : Bool), cmd.isARunCmd = true →
      ((queueCmd c cmd executeNext).cmdList_.filter (fun x => x.isARunCmd)).length ≤ 1 ∧
      ∀ x ∈ (queueCmd c cmd executeNext).cmdList_, x.isARunCmd = true → x = cmd := by
  have hi := InvC_reachable T h
  refine ⟨hi.run.le, fun cmd executeNext hrun => ⟨(InvC_queueCmd cmd executeNext hi).run.le, ?_⟩⟩
  intro x hx hxr
  rcases queueCmd_run_purges c cmd executeNext hrun x hx with h1 | h1
  · exact h1
  · rw [h1.2.2] at hxr; cases hxr

theorem C4_witness :
    ((slotRun attachedController).cmdList_.filter (fun x => x.isARunCmd)).length ≤ 1 ∧
    ((slotRun attachedController).cmdList_.filter (fun x => x.isARunCmd)) =
      [GDBCommand "continue" RUNCMD NOTINFOCMD 0] :=
  ⟨(C4_at_most_one_run_command_pending sampleEnv Phase.idle (slotRun attachedController)
      (Reachable.call Op.slotRun
        (Reachable.call (Op.slotAttachTo 4242) reachable_started))).1,
   by decide⟩

/-- C10 as stated fails: `slotStopDebugger`, called on the started controller,
reaches its second wait loop with AppBusy set while AppNotStarted is still set. -/
theorem C10_counterexample :
    Reachable sampleEnv Phase.quitWait quittingController ∧
      quittingController.state_.appBusy = true ∧
      quittingController.state_.appNotStarted = true :=
  ⟨reachable_quitting, by decide, by decide⟩

/-- C10, amended: in every reachable state outside the second wait loop of
`slotStopDebugger` (between two slot calls and inside the first, detach, wait
loop) AppBusy and AppNotStarted are not both set. -/
theorem C10_busy_excludes_not_started (T : Env) (p : Phase) (c : GDBController)
    (h : Reachable T p c) (hp : p ≠ Phase.quitWait) :
    ¬ (c.state_.appBusy = true ∧ c.state_.appNotStarted = true) := by
  have hi := InvC_reachable T h
  have hf : p.flagsHold = true := by
    cases p
    · rfl
    · rfl
    · exact absurd rfl hp
  exact (hi.busy hf).excl

theorem C10_witness :
    ¬ ((slotRun settledController).state_.appBusy = true ∧
        (slotRun settledController).state_.appNotStarted = true) :=
  C10_busy_excludes_not_started sampleEnv Phase.idle (slotRun settledController)
    (Reachable.call Op.slotRun (reachable_runOps _ reachable_started)) (by decide)

/-! ## The output framer -/

/-- C1, the code at the failing input.  The stream `x\n \032i \032i \n` delivered
in one call dispatches the lines `x` and the empty line; delivered as `x\n\032i`,
then `\032` alone, then `i\n`, it dispatches the lines `x` and `i`.  No read
leaves the written part of the array in either run.  On the second fragment
`parseCmdBlock` takes the NUL after the lone marker for the tag and searches the
end marker in the bytes left behind it by the first fragment: `parse` returns
position 4 although the buffer holds one byte, against the `Q_ASSERT` of
`slotDbgStdout`. -/
theorem C1_fragmentation_changes_dispatch :
    wholeStream = splitStream.flatten ∧
    startedController.gdbOutputLen_ = 0 ∧
    dispatches (deliver sampleEnv startedController [wholeStream]).log_ =
      [Event.line (str "x"), Event.line []] ∧
    dispatches (deliver sampleEnv startedController splitStream).log_ =
      [Event.line (str "x"), Event.line (str "i")] ∧
    (deliver sampleEnv startedController [wholeStream]).undefinedRead_ = false ∧
    (deliver sampleEnv startedController splitStream).undefinedRead_ = false ∧
    (deliver sampleEnv startedController (splitStream.take 1)).gdbOutput_ = [120, 0, 26, 105, 0] ∧
    (deliver sampleEnv startedController (splitStream.take 1)).gdbOutputLen_ = 0 ∧
    (parse sampleEnv
      ((deliver sampleEnv startedController (splitStream.take 1)).setBuffer 2048 1
        [26, 0, 26, 105, 0]) 0).1 = some 4 := by
  decide

/-- C2 as stated fails for a tag that `parseCmdBlock` has no `case` for: the
block `\032U abc \032U` (the tag `USERCMD` of `slotUserGDBCmd`), its terminator
split after the marker, is consumed by the second call without any handler. -/
theorem C2_counterexample :
    sampleEnv.USERCMD = 85 ∧ 85 ≠ IDLE ∧ 85 ≠ SRC_POSITION ∧
    ¬ [BLOCK_START, 85] <:+: str "abc" ∧
    (deliver sampleEnv startedController [[BLOCK_START, 85] ++ str "abc" ++ [BLOCK_START]]).gdbOutputLen_
      = 6 ∧
    dispatches (deliver sampleEnv startedController
      [[BLOCK_START, 85] ++ str "abc" ++ [BLOCK_START], [85]]).log_ = [] ∧
    (deliver sampleEnv startedController
      [[BLOCK_START, 85] ++ str "abc" ++ [BLOCK_START], [85]]).gdbOutputLen_ = 0 := by
  refine ⟨rfl, by decide, by decide, ?_, by decide, by decide, by decide⟩
  decide

/-! ## What the handlers add to the record of dispatches -/

theorem Disp_ite_iff {k : List Event} {p : Prop} [Decidable p] {x y : GDBController} :
    Disp k (if p then x else y) ↔ (p → Disp k x) ∧ (¬ p → Disp k y) := by
  split <;> simp [*]

theorem Disp_congr {k : List Event} {c d : GDBController} (hl : d.log_ = c.log_) :
    Disp k d ↔ Disp k c :=
  ⟨fun h => ⟨hl ▸ h.eq⟩, fun h => ⟨hl.symm ▸ h.eq⟩⟩

theorem Disp_emit {k : List Event} {c : GDBController} {e : Event} (he : isDispatch e = false) :
    Disp k (c.emit e) ↔ Disp k c := by
  constructor
  · intro h
    have := h.eq
    unfold GDBController.emit dispatches at this
    simp only [List.filter_append, List.filter_cons, he, Bool.false_eq_true, if_false,
      List.filter_nil, List.append_nil] at this
    exact ⟨this⟩
  · intro h
    refine ⟨?_⟩
    unfold GDBController.emit dispatches
    simp only [List.filter_append, List.filter_cons, he, Bool.false_eq_true, if_false,
      List.filter_nil, List.append_nil]
    exact h.eq

theorem Disp_touch {k : List Event} {c : GDBController} {ok : Bool} :
    Disp k (c.touch ok) ↔ Disp k c := by
  unfold GDBController.touch
  split
  · rfl
  · exact Disp_congr rfl

theorem Disp_poke {k : List Event} {c : GDBController} {p v : Nat} :
    Disp k (c.poke p v) ↔ Disp k c := Disp_congr rfl

theorem Disp_setOn {k : List Event} {c : GDBController} {m : DBGStateFlags} :
    Disp k (c.setOn m) ↔ Disp k c := Disp_congr rfl

theorem Disp_setOff {k : List Event} {c : GDBController} {m : DBGStateFlags} :
    Disp k (c.setOff m) ↔ Disp k c := Disp_congr rfl

theorem Disp_setViewed {k : List Event} {c : GDBController} {t f : Int} :
    Disp k (c.setViewed t f) ↔ Disp k c := Disp_congr rfl

theorem Disp_setViewedThread {k : List Event} {c : GDBController} {t : Int} :
    Disp k (c.setViewedThread t) ↔ Disp k c := Disp_congr rfl

theorem Disp_setBacktraceDue {k : List Event} {c : GDBController} {v : Bool} :
    Disp k (c.setBacktraceDue v) ↔ Disp k c := Disp_congr rfl

theorem Disp_clearCurrentCmd {k : List Event} {c : GDBController} :
    Disp k c.clearCurrentCmd ↔ Disp k c := Disp_congr rfl

theorem Disp_setBuffer {k : List Event} {c : GDBController} {n m : Nat} {mem : List Nat} :
    Disp k (c.setBuffer n m mem) ↔ Disp k c := Disp_congr rfl

theorem Disp_executeCmdWrite {k : List Event} {c : GDBController} (x : DbgCommand)
    (h : Disp k c) : Disp k (executeCmdWrite c x) := by
  refine ⟨?_⟩
  rw [← h.eq]
  unfold executeCmdWrite
  simp only [GDBController.emit]
  cases hr : x.isARunCmd <;> cases hs : c.state_.silent <;>
    simp [hs, dispatches, isDispatch, List.filter_append]

theorem Disp_executeCmd {k : List Event} {c : GDBController} (h : Disp k c) :
    Disp k (executeCmd c) := by
  rcases executeCmd_cases c with h1 | ⟨e, x, hx, _, hl, _⟩
  · exact ⟨by rw [h1.1]; exact h.eq⟩
  · rw [hx]
    exact Disp_executeCmdWrite x ⟨by rw [hl]; exact h.eq⟩

theorem Disp_queueCmd {k : List Event} {c : GDBController} (cmd : DbgCommand)
    (executeNext : Bool) (h : Disp k c) : Disp k (queueCmd c cmd executeNext) := by
  unfold queueCmd
  apply Disp_executeCmd
  rw [queueCmdInsert_cmdList]
  exact ⟨h.eq⟩

theorem Disp_actOnProgramPause {k : List Event} (T : Env) {c : GDBController} (msg : List Nat)
    (hi : Disp k c) : Disp k (actOnProgramPause T c msg) := by
  unfold actOnProgramPause
  dsimp only
  repeat' first
    | with_reducible apply Disp_queueCmd
    | simp only [Disp_ite_iff, Disp_emit, Disp_setViewed, Disp_setBacktraceDue, Disp_setOff,
        isDispatch]
    | refine And.intro ?_ ?_
    | intro _
    | with_reducible exact hi

theorem Disp_parseProgramLocation {k : List Event} (T : Env) {c : GDBController}
    (buf : List Nat) (hi : Disp k c) : Disp k (parseProgramLocation T c buf) := by
  unfold parseProgramLocation
  dsimp only
  repeat' first
    | with_reducible apply Disp_actOnProgramPause
    | simp only [Disp_ite_iff, Disp_emit, Disp_setOff, isDispatch]
    | refine And.intro ?_ ?_
    | intro _
    | with_reducible exact hi
    | split

theorem Disp_parseFrameSelected {k : List Event} (T : Env) {c : GDBController} (buf : Nat)
    (hi : Disp k c) : Disp k (parseFrameSelected T c buf) := by
  unfold parseFrameSelected
  dsimp only
  repeat' first
    | with_reducible apply Disp_parseProgramLocation
    | simp only [Disp_ite_iff, Disp_emit, Disp_poke, isDispatch]
    | refine And.intro ?_ ?_
    | intro _
    | with_reducible exact hi
    | split

theorem Disp_dispatchBlock {k : List Event} (T : Env) {c : GDBController} (cmdType buf : Nat)
    (hts : cmdType ≠ SRC_POSITION) (hi : Disp k c) :
    Disp (k ++ if cmdType ∈ T.handled then [Event.handler cmdType (cstr c.gdbOutput_ buf)]
      else []) (dispatchBlock T c cmdType buf) := by
  have hh : Disp (k ++ [Event.handler cmdType (cstr c.gdbOutput_ buf)])
      (c.emit (Event.handler cmdType (cstr c.gdbOutput_ buf))) :=
    ⟨by
      have h1 := hi.eq
      simp only [dispatches] at h1 ⊢
      simp [GDBController.emit, isDispatch, List.filter_append, h1]⟩
  have h0 : Disp (k ++ []) c := ⟨by simpa using hi.eq⟩
  unfold dispatchBlock parseBreakpointSet parseItemReply parseLocals parseBacktraceList
    parseThreadList
  dsimp only
  by_cases hm : cmdType ∈ T.handled
  · rw [if_pos hm]
    repeat' first
      | with_reducible apply Disp_parseFrameSelected
      | with_reducible apply Disp_parseProgramLocation
      | simp only [Disp_ite_iff, Disp_emit, Disp_setBacktraceDue, Disp_setViewedThread,
          Disp_setOff, isDispatch]
      | refine And.intro ?_ ?_
      | intro _
      | with_reducible exact hh
      | (exfalso; solve | simp_all [Env.handled])
      | split
  · rw [if_neg hm]
    repeat' first
      | simp only [Disp_ite_iff]
      | refine And.intro ?_ ?_
      | intro _
      | with_reducible exact h0
      | (exfalso; solve | simp_all [Env.handled])

/-! ## Framing of a tagged block -/

theorem strstr_boundary (t : Nat) (ht : t ≠ BLOCK_START) :
    ∀ payload : List Nat, ¬ [BLOCK_START, t] <:+: payload →
      strstr (payload ++ [BLOCK_START]) [BLOCK_START, t] = none ∧
      strstr (payload ++ [BLOCK_START, t]) [BLOCK_START, t] = some payload.length := by
  intro payload
  induction payload with
  | nil =>
    intro _
    constructor
    · simp [strstr, List.isPrefixOf, BLOCK_START]
    · simp [strstr, List.isPrefixOf]
  | cons b rest ih =>
    intro h
    have hrest : ¬ [BLOCK_START, t] <:+: rest := fun hr =>
      h (hr.trans (List.suffix_cons b rest).isInfix)
    have hpre : ¬ [BLOCK_START, t] <+: b :: rest := fun hp => h hp.isInfix
    have h1 : List.isPrefixOf [BLOCK_START, t] (b :: (rest ++ [BLOCK_START])) = false := by
      cases rest with
      | nil =>
        simp [List.isPrefixOf, ht]
      | cons r rs =>
        by_contra hc
        apply hpre
        simp only [Bool.not_eq_false] at hc
        have hc2 : List.isPrefixOf [BLOCK_START, t] (b :: r :: rs) = true := by
          simpa [List.isPrefixOf] using hc
        exact List.isPrefixOf_iff_prefix.1 hc2
    have h2 : List.isPrefixOf [BLOCK_START, t] (b :: (rest ++ [BLOCK_START, t])) = false := by
      cases rest with
      | nil =>
        simp [List.isPrefixOf, ht]
      | cons r rs =>
        by_contra hc
        apply hpre
        simp only [Bool.not_eq_false] at hc
        have hc2 : List.isPrefixOf [BLOCK_START, t] (b :: r :: rs) = true := by
          simpa [List.isPrefixOf] using hc
        exact List.isPrefixOf_iff_prefix.1 hc2
    have ih2 := ih hrest
    constructor
    · rw [List.cons_append, strstr, h1, ih2.1]; rfl
    · rw [List.cons_append, strstr, h2, ih2.2]; simp

theorem touch_gdbOutput (c : GDBController) (ok : Bool) :
    (c.touch ok).gdbOutput_ = c.gdbOutput_ := by
  unfold GDBController.touch; split <;> rfl

theorem touch_gdbOutputLen (c : GDBController) (ok : Bool) :
    (c.touch ok).gdbOutputLen_ = c.gdbOutputLen_ := by
  unfold GDBController.touch; split <;> rfl

theorem touch_log (c : GDBController) (ok : Bool) : (c.touch ok).log_ = c.log_ := by
  unfold GDBController.touch; split <;> rfl

theorem touch_true (c : GDBController) : c.touch true = c := rfl

theorem appendOutput_spec (c : GDBController) (buf : List Nat)
    (hle : c.gdbOutputLen_ ≤ c.gdbOutput_.length) :
    (∃ rest, (appendOutput c buf).gdbOutput_ =
      c.gdbOutput_.take c.gdbOutputLen_ ++ buf ++ 0 :: rest) ∧
    (appendOutput c buf).gdbOutputLen_ = c.gdbOutputLen_ + buf.length ∧
    (appendOutput c buf).log_ = c.log_ := by
  unfold appendOutput
  dsimp only
  split
  · simp only [GDBController.setBuffer, touch_gdbOutput, touch_gdbOutputLen, touch_log]
    refine ⟨⟨[], ?_⟩, trivial, trivial⟩
    unfold writeAt
    by_cases h0 : c.gdbOutputLen_ = 0
    · simp [h0]
    · have hk : (List.take (c.gdbOutputLen_ + 1) c.gdbOutput_).length ≥ c.gdbOutputLen_ := by
        rw [List.length_take]; omega
      have hk2 : (List.take (c.gdbOutputLen_ + 1) c.gdbOutput_).length ≤ c.gdbOutputLen_ + 1 := by
        rw [List.length_take]; omega
      simp only [bne_iff_ne, ne_eq, h0, not_false_eq_true, if_true, List.take_take,
        List.length_append, List.length_singleton]
      rw [Nat.sub_eq_zero_of_le hk, List.drop_eq_nil_of_le (by omega)]
      simp
  · simp only [GDBController.setBuffer, touch_gdbOutput, touch_gdbOutputLen, touch_log]
    refine ⟨⟨c.gdbOutput_.drop (c.gdbOutputLen_ + (buf ++ [0]).length), ?_⟩, trivial, trivial⟩
    unfold writeAt
    rw [Nat.sub_eq_zero_of_le hle]
    simp only [List.replicate_zero, List.append_nil, List.append_assoc, List.singleton_append]

theorem cstr_block (t : Nat) (body rest : List Nat) (hnul : ∀ b ∈ body, b ≠ 0) :
    cstr (BLOCK_START :: t :: (body ++ 0 :: rest)) 2 = body ∧
    terminated (BLOCK_START :: t :: (body ++ 0 :: rest)) 2 = true := by
  constructor
  · unfold cstr
    simp only [List.drop_succ_cons, List.drop_zero]
    rw [List.takeWhile_append_of_pos (by simpa using hnul)]
    simp
  · unfold terminated
    simp

theorem parseCmdBlock_incomplete (T : Env) (c : GDBController) (t : Nat) (body rest : List Nat)
    (hmem : c.gdbOutput_ = BLOCK_START :: t :: (body ++ 0 :: rest))
    (ht0 : t ≠ 0) (hti : t ≠ IDLE) (hts : t ≠ SRC_POSITION) (hnul : ∀ b ∈ body, b ≠ 0)
    (hnone : strstr body [BLOCK_START, t] = none) :
    parseCmdBlock T c 0 = (none, c) := by
  have hc := cstr_block t body rest hnul
  have ht : byteAt c.gdbOutput_ 1 = t := by rw [hmem]; rfl
  have hl : decide (1 < c.gdbOutput_.length) = true := by rw [hmem]; simp
  rw [← hmem] at hc
  unfold parseCmdBlock
  simp only [Nat.zero_add, ht, hl, hti, hts, ht0, if_false, hc.1, hc.2, hnone, touch_true]

theorem parseCmdBlock_complete (T : Env) (c : GDBController) (t k : Nat) (body rest : List Nat)
    (hmem : c.gdbOutput_ = BLOCK_START :: t :: (body ++ 0 :: rest))
    (ht0 : t ≠ 0) (hti : t ≠ IDLE) (hts : t ≠ SRC_POSITION) (hnul : ∀ b ∈ body, b ≠ 0)
    (hsome : strstr body [BLOCK_START, t] = some k) :
    parseCmdBlock T c 0 = (some (2 + k + 1), finishBlock T (c.poke (2 + k) 0) 0) := by
  have hc := cstr_block t body rest hnul
  have ht : byteAt c.gdbOutput_ 1 = t := by rw [hmem]; rfl
  have hl : decide (1 < c.gdbOutput_.length) = true := by rw [hmem]; simp
  rw [← hmem] at hc
  unfold parseCmdBlock
  simp only [Nat.zero_add, ht, hl, hti, hts, ht0, if_false, hc.1, hc.2, hsome, touch_true]

theorem BufZ_ite_iff {m : List Nat} {n : Nat} {p : Prop} [Decidable p] {x y : GDBController} :
    BufZ m n (if p then x else y) ↔ (p → BufZ m n x) ∧ (¬ p → BufZ m n y) := by
  split <;> simp [*]

theorem BufZ_congr {m : List Nat} {n : Nat} {c d : GDBController}
    (h1 : d.gdbOutput_ = c.gdbOutput_) (h2 : d.gdbOutputLen_ = c.gdbOutputLen_) :
    BufZ m n d ↔ BufZ m n c :=
  ⟨fun h => ⟨h2 ▸ h.len, h1 ▸ h.size, h1 ▸ h.zero⟩,
   fun h => ⟨h2.symm ▸ h.len, h1.symm ▸ h.size, h1.symm ▸ h.zero⟩⟩

theorem BufZ_emit {m : List Nat} {n : Nat} {c : GDBController} {e : Event} :
    BufZ m n (c.emit e) ↔ BufZ m n c := BufZ_congr rfl rfl

theorem BufZ_touch {m : List Nat} {n : Nat} {c : GDBController} {ok : Bool} :
    BufZ m n (c.touch ok) ↔ BufZ m n c :=
  BufZ_congr (touch_gdbOutput c ok) (touch_gdbOutputLen c ok)

theorem BufZ_setOn {m : List Nat} {n : Nat} {c : GDBController} {s : DBGStateFlags} :
    BufZ m n (c.setOn s) ↔ BufZ m n c := BufZ_congr rfl rfl

theorem BufZ_setOff {m : List Nat} {n : Nat} {c : GDBController} {s : DBGStateFlags} :
    BufZ m n (c.setOff s) ↔ BufZ m n c := BufZ_congr rfl rfl

theorem BufZ_setViewed {m : List Nat} {n : Nat} {c : GDBController} {t f : Int} :
    BufZ m n (c.setViewed t f) ↔ BufZ m n c := BufZ_congr rfl rfl

theorem BufZ_setViewedThread {m : List Nat} {n : Nat} {c : GDBController} {t : Int} :
    BufZ m n (c.setViewedThread t) ↔ BufZ m n c := BufZ_congr rfl rfl

theorem BufZ_setBacktraceDue {m : List Nat} {n : Nat} {c : GDBController} {v : Bool} :
    BufZ m n (c.setBacktraceDue v) ↔ BufZ m n c := BufZ_congr rfl rfl

theorem BufZ_clearCurrentCmd {m : List Nat} {n : Nat} {c : GDBController} :
    BufZ m n c.clearCurrentCmd ↔ BufZ m n c := BufZ_congr rfl rfl

theorem byteAt_set (l : List Nat) (p v i : Nat) :
    byteAt (l.set p v) i = byteAt l i ∨ byteAt (l.set p v) i = v := by
  unfold byteAt
  by_cases hi : i < l.length
  · by_cases hp : p = i
    · right
      subst hp
      simp [List.getD_eq_getElem?_getD, List.getElem?_set, hi]
    · left
      simp [List.getD_eq_getElem?_getD, List.getElem?_set, hp]
  · left
    have h1 : l[i]? = none := List.getElem?_eq_none (by omega)
    have h2 : (l.set p v)[i]? = none := List.getElem?_eq_none (by rw [List.length_set]; omega)
    simp only [List.getD_eq_getElem?_getD, h1, h2]

theorem BufZ_poke {m : List Nat} {n : Nat} {c : GDBController} (p : Nat)
    (h : BufZ m n c) : BufZ m n (c.poke p 0) := by
  refine ⟨h.len, ?_, ?_⟩
  · show (c.gdbOutput_.set p 0).length = m.length
    rw [List.length_set]; exact h.size
  · intro i
    show byteAt (c.gdbOutput_.set p 0) i = byteAt m i ∨ byteAt (c.gdbOutput_.set p 0) i = 0
    rcases byteAt_set c.gdbOutput_ p 0 i with h1 | h1
    · rw [h1]; exact h.zero i
    · exact Or.inr h1

theorem executeCmdWrite_buffer (c : GDBController) (x : DbgCommand) :
    (executeCmdWrite c x).gdbOutput_ = c.gdbOutput_ ∧
    (executeCmdWrite c x).gdbOutputLen_ = c.gdbOutputLen_ := by
  unfold executeCmdWrite
  simp only [GDBController.emit]
  cases hr : x.isARunCmd <;> cases hs : c.state_.silent <;> simp [hs]

theorem executeCmd_buffer (c : GDBController) :
    (executeCmd c).gdbOutput_ = c.gdbOutput_ ∧
    (executeCmd c).gdbOutputLen_ = c.gdbOutputLen_ := by
  unfold executeCmd executeCmdCurrent
  repeat' first
    | split
    | exact ⟨rfl, rfl⟩
    | exact executeCmdWrite_buffer _ _

theorem BufZ_executeCmd {m : List Nat} {n : Nat} {c : GDBController} (h : BufZ m n c) :
    BufZ m n (executeCmd c) :=
  (BufZ_congr (executeCmd_buffer c).1 (executeCmd_buffer c).2).2 h

theorem BufZ_queueCmd {m : List Nat} {n : Nat} {c : GDBController} (cmd : DbgCommand)
    (executeNext : Bool) (h : BufZ m n c) : BufZ m n (queueCmd c cmd executeNext) := by
  unfold queueCmd
  apply BufZ_executeCmd
  refine (BufZ_congr ?_ ?_).2 h
  · unfold queueCmdInsert removeInfoRequests
    dsimp only
    split <;> split <;> rfl
  · unfold queueCmdInsert removeInfoRequests
    dsimp only
    split <;> split <;> rfl

theorem BufZ_actOnProgramPause {m : List Nat} {n : Nat} (T : Env) {c : GDBController}
    (msg : List Nat) (hi : BufZ m n c) : BufZ m n (actOnProgramPause T c msg) := by
  unfold actOnProgramPause
  dsimp only
  repeat' first
    | with_reducible apply BufZ_queueCmd
    | simp only [BufZ_ite_iff, BufZ_emit, BufZ_setViewed, BufZ_setBacktraceDue, BufZ_setOff]
    | refine And.intro ?_ ?_
    | intro _
    | with_reducible exact hi

theorem BufZ_parseProgramLocation {m : List Nat} {n : Nat} (T : Env) {c : GDBController}
    (buf : List Nat) (hi : BufZ m n c) : BufZ m n (parseProgramLocation T c buf) := by
  unfold parseProgramLocation
  dsimp only
  repeat' first
    | with_reducible apply BufZ_actOnProgramPause
    | simp only [BufZ_ite_iff, BufZ_emit, BufZ_setOff]
    | refine And.intro ?_ ?_
    | intro _
    | with_reducible exact hi
    | split

theorem BufZ_parseFrameSelected {m : List Nat} {n : Nat} (T : Env) {c : GDBController}
    (buf : Nat) (hi : BufZ m n c) : BufZ m n (parseFrameSelected T c buf) := by
  unfold parseFrameSelected
  dsimp only
  repeat' first
    | with_reducible apply BufZ_parseProgramLocation
    | with_reducible apply BufZ_poke
    | simp only [BufZ_ite_iff, BufZ_emit]
    | refine And.intro ?_ ?_
    | intro _
    | with_reducible exact hi
    | split

theorem BufZ_dispatchBlock {m : List Nat} {n : Nat} (T : Env) {c : GDBController}
    (cmdType buf : Nat) (hi : BufZ m n c) : BufZ m n (dispatchBlock T c cmdType buf) := by
  unfold dispatchBlock parseBreakpointSet parseItemReply parseLocals parseBacktraceList
    parseThreadList
  dsimp only
  repeat' first
    | with_reducible apply BufZ_parseFrameSelected
    | with_reducible apply BufZ_parseProgramLocation
    | simp only [BufZ_ite_iff, BufZ_emit, BufZ_setBacktraceDue, BufZ_setViewedThread,
        BufZ_setOff]
    | refine And.intro ?_ ?_
    | intro _
    | with_reducible exact hi
    | split

theorem BufZ_finishBlock {m : List Nat} {n : Nat} (T : Env) {c : GDBController}
    (buf : Nat) (hi : BufZ m n c) : BufZ m n (finishBlock T c buf) := by
  unfold finishBlock
  dsimp only
  repeat' first
    | with_reducible apply BufZ_dispatchBlock
    | simp only [BufZ_ite_iff, BufZ_clearCurrentCmd]
    | refine And.intro ?_ ?_
    | intro _
    | with_reducible exact hi
    | split

theorem Disp_finishBlock {k : List Event} (T : Env) {c : GDBController} (buf : Nat)
    (hts : byteAt c.gdbOutput_ (buf + 1) ≠ SRC_POSITION) (hi : Disp k c) :
    Disp (k ++ if byteAt c.gdbOutput_ (buf + 1) ∈ T.handled then
        [Event.handler (byteAt c.gdbOutput_ (buf + 1)) (cstr c.gdbOutput_ (buf + 2))]
      else []) (finishBlock T c buf) := by
  have h := Disp_dispatchBlock T (byteAt c.gdbOutput_ (buf + 1)) (buf + 2) hts hi
  generalize (k ++ if byteAt c.gdbOutput_ (buf + 1) ∈ T.handled then
        [Event.handler (byteAt c.gdbOutput_ (buf + 1)) (cstr c.gdbOutput_ (buf + 2))]
      else []) = kk at h ⊢
  unfold finishBlock
  dsimp only
  split
  · split
    · exact Disp_clearCurrentCmd.2 h
    · exact h
  · exact h

theorem parse_incomplete (T : Env) (c : GDBController) (t : Nat) (body rest : List Nat)
    (hmem : c.gdbOutput_ = BLOCK_START :: t :: (body ++ 0 :: rest))
    (ht0 : t ≠ 0) (hti : t ≠ IDLE) (hts : t ≠ SRC_POSITION) (hnul : ∀ b ∈ body, b ≠ 0)
    (hnone : strstr body [BLOCK_START, t] = none) :
    parse T c 0 = (none, c) := by
  have hb := parseCmdBlock_incomplete T c t body rest hmem ht0 hti hts hnul hnone
  have h0 : byteAt c.gdbOutput_ 0 = BLOCK_START := by rw [hmem]; rfl
  have hl : decide (0 < c.gdbOutput_.length) = true := by rw [hmem]; simp
  unfold parse
  simp only [Nat.sub_zero]
  unfold parseLoop
  simp only [h0, hl, touch_true, hb, if_true]
  simp [BLOCK_START]

theorem parse_complete (T : Env) (c : GDBController) (t k : Nat) (body rest : List Nat)
    (hmem : c.gdbOutput_ = BLOCK_START :: t :: (body ++ 0 :: rest))
    (ht0 : t ≠ 0) (hti : t ≠ IDLE) (hts : t ≠ SRC_POSITION) (hnul : ∀ b ∈ body, b ≠ 0)
    (hsome : strstr body [BLOCK_START, t] = some k)
    (hend : byteAt (finishBlock T (c.poke (2 + k) 0) 0).gdbOutput_ (2 + k + 1 + 1) = 0) :
    ∃ ok : Bool, parse T c 0 =
      (some (2 + k + 1 + 1), (finishBlock T (c.poke (2 + k) 0) 0).touch ok) := by
  have hb := parseCmdBlock_complete T c t k body rest hmem ht0 hti hts hnul hsome
  have h0 : byteAt c.gdbOutput_ 0 = BLOCK_START := by rw [hmem]; rfl
  have hl : decide (0 < c.gdbOutput_.length) = true := by rw [hmem]; simp
  obtain ⟨m, hm⟩ : ∃ m, c.gdbOutput_.length + 1 = m + 2 := by
    rw [hmem]
    exact ⟨body.length + (rest.length + 1) + 1,
      by simp only [List.length_cons, List.length_append]⟩
  refine ⟨decide (2 + k + 1 + 1 < (finishBlock T (c.poke (2 + k) 0) 0).gdbOutput_.length), ?_⟩
  unfold parse
  simp only [Nat.sub_zero, hm]
  unfold parseLoop
  simp only [h0, hl, touch_true, hb, if_true]
  unfold parseLoop
  simp only [hend, if_true]
  simp [BLOCK_START]

theorem block_take (t : Nat) (payload rest : List Nat) :
    (BLOCK_START :: t :: ((payload ++ [BLOCK_START]) ++ 0 :: rest)).take (payload.length + 3) =
      BLOCK_START :: t :: (payload ++ [BLOCK_START]) := by
  have h : payload.length + 3 = (BLOCK_START :: t :: (payload ++ [BLOCK_START])).length := by
    simp
  have h2 : BLOCK_START :: t :: ((payload ++ [BLOCK_START]) ++ 0 :: rest) =
      (BLOCK_START :: t :: (payload ++ [BLOCK_START])) ++ 0 :: rest := by simp
  rw [h, h2, List.take_left]

theorem block_set (t : Nat) (payload rest : List Nat) :
    (BLOCK_START :: t :: ((payload ++ [BLOCK_START, t]) ++ 0 :: rest)).set (2 + payload.length) 0 =
      BLOCK_START :: t :: (payload ++ 0 :: (t :: 0 :: rest)) := by
  have h : 2 + payload.length = payload.length + 1 + 1 := by omega
  rw [h, List.set_cons_succ, List.set_cons_succ, List.append_assoc,
    List.set_append_right _ _ (Nat.le_refl _)]
  simp

theorem block_byteAt (t : Nat) (payload rest : List Nat) :
    byteAt (BLOCK_START :: t :: (payload ++ 0 :: (t :: 0 :: rest))) (2 + payload.length + 1 + 1) = 0 := by
  have h : 2 + payload.length + 1 + 1 = (payload.length + 2) + 1 + 1 := by omega
  unfold byteAt
  rw [h, List.getD_cons_succ, List.getD_cons_succ, List.getD_eq_getElem?_getD,
    List.getElem?_append_right (by omega)]
  simp

theorem cstr_of_byteAt_zero (mem : List Nat) (i : Nat) (h : byteAt mem i = 0) :
    cstr mem i = [] := by
  unfold cstr
  unfold byteAt at h
  cases hd : mem.drop i with
  | nil => rfl
  | cons b r =>
    have hb : mem[i]? = some b := by
      have := List.getElem?_drop mem i 0
      rw [hd] at this
      simpa using this.symm
    rw [List.getD_eq_getElem?_getD, hb] at h
    simp at h
    simp [h]

theorem slotDbgStdout_incomplete (T : Env) (c : GDBController) (t : Nat) (body : List Nat)
    (hlen : c.gdbOutputLen_ = 0)
    (ht0 : t ≠ 0) (hti : t ≠ IDLE) (hts : t ≠ SRC_POSITION) (hnul : ∀ b ∈ body, b ≠ 0)
    (hnone : strstr body [BLOCK_START, t] = none) :
    (∃ rest, (slotDbgStdout T c (BLOCK_START :: t :: body)).gdbOutput_ =
      BLOCK_START :: t :: (body ++ 0 :: rest)) ∧
    (slotDbgStdout T c (BLOCK_START :: t :: body)).gdbOutputLen_ = body.length + 2 ∧
    dispatches (slotDbgStdout T c (BLOCK_START :: t :: body)).log_ = dispatches c.log_ := by
  obtain ⟨⟨rest, hm⟩, hl, hg⟩ := appendOutput_spec c (BLOCK_START :: t :: body)
    (by rw [hlen]; exact Nat.zero_le _)
  rw [hlen] at hm hl
  simp only [List.take_zero, List.nil_append, List.cons_append, Nat.zero_add,
    List.length_cons] at hm hl
  have hp := parse_incomplete T (appendOutput c (BLOCK_START :: t :: body)) t body rest hm
    ht0 hti hts hnul hnone
  unfold slotDbgStdout
  rw [hp]
  have hb := executeCmd_buffer (appendOutput c (BLOCK_START :: t :: body))
  refine ⟨⟨rest, ?_⟩, ?_, ?_⟩
  · exact hb.1.trans hm
  · exact hb.2.trans hl
  · have hd : Disp (dispatches c.log_) (appendOutput c (BLOCK_START :: t :: body)) :=
      ⟨by rw [hg]⟩
    exact (Disp_executeCmd hd).eq

theorem slotDbgStdout_complete (T : Env) (c : GDBController) (t : Nat) (payload rest : List Nat)
    (hmem : c.gdbOutput_ = BLOCK_START :: t :: ((payload ++ [BLOCK_START]) ++ 0 :: rest))
    (hlen : c.gdbOutputLen_ = payload.length + 3)
    (ht0 : t ≠ 0) (hti : t ≠ IDLE) (hts : t ≠ SRC_POSITION) (hnul : ∀ b ∈ payload, b ≠ 0)
    (hsome : strstr (payload ++ [BLOCK_START, t]) [BLOCK_START, t] = some payload.length) :
    dispatches (slotDbgStdout T c [t]).log_ =
      dispatches c.log_ ++ (if t ∈ T.handled then [Event.handler t payload] else []) ∧
    (slotDbgStdout T c [t]).gdbOutputLen_ = 0 := by
  obtain ⟨⟨rest2, hm⟩, _, hg⟩ := appendOutput_spec c [t]
    (by rw [hlen, hmem]; simp only [List.length_cons, List.length_append]; omega)
  rw [hlen, hmem, block_take] at hm
  have hm2 : (appendOutput c [t]).gdbOutput_ =
      BLOCK_START :: t :: ((payload ++ [BLOCK_START, t]) ++ 0 :: rest2) := by
    rw [hm]; simp
  have hnul2 : ∀ b ∈ payload ++ [BLOCK_START, t], b ≠ 0 := by
    intro b hb
    rcases List.mem_append.1 hb with h | h
    · exact hnul b h
    · simp only [List.mem_cons, List.mem_singleton, List.not_mem_nil, or_false] at h
      rcases h with h | h
      · rw [h]; decide
      · rw [h]; exact ht0
  have hpk : ((appendOutput c [t]).poke (2 + payload.length) 0).gdbOutput_ =
      BLOCK_START :: t :: (payload ++ 0 :: (t :: 0 :: rest2)) := by
    show (appendOutput c [t]).gdbOutput_.set (2 + payload.length) 0 = _
    rw [hm2, block_set]
  have hz : BufZ ((appendOutput c [t]).poke (2 + payload.length) 0).gdbOutput_
      ((appendOutput c [t]).poke (2 + payload.length) 0).gdbOutputLen_
      (finishBlock T ((appendOutput c [t]).poke (2 + payload.length) 0) 0) :=
    BufZ_finishBlock T 0 ⟨rfl, rfl, fun _ => Or.inl rfl⟩
  have hend : byteAt (finishBlock T ((appendOutput c [t]).poke (2 + payload.length) 0) 0).gdbOutput_
      (2 + payload.length + 1 + 1) = 0 := by
    rcases hz.zero (2 + payload.length + 1 + 1) with h | h
    · rw [h, hpk]; exact block_byteAt t payload rest2
    · exact h
  obtain ⟨ok, hp⟩ := parse_complete T (appendOutput c [t]) t payload.length
    (payload ++ [BLOCK_START, t]) rest2 hm2 ht0 hti hts hnul2 hsome hend
  have htag : byteAt ((appendOutput c [t]).poke (2 + payload.length) 0).gdbOutput_ (0 + 1) = t := by
    rw [hpk]; rfl
  have hpay : cstr ((appendOutput c [t]).poke (2 + payload.length) 0).gdbOutput_ (0 + 2)
      = payload := by
    rw [hpk]; exact (cstr_block t payload (t :: 0 :: rest2) hnul).1
  have hd0 : Disp (dispatches c.log_) ((appendOutput c [t]).poke (2 + payload.length) 0) :=
    Disp_poke.2 ⟨by rw [hg]⟩
  have hd := Disp_finishBlock T 0 (by rw [htag]; exact hts) hd0
  rw [htag, hpay] at hd
  unfold slotDbgStdout
  rw [hp]
  unfold compactOutput
  simp only [touch_gdbOutput]
  rw [cstr_of_byteAt_zero _ _ hend]
  constructor
  · apply Disp.eq
    apply Disp_executeCmd
    simp only [Disp_setBuffer, Disp_touch]
    exact hd
  · rw [(executeCmd_buffer _).2]
    rfl

/-- C2 (amended): for a controller whose retained output is empty, a tag `t`
that is not NUL, idle or source-position, and a NUL-free payload that does not
contain the pair marker+`t`: when the start marker, `t`, the payload and the
marker of the closing pair arrive in one `slotDbgStdout` call and the closing
`t` in the next, the first call dispatches nothing and retains all the bytes it
was given, and the second call invokes the handler of `t` exactly once, with
that payload, provided `parseCmdBlock` has a `case` for `t`, and no handler
otherwise; it retains nothing. -/
theorem C2_split_terminator_dispatches_once (T : Env) (c : GDBController) (t : Nat)
    (payload : List Nat) (hlen : c.gdbOutputLen_ = 0)
    (ht0 : t ≠ 0) (hti : t ≠ IDLE) (hts : t ≠ SRC_POSITION)
    (hnul : ∀ b ∈ payload, b ≠ 0) (hpair : ¬ [BLOCK_START, t] <:+: payload) :
    dispatches (slotDbgStdout T c (BLOCK_START :: t :: (payload ++ [BLOCK_START]))).log_ =
      dispatches c.log_ ∧
    (slotDbgStdout T c (BLOCK_START :: t :: (payload ++ [BLOCK_START]))).gdbOutputLen_ =
      payload.length + 3 ∧
    (slotDbgStdout T c (BLOCK_START :: t :: (payload ++ [BLOCK_START]))).gdbOutput_.take
      (payload.length + 3) = BLOCK_START :: t :: (payload ++ [BLOCK_START]) ∧
    dispatches (slotDbgStdout T
        (slotDbgStdout T c (BLOCK_START :: t :: (payload ++ [BLOCK_START]))) [t]).log_ =
      dispatches c.log_ ++ (if t ∈ T.handled then [Event.handler t payload] else []) ∧
    (slotDbgStdout T
        (slotDbgStdout T c (BLOCK_START :: t :: (payload ++ [BLOCK_START]))) [t]).gdbOutputLen_
      = 0 := by
  have hb := strstr_boundary t hts payload hpair
  have hnul1 : ∀ b ∈ payload ++ [BLOCK_START], b ≠ 0 := by
    intro b hb
    rcases List.mem_append.1 hb with h | h
    · exact hnul b h
    · rw [List.mem_singleton.1 h]; decide
  obtain ⟨⟨rest, hm⟩, hl, hd⟩ := slotDbgStdout_incomplete T c t (payload ++ [BLOCK_START]) hlen
    ht0 hti hts hnul1 hb.1
  have hl3 : (slotDbgStdout T c (BLOCK_START :: t :: (payload ++ [BLOCK_START]))).gdbOutputLen_ =
      payload.length + 3 := by
    rw [hl]; simp only [List.length_append, List.length_singleton]
  obtain ⟨h1, h2⟩ := slotDbgStdout_complete T
    (slotDbgStdout T c (BLOCK_START :: t :: (payload ++ [BLOCK_START]))) t payload rest hm hl3
    ht0 hti hts hnul hb.2
  refine ⟨hd, hl3, ?_, ?_, h2⟩
  · rw [hm, block_take]
  · rw [h1, hd]

theorem C2_witness :
    startedController.gdbOutputLen_ = 0 ∧ sampleEnv.BACKTRACE = 75 ∧ 75 ∈ sampleEnv.handled ∧
    dispatches startedController.log_ = [] ∧
    dispatches (slotDbgStdout sampleEnv startedController
      (BLOCK_START :: 75 :: (str "abc" ++ [BLOCK_START]))).log_ = dispatches startedController.log_ ∧
    dispatches (slotDbgStdout sampleEnv (slotDbgStdout sampleEnv startedController
      (BLOCK_START :: 75 :: (str "abc" ++ [BLOCK_START]))) [75]).log_ =
      dispatches startedController.log_ ++
        (if 75 ∈ sampleEnv.handled then [Event.handler 75 (str "abc")] else []) :=
  have h := C2_split_terminator_dispatches_once sampleEnv startedController 75 (str "abc")
    (by decide) (by decide) (by decide) (by decide) (by decide) (by decide)
  ⟨by decide, rfl, by decide, by decide, h.1, h.2.2.2.1⟩


theorem executeCmdWrite_view (c : GDBController) (x : DbgCommand) :
    (executeCmdWrite c x).viewedThread_ = c.viewedThread_ ∧
    (executeCmdWrite c x).currentFrame_ = c.currentFrame_ := by
  unfold executeCmdWrite
  simp only [GDBController.emit]
  cases hr : x.isARunCmd <;> cases hs : c.state_.silent <;> simp [hs]

theorem executeCmd_view (c : GDBController) :
    (executeCmd c).viewedThread_ = c.viewedThread_ ∧
    (executeCmd c).currentFrame_ = c.currentFrame_ := by
  unfold executeCmd executeCmdCurrent
  repeat' first
    | split
    | exact ⟨rfl, rfl⟩
    | exact executeCmdWrite_view _ _

theorem queueCmd_view (c : GDBController) (cmd : DbgCommand) (executeNext : Bool) :
    (queueCmd c cmd executeNext).viewedThread_ = c.viewedThread_ ∧
    (queueCmd c cmd executeNext).currentFrame_ = c.currentFrame_ := by
  unfold queueCmd
  rw [(executeCmd_view _).1, (executeCmd_view _).2, queueCmdInsert_cmdList]
  exact ⟨rfl, rfl⟩

/-- C11 as stated fails: with AppBusy clear `actOnProgramPause` returns at once,
and with AppBusy and Silent set it returns after clearing AppBusy; in both
cases thread 5 and frame 2 stay viewed. -/
theorem C11_counterexample :
    viewingController.state_.appBusy = false ∧
    viewingController.viewedThread_ = 5 ∧ viewingController.currentFrame_ = 2 ∧
    (actOnProgramPause sampleEnv viewingController []).viewedThread_ = 5 ∧
    (actOnProgramPause sampleEnv viewingController []).currentFrame_ = 2 ∧
    interruptedController.state_.appBusy = true ∧ interruptedController.state_.silent = true ∧
    (actOnProgramPause sampleEnv interruptedController []).viewedThread_ = 5 ∧
    (actOnProgramPause sampleEnv interruptedController []).currentFrame_ = 2 := by
  decide

/-- C11 (amended): `actOnProgramPause` sets `viewedThread_` to -1 and
`currentFrame_` to 0 when AppBusy is set and Silent is clear; when AppBusy is
clear or Silent is set it leaves both as they were. -/
theorem C11_pause_resets_view_when_busy_and_not_silent (T : Env) (c : GDBController)
    (msg : List Nat) :
    (stateIsOn c.state_ s_appBusy = true → stateIsOn c.state_ s_silent = false →
      (actOnProgramPause T c msg).viewedThread_ = -1 ∧
      (actOnProgramPause T c msg).currentFrame_ = 0) ∧
    (stateIsOn c.state_ s_appBusy = false ∨ stateIsOn c.state_ s_silent = true →
      (actOnProgramPause T c msg).viewedThread_ = c.viewedThread_ ∧
      (actOnProgramPause T c msg).currentFrame_ = c.currentFrame_) := by
  constructor
  · intro hb hs
    have hs1 : stateIsOn (c.setOff s_appBusy).state_ s_silent = false := by
      simpa [GDBController.setOff] using hs
    unfold actOnProgramPause
    simp only [hb, if_true, hs1, Bool.false_eq_true, if_false]
    constructor
    · simp only [GDBController.emit]
      split <;> split <;> simp [queueCmd_view, GDBController.setBacktraceDue,
        GDBController.setViewed, GDBController.emit]
    · simp only [GDBController.emit]
      split <;> split <;> simp [queueCmd_view, GDBController.setBacktraceDue,
        GDBController.setViewed, GDBController.emit]
  · intro h
    unfold actOnProgramPause
    by_cases hb : stateIsOn c.state_ s_appBusy = true
    · have hs : stateIsOn c.state_ s_silent = true := by
        rcases h with h | h
        · rw [hb] at h; exact absurd h (by decide)
        · exact h
      have hs1 : stateIsOn (c.setOff s_appBusy).state_ s_silent = true := by
        simpa [GDBController.setOff] using hs
      simp only [hb, if_true, hs1]
      exact ⟨rfl, rfl⟩
    · rw [if_neg hb]
      exact ⟨rfl, rfl⟩

theorem C11_witness :
    runningController.state_.appBusy = true ∧ runningController.state_.silent = false ∧
    runningController.viewedThread_ = 5 ∧ runningController.currentFrame_ = 2 ∧
    (actOnProgramPause sampleEnv runningController []).viewedThread_ = -1 ∧
    (actOnProgramPause sampleEnv runningController []).currentFrame_ = 0 :=
  have h := (C11_pause_resets_view_when_busy_and_not_silent sampleEnv runningController []).1
    (by decide) (by decide)
  ⟨by decide, by decide, by decide, by decide, h.1, h.2⟩

/-- C15 as stated fails: after `slotDbgProcessExited` on the started controller
the flags are AppNotStarted|ProgramExited, not the flags of the constructor
(NotStarted and Silent are clear, ProgramExited is set). -/
theorem C15_counterexample :
    initialController.state_ = s_dbgNotStarted.bor (s_appNotStarted.bor s_silent) ∧
    (slotDbgProcessExited startedController).state_ = s_appNotStarted.bor s_programExited ∧
    (slotDbgProcessExited startedController).state_ ≠ initialController.state_ := by
  decide

/-- C15 (amended): after `slotDbgProcessExited` the flags are AppNotStarted and
ProgramExited, with ViewLocals and ShuttingDown as they were and every other
flag clear, which is never the value of the constructor; nothing is pending and
nothing is in flight. -/
theorem C15_process_exit_flags (c : GDBController) :
    (slotDbgProcessExited c).state_ =
      { noFlags with appNotStarted := true, programExited := true,
                     viewLocals := c.state_.viewLocals,
                     shuttingDown := c.state_.shuttingDown } ∧
    (slotDbgProcessExited c).state_ ≠ initialController.state_ ∧
    (slotDbgProcessExited c).cmdList_ = [] ∧
    (slotDbgProcessExited c).currentCmd_ = none := by
  have hs : (slotDbgProcessExited c).state_ =
      { noFlags with appNotStarted := true, programExited := true,
                     viewLocals := c.state_.viewLocals,
                     shuttingDown := c.state_.shuttingDown } := by
    simp [slotDbgProcessExited, destroyCmds, GDBController.setState, GDBController.emit]
  refine ⟨hs, ?_, rfl, rfl⟩
  rw [hs]
  intro h
  have := congrArg DBGStateFlags.programExited h
  simp [initialController] at this

/-- C19: `slotBPState` and `slotClearAllBreakpoints` return without any effect
(the controller, its log of signals and writes included, is unchanged) when
ShuttingDown or NotStarted is set, and when AppBusy is set while
`config_forceBPSet_` is off. -/
theorem C19_breakpoint_requests_rejected (T : Env) (c : GDBController) (BP : Breakpoint)
    (h : c.state_.shuttingDown = true ∨ c.state_.dbgNotStarted = true ∨
      (c.state_.appBusy = true ∧ c.config_forceBPSet_ = false)) :
    slotBPState T c BP = c ∧ slotClearAllBreakpoints T c = c := by
  unfold slotBPState slotClearAllBreakpoints
  rcases h with h | h | ⟨h1, h2⟩
  · simp [h]
  · simp [h]
  · simp [h1, h2]

theorem C19_witness :
    (GDBController.construct sampleEnv sampleConfig).state_.dbgNotStarted = true ∧
    slotBPState sampleEnv (GDBController.construct sampleEnv sampleConfig) sampleBreakpoint =
      GDBController.construct sampleEnv sampleConfig ∧
    unforcedController.state_.appBusy = true ∧ unforcedController.config_forceBPSet_ = false ∧
    unforcedController.state_.dbgNotStarted = false ∧
    unforcedController.state_.shuttingDown = false ∧
    slotClearAllBreakpoints sampleEnv unforcedController = unforcedController :=
  ⟨by decide,
   (C19_breakpoint_requests_rejected sampleEnv (GDBController.construct sampleEnv sampleConfig)
      sampleBreakpoint (Or.inr (Or.inl (by decide)))).1,
   by decide, by decide, by decide, by decide,
   (C19_breakpoint_requests_rejected sampleEnv unforcedController sampleBreakpoint
      (Or.inr (Or.inr ⟨by decide, by decide⟩))).2⟩

theorem strncmpEq_prefix (lit : String) (s rest : List Nat) (n : Nat)
    (hs : s = str lit ++ rest) (hn : n ≤ (str lit).length) : strncmpEq s lit n = true := by
  unfold strncmpEq
  rw [hs, List.append_assoc, List.take_append_of_le_length hn,
    List.take_append_of_le_length hn]
  simp

/-- C13: when `parseLine` is given a line that begins with `Program exited`,
the flags afterwards are AppNotStarted and ProgramExited, ViewLocals and
ShuttingDown as they were, and no other (AppBusy is clear); nothing is pending
and nothing is in flight; `viewedThread_` is -1 and `currentFrame_` is 0; and
`programHasExited_` is set. -/
theorem C13_program_exited_line (T : Env) (c : GDBController) (buf : Nat) (rest : List Nat)
    (hline : cstr c.gdbOutput_ buf = str "Program exited" ++ rest) :
    (parseLine T c buf).state_ =
      { noFlags with appNotStarted := true, programExited := true,
                     viewLocals := c.state_.viewLocals,
                     shuttingDown := c.state_.shuttingDown } ∧
    (parseLine T c buf).state_.appBusy = false ∧
    (parseLine T c buf).cmdList_ = [] ∧
    (parseLine T c buf).currentCmd_ = none ∧
    (parseLine T c buf).viewedThread_ = -1 ∧
    (parseLine T c buf).currentFrame_ = 0 ∧
    (parseLine T c buf).programHasExited_ = true := by
  have h1 : strncmpEq (cstr c.gdbOutput_ buf) "Prog" 4 = true := by
    refine strncmpEq_prefix "Prog" _ (str "ram exited" ++ rest) 4 ?_ (by decide)
    rw [hline, ← List.append_assoc]
    rfl
  have h2 : strncmpEq (cstr c.gdbOutput_ buf) "Program exited" 14 = true :=
    strncmpEq_prefix "Program exited" _ rest 14 hline (by decide)
  have h0 : cstr c.gdbOutput_ buf ≠ [] := by
    rw [hline]; simp [str]
  have hr : parseLine T c buf =
      (programNoApp (c.emit (Event.line (cstr c.gdbOutput_ buf))) (cstr c.gdbOutput_ buf)
        false).setProgramHasExited true := by
    unfold parseLine
    simp only [h0, if_false, h1, h2, if_true]
  rw [hr]
  simp [programNoApp, destroyCmds, GDBController.setState, GDBController.emit,
    GDBController.setViewed, GDBController.setProgramHasExited]

theorem C13_witness :
    cstr exitLineController.gdbOutput_ 0 = str "Program exited" ++ str " normally." ∧
    exitLineController.state_.appBusy = true ∧
    exitLineController.currentCmd_ = some (GDBCommand "run" RUNCMD NOTINFOCMD 0).markSent ∧
    exitLineController.viewedThread_ = 5 ∧
    (parseLine sampleEnv exitLineController 0).state_ = s_appNotStarted.bor s_programExited ∧
    (parseLine sampleEnv exitLineController 0).cmdList_ = [] ∧
    (parseLine sampleEnv exitLineController 0).currentCmd_ = none ∧
    (parseLine sampleEnv exitLineController 0).viewedThread_ = -1 ∧
    (parseLine sampleEnv exitLineController 0).currentFrame_ = 0 ∧
    (slotDbgStdout sampleEnv runningController (str "Program exited normally.\n")).state_ =
      s_appNotStarted.bor s_programExited ∧
    (slotDbgStdout sampleEnv runningController (str "Program exited normally.\n")).cmdList_ = [] ∧
    (slotDbgStdout sampleEnv runningController (str "Program exited normally.\n")).currentCmd_
      = none ∧
    dispatches ((slotDbgStdout sampleEnv runningController
      (str "Program exited normally.\n")).log_.drop runningController.log_.length) =
      [Event.line (str "Program exited normally.")] :=
  have h := C13_program_exited_line sampleEnv exitLineController 0 (str " normally.") (by decide)
  ⟨by decide, by decide, by decide, by decide, by rw [h.1]; decide, h.2.2.1, h.2.2.2.1,
   h.2.2.2.2.1, h.2.2.2.2.2.1, by decide, by decide, by decide, by decide⟩

theorem waitLoop_timer (T : Env) (leave : GDBController → Bool) (rounds : List (List Op)) :
    ∀ c : GDBController, ∃ d, waitLoop T leave (rounds ++ [[Op.slotAbortTimedEvent]]) c = some d := by
  induction rounds with
  | nil =>
    intro c
    simp only [List.nil_append, waitLoop]
    split
    · exact ⟨c, rfl⟩
    · refine ⟨runOps T c [Op.slotAbortTimedEvent], ?_⟩
      simp [runOps, applyOp, slotAbortTimedEvent, GDBController.setOff]
  | cons ops rest ih =>
    intro c
    simp only [List.cons_append, waitLoop]
    split
    · exact ⟨c, rfl⟩
    · exact ih _

theorem stopEnd_state (c : GDBController) :
    (stopEnd c).state_ = s_dbgNotStarted.bor (s_appNotStarted.bor s_silent) ∧
    (stopEnd c).dbgProcess_ = false := by
  unfold stopEnd
  dsimp only
  split <;> exact ⟨rfl, rfl⟩

/-- C14: when ShuttingDown is set or there is no debugger process,
`slotStopDebugger` changes nothing.  Otherwise, whatever the event loop delivers
during its two wait loops, when it returns the flags are exactly
NotStarted|AppNotStarted|Silent, the value the constructor gives them, and the
process is gone; and it does return once the timer of each wait loop has fired
(`slotAbortTimedEvent`). -/
theorem C14_stop_resets_flags (T : Env) (c : GDBController) :
    ((c.state_.shuttingDown = true ∨ c.dbgProcess_ = false) →
      ∀ detachRounds quitRounds, slotStopDebugger T c detachRounds quitRounds = some c) ∧
    ((c.state_.shuttingDown = false ∧ c.dbgProcess_ = true) →
      (∀ detachRounds quitRounds d, slotStopDebugger T c detachRounds quitRounds = some d →
        d.state_ = s_dbgNotStarted.bor (s_appNotStarted.bor s_silent) ∧
        d.state_ = initialController.state_ ∧ d.dbgProcess_ = false) ∧
      (∀ detachRounds quitRounds, ∃ d,
        slotStopDebugger T c (detachRounds ++ [[Op.slotAbortTimedEvent]])
          (quitRounds ++ [[Op.slotAbortTimedEvent]]) = some d ∧
        d.state_ = s_dbgNotStarted.bor (s_appNotStarted.bor s_silent))) := by
  constructor
  · intro h dr qr
    unfold slotStopDebugger
    rcases h with h | h <;> simp [h]
  · rintro ⟨h1, h2⟩
    have hg : (!stateIsOn c.state_ s_shuttingDown && c.dbgProcess_) = true := by
      simp [h1, h2]
    have key : ∀ dr qr d, slotStopDebugger T c dr qr = some d →
        d.state_ = s_dbgNotStarted.bor (s_appNotStarted.bor s_silent) ∧ d.dbgProcess_ = false := by
      intro dr qr d hd
      unfold slotStopDebugger at hd
      rw [if_pos hg] at hd
      dsimp only at hd
      split at hd
      · split at hd
        · cases hd
          exact stopEnd_state _
        · cases hd
      · cases hd
    constructor
    · intro dr qr d hd
      have := key dr qr d hd
      exact ⟨this.1, this.1.trans rfl, this.2⟩
    · intro dr qr
      have hex : ∃ d, slotStopDebugger T c (dr ++ [[Op.slotAbortTimedEvent]])
          (qr ++ [[Op.slotAbortTimedEvent]]) = some d := by
        by_cases ha : stateIsOn ((pauseApp (destroyCmds (c.setOn
            (s_shuttingDown.bor s_silent)))).setOn s_waitTimer).state_ s_attached = true
        · obtain ⟨d1, hd1⟩ := waitLoop_timer T (fun d => !stateIsOn d.state_ s_attached) dr
            (queueCmd ((pauseApp (destroyCmds (c.setOn (s_shuttingDown.bor s_silent)))).setOn
              s_waitTimer) (GDBCommand "detach" NOTRUNCMD NOTINFOCMD T.DETACH) false)
          obtain ⟨d2, hd2⟩ := waitLoop_timer T (fun d => stateIsOn d.state_ s_programExited) qr
            (stopQuit d1)
          refine ⟨stopEnd d2, ?_⟩
          unfold slotStopDebugger
          rw [if_pos hg]
          dsimp only
          rw [if_pos ha, hd1]
          dsimp only
          rw [hd2]
        · obtain ⟨d2, hd2⟩ := waitLoop_timer T (fun d => stateIsOn d.state_ s_programExited) qr
            (stopQuit ((pauseApp (destroyCmds (c.setOn (s_shuttingDown.bor s_silent)))).setOn
              s_waitTimer))
          refine ⟨stopEnd d2, ?_⟩
          unfold slotStopDebugger
          rw [if_pos hg]
          dsimp only
          rw [if_neg ha]
          dsimp only
          rw [hd2]
      obtain ⟨d, hd⟩ := hex
      exact ⟨d, hd, (key _ _ d hd).1⟩

theorem C14_witness :
    settledController.state_.shuttingDown = false ∧ settledController.dbgProcess_ = true ∧
    settledController.state_ ≠ initialController.state_ ∧
    (slotStopDebugger sampleEnv settledController [] [[Op.slotDbgProcessExited]]).map
      (fun d => d.state_) = some initialController.state_ ∧
    (slotStopDebugger sampleEnv settledController [] [[Op.slotDbgProcessExited]]).map
      (fun d => d.log_.drop settledController.log_.length) =
      some [Event.writeStdin "quit\n",
        Event.dbgStatus (str "Process exited") (s_appNotStarted.bor (s_programExited.bor
          s_shuttingDown)),
        Event.dbgStatus (str "Debugger stopped") initialController.state_] ∧
    slotStopDebugger sampleEnv settledController [] [] = none ∧
    (slotStopDebugger sampleEnv settledController [] [[Op.slotAbortTimedEvent]]).map
      (fun d => (d.state_, d.log_.drop settledController.log_.length)) =
      some (initialController.state_, [Event.writeStdin "quit\n", Event.kill Signal.SIGKILL,
        Event.dbgStatus (str "Debugger stopped") initialController.state_]) ∧
    (∃ d, slotStopDebugger sampleEnv settledController ([] ++ [[Op.slotAbortTimedEvent]])
        ([[Op.slotRun]] ++ [[Op.slotAbortTimedEvent]]) = some d ∧
      d.state_ = s_dbgNotStarted.bor (s_appNotStarted.bor s_silent)) :=
  ⟨by decide, by decide, by decide, by decide, by decide, by decide, by decide,
   ((C14_stop_resets_flags sampleEnv settledController).2 ⟨by decide, by decide⟩).2 []
     [[Op.slotRun]]⟩

theorem queueCmd_busy (c : GDBController) (cmd : DbgCommand) (executeNext : Bool)
    (h : c.state_.appBusy = true) :
    queueCmd c cmd executeNext = { c with cmdList_ := queuedList c.cmdList_ cmd executeNext } := by
  unfold queueCmd
  rw [queueCmdInsert_cmdList]
  exact executeCmd_blocked _ (by simp [h])

theorem queueCmd_busy_fields (c : GDBController) (cmd : DbgCommand) (executeNext : Bool)
    (h : c.state_.appBusy = true) :
    (queueCmd c cmd executeNext).state_ = c.state_ ∧
    (queueCmd c cmd executeNext).currentCmd_ = c.currentCmd_ ∧
    (queueCmd c cmd executeNext).log_ = c.log_ := by
  rw [queueCmd_busy c cmd executeNext h]
  exact ⟨rfl, rfl, rfl⟩

theorem modifyBreakpoint_busy_fields (T : Env) (c : GDBController) (BP : Breakpoint)
    (h : c.state_.appBusy = true) :
    (modifyBreakpoint T c BP).state_ = c.state_ ∧
    (modifyBreakpoint T c BP).currentCmd_ = c.currentCmd_ ∧
    (modifyBreakpoint T c BP).log_ = c.log_ := by
  unfold modifyBreakpoint
  dsimp only
  split
  · have step : ∀ (d : GDBController) (cmd : DbgCommand) (p : Prop) [Decidable p],
        (d.state_ = c.state_ ∧ d.currentCmd_ = c.currentCmd_ ∧ d.log_ = c.log_) →
        ((if p then queueCmd d cmd false else d).state_ = c.state_ ∧
         (if p then queueCmd d cmd false else d).currentCmd_ = c.currentCmd_ ∧
         (if p then queueCmd d cmd false else d).log_ = c.log_) := by
      intro d cmd p _ hd
      split
      · have hb : d.state_.appBusy = true := by rw [hd.1]; exact h
        have := queueCmd_busy_fields d cmd false hb
        exact ⟨this.1.trans hd.1, this.2.1.trans hd.2.1, this.2.2.trans hd.2.2⟩
      · exact hd
    have h1 := step c (GDBCommand ("condition " ++ intText BP.dbgId ++ " " ++ BP.conditional)
      NOTRUNCMD NOTINFOCMD T.defaultPrompt) (BP.changedCondition = true) ⟨rfl, rfl, rfl⟩
    have h2 := step _ (GDBCommand ("ignore " ++ intText BP.dbgId ++ " " ++ intText BP.ignoreCount)
      NOTRUNCMD NOTINFOCMD T.defaultPrompt) (BP.changedIgnoreCount = true) h1
    have h3 := step _ (GDBCommand ((if BP.isEnabled then "enable" else "disable") ++ " "
      ++ intText BP.dbgId) NOTRUNCMD NOTINFOCMD T.defaultPrompt) (BP.changedEnable = true) h2
    have := queueCmd_busy_fields _ (GDBCommand "info breakpoints" NOTRUNCMD NOTINFOCMD T.BPLIST)
      false (by rw [h3.1]; exact h)
    exact ⟨this.1.trans h3.1, this.2.1.trans h3.2.1, this.2.2.trans h3.2.2⟩
  · exact ⟨rfl, rfl, rfl⟩

theorem executeCmd_dispatch_head (d : GDBController) (cmd : DbgCommand) (rest : List DbgCommand)
    (hcur : d.currentCmd_ = none) (hl : d.cmdList_ = cmd :: rest)
    (hfree : stateIsOn d.state_ (s_dbgNotStarted.bor (s_waitForWrite.bor s_appBusy)) = false)
    (hun : cmd.moreToSend = true) :
    executeCmd d = executeCmdWrite { d with currentCmd_ := some cmd, cmdList_ := rest } cmd := by
  unfold executeCmd
  rw [if_neg (by rw [hfree]; decide)]
  simp only [hcur, hl]
  unfold executeCmdCurrent
  simp only [hun, Bool.not_true, Bool.false_eq_true, if_false]

theorem queueCmd_blocked (c : GDBController) (cmd : DbgCommand) (executeNext : Bool)
    (h : c.state_.waitForWrite = true ∨ c.state_.dbgNotStarted = true ∨ c.state_.appBusy = true) :
    queueCmd c cmd executeNext = { c with cmdList_ := queuedList c.cmdList_ cmd executeNext } := by
  unfold queueCmd
  rw [queueCmdInsert_cmdList]
  refine executeCmd_blocked _ ?_
  rcases h with h | h | h <;> simp [h]

theorem actOnProgramPause_blocked (T : Env) (c : GDBController) (msg : List Nat)
    (hbusy : c.state_.appBusy = true) (hsilent : c.state_.silent = false)
    (hthreads : c.state_.viewThreads = true)
    (hblocked : c.state_.waitForWrite = true ∨ c.state_.dbgNotStarted = true) :
    (actOnProgramPause T c msg).cmdList_ =
      GDBCommand "backtrace" NOTRUNCMD INFOCMD T.BACKTRACE ::
      GDBCommand "info thread" NOTRUNCMD INFOCMD T.INFOTHREAD ::
      (c.cmdList_ ++ if c.state_.viewLocals = true then
        [GDBCommand "info args" NOTRUNCMD INFOCMD T.ARGS,
         GDBCommand "info local" NOTRUNCMD INFOCMD T.LOCALS] else []) ∧
    (actOnProgramPause T c msg).currentCmd_ = c.currentCmd_ ∧
    written (actOnProgramPause T c msg).log_ = written c.log_ := by
  have hq : ∀ (d : GDBController) (cmd : DbgCommand) (b : Bool),
      (d.state_.waitForWrite = true ∨ d.state_.dbgNotStarted = true) →
      queueCmd d cmd b = { d with cmdList_ := queuedList d.cmdList_ cmd b } := by
    intro d cmd b h
    refine queueCmd_blocked d cmd b ?_
    rcases h with h | h
    · exact Or.inl h
    · exact Or.inr (Or.inl h)
  cases hv : c.state_.viewLocals <;> rcases hblocked with hw | hw <;>
    simp [actOnProgramPause, hq, hbusy, hsilent, hthreads, hw, hv, GDBController.setOff,
      GDBController.emit, GDBController.setViewed, GDBController.setBacktraceDue, queuedList,
      GDBCommand, DbgCommand.isARunCmd, NOTRUNCMD, written, List.filterMap_append]

theorem queueCmd_free_head (d : GDBController) (cmd : DbgCommand)
    (hw : d.state_.waitForWrite = false) (hn : d.state_.dbgNotStarted = false)
    (hb : d.state_.appBusy = false)
    (hcur : ∀ x, d.currentCmd_ = some x → x.moreToSend = false ∧ x.expectReply = false)
    (hrun : cmd.isARunCmd = false) (hun : cmd.moreToSend = true) :
    queueCmd d cmd true = executeCmdWrite { d with currentCmd_ := some cmd } cmd := by
  unfold queueCmd
  rw [queueCmdInsert_cmdList]
  unfold executeCmd
  rw [if_neg (by simp [hw, hn, hb])]
  simp only [queuedList, hrun, Bool.false_eq_true, if_false, if_true]
  cases hc : d.currentCmd_ with
  | none =>
    simp only [executeCmdCurrent, hun, Bool.not_true, Bool.false_eq_true, if_false]
  | some x =>
    have := hcur x hc
    simp only [executeCmdCurrent, this.1, this.2, Bool.not_false, if_true, Bool.false_eq_true,
      if_false, hun, Bool.not_true]

theorem actOnProgramPause_free (T : Env) (c : GDBController) (msg : List Nat)
    (hbusy : c.state_.appBusy = true) (hsilent : c.state_.silent = false)
    (hthreads : c.state_.viewThreads = true)
    (hw : c.state_.waitForWrite = false) (hn : c.state_.dbgNotStarted = false)
    (hcur : ∀ x, c.currentCmd_ = some x → x.moreToSend = false ∧ x.expectReply = false) :
    (actOnProgramPause T c msg).currentCmd_ =
      some (GDBCommand "info thread" NOTRUNCMD INFOCMD T.INFOTHREAD).markSent ∧
    (actOnProgramPause T c msg).cmdList_ =
      GDBCommand "backtrace" NOTRUNCMD INFOCMD T.BACKTRACE ::
      (c.cmdList_ ++ if c.state_.viewLocals = true then
        [GDBCommand "info args" NOTRUNCMD INFOCMD T.ARGS,
         GDBCommand "info local" NOTRUNCMD INFOCMD T.LOCALS] else []) ∧
    written (actOnProgramPause T c msg).log_ = written c.log_ ++ ["info thread"] := by
  have hq : ∀ (d : GDBController) (cmd : DbgCommand) (b : Bool),
      d.state_.waitForWrite = true →
      queueCmd d cmd b = { d with cmdList_ := queuedList d.cmdList_ cmd b } :=
    fun d cmd b h => queueCmd_blocked d cmd b (Or.inl h)
  have h1 : stateIsOn c.state_ s_appBusy = true := by simp [hbusy]
  have h2 : stateIsOn (c.setOff s_appBusy).state_ s_silent = false := by
    simp [GDBController.setOff, hsilent]
  have h3 : stateIsOn (((((c.setOff s_appBusy).emit (Event.dbgStatus msg
      (c.setOff s_appBusy).state_)).setViewed (-1) 0).emit
      (Event.widget "setActiveFlag" [])).setBacktraceDue true).state_ s_viewThreads = true := by
    simp [GDBController.setOff, GDBController.emit, GDBController.setViewed,
      GDBController.setBacktraceDue, hthreads]
  have hf : queueCmd (((((c.setOff s_appBusy).emit (Event.dbgStatus msg
        (c.setOff s_appBusy).state_)).setViewed (-1) 0).emit
        (Event.widget "setActiveFlag" [])).setBacktraceDue true)
      (GDBCommand "info thread" NOTRUNCMD INFOCMD T.INFOTHREAD) true = _ :=
    queueCmd_free_head _ _
      (by simpa [GDBController.setOff, GDBController.emit, GDBController.setViewed,
        GDBController.setBacktraceDue] using hw)
      (by simpa [GDBController.setOff, GDBController.emit, GDBController.setViewed,
        GDBController.setBacktraceDue] using hn)
      (by simp [GDBController.setOff, GDBController.emit, GDBController.setViewed,
        GDBController.setBacktraceDue])
      (fun x hx => hcur x hx) rfl rfl
  unfold actOnProgramPause
  simp only [h1, h2, h3, if_true, Bool.false_eq_true, if_false, hf]
  cases hv : c.state_.viewLocals <;>
    simp [hq, hbusy, hsilent, hthreads, hw, hn, hv, GDBController.setOff,
      GDBController.emit, GDBController.setViewed, GDBController.setBacktraceDue, queuedList,
      GDBCommand, DbgCommand.isARunCmd, NOTRUNCMD, written, List.filterMap_append,
      executeCmdWrite, DbgCommand.markSent]

/-- C12, the code at the failing input and in general.  For a state with
AppBusy and ViewThreads set and Silent clear, `actOnProgramPause` puts
`info thread` and then `backtrace` at the head of the pending list.  When the
first `queueCmd` can write at once (no write outstanding, gdb started, the
in-flight command done), `info thread` is written during the call and
`backtrace` stays at the head of the list: the order is `info thread`,
`backtrace`.  When it cannot (WaitingOnWrite or NotStarted set) nothing is
written and `backtrace` stands before `info thread` in the list.  The second
case is reached when gdb reports a stop before the write of `run` has been
acknowledged: then `backtrace` is written before `info thread`. -/
theorem C12_refresh_order_depends_on_dispatch (T : Env) (c : GDBController) (msg : List Nat) :
    (c.state_.appBusy = true → c.state_.silent = false → c.state_.viewThreads = true →
      c.state_.waitForWrite = false → c.state_.dbgNotStarted = false →
      (∀ x, c.currentCmd_ = some x → x.moreToSend = false ∧ x.expectReply = false) →
      written (actOnProgramPause T c msg).log_ = written c.log_ ++ ["info thread"] ∧
      (actOnProgramPause T c msg).cmdList_ =
        GDBCommand "backtrace" NOTRUNCMD INFOCMD T.BACKTRACE ::
        (c.cmdList_ ++ if c.state_.viewLocals = true then
          [GDBCommand "info args" NOTRUNCMD INFOCMD T.ARGS,
           GDBCommand "info local" NOTRUNCMD INFOCMD T.LOCALS] else [])) ∧
    (c.state_.appBusy = true → c.state_.silent = false → c.state_.viewThreads = true →
      (c.state_.waitForWrite = true ∨ c.state_.dbgNotStarted = true) →
      written (actOnProgramPause T c msg).log_ = written c.log_ ∧
      (actOnProgramPause T c msg).cmdList_ =
        GDBCommand "backtrace" NOTRUNCMD INFOCMD T.BACKTRACE ::
        GDBCommand "info thread" NOTRUNCMD INFOCMD T.INFOTHREAD ::
        (c.cmdList_ ++ if c.state_.viewLocals = true then
          [GDBCommand "info args" NOTRUNCMD INFOCMD T.ARGS,
           GDBCommand "info local" NOTRUNCMD INFOCMD T.LOCALS] else [])) ∧
    (Reachable sampleEnv Phase.idle threadRunController ∧
      threadRunController.state_.appBusy = true ∧ threadRunController.state_.silent = false ∧
      threadRunController.state_.viewThreads = true ∧
      threadRunController.state_.waitForWrite = true ∧
      threadRunController.cmdList_ = [] ∧
      (slotDbgStdout sampleEnv threadRunController stopLine).cmdList_ =
        [GDBCommand "backtrace" NOTRUNCMD INFOCMD sampleEnv.BACKTRACE,
         GDBCommand "info thread" NOTRUNCMD INFOCMD sampleEnv.INFOTHREAD] ∧
      written (slotDbgStdout sampleEnv threadRunController stopLine).log_ =
        written threadRunController.log_ ∧
      (written (runOps sampleEnv threadRunController
          [Op.slotDbgStdout stopLine, Op.slotDbgWroteStdin,
           Op.slotDbgStdout [BLOCK_START, sampleEnv.BACKTRACE, BLOCK_START, sampleEnv.BACKTRACE,
             BLOCK_START, IDLE],
           Op.slotDbgWroteStdin]).log_).drop (written threadRunController.log_).length =
        ["backtrace", "info thread"] ∧
      (written (runOps sampleEnv threadRunController
          [Op.slotDbgWroteStdin, Op.slotDbgStdout stopLine, Op.slotDbgWroteStdin,
           Op.slotDbgStdout [BLOCK_START, sampleEnv.INFOTHREAD, BLOCK_START,
             sampleEnv.INFOTHREAD, BLOCK_START, IDLE],
           Op.slotDbgWroteStdin]).log_).drop (written threadRunController.log_).length =
        ["info thread", "backtrace"]) := by
  refine ⟨?_, ?_, ?_⟩
  · intro hb hs ht hw hn hcur
    have h := actOnProgramPause_free T c msg hb hs ht hw hn hcur
    exact ⟨h.2.2, h.2.1⟩
  · intro hb hs ht hbl
    have h := actOnProgramPause_blocked T c msg hb hs ht hbl
    exact ⟨h.2.2, h.1⟩
  · refine ⟨?_, by decide, by decide, by decide, by decide, by decide, by decide, by decide,
      by decide, by decide⟩
    exact Reachable.call Op.slotRun
      (Reachable.call (Op.slotDbgStdout (str "[New Thread 1]\n"))
        (reachable_runOps _ reachable_started))

theorem written_append (a b : List Event) : written (a ++ b) = written a ++ written b := by
  simp [written, List.filterMap_append]

theorem executeCmdWrite_written (c : GDBController) (x : DbgCommand) :
    written (executeCmdWrite c x).log_ = written c.log_ ++ [x.command_] := by
  unfold executeCmdWrite
  simp only [GDBController.emit]
  split <;> split <;> simp [written, List.filterMap_append]

/-- What `executeCmd` does on a well-formed queue: nothing when a flag blocks
it or the in-flight command awaits its reply; otherwise it writes the command
at the head of the pending list, if there is one. -/
theorem executeCmd_wf (d : GDBController) (hwf : QueueWF d) :
    ((stateIsOn d.state_ (s_dbgNotStarted.bor (s_waitForWrite.bor s_appBusy)) = true ∨
        (∃ y, d.currentCmd_ = some y ∧ y.expectReply = true)) ∧ executeCmd d = d) ∨
    (stateIsOn d.state_ (s_dbgNotStarted.bor (s_waitForWrite.bor s_appBusy)) = false ∧
      (∀ y, d.currentCmd_ = some y → y.expectReply = false) ∧
      ((d.cmdList_ = [] ∧ executeCmd d = { d with currentCmd_ := none }) ∨
       (∃ x rest, d.cmdList_ = x :: rest ∧
         executeCmd d = executeCmdWrite { d with currentCmd_ := some x, cmdList_ := rest } x))) := by
  by_cases hg : stateIsOn d.state_ (s_dbgNotStarted.bor (s_waitForWrite.bor s_appBusy)) = true
  · exact Or.inl ⟨Or.inl hg, executeCmd_blocked d hg⟩
  · have hg' : stateIsOn d.state_ (s_dbgNotStarted.bor (s_waitForWrite.bor s_appBusy)) = false := by
      simpa using hg
    cases hc : d.currentCmd_ with
    | none =>
      right
      refine ⟨hg', (fun y hy => by cases hy), ?_⟩
      cases hl : d.cmdList_ with
      | nil =>
        left
        refine ⟨rfl, ?_⟩
        unfold executeCmd
        rw [if_neg hg]
        simp only [hc, hl]
        cases d
        simp_all
      | cons x rest =>
        right
        refine ⟨x, rest, rfl, ?_⟩
        have hx : x.moreToSend = true := hwf.unsent x (by rw [hl]; exact List.mem_cons_self _ _)
        unfold executeCmd
        rw [if_neg hg]
        simp only [hc, hl, executeCmdCurrent, hx, Bool.not_true, Bool.false_eq_true, if_false]
    | some y =>
      have hy : y.moreToSend = false := hwf.sent y hc
      cases he : y.expectReply with
      | true =>
        exact Or.inl ⟨Or.inr ⟨y, rfl, he⟩, executeCmd_in_flight d y hc hy he⟩
      | false =>
        right
        refine ⟨hg', (fun z hz => by cases hz; exact he), ?_⟩
        cases hl : d.cmdList_ with
        | nil =>
          left
          refine ⟨rfl, ?_⟩
          unfold executeCmd
          rw [if_neg hg]
          simp only [hc, executeCmdCurrent, hy, he, hl, Bool.not_false, if_true,
            Bool.false_eq_true, if_false]
        | cons x rest =>
          right
          refine ⟨x, rest, rfl, ?_⟩
          unfold executeCmd
          rw [if_neg hg]
          simp only [hc, executeCmdCurrent, hy, he, hl, Bool.not_false, if_true,
            Bool.false_eq_true, if_false]

theorem QueueWF_executeCmd {d : GDBController} (hwf : QueueWF d) :
    QueueWF (executeCmd d) ∧ sendOrder (executeCmd d) = sendOrder d := by
  rcases executeCmd_wf d hwf with ⟨_, h⟩ | ⟨_, _, ⟨hl, h⟩ | ⟨x, rest, hl, h⟩⟩
  · rw [h]; exact ⟨hwf, rfl⟩
  · rw [h]
    exact ⟨⟨(fun x hx => by cases hx), hwf.unsent⟩, rfl⟩
  · rw [h]
    constructor
    · constructor
      · intro z hz
        rw [(executeCmdWrite_spec _ x).1] at hz
        cases hz
        rfl
      · intro z hz
        rw [executeCmdWrite_cmdList] at hz
        exact hwf.unsent z (by rw [hl]; exact List.mem_cons_of_mem _ hz)
    · unfold sendOrder
      rw [executeCmdWrite_written, executeCmdWrite_cmdList, hl]
      simp

theorem cstr_of_drop (mem : List Nat) (buf : Nat) (s rest : List Nat)
    (h : mem.drop buf = s ++ 0 :: rest) (hs : ∀ b ∈ s, b ≠ 0) : cstr mem buf = s := by
  unfold cstr
  rw [h, List.takeWhile_append_of_pos (by simpa using hs)]
  simp

theorem isDigit_ne_zero {d : Nat} (h : isDigit d = true) : d ≠ 0 := by
  unfold isDigit at h
  simp only [Bool.and_eq_true, decide_eq_true_eq] at h
  omega

theorem takeWhile_numeral (ds rest : List Nat) (hdig : ∀ d ∈ ds, isDigit d = true) :
    (ds ++ 0 :: rest).takeWhile isDigit = ds ∧ (ds ++ 0 :: rest).dropWhile isDigit = 0 :: rest := by
  constructor
  · rw [List.takeWhile_append_of_pos hdig]
    simp [List.takeWhile, isDigit]
  · rw [List.dropWhile_append_of_pos hdig]
    simp [List.dropWhile, isDigit]

theorem truncInt_small (v : Nat) (h : v < 2147483648) :
    truncInt (min (v : Int) 9223372036854775807) = v := by
  have h1 : min (v : Int) 9223372036854775807 = v := min_eq_left (by omega)
  rw [h1]
  unfold truncInt
  dsimp only
  have h2 : (v : Int) % 4294967296 = v := by omega
  rw [h2, if_pos (by omega)]

theorem atoi_numeral (ds rest : List Nat) (hne : ds ≠ []) (hdig : ∀ d ∈ ds, isDigit d = true) :
    atoi (ds ++ 0 :: rest) = truncInt (min (digitsValue ds : Int) 9223372036854775807) ∧
    atoiDefined (ds ++ 0 :: rest) = decide (digitsValue ds < 2147483648) := by
  have ht := takeWhile_numeral ds rest hdig
  cases ds with
  | nil => exact absurd rfl hne
  | cons d tl =>
    have hd : isDigit d = true := hdig d (List.mem_cons_self _ _)
    have hd' := hd
    unfold isDigit at hd'
    simp only [Bool.and_eq_true, decide_eq_true_eq] at hd'
    have hsp : isSpace d = false := by
      unfold isSpace
      simp only [Bool.or_eq_false_iff, beq_eq_false_iff_ne, ne_eq, Bool.and_eq_false_iff,
        decide_eq_false_iff_not]
      omega
    have h45 : d ≠ 45 := by omega
    have h43 : d ≠ 43 := by omega
    have hdw : (d :: tl ++ 0 :: rest).dropWhile isSpace = d :: tl ++ 0 :: rest := by
      simp [List.dropWhile, hsp]
    constructor
    · unfold atoi
      rw [hdw]
      dsimp only
      split
      · rename_i r heq
        simp only [List.cons_append, List.cons.injEq] at heq
        exact absurd heq.1 h45
      · rename_i r heq
        simp only [List.cons_append, List.cons.injEq] at heq
        exact absurd heq.1 h43
      · rw [ht.1]
    · unfold atoiDefined
      rw [hdw]
      dsimp only
      split
      · rename_i r heq
        simp only [List.cons_append, List.cons.injEq] at heq
        exact absurd heq.1 h45
      · rename_i r heq
        simp only [List.cons_append, List.cons.injEq] at heq
        exact absurd heq.1 h43
      · rw [ht.1, ht.2]
        simp

theorem actOnProgramPause_silent (T : Env) (c : GDBController) (msg : List Nat)
    (hs : c.state_.silent = true) :
    actOnProgramPause T c msg = { c with state_ := { c.state_ with appBusy := false } } := by
  unfold actOnProgramPause
  cases hb : c.state_.appBusy
  · simp [hb]
    cases c with
    | mk a1 a2 a3 a4 a5 a6 a7 a8 a9 a10 st a12 a13 a14 a15 a16 a17 a18 a19 a20 a21 a22 a23 =>
      cases st
      simp_all
  · simp [hb, hs, GDBController.setOff]

theorem parseLine_cannot_insert (T : Env) (c : GDBController) (buf : Nat) (ds rest : List Nat)
    (hline : c.gdbOutput_.drop buf = str "Cannot insert breakpoint " ++ ds ++ 0 :: rest)
    (hne : ds ≠ []) (hdig : ∀ d ∈ ds, isDigit d = true)
    (hpos : 0 < digitsValue ds) (hint : digitsValue ds < 2147483648) :
    cstr c.gdbOutput_ buf = str "Cannot insert breakpoint " ++ ds ∧
    (c.programHasExited_ = false →
      parseLine T c buf = c.emit (Event.line (str "Cannot insert breakpoint " ++ ds))) ∧
    (c.programHasExited_ = true →
      parseLine T c buf =
        queueCmd (queueCmd (queueCmd
          { c with
            state_ := { c.state_ with silent := true, appBusy := false },
            log_ := c.log_ ++ [Event.line (str "Cannot insert breakpoint " ++ ds),
              Event.unableToSetBPNow (digitsValue ds)] }
          (GDBCommand ("delete " ++ intText (digitsValue ds)) NOTRUNCMD NOTINFOCMD T.defaultPrompt)
          false)
          (GDBCommand "info breakpoints" NOTRUNCMD NOTINFOCMD T.BPLIST) false)
          (GDBCommand "continue" RUNCMD NOTINFOCMD 0) false) := by
  have hnz : ∀ b ∈ str "Cannot insert breakpoint " ++ ds, b ≠ 0 := by
    intro b hb
    rcases List.mem_append.1 hb with h | h
    · intro h0
      rw [h0] at h
      revert h
      decide
    · exact isDigit_ne_zero (hdig b h)
  have hs : cstr c.gdbOutput_ buf = str "Cannot insert breakpoint " ++ ds :=
    cstr_of_drop _ _ _ rest (by rw [hline]) hnz
  have h0 : cstr c.gdbOutput_ buf ≠ [] := by rw [hs]; simp [str]
  have hprog : strncmpEq (cstr c.gdbOutput_ buf) "Prog" 4 = false := by
    rw [hs]
    have : str "Cannot insert breakpoint " ++ ds = str "Cann" ++ (str "ot insert breakpoint " ++ ds) := by
      rw [← List.append_assoc]; rfl
    unfold strncmpEq
    rw [this, List.append_assoc, List.take_append_of_le_length (by decide)]
    decide
  have hcann : strncmpEq (cstr c.gdbOutput_ buf) "Cann" 4 = true :=
    strncmpEq_prefix "Cann" _ (str "ot insert breakpoint " ++ ds) 4
      (by rw [hs, ← List.append_assoc]; rfl) (by decide)
  have hcannot : strncmpEq (cstr c.gdbOutput_ buf) "Cannot insert breakpoint" 24 = true :=
    strncmpEq_prefix "Cannot insert breakpoint" _ ([32] ++ ds) 24
      (by rw [hs, ← List.append_assoc]; rfl) (by decide)
  have hdrop : c.gdbOutput_.drop (buf + 25) = ds ++ 0 :: rest := by
    have h25 : (str "Cannot insert breakpoint ").length = 25 := by decide
    rw [← List.drop_drop, hline, List.append_assoc, ← h25, List.drop_left]
  have hat0 := atoi_numeral ds rest hne hdig
  have hat : atoi (ds ++ 0 :: rest) = (digitsValue ds : Int) ∧
      atoiDefined (ds ++ 0 :: rest) = decide (digitsValue ds < 2147483648) :=
    ⟨hat0.1.trans (truncInt_small _ hint), hat0.2⟩
  refine ⟨hs, ?_, ?_⟩
  · intro hex
    unfold parseLine
    simp only [h0, if_false, hprog, Bool.false_eq_true, hcann, hcannot, if_true]
    rw [hs]
    have : (c.emit (Event.line (str "Cannot insert breakpoint " ++ ds))).programHasExited_
        = false := hex
    simp only [this, Bool.false_eq_true, if_false]
  · intro hex
    unfold parseLine
    simp only [h0, if_false, hprog, Bool.false_eq_true, hcann, hcannot, if_true]
    simp only [hs]
    have hpe : (c.emit (Event.line (str "Cannot insert breakpoint " ++ ds))).programHasExited_
        = true := hex
    have hX : actOnProgramPause T
          ((c.emit (Event.line (str "Cannot insert breakpoint " ++ ds))).setOn s_silent) []
        = { c with
            state_ := { c.state_ with silent := true, appBusy := false },
            log_ := c.log_ ++ [Event.line (str "Cannot insert breakpoint " ++ ds)] } := by
      rw [actOnProgramPause_silent T _ [] (by simp [GDBController.setOn])]
      simp [GDBController.emit, GDBController.setOn]
    have hN : ((digitsValue ds : Int) != 0) = true := by
      simp only [bne_iff_ne, ne_eq, Int.natCast_eq_zero]
      omega
    simp only [hpe, if_true, hX, hdrop, hat.1, hat.2, hint, decide_True, touch_true, hN]
    simp [GDBController.emit]

theorem executeCmd_stuck (d : GDBController)
    (h : d.state_.waitForWrite = true ∨ d.state_.dbgNotStarted = true ∨
      d.state_.appBusy = true ∨
      ∃ y, d.currentCmd_ = some y ∧ y.moreToSend = false ∧ y.expectReply = true) :
    executeCmd d = d := by
  rcases h with h | h | h | ⟨y, hy, hs, he⟩
  · exact executeCmd_blocked d (by simp [h])
  · exact executeCmd_blocked d (by simp [h])
  · exact executeCmd_blocked d (by simp [h])
  · exact executeCmd_in_flight d y hy hs he

theorem queueCmd_stuck (d : GDBController) (cmd : DbgCommand) (b : Bool)
    (h : d.state_.waitForWrite = true ∨ d.state_.dbgNotStarted = true ∨
      d.state_.appBusy = true ∨
      ∃ y, d.currentCmd_ = some y ∧ y.moreToSend = false ∧ y.expectReply = true) :
    queueCmd d cmd b = { d with cmdList_ := queuedList d.cmdList_ cmd b } := by
  unfold queueCmd
  rw [queueCmdInsert_cmdList]
  exact executeCmd_stuck _ h

/-- Three submissions in a row on a well-formed queue, the first two of
commands that are neither run-type nor info-type and the last of a run-type
command: either the queue cannot send and the three join the pending list, or
the first submission writes the command at the head of the list and the write
blocks the queue for the other two. -/
theorem queueCmd_three (d : GDBController) (a b r : DbgCommand) (hwf : QueueWF d)
    (ha : a.isARunCmd = false ∧ a.isAnInfoCmd = false ∧ a.moreToSend = true)
    (hb : b.isARunCmd = false ∧ b.isAnInfoCmd = false)
    (hr : r.isARunCmd = true) :
    (queueCmd (queueCmd (queueCmd d a false) b false) r false =
        { d with cmdList_ :=
            d.cmdList_.filter (fun x => !(x.isAnInfoCmd || x.isARunCmd)) ++ [a, b, r] }) ∨
    (∃ x rest, d.cmdList_ ++ [a] = x :: rest ∧
      queueCmd (queueCmd (queueCmd d a false) b false) r false =
        { executeCmdWrite { d with currentCmd_ := some x, cmdList_ := rest } x with
          cmdList_ := (rest ++ [b]).filter (fun x => !(x.isAnInfoCmd || x.isARunCmd)) ++ [r] }) := by
  have hq1 : queuedList d.cmdList_ a false = d.cmdList_ ++ [a] := by
    simp [queuedList, ha.1]
  by_cases hst : d.state_.waitForWrite = true ∨ d.state_.dbgNotStarted = true ∨
      d.state_.appBusy = true ∨
      ∃ y, d.currentCmd_ = some y ∧ y.moreToSend = false ∧ y.expectReply = true
  · left
    have e1 := queueCmd_stuck d a false hst
    have e2 := queueCmd_stuck { d with cmdList_ := queuedList d.cmdList_ a false } b false hst
    have e3 := queueCmd_stuck
      { d with cmdList_ := queuedList (queuedList d.cmdList_ a false) b false } r false hst
    rw [e1, e2, e3]
    simp [queuedList, ha.1, ha.2.1, hb.1, hb.2, hr, List.filter_append]
  · right
    have hwf1 : QueueWF { d with cmdList_ := d.cmdList_ ++ [a] } := by
      refine ⟨hwf.sent, ?_⟩
      intro x hx
      rcases List.mem_append.1 hx with h | h
      · exact hwf.unsent x h
      · rw [List.mem_singleton.1 h]; exact ha.2.2
    rcases executeCmd_wf _ hwf1 with ⟨h1, _⟩ | ⟨hfree, hcur, ⟨hl, _⟩ | ⟨x, rest, hl, he⟩⟩
    · exfalso
      apply hst
      rcases h1 with h1 | ⟨y, hy, he⟩
      · simp only [stateIsOn, DBGStateFlags.band, DBGStateFlags.bor, s_dbgNotStarted,
          s_waitForWrite, s_appBusy, noFlags, DBGStateFlags.nonZero] at h1
        simp only [Bool.and_false, Bool.or_false, Bool.false_or, Bool.and_true,
          Bool.or_eq_true] at h1
        rcases h1 with (h1 | h1) | h1 <;> simp [h1]
      · exact Or.inr (Or.inr (Or.inr ⟨y, hy, hwf.sent y hy, he⟩))
    · exact absurd hl (by simp)
    · refine ⟨x, rest, hl, ?_⟩
      have e1 : queueCmd d a false =
          executeCmdWrite { d with currentCmd_ := some x, cmdList_ := rest } x := by
        unfold queueCmd
        rw [queueCmdInsert_cmdList, hq1]
        exact he
      have hw : (executeCmdWrite { d with currentCmd_ := some x, cmdList_ := rest }
          x).state_.waitForWrite = true := by
        rw [(executeCmdWrite_spec _ x).2.2]
        split <;> rfl
      have hcl : (executeCmdWrite { d with currentCmd_ := some x, cmdList_ := rest }
          x).cmdList_ = rest := executeCmdWrite_cmdList _ _
      rw [e1]
      generalize executeCmdWrite { d with currentCmd_ := some x, cmdList_ := rest } x = e
        at hw hcl ⊢
      have e2 := queueCmd_stuck e b false (Or.inl hw)
      have e3 := queueCmd_stuck { e with cmdList_ := queuedList e.cmdList_ b false } r false
        (Or.inl hw)
      rw [e2, e3]
      simp [queuedList, hb.1, hr, hcl]

theorem digitsValue_append (ds : List Nat) (d : Nat) :
    digitsValue (ds ++ [d]) = 10 * digitsValue ds + (d - 48) := by
  simp [digitsValue, List.foldl_append]

/-- Every number is the value of a string of decimal digits. -/
theorem numeral_exists (N : Nat) :
    ∃ ds : List Nat, ds ≠ [] ∧ (∀ d ∈ ds, isDigit d = true) ∧ digitsValue ds = N := by
  induction N using Nat.strong_induction_on with
  | _ N ih =>
    by_cases h : N < 10
    · refine ⟨[48 + N], by simp, ?_, ?_⟩
      · intro d hd
        rw [List.mem_singleton.1 hd]
        simp only [isDigit, Bool.and_eq_true, decide_eq_true_eq]
        omega
      · simp [digitsValue]
    · obtain ⟨ds, _, hd, hv⟩ := ih (N / 10) (by omega)
      refine ⟨ds ++ [48 + N % 10], by simp, ?_, ?_⟩
      · intro d hm
        rcases List.mem_append.1 hm with hm | hm
        · exact hd d hm
        · rw [List.mem_singleton.1 hm]
          simp only [isDigit, Bool.and_eq_true, decide_eq_true_eq]
          omega
      · rw [digitsValue_append, hv]
        omega

/-- C17 as stated fails in two ways.  When the user has typed `continue` while
the restarted program runs, that run-type command is pending at the line
`Cannot insert breakpoint 3`: the first of the three submissions writes it, so
`parseLine` returns with AppBusy set and Silent clear and gdb receives
`continue` before `delete 3`.  And the number is read with `atoi` into an
`int`: for `Cannot insert breakpoint 4294967297` the event and the command
carry the number 1. -/
theorem C17_counterexample :
    Reachable sampleEnv Phase.idle pendingContinueController ∧
    pendingContinueController.programHasExited_ = true ∧
    pendingContinueController.cmdList_ = [GDBCommand "continue" RUNCMD NOTINFOCMD 0] ∧
    (slotDbgStdout sampleEnv pendingContinueController
      (str "Cannot insert breakpoint 3\n")).state_.appBusy = true ∧
    (slotDbgStdout sampleEnv pendingContinueController
      (str "Cannot insert breakpoint 3\n")).state_.silent = false ∧
    (written (slotDbgStdout sampleEnv pendingContinueController
      (str "Cannot insert breakpoint 3\n")).log_).drop
        (written pendingContinueController.log_).length = ["continue"] ∧
    (slotDbgStdout sampleEnv pendingContinueController
      (str "Cannot insert breakpoint 3\n")).cmdList_ =
      [GDBCommand "delete 3" NOTRUNCMD NOTINFOCMD sampleEnv.defaultPrompt,
       GDBCommand "info breakpoints" NOTRUNCMD NOTINFOCMD sampleEnv.BPLIST,
       GDBCommand "continue" RUNCMD NOTINFOCMD 0] ∧
    atoi (str "4294967297") = 1 ∧
    (slotDbgStdout sampleEnv rerunController
      (str "Cannot insert breakpoint 4294967297\n")).log_.drop rerunController.log_.length =
      [Event.line (str "Cannot insert breakpoint 4294967297"), Event.unableToSetBPNow 1,
       Event.writeStdin "delete 1"] := by
  have hr : Reachable sampleEnv Phase.idle pendingContinueController :=
    Reachable.call (Op.slotUserGDBCmd "continue" false)
      (reachable_runOps _ (Reachable.call Op.slotRun
        (Reachable.call (Op.slotSelectFrame 2 5 false false)
          (reachable_runOps _ reachable_started))))
  exact ⟨hr, by decide, by decide, by decide, by decide, by decide, by decide, by decide,
    by decide⟩

/-- C17 (amended): the line `Cannot insert breakpoint N`, with `N` a decimal
numeral of positive value below 2^31, given to `parseLine`.  After a program
exit (`programHasExited_` set): Silent is set and AppBusy cleared, the event
`unableToSetBPNow(N)` is emitted, and from that state `delete N`,
`info breakpoints` and the run-type `continue` are submitted with `queueCmd`,
in that order; on a well-formed queue the texts written so far followed by the
pending ones then end with these three in that order, and `executeCmd` keeps
that sequence whenever it runs, so they reach gdb in that order, behind what
was pending before.  On return the flags are Silent set and AppBusy clear when
the queue could not send, the same with WaitingOnWrite when the first
submission wrote a command that is not run-type (always so when no run-type
command was pending), and AppBusy set, Silent clear when it wrote a run-type
command that was pending at the head.  Without a program exit the line changes
neither the flags nor the pending list nor the in-flight command and writes
nothing.  Every positive number has such a numeral. -/
theorem C17_cannot_insert_breakpoint (T : Env) (c : GDBController) (buf : Nat)
    (ds rest : List Nat)
    (hline : c.gdbOutput_.drop buf = str "Cannot insert breakpoint " ++ ds ++ 0 :: rest)
    (hne : ds ≠ []) (hdig : ∀ d ∈ ds, isDigit d = true)
    (hpos : 0 < digitsValue ds) (hint : digitsValue ds < 2147483648) :
    (c.programHasExited_ = true →
      (∃ d : GDBController,
        d.state_ = { c.state_ with silent := true, appBusy := false } ∧
        d.log_ = c.log_ ++ [Event.line (str "Cannot insert breakpoint " ++ ds),
          Event.unableToSetBPNow (digitsValue ds)] ∧
        d.cmdList_ = c.cmdList_ ∧ d.currentCmd_ = c.currentCmd_ ∧
        parseLine T c buf =
          queueCmd (queueCmd (queueCmd d
            (GDBCommand ("delete " ++ intText (digitsValue ds)) NOTRUNCMD NOTINFOCMD
              T.defaultPrompt) false)
            (GDBCommand "info breakpoints" NOTRUNCMD NOTINFOCMD T.BPLIST) false)
            (GDBCommand "continue" RUNCMD NOTINFOCMD 0) false) ∧
      (QueueWF c →
        ∃ pre, sendOrder (parseLine T c buf) = written c.log_ ++ pre ++
          ["delete " ++ intText (digitsValue ds), "info breakpoints", "continue"]) ∧
      (QueueWF c → (∀ x ∈ c.cmdList_, x.isARunCmd = false) →
        (parseLine T c buf).state_.silent = true ∧
        (parseLine T c buf).state_.appBusy = false) ∧
      (QueueWF c →
        (parseLine T c buf).state_ = { c.state_ with silent := true, appBusy := false } ∨
        (parseLine T c buf).state_ =
          { c.state_ with silent := true, appBusy := false, waitForWrite := true } ∨
        ((∃ x rest, c.cmdList_ = x :: rest ∧ x.isARunCmd = true) ∧
          (parseLine T c buf).state_ =
            { c.state_ with appBusy := true, waitForWrite := true, appNotStarted := false,
                            programExited := false, silent := false }))) ∧
    (c.programHasExited_ = false →
      (parseLine T c buf).state_ = c.state_ ∧ (parseLine T c buf).cmdList_ = c.cmdList_ ∧
      (parseLine T c buf).currentCmd_ = c.currentCmd_ ∧
      written (parseLine T c buf).log_ = written c.log_) ∧
    (∀ d : GDBController, QueueWF d →
      QueueWF (executeCmd d) ∧ sendOrder (executeCmd d) = sendOrder d) ∧
    (∀ N : Nat, ∃ numeral : List Nat, numeral ≠ [] ∧ (∀ d ∈ numeral, isDigit d = true) ∧
      digitsValue numeral = N) := by
  have hp := parseLine_cannot_insert T c buf ds rest hline hne hdig hpos hint
  refine ⟨?_, ?_, fun d hd => QueueWF_executeCmd hd, numeral_exists⟩
  · intro hex
    obtain ⟨d, hds, hdl, hdq, hdc, hr⟩ : ∃ d : GDBController,
        d.state_ = { c.state_ with silent := true, appBusy := false } ∧
        d.log_ = c.log_ ++ [Event.line (str "Cannot insert breakpoint " ++ ds),
          Event.unableToSetBPNow (digitsValue ds)] ∧
        d.cmdList_ = c.cmdList_ ∧ d.currentCmd_ = c.currentCmd_ ∧
        parseLine T c buf =
          queueCmd (queueCmd (queueCmd d
            (GDBCommand ("delete " ++ intText (digitsValue ds)) NOTRUNCMD NOTINFOCMD
              T.defaultPrompt) false)
            (GDBCommand "info breakpoints" NOTRUNCMD NOTINFOCMD T.BPLIST) false)
            (GDBCommand "continue" RUNCMD NOTINFOCMD 0) false :=
      ⟨{ c with
          state_ := { c.state_ with silent := true, appBusy := false },
          log_ := c.log_ ++ [Event.line (str "Cannot insert breakpoint " ++ ds),
            Event.unableToSetBPNow (digitsValue ds)] },
        rfl, rfl, rfl, rfl, hp.2.2 hex⟩
    have hwd : written d.log_ = written c.log_ := by
      rw [hdl, written_append]
      simp [written]
    have h3 : QueueWF d → _ := fun hwf => queueCmd_three d
      (GDBCommand ("delete " ++ intText (digitsValue ds)) NOTRUNCMD NOTINFOCMD T.defaultPrompt)
      (GDBCommand "info breakpoints" NOTRUNCMD NOTINFOCMD T.BPLIST)
      (GDBCommand "continue" RUNCMD NOTINFOCMD 0) hwf ⟨rfl, rfl, rfl⟩ ⟨rfl, rfl⟩ rfl
    have hwfd : QueueWF c → QueueWF d := fun hwf =>
      ⟨by rw [hdc]; exact hwf.sent, by rw [hdq]; exact hwf.unsent⟩
    refine ⟨⟨d, hds, hdl, hdq, hdc, hr⟩, ?_, ?_, ?_⟩
    · intro hwf
      rw [hr]
      rcases h3 (hwfd hwf) with h | ⟨x, rest2, hl, h⟩
      · rw [h]
        refine ⟨(d.cmdList_.filter (fun x => !(x.isAnInfoCmd || x.isARunCmd))).map
          (fun x => x.command_), ?_⟩
        simp [sendOrder, hwd, GDBCommand]
      · rw [h]
        cases hL : d.cmdList_ with
        | nil =>
          simp only [hL, List.nil_append, List.cons.injEq] at hl
          refine ⟨[], ?_⟩
          rw [← hl.1, ← hl.2]
          simp [sendOrder, executeCmdWrite_written, hwd, GDBCommand,
            DbgCommand.isAnInfoCmd, DbgCommand.isARunCmd, NOTRUNCMD, NOTINFOCMD]
        | cons y L =>
          simp only [hL, List.cons_append, List.cons.injEq] at hl
          refine ⟨y.command_ :: (L.filter (fun x => !(x.isAnInfoCmd || x.isARunCmd))).map
            (fun x => x.command_), ?_⟩
          rw [← hl.1, ← hl.2]
          simp [sendOrder, executeCmdWrite_written, hwd, GDBCommand,
            DbgCommand.isAnInfoCmd, DbgCommand.isARunCmd, NOTRUNCMD, NOTINFOCMD,
            List.filter_append]
    · intro hwf hnr
      rw [hr]
      rcases h3 (hwfd hwf) with h | ⟨x, rest2, hl, h⟩
      · rw [h]
        show d.state_.silent = true ∧ d.state_.appBusy = false
        rw [hds]
        exact ⟨rfl, rfl⟩
      · rw [h]
        have hx : x.isARunCmd = false := by
          have hm : x ∈ d.cmdList_ ++ [GDBCommand ("delete " ++ intText (digitsValue ds))
              NOTRUNCMD NOTINFOCMD T.defaultPrompt] := by
            rw [hl]; exact List.mem_cons_self _ _
          rcases List.mem_append.1 hm with hm | hm
          · exact hnr x (hdq ▸ hm)
          · rw [List.mem_singleton.1 hm]; rfl
        show (executeCmdWrite _ x).state_.silent = true ∧
          (executeCmdWrite _ x).state_.appBusy = false
        rw [(executeCmdWrite_spec _ x).2.2, hx]
        show d.state_.silent = true ∧ d.state_.appBusy = false
        rw [hds]
        exact ⟨rfl, rfl⟩
    · intro hwf
      rw [hr]
      rcases h3 (hwfd hwf) with h | ⟨x, rest2, hl, h⟩
      · left
        rw [h]
        exact hds
      · rw [h]
        have hst : ∀ e : GDBController, e.state_ = d.state_ →
            (executeCmdWrite e x).state_ =
              (if x.isARunCmd then
                { c.state_ with appBusy := true, waitForWrite := true, appNotStarted := false,
                                programExited := false, silent := false }
              else { c.state_ with silent := true, appBusy := false, waitForWrite := true }) := by
          intro e he
          rw [(executeCmdWrite_spec e x).2.2, he, hds]
        have hst2 := hst { d with currentCmd_ := some x, cmdList_ := rest2 } rfl
        cases hx : x.isARunCmd with
        | false =>
          right; left
          rw [hx] at hst2
          exact hst2
        | true =>
          right; right
          rw [hx] at hst2
          refine ⟨?_, hst2⟩
          cases hL : d.cmdList_ with
          | nil =>
            rw [hL] at hl
            simp only [List.nil_append, List.cons.injEq] at hl
            rw [← hl.1] at hx
            cases hx
          | cons y L =>
            rw [hL] at hl
            simp only [List.cons_append, List.cons.injEq] at hl
            refine ⟨y, L, ?_, ?_⟩
            · rw [← hdq, hL]
            · rw [hl.1]; exact hx
  · intro hex
    rw [hp.2.1 hex]
    refine ⟨rfl, rfl, rfl, ?_⟩
    simp [GDBController.emit, written_append, written]

theorem C17_witness :
    cannotInsertController.programHasExited_ = true ∧
    cannotInsertController.state_.appBusy = true ∧
    (parseLine sampleEnv cannotInsertController 0).state_.silent = true ∧
    (parseLine sampleEnv cannotInsertController 0).state_.appBusy = false ∧
    (parseLine sampleEnv cannotInsertController 0).log_.drop cannotInsertController.log_.length =
      [Event.line (str "Cannot insert breakpoint 3"), Event.unableToSetBPNow 3,
       Event.writeStdin "delete 3"] ∧
    (parseLine sampleEnv cannotInsertController 0).cmdList_ =
      [GDBCommand "info breakpoints" NOTRUNCMD NOTINFOCMD sampleEnv.BPLIST,
       GDBCommand "continue" RUNCMD NOTINFOCMD 0] ∧
    (written (runOps sampleEnv
        (slotDbgStdout sampleEnv rerunController (str "Cannot insert breakpoint 3\n"))
        drainBreakpointCmds).log_).drop (written rerunController.log_).length =
      ["delete 3", "info breakpoints", "continue"] ∧
    (runOps sampleEnv
        (slotDbgStdout sampleEnv rerunController (str "Cannot insert breakpoint 3\n"))
        drainBreakpointCmds).state_.appBusy = true :=
  have hcur : cannotInsertController.currentCmd_ =
      some (GDBCommand "run" RUNCMD NOTINFOCMD 0).markSent := by decide
  have hl : cannotInsertController.cmdList_ = [] := by decide
  have hwf : QueueWF cannotInsertController :=
    ⟨fun x hx => by rw [hcur] at hx; cases hx; rfl, fun x hx => by rw [hl] at hx; cases hx⟩
  have h := C17_cannot_insert_breakpoint sampleEnv cannotInsertController 0 [51] [0]
    (by decide) (by decide) (by decide) (by decide) (by decide)
  have hf := (h.1 (by decide)).2.2.1 hwf (fun x hx => by rw [hl] at hx; cases hx)
  ⟨by decide, by decide, hf.1, hf.2, by decide, by decide, by decide, by decide⟩

theorem Steps_ite_iff {k : List Event} {p : Prop} [Decidable p] {x y : GDBController} :
    Steps k (if p then x else y) ↔ (p → Steps k x) ∧ (¬ p → Steps k y) := by
  split <;> simp [*]

theorem Steps_congr {k : List Event} {c d : GDBController} (hl : d.log_ = c.log_) :
    Steps k d ↔ Steps k c :=
  ⟨fun h => ⟨hl ▸ h.eq⟩, fun h => ⟨hl.symm ▸ h.eq⟩⟩

theorem Steps_emit {k : List Event} {c : GDBController} {e : Event} (he : isStep e = false) :
    Steps k (c.emit e) ↔ Steps k c := by
  constructor
  · intro h
    have := h.eq
    simp only [GDBController.emit, List.filter_append, List.filter_cons, he, Bool.false_eq_true,
      if_false, List.filter_nil, List.append_nil] at this
    exact ⟨this⟩
  · intro h
    refine ⟨?_⟩
    simp only [GDBController.emit, List.filter_append, List.filter_cons, he, Bool.false_eq_true,
      if_false, List.filter_nil, List.append_nil]
    exact h.eq

theorem Steps_emit_step {k : List Event} {c : GDBController} (file : List Nat) (line : Int)
    (addr : List Nat) (h : Steps k c) :
    Steps (k ++ [Event.showStepInSource file line addr])
      (c.emit (Event.showStepInSource file line addr)) := by
  refine ⟨?_⟩
  simp only [GDBController.emit, List.filter_append, h.eq]
  rfl

theorem Steps_touch {k : List Event} {c : GDBController} {ok : Bool} :
    Steps k (c.touch ok) ↔ Steps k c := Steps_congr (touch_log c ok)

theorem Steps_poke {k : List Event} {c : GDBController} {p v : Nat} :
    Steps k (c.poke p v) ↔ Steps k c := Steps_congr rfl

theorem Steps_setOff {k : List Event} {c : GDBController} {m : DBGStateFlags} :
    Steps k (c.setOff m) ↔ Steps k c := Steps_congr rfl

theorem Steps_setViewed {k : List Event} {c : GDBController} {t f : Int} :
    Steps k (c.setViewed t f) ↔ Steps k c := Steps_congr rfl

theorem Steps_setBacktraceDue {k : List Event} {c : GDBController} {v : Bool} :
    Steps k (c.setBacktraceDue v) ↔ Steps k c := Steps_congr rfl

theorem Steps_clearCurrentCmd {k : List Event} {c : GDBController} :
    Steps k c.clearCurrentCmd ↔ Steps k c := Steps_congr rfl

theorem Steps_setBuffer {k : List Event} {c : GDBController} {n m : Nat} {mem : List Nat} :
    Steps k (c.setBuffer n m mem) ↔ Steps k c := Steps_congr rfl

theorem Steps_executeCmdWrite {k : List Event} {c : GDBController} (x : DbgCommand)
    (h : Steps k c) : Steps k (executeCmdWrite c x) := by
  refine ⟨?_⟩
  rw [← h.eq]
  unfold executeCmdWrite
  simp only [GDBController.emit]
  cases hr : x.isARunCmd <;> cases hs : c.state_.silent <;>
    simp [hs, isStep, List.filter_append]

theorem Steps_executeCmd {k : List Event} {c : GDBController} (h : Steps k c) :
    Steps k (executeCmd c) := by
  rcases executeCmd_cases c with h1 | ⟨e, x, hx, _, hl, _⟩
  · exact ⟨by rw [h1.1]; exact h.eq⟩
  · rw [hx]
    exact Steps_executeCmdWrite x ⟨by rw [hl]; exact h.eq⟩

theorem Steps_queueCmd {k : List Event} {c : GDBController} (cmd : DbgCommand)
    (executeNext : Bool) (h : Steps k c) : Steps k (queueCmd c cmd executeNext) := by
  unfold queueCmd
  apply Steps_executeCmd
  rw [queueCmdInsert_cmdList]
  exact ⟨h.eq⟩

theorem Steps_actOnProgramPause {k : List Event} (T : Env) {c : GDBController} (msg : List Nat)
    (hi : Steps k c) : Steps k (actOnProgramPause T c msg) := by
  unfold actOnProgramPause
  dsimp only
  repeat' first
    | with_reducible apply Steps_queueCmd
    | simp only [Steps_ite_iff, Steps_emit, Steps_setViewed, Steps_setBacktraceDue, Steps_setOff,
        isStep]
    | refine And.intro ?_ ?_
    | intro _
    | with_reducible exact hi

theorem QueueWF_congr {c d : GDBController} (hl : d.cmdList_ = c.cmdList_)
    (hc : d.currentCmd_ = c.currentCmd_) : QueueWF d ↔ QueueWF c :=
  ⟨fun h => ⟨hc ▸ h.sent, hl ▸ h.unsent⟩, fun h => ⟨hc.symm ▸ h.sent, hl.symm ▸ h.unsent⟩⟩

theorem Paused_congr {c d : GDBController} (hs : d.state_ = c.state_)
    (hl : d.cmdList_ = c.cmdList_) (hc : d.currentCmd_ = c.currentCmd_) : Paused d ↔ Paused c :=
  ⟨fun h => ⟨hs ▸ h.idle, (QueueWF_congr hl hc).1 h.wf, hs ▸ hl ▸ h.next⟩,
   fun h => ⟨hs.symm ▸ h.idle, (QueueWF_congr hl hc).2 h.wf, hs.symm ▸ hl.symm ▸ h.next⟩⟩

theorem Paused_ite_iff {p : Prop} [Decidable p] {x y : GDBController} :
    Paused (if p then x else y) ↔ (p → Paused x) ∧ (¬ p → Paused y) := by
  split <;> simp [*]

theorem Paused_emit {c : GDBController} {e : Event} : Paused (c.emit e) ↔ Paused c :=
  Paused_congr rfl rfl rfl

theorem Paused_touch {c : GDBController} {ok : Bool} : Paused (c.touch ok) ↔ Paused c := by
  unfold GDBController.touch
  split
  · rfl
  · exact Paused_congr rfl rfl rfl

theorem Paused_poke {c : GDBController} {p v : Nat} : Paused (c.poke p v) ↔ Paused c :=
  Paused_congr rfl rfl rfl

theorem Paused_setBuffer {c : GDBController} {n m : Nat} {mem : List Nat} :
    Paused (c.setBuffer n m mem) ↔ Paused c := Paused_congr rfl rfl rfl

theorem Paused_setViewed {c : GDBController} {t f : Int} : Paused (c.setViewed t f) ↔ Paused c :=
  Paused_congr rfl rfl rfl

theorem Paused_setBacktraceDue {c : GDBController} {v : Bool} :
    Paused (c.setBacktraceDue v) ↔ Paused c := Paused_congr rfl rfl rfl

theorem Paused_clearCurrentCmd {c : GDBController} (h : Paused c) : Paused c.clearCurrentCmd :=
  ⟨h.idle, ⟨(fun x hx => by cases hx), h.wf.unsent⟩, h.next⟩

/-- A paused controller stays paused when `executeCmd` runs: what it may write
is the head of the pending list, which is not run-type. -/
theorem Paused_executeCmd {d : GDBController} (h : Paused d) : Paused (executeCmd d) := by
  rcases executeCmd_wf d h.wf with ⟨_, he⟩ | ⟨hg, _, ⟨hl, he⟩ | ⟨x, rest, hl, he⟩⟩
  · rw [he]; exact h
  · exfalso
    rcases h.next with hw | ⟨x, rest, hx, _⟩
    · simp [stateIsOn, DBGStateFlags.bor, s_dbgNotStarted, s_waitForWrite, s_appBusy,
        DBGStateFlags.band, hw] at hg
    · rw [hl] at hx; cases hx
  · have hx : x.isARunCmd = false := by
      rcases h.next with hw | ⟨y, rest2, hy, hr⟩
      · exfalso
        simp [stateIsOn, DBGStateFlags.bor, s_dbgNotStarted, s_waitForWrite, s_appBusy,
          DBGStateFlags.band, hw] at hg
      · rw [hl] at hy
        cases hy
        exact hr
    have hwf := (QueueWF_executeCmd h.wf).1
    have hs := (executeCmdWrite_spec { d with currentCmd_ := some x, cmdList_ := rest } x).2.2
    rw [he] at hwf ⊢
    rw [hx] at hs
    simp only [Bool.false_eq_true, if_false] at hs
    refine ⟨?_, hwf, Or.inl ?_⟩
    · rw [hs]; exact h.idle
    · rw [hs]

theorem Paused_queueCmd_head {d : GDBController} (cmd : DbgCommand)
    (hidle : d.state_.appBusy = false) (hwf : QueueWF d)
    (hr : cmd.isARunCmd = false) (hm : cmd.moreToSend = true) :
    Paused (queueCmd d cmd true) := by
  unfold queueCmd
  apply Paused_executeCmd
  rw [queueCmdInsert_cmdList]
  refine ⟨hidle, ⟨hwf.sent, ?_⟩, Or.inr ⟨cmd, d.cmdList_, ?_, hr⟩⟩
  · intro x hx
    simp only [queuedList, hr, Bool.false_eq_true, if_false, if_true, List.mem_cons] at hx
    rcases hx with hx | hx
    · rw [hx]; exact hm
    · exact hwf.unsent x hx
  · simp only [queuedList, hr, Bool.false_eq_true, if_false, if_true]

theorem Paused_queueCmd_tail {d : GDBController} (cmd : DbgCommand) (h : Paused d)
    (hr : cmd.isARunCmd = false) (hm : cmd.moreToSend = true) :
    Paused (queueCmd d cmd false) := by
  unfold queueCmd
  apply Paused_executeCmd
  rw [queueCmdInsert_cmdList]
  refine ⟨h.idle, ⟨h.wf.sent, ?_⟩, ?_⟩
  · intro x hx
    simp only [queuedList, hr, Bool.false_eq_true, if_false, List.mem_append,
      List.mem_singleton] at hx
    rcases hx with hx | hx
    · exact h.wf.unsent x hx
    · rw [hx]; exact hm
  · rcases h.next with hw | ⟨x, rest, hx, hxr⟩
    · exact Or.inl hw
    · refine Or.inr ⟨x, rest ++ [cmd], ?_, hxr⟩
      simp only [queuedList, hr, Bool.false_eq_true, if_false, hx, List.cons_append]

/-- A stop of a busy, non-silent controller with a well-formed queue leaves it
paused: AppBusy is clear and stays clear when the queue moves on. -/
theorem actOnProgramPause_paused (T : Env) (c : GDBController) (msg : List Nat)
    (hb : c.state_.appBusy = true) (hs : c.state_.silent = false) (hwf : QueueWF c) :
    Paused (actOnProgramPause T c msg) := by
  have hq : ∀ (d : GDBController) (text : String) (tag : Nat),
      d.state_.appBusy = false ∧ QueueWF d →
      Paused (queueCmd d (GDBCommand text NOTRUNCMD INFOCMD tag) true) :=
    fun d text tag h => Paused_queueCmd_head _ h.1 h.2 rfl rfl
  have ht : ∀ (d : GDBController) (text : String) (tag : Nat), Paused d →
      Paused (queueCmd d (GDBCommand text NOTRUNCMD INFOCMD tag) false) :=
    fun d text tag h => Paused_queueCmd_tail _ h rfl rfl
  have h5 : ∀ d : GDBController, d.state_ = (c.setOff s_appBusy).state_ →
      d.cmdList_ = c.cmdList_ → d.currentCmd_ = c.currentCmd_ →
      d.state_.appBusy = false ∧ QueueWF d := by
    intro d h1 h2 h3
    refine ⟨?_, (QueueWF_congr h2 h3).2 hwf⟩
    rw [h1]
    simp [GDBController.setOff, setStateOff, s_appBusy]
  have h6 : ∀ d : GDBController, Paused d → d.state_.appBusy = false ∧ QueueWF d :=
    fun d h => ⟨h.idle, h.wf⟩
  have hb2 : stateIsOn c.state_ s_appBusy = true := by
    simp [stateIsOn, s_appBusy, DBGStateFlags.band, hb]
  have hs2 : ¬ stateIsOn (c.setOff s_appBusy).state_ s_silent = true := by
    simp [stateIsOn, s_silent, DBGStateFlags.band, GDBController.setOff, setStateOff, hs]
  unfold actOnProgramPause
  rw [if_pos hb2]
  dsimp only
  rw [if_neg hs2]
  have hite : ∀ (p : Prop) [Decidable p] (x y : GDBController),
      (x.state_.appBusy = false ∧ QueueWF x) → (y.state_.appBusy = false ∧ QueueWF y) →
      ((if p then x else y).state_.appBusy = false ∧ QueueWF (if p then x else y)) := by
    intro p _ x y hx hy
    split <;> assumption
  simp only [Paused_emit, Paused_ite_iff]
  refine ⟨fun _ => ?_, fun _ => ?_⟩
  · with_reducible apply ht
    with_reducible apply ht
    with_reducible apply hq
    with_reducible apply hite
    · with_reducible apply h6
      with_reducible apply hq
      exact h5 _ rfl rfl rfl
    · exact h5 _ rfl rfl rfl
  · with_reducible apply hq
    with_reducible apply hite
    · with_reducible apply h6
      with_reducible apply hq
      exact h5 _ rfl rfl rfl
    · exact h5 _ rfl rfl rfl

theorem strchr_newline (s rest : List Nat) (hs : ∀ b ∈ s, b ≠ 10) :
    strchr (s ++ 10 :: rest) 10 = some s.length := by
  induction s with
  | nil => simp [strchr]
  | cons b s ih =>
    have hb : b ≠ 10 := hs b (List.mem_cons_self _ _)
    have := ih (fun x hx => hs x (List.mem_cons_of_mem _ hx))
    simp [strchr, hb, this]

theorem cstr_position (s rest : List Nat) (hnul : ∀ b ∈ s, b ≠ 0) :
    cstr (BLOCK_START :: SRC_POSITION :: (s ++ 10 :: 0 :: rest)) 0 =
      BLOCK_START :: SRC_POSITION :: (s ++ [10]) ∧
    terminated (BLOCK_START :: SRC_POSITION :: (s ++ 10 :: 0 :: rest)) 0 = true := by
  constructor
  · have h : BLOCK_START :: SRC_POSITION :: (s ++ 10 :: 0 :: rest) =
        (BLOCK_START :: SRC_POSITION :: (s ++ [10])) ++ 0 :: rest := by simp
    have hn : ∀ b ∈ BLOCK_START :: SRC_POSITION :: (s ++ [10]), b ≠ 0 := by
      intro b hb
      simp only [List.mem_cons, List.mem_append, List.mem_singleton, List.not_mem_nil,
        or_false] at hb
      rcases hb with hb | hb | hb | hb
      · rw [hb]; decide
      · rw [hb]; decide
      · exact hnul b hb
      · rw [hb]; decide
    exact cstr_of_drop _ 0 _ rest (by rw [List.drop_zero]; exact h) hn
  · unfold terminated
    simp

theorem position_set (s rest : List Nat) :
    (BLOCK_START :: SRC_POSITION :: (s ++ 10 :: 0 :: rest)).set (s.length + 2) 0 =
      BLOCK_START :: SRC_POSITION :: (s ++ 0 :: 0 :: rest) := by
  rw [List.set_cons_succ, List.set_cons_succ, List.set_append_right _ _ (Nat.le_refl _)]
  simp

theorem position_byteAt (s rest : List Nat) :
    byteAt (BLOCK_START :: SRC_POSITION :: (s ++ 0 :: 0 :: rest)) (s.length + 2 + 1) = 0 := by
  unfold byteAt
  rw [List.getD_cons_succ, List.getD_cons_succ, List.getD_eq_getElem?_getD,
    List.getElem?_append_right (by omega)]
  simp

theorem parseCmdBlock_position (T : Env) (c : GDBController) (s rest : List Nat)
    (hmem : c.gdbOutput_ = BLOCK_START :: SRC_POSITION :: (s ++ 10 :: 0 :: rest))
    (hs : ∀ b ∈ s, b ≠ 0 ∧ b ≠ 10) :
    parseCmdBlock T c 0 = (some (s.length + 2), finishBlock T (c.poke (s.length + 2) 0) 0) := by
  have hc := cstr_position s rest (fun b hb => (hs b hb).1)
  have ht : byteAt c.gdbOutput_ 1 = SRC_POSITION := by rw [hmem]; rfl
  have hl : decide (1 < c.gdbOutput_.length) = true := by rw [hmem]; simp
  have hi : SRC_POSITION ≠ IDLE := by decide
  have hk : strchr (BLOCK_START :: SRC_POSITION :: (s ++ [10])) 10 = some (s.length + 2) := by
    have := strchr_newline s [] (fun b hb => (hs b hb).2)
    simp [strchr, BLOCK_START, SRC_POSITION, this]
  rw [← hmem] at hc
  unfold parseCmdBlock
  simp only [Nat.zero_add, ht, hl, hi, if_false, if_true, hc.1, hc.2, hk, touch_true]

theorem parse_position (T : Env) (c : GDBController) (s rest : List Nat)
    (hmem : c.gdbOutput_ = BLOCK_START :: SRC_POSITION :: (s ++ 10 :: 0 :: rest))
    (hs : ∀ b ∈ s, b ≠ 0 ∧ b ≠ 10)
    (hend : byteAt (finishBlock T (c.poke (s.length + 2) 0) 0).gdbOutput_ (s.length + 2 + 1) = 0) :
    ∃ ok : Bool, parse T c 0 =
      (some (s.length + 2 + 1), (finishBlock T (c.poke (s.length + 2) 0) 0).touch ok) := by
  have hb := parseCmdBlock_position T c s rest hmem hs
  have h0 : byteAt c.gdbOutput_ 0 = BLOCK_START := by rw [hmem]; rfl
  have hl : decide (0 < c.gdbOutput_.length) = true := by rw [hmem]; simp
  obtain ⟨m, hm⟩ : ∃ m, c.gdbOutput_.length + 1 = m + 2 := by
    rw [hmem]
    exact ⟨s.length + (rest.length + 1 + 1) + 1,
      by simp only [List.length_cons, List.length_append]⟩
  refine ⟨decide (s.length + 2 + 1 < (finishBlock T (c.poke (s.length + 2) 0) 0).gdbOutput_.length), ?_⟩
  unfold parse
  simp only [Nat.sub_zero, hm]
  unfold parseLoop
  simp only [h0, hl, touch_true, hb, if_true]
  unfold parseLoop
  simp only [hend, if_true]
  simp [BLOCK_START]

theorem touch_state (c : GDBController) (ok : Bool) : (c.touch ok).state_ = c.state_ := by
  unfold GDBController.touch; split <;> rfl

theorem touch_cmdList (c : GDBController) (ok : Bool) : (c.touch ok).cmdList_ = c.cmdList_ := by
  unfold GDBController.touch; split <;> rfl

theorem touch_currentCmd (c : GDBController) (ok : Bool) :
    (c.touch ok).currentCmd_ = c.currentCmd_ := by
  unfold GDBController.touch; split <;> rfl

theorem appendOutput_queue (c : GDBController) (buf : List Nat) :
    (appendOutput c buf).state_ = c.state_ ∧ (appendOutput c buf).cmdList_ = c.cmdList_ ∧
    (appendOutput c buf).currentCmd_ = c.currentCmd_ := by
  unfold appendOutput
  dsimp only
  split <;>
    simp only [GDBController.setBuffer, touch_state, touch_cmdList, touch_currentCmd, and_self]

/-- The handler of a source-position block is `parseProgramLocation`, provided
the tags of the two `case` labels tested before it differ from the marker. -/
theorem dispatchBlock_position (T : Env) (c : GDBController) (buf : Nat)
    (hf : T.FRAME ≠ SRC_POSITION) (hbp : T.SET_BREAKPT ≠ SRC_POSITION) :
    dispatchBlock T c SRC_POSITION buf =
      parseProgramLocation T (c.emit (Event.handler SRC_POSITION (cstr c.gdbOutput_ buf)))
        (cstr c.gdbOutput_ buf) := by
  unfold dispatchBlock
  dsimp only
  rw [if_neg (fun h => hf h.symm), if_neg (fun h => hbp h.symm), if_pos rfl]

/-- What `parseProgramLocation` does on a line that `regExp1` matches, for a
busy, non-silent controller with a well-formed queue. -/
theorem parseProgramLocation_match (T : Env) (c : GDBController) (s file line addr : List Nat)
    (k : List Event) (hre : regExp1 s = some (file, line, addr))
    (hb : c.state_.appBusy = true) (hsil : c.state_.silent = false) (hwf : QueueWF c)
    (hk : Steps k c) :
    parseProgramLocation T c s =
      (actOnProgramPause T c []).emit (Event.showStepInSource file (toInt line) addr) ∧
    Paused (parseProgramLocation T c s) ∧
    Steps (k ++ [Event.showStepInSource file (toInt line) addr]) (parseProgramLocation T c s) := by
  have hs2 : ¬ stateIsOn c.state_ s_silent = true := by
    simp [stateIsOn, s_silent, DBGStateFlags.band, hsil]
  have he : parseProgramLocation T c s =
      (actOnProgramPause T c []).emit (Event.showStepInSource file (toInt line) addr) := by
    unfold parseProgramLocation
    rw [if_neg hs2, hre]
  refine ⟨he, ?_, ?_⟩
  · rw [he]
    exact Paused_emit.2 (actOnProgramPause_paused T c [] hb hsil hwf)
  · rw [he]
    exact Steps_emit_step file (toInt line) addr (Steps_actOnProgramPause T [] hk)

theorem finishBlock_position (T : Env) (c : GDBController) (s rest : List Nat)
    (file line addr : List Nat) (k : List Event)
    (hmem : c.gdbOutput_ = BLOCK_START :: SRC_POSITION :: (s ++ 0 :: 0 :: rest))
    (hnul : ∀ b ∈ s, b ≠ 0)
    (hf : T.FRAME ≠ SRC_POSITION) (hbp : T.SET_BREAKPT ≠ SRC_POSITION)
    (hre : regExp1 s = some (file, line, addr))
    (hb : c.state_.appBusy = true) (hsil : c.state_.silent = false) (hwf : QueueWF c)
    (hk : Steps k c) :
    Paused (finishBlock T c 0) ∧
    Steps (k ++ [Event.showStepInSource file (toInt line) addr]) (finishBlock T c 0) := by
  have htag : byteAt c.gdbOutput_ (0 + 1) = SRC_POSITION := by rw [hmem]; rfl
  have hpay : cstr c.gdbOutput_ (0 + 2) = s := by
    rw [hmem]; exact (cstr_block SRC_POSITION s (0 :: rest) hnul).1
  have hp := parseProgramLocation_match T (c.emit (Event.handler SRC_POSITION s)) s file line addr k
    hre hb hsil ⟨hwf.sent, hwf.unsent⟩
    ((Steps_emit (e := Event.handler SRC_POSITION s) rfl).2 hk)
  unfold finishBlock
  dsimp only
  rw [htag, dispatchBlock_position T c (0 + 2) hf hbp, hpay]
  split
  · split
    · exact ⟨Paused_clearCurrentCmd hp.2.1, Steps_clearCurrentCmd.2 hp.2.2⟩
    · exact hp.2
  · exact hp.2

theorem slotDbgStdout_position (T : Env) (c : GDBController) (s file line addr : List Nat)
    (hlen : c.gdbOutputLen_ = 0)
    (hf : T.FRAME ≠ SRC_POSITION) (hbp : T.SET_BREAKPT ≠ SRC_POSITION)
    (hs : ∀ b ∈ s, b ≠ 0 ∧ b ≠ 10)
    (hre : regExp1 s = some (file, line, addr))
    (hb : c.state_.appBusy = true) (hsil : c.state_.silent = false) (hwf : QueueWF c) :
    Paused (slotDbgStdout T c (BLOCK_START :: SRC_POSITION :: (s ++ [10]))) ∧
    Steps (c.log_.filter isStep ++ [Event.showStepInSource file (toInt line) addr])
      (slotDbgStdout T c (BLOCK_START :: SRC_POSITION :: (s ++ [10]))) ∧
    (slotDbgStdout T c (BLOCK_START :: SRC_POSITION :: (s ++ [10]))).gdbOutputLen_ = 0 := by
  unfold slotDbgStdout
  obtain ⟨⟨rest, hm⟩, _, hg⟩ := appendOutput_spec c (BLOCK_START :: SRC_POSITION :: (s ++ [10]))
    (by rw [hlen]; exact Nat.zero_le _)
  obtain ⟨hq1, hq2, hq3⟩ := appendOutput_queue c (BLOCK_START :: SRC_POSITION :: (s ++ [10]))
  rw [hlen] at hm
  generalize appendOutput c (BLOCK_START :: SRC_POSITION :: (s ++ [10])) = a at hm hg hq1 hq2 hq3 ⊢
  have hm2 : a.gdbOutput_ = BLOCK_START :: SRC_POSITION :: (s ++ 10 :: 0 :: rest) := by
    rw [hm]; simp
  have hpk : (a.poke (s.length + 2) 0).gdbOutput_ =
      BLOCK_START :: SRC_POSITION :: (s ++ 0 :: 0 :: rest) := by
    show a.gdbOutput_.set (s.length + 2) 0 = _
    rw [hm2, position_set]
  have hz : BufZ (a.poke (s.length + 2) 0).gdbOutput_ (a.poke (s.length + 2) 0).gdbOutputLen_
      (finishBlock T (a.poke (s.length + 2) 0) 0) :=
    BufZ_finishBlock T 0 ⟨rfl, rfl, fun _ => Or.inl rfl⟩
  have hend : byteAt (finishBlock T (a.poke (s.length + 2) 0) 0).gdbOutput_
      (s.length + 2 + 1) = 0 := by
    rcases hz.zero (s.length + 2 + 1) with h | h
    · rw [h, hpk]; exact position_byteAt s rest
    · exact h
  obtain ⟨ok, hp⟩ := parse_position T a s rest hm2 hs hend
  have hfin := finishBlock_position T (a.poke (s.length + 2) 0) s rest file line addr
    (c.log_.filter isStep) hpk (fun b hb => (hs b hb).1) hf hbp hre
    (by show a.state_.appBusy = true; rw [hq1]; exact hb)
    (by show a.state_.silent = false; rw [hq1]; exact hsil)
    ((QueueWF_congr (show (a.poke (s.length + 2) 0).cmdList_ = c.cmdList_ from hq2)
      (show (a.poke (s.length + 2) 0).currentCmd_ = c.currentCmd_ from hq3)).2 hwf)
    (Steps_poke.2 ⟨by rw [hg]⟩)
  rw [hp]
  unfold compactOutput
  simp only [touch_gdbOutput]
  rw [cstr_of_byteAt_zero _ _ hend]
  refine ⟨?_, ?_, ?_⟩
  · apply Paused_executeCmd
    simp only [Paused_setBuffer, Paused_touch]
    exact hfin.1
  · apply Steps_executeCmd
    simp only [Steps_setBuffer, Steps_touch]
    exact hfin.2
  · rw [(executeCmd_buffer _).2]
    rfl

theorem WF_ite_iff {p : Prop} [Decidable p] {x y : GDBController} :
    QueueWF (if p then x else y) ↔ (p → QueueWF x) ∧ (¬ p → QueueWF y) := by
  split <;> simp [*]

theorem WF_touch {c : GDBController} {ok : Bool} : QueueWF (c.touch ok) ↔ QueueWF c :=
  QueueWF_congr (touch_cmdList c ok) (touch_currentCmd c ok)

theorem WF_setOn {c : GDBController} {m : DBGStateFlags} : QueueWF (c.setOn m) ↔ QueueWF c :=
  QueueWF_congr rfl rfl

theorem WF_setOff {c : GDBController} {m : DBGStateFlags} : QueueWF (c.setOff m) ↔ QueueWF c :=
  QueueWF_congr rfl rfl

theorem WF_setState {c : GDBController} {s : DBGStateFlags} :
    QueueWF (c.setState s) ↔ QueueWF c := QueueWF_congr rfl rfl

theorem WF_clearCurrentCmd {c : GDBController} (hi : QueueWF c) : QueueWF c.clearCurrentCmd :=
  ⟨(fun x hx => by cases hx), hi.unsent⟩

theorem WF_executeCmd {c : GDBController} (hi : QueueWF c) : QueueWF (executeCmd c) :=
  (QueueWF_executeCmd hi).1

theorem WF_queueCmd {c : GDBController} (cmd : DbgCommand) (executeNext : Bool)
    (hm : cmd.moreToSend = true) (hi : QueueWF c) : QueueWF (queueCmd c cmd executeNext) := by
  unfold queueCmd
  apply WF_executeCmd
  rw [queueCmdInsert_cmdList]
  refine ⟨hi.sent, ?_⟩
  intro x hx
  have hx2 : x ∈ queuedList c.cmdList_ cmd executeNext := hx
  unfold queuedList at hx2
  have hf : ∀ y ∈ (if cmd.isARunCmd = true then
      c.cmdList_.filter (fun z => !(z.isAnInfoCmd || z.isARunCmd)) else c.cmdList_),
      y.moreToSend = true := by
    intro y hy
    split at hy
    · exact hi.unsent y (List.mem_of_mem_filter hy)
    · exact hi.unsent y hy
  cases executeNext
  · simp only [Bool.false_eq_true, if_false, List.mem_append, List.mem_singleton] at hx2
    rcases hx2 with h | h
    · exact hf x h
    · rw [h]; exact hm
  · simp only [if_true, List.mem_cons] at hx2
    rcases hx2 with h | h
    · rw [h]; exact hm
    · exact hf x h

theorem WF_pauseApp {c : GDBController} (hi : QueueWF c) : QueueWF (pauseApp c) := by
  have h := pauseApp_spec c
  refine ⟨?_, ?_⟩
  · rw [h.2.2.2.1]; exact hi.sent
  · intro x hx
    rw [h.1] at hx
    exact hi.unsent x (h.2.1.subset hx)

theorem WF_destroyCmds {c : GDBController} : QueueWF (destroyCmds c) :=
  ⟨(fun x hx => by cases hx), (fun x hx => by cases hx)⟩

theorem WF_emit {c : GDBController} {e : Event} : QueueWF (c.emit e) ↔ QueueWF c :=
  QueueWF_congr rfl rfl

theorem WF_poke {c : GDBController} {p v : Nat} : QueueWF (c.poke p v) ↔ QueueWF c :=
  QueueWF_congr rfl rfl

theorem WF_setViewed {c : GDBController} {t f : Int} :
    QueueWF (c.setViewed t f) ↔ QueueWF c := QueueWF_congr rfl rfl

theorem WF_setViewedThread {c : GDBController} {t : Int} :
    QueueWF (c.setViewedThread t) ↔ QueueWF c := QueueWF_congr rfl rfl

theorem WF_setBacktraceDue {c : GDBController} {v : Bool} :
    QueueWF (c.setBacktraceDue v) ↔ QueueWF c := QueueWF_congr rfl rfl

theorem WF_setProgramHasExited {c : GDBController} {v : Bool} :
    QueueWF (c.setProgramHasExited v) ↔ QueueWF c := QueueWF_congr rfl rfl

theorem WF_setBadCore {c : GDBController} {v : List Nat} :
    QueueWF (c.setBadCore v) ↔ QueueWF c := QueueWF_congr rfl rfl

theorem WF_setProcess {c : GDBController} {p t : Bool} :
    QueueWF (c.setProcess p t) ↔ QueueWF c := QueueWF_congr rfl rfl

theorem WF_setBuffer {c : GDBController} {n m : Nat} {mem : List Nat} :
    QueueWF (c.setBuffer n m mem) ↔ QueueWF c := QueueWF_congr rfl rfl

theorem WF_setConfig {c : GDBController} {cfg : Config} :
    QueueWF (c.setConfig cfg) ↔ QueueWF c := QueueWF_congr rfl rfl

theorem WF_actOnProgramPause (T : Env) {c : GDBController} (msg : List Nat)
    (hi : QueueWF c) : QueueWF (actOnProgramPause T c msg) := by
  unfold actOnProgramPause
  dsimp only
  repeat' first
    | with_reducible refine WF_queueCmd _ _ ?_ ?_
    | rfl
    | simp only [WF_ite_iff, WF_setOn, WF_setOff, WF_setState, WF_emit, WF_setViewed, WF_setBacktraceDue]
    | refine And.intro ?_ ?_
    | intro _
    | with_reducible exact hi

theorem WF_programNoApp {c : GDBController} (msg : List Nat) (msgBox : Bool) :
    QueueWF (programNoApp c msg msgBox) := by
  unfold programNoApp
  dsimp only
  repeat' first
    | with_reducible apply WF_destroyCmds
    | simp only [WF_ite_iff, WF_setOn, WF_setOff, WF_setState, WF_emit, WF_setViewed]
    | refine And.intro ?_ ?_
    | intro _

theorem WF_parseProgramLocation (T : Env) {c : GDBController} (buf : List Nat)
    (hi : QueueWF c) : QueueWF (parseProgramLocation T c buf) := by
  unfold parseProgramLocation
  dsimp only
  repeat' first
    | with_reducible apply WF_actOnProgramPause
    | simp only [WF_ite_iff, WF_setOn, WF_setOff, WF_setState, WF_emit]
    | refine And.intro ?_ ?_
    | intro _
    | with_reducible exact hi
    | split

theorem WF_parseLine (T : Env) {c : GDBController} (buf : Nat)
    (hi : QueueWF c) : QueueWF (parseLine T c buf) := by
  unfold parseLine
  dsimp only
  repeat' first
    | with_reducible refine WF_queueCmd _ _ ?_ ?_
    | rfl
    | with_reducible apply WF_actOnProgramPause
    | with_reducible apply WF_programNoApp
    | with_reducible apply WF_parseProgramLocation
    | with_reducible apply WF_destroyCmds
    | rfl
    | simp only [WF_ite_iff, WF_setOn, WF_setOff, WF_setState, WF_emit, WF_touch, WF_setProgramHasExited, WF_setBadCore]
    | refine And.intro ?_ ?_
    | intro _
    | with_reducible exact hi

theorem WF_parseFrameSelected (T : Env) {c : GDBController} (buf : Nat)
    (hi : QueueWF c) : QueueWF (parseFrameSelected T c buf) := by
  unfold parseFrameSelected
  dsimp only
  repeat' first
    | with_reducible apply WF_parseProgramLocation
    | simp only [WF_ite_iff, WF_setOn, WF_setOff, WF_setState, WF_emit, WF_poke]
    | refine And.intro ?_ ?_
    | intro _
    | with_reducible exact hi
    | split

theorem WF_dispatchBlock (T : Env) {c : GDBController} (cmdType buf : Nat)
    (hi : QueueWF c) : QueueWF (dispatchBlock T c cmdType buf) := by
  unfold dispatchBlock parseBreakpointSet parseItemReply parseLocals parseBacktraceList
    parseThreadList
  dsimp only
  repeat' first
    | with_reducible apply WF_parseProgramLocation
    | with_reducible apply WF_parseFrameSelected
    | simp only [WF_ite_iff, WF_setOn, WF_setOff, WF_setState, WF_emit, WF_setBacktraceDue, WF_setViewedThread]
    | refine And.intro ?_ ?_
    | intro _
    | with_reducible exact hi
    | split

theorem WF_finishBlock (T : Env) {c : GDBController} (buf : Nat)
    (hi : QueueWF c) : QueueWF (finishBlock T c buf) := by
  unfold finishBlock
  dsimp only
  repeat' first
    | with_reducible apply WF_dispatchBlock
    | with_reducible apply WF_clearCurrentCmd
    | simp only [WF_ite_iff, WF_setOn, WF_setOff, WF_setState]
    | refine And.intro ?_ ?_
    | intro _
    | with_reducible exact hi
    | split

theorem WF_parseCmdBlock (T : Env) {c : GDBController} (buf : Nat)
    (hi : QueueWF c) : QueueWF (parseCmdBlock T c buf).2 := by
  unfold parseCmdBlock
  dsimp only
  repeat' first
    | with_reducible apply WF_finishBlock
    | simp only [WF_ite_iff, WF_setOn, WF_setOff, WF_setState, WF_touch, WF_poke]
    | refine And.intro ?_ ?_
    | intro _
    | with_reducible exact hi
    | split

theorem WF_parseOtherLoop (T : Env) (fuel : Nat) :
    ∀ (c : GDBController) (buf e : Nat), QueueWF c → QueueWF (parseOtherLoop T fuel c buf e).2 := by
  induction fuel with
  | zero => intro c buf e hi; exact hi
  | succ n ih =>
    intro c buf e hi
    unfold parseOtherLoop
    dsimp only
    repeat' first
      | with_reducible apply ih
      | with_reducible apply WF_parseLine
      | simp only [WF_ite_iff, WF_setOn, WF_setOff, WF_setState, WF_touch, WF_poke]
      | refine And.intro ?_ ?_
      | intro _
      | with_reducible exact hi
      | split

theorem WF_parseOther (T : Env) {c : GDBController} (buf : Nat)
    (hi : QueueWF c) : QueueWF (parseOther T c buf).2 :=
  WF_parseOtherLoop T _ c buf buf hi

theorem WF_parseLoop (T : Env) (fuel : Nat) :
    ∀ (c : GDBController) (unparsed : Nat), QueueWF c → QueueWF (parseLoop T fuel c unparsed).2 := by
  induction fuel with
  | zero => intro c unparsed hi; exact hi
  | succ n ih =>
    intro c unparsed hi
    unfold parseLoop
    dsimp only
    have h1 : QueueWF (c.touch (decide (unparsed < c.gdbOutput_.length))) := WF_touch.2 hi
    split
    · exact h1
    · have h2 : QueueWF (if byteAt c.gdbOutput_ unparsed = BLOCK_START then
          parseCmdBlock T (c.touch (decide (unparsed < c.gdbOutput_.length))) unparsed
          else parseOther T (c.touch (decide (unparsed < c.gdbOutput_.length))) unparsed).2 := by
        split
        · exact WF_parseCmdBlock T _ h1
        · exact WF_parseOther T _ h1
      split
      · exact h2
      · exact ih _ _ h2

theorem WF_parse (T : Env) {c : GDBController} (buf : Nat)
    (hi : QueueWF c) : QueueWF (parse T c buf).2 :=
  WF_parseLoop T _ c buf hi

theorem WF_appendOutput {c : GDBController} (buf : List Nat) (hi : QueueWF c) :
    QueueWF (appendOutput c buf) := by
  unfold appendOutput
  dsimp only
  simp only [WF_setBuffer, WF_touch, WF_ite_iff]
  exact ⟨fun _ => hi, fun _ => hi⟩

theorem WF_compactOutput {r : Option Nat × GDBController} (hi : QueueWF r.2) :
    QueueWF (compactOutput r) := by
  unfold compactOutput
  split
  · simp only [WF_setBuffer, WF_touch]; exact hi
  · exact hi

theorem WF_slotDbgStdout (T : Env) {c : GDBController} (buf : List Nat)
    (hi : QueueWF c) : QueueWF (slotDbgStdout T c buf) :=
  WF_executeCmd (WF_compactOutput (WF_parse T 0 (WF_appendOutput buf hi)))

theorem WF_queueAll (cmds : List DbgCommand) (hm : ∀ x ∈ cmds, x.moreToSend = true) :
    ∀ c : GDBController, QueueWF c → QueueWF (queueAll c cmds) := by
  induction cmds with
  | nil => intro c hi; exact hi
  | cons x rest ih =>
    intro c hi
    exact ih (fun y hy => hm y (List.mem_cons_of_mem _ hy)) _
      (WF_queueCmd x false (hm x (List.mem_cons_self _ _)) hi)

theorem WF_configure (T : Env) {c : GDBController} (cfg : Config)
    (hi : QueueWF c) : QueueWF (configure T c cfg) := by
  unfold configure
  dsimp only
  repeat' first
    | with_reducible refine WF_queueCmd _ _ ?_ ?_
    | rfl
    | with_reducible apply WF_pauseApp
    | rfl
    | simp only [WF_ite_iff, WF_setOn, WF_setOff, WF_setState, WF_setConfig]
    | refine And.intro ?_ ?_
    | intro _
    | with_reducible exact hi

theorem WF_slotStart (T : Env) {c : GDBController} (tty appDir : String)
    (envvars : List (String × String)) (hi : QueueWF c) :
    QueueWF (slotStart T c tty appDir envvars) := by
  unfold slotStart
  dsimp only
  repeat' first
    | with_reducible refine WF_queueAll _ ?_ _ ?_
    | (intro x hx
       simp only [List.mem_append, List.mem_cons, List.mem_singleton, List.mem_map,
         List.not_mem_nil, or_false] at hx
       rcases hx with ((((hx | hx | hx | hx) | hx) | hx | hx | hx | hx | hx | hx) | hx) | ⟨kv, _, hx⟩
       all_goals first
         | (rw [hx]; rfl)
         | (rw [← hx]; rfl)
         | (split at hx
            · rw [List.mem_singleton.1 hx]; rfl
            · cases hx))
    | simp only [WF_ite_iff, WF_setOn, WF_setOff, WF_setState, WF_emit, WF_setProcess, WF_setBadCore]
    | refine And.intro ?_ ?_
    | intro _
    | with_reducible exact hi

theorem WF_queueRefresh (T : Env) {c : GDBController} (hi : QueueWF c) :
    QueueWF (queueRefresh T c) := by
  unfold queueRefresh
  dsimp only
  repeat' first
    | with_reducible refine WF_queueCmd _ _ ?_ ?_
    | rfl
    | simp only [WF_ite_iff, WF_setOn, WF_setOff, WF_setState]
    | refine And.intro ?_ ?_
    | intro _
    | with_reducible exact hi

theorem WF_modifyBreakpoint (T : Env) {c : GDBController} (BP : Breakpoint)
    (hi : QueueWF c) : QueueWF (modifyBreakpoint T c BP) := by
  unfold modifyBreakpoint
  dsimp only
  repeat' first
    | with_reducible refine WF_queueCmd _ _ ?_ ?_
    | rfl
    | simp only [WF_ite_iff, WF_setOn, WF_setOff, WF_setState]
    | refine And.intro ?_ ?_
    | intro _
    | with_reducible exact hi

theorem WF_slotSelectFrame (T : Env) {c : GDBController} (frameNo threadNo : Int)
    (needFrames needLocals : Bool) (hi : QueueWF c) :
    QueueWF (slotSelectFrame T c frameNo threadNo needFrames needLocals) := by
  unfold slotSelectFrame
  dsimp only
  repeat' first
    | with_reducible refine WF_queueCmd _ _ ?_ ?_
    | rfl
    | simp only [WF_ite_iff, WF_setOn, WF_setOff, WF_setState, WF_setViewed]
    | refine And.intro ?_ ?_
    | intro _
    | with_reducible exact hi

theorem WF_stopBegin (T : Env) (c : GDBController) : QueueWF (stopBegin T c) := by
  unfold stopBegin
  dsimp only
  repeat' first
    | with_reducible refine WF_queueCmd _ _ ?_ ?_
    | rfl
    | with_reducible apply WF_pauseApp
    | with_reducible apply WF_destroyCmds
    | simp only [WF_ite_iff, WF_setOn, WF_setOff, WF_setState]
    | refine And.intro ?_ ?_
    | intro _

theorem WF_applyOp (T : Env) {c : GDBController} (op : Op) (hi : QueueWF c) :
    QueueWF (applyOp T c op) := by
  cases op <;>
  · unfold applyOp
    try unfold slotCoreFile
    try unfold slotAttachTo
    try unfold slotRun
    try unfold slotRunUntil
    try unfold slotStepInto
    try unfold slotStepIntoIns
    try unfold slotStepOver
    try unfold slotStepOverIns
    try unfold slotStepOutOff
    try unfold slotStep
    try unfold slotBreakInto
    try unfold slotBPState setBreakpoint clearBreakpoint
    try unfold slotClearAllBreakpoints
    try unfold slotDisassemble
    try unfold slotMemoryDump
    try unfold slotRegisters
    try unfold slotLibraries
    try unfold slotInfo
    try unfold slotVarItemConstructed
    try unfold slotExpandItem
    try unfold slotExpandUserItem
    try unfold slotSetLocalViewState
    try unfold slotDbgStderr
    try unfold slotDbgWroteStdin
    try unfold slotDbgProcessExited
    try unfold slotAbortTimedEvent
    try unfold slotUserGDBCmd
    try dsimp only
    repeat' first
      | with_reducible refine WF_queueCmd _ _ ?_ ?_
      | rfl
      | with_reducible apply WF_executeCmd
      | with_reducible apply WF_pauseApp
      | with_reducible apply WF_destroyCmds
      | with_reducible apply WF_configure
      | with_reducible apply WF_slotStart
      | with_reducible apply WF_queueRefresh
      | with_reducible apply WF_modifyBreakpoint
      | with_reducible apply WF_slotSelectFrame
      | with_reducible apply WF_slotDbgStdout
      | simp only [WF_ite_iff, WF_emit, WF_setOn, WF_setOff, WF_setState]
      | refine And.intro ?_ ?_
      | intro _
      | with_reducible exact hi
      | split

theorem WF_stopQuit {c : GDBController} (hi : QueueWF c) : QueueWF (stopQuit c) :=
  ⟨hi.sent, hi.unsent⟩

theorem WF_stopEnd {c : GDBController} (hi : QueueWF c) : QueueWF (stopEnd c) := by
  unfold stopEnd
  dsimp only
  simp only [WF_emit, WF_setState, WF_setProcess, WF_ite_iff]
  exact ⟨fun _ => hi, fun _ => hi⟩

/-- The queue of every reachable controller is well formed: the in-flight
command has been written and the pending commands have not. -/
theorem QueueWF_reachable (T : Env) {p : Phase} {c : GDBController} (h : Reachable T p c) :
    QueueWF c := by
  induction h with
  | construct cfg =>
    exact WF_configure T cfg ⟨(fun x hx => by cases hx), (fun x hx => by cases hx)⟩
  | call op _ ih => exact WF_applyOp T op ih
  | stopAttached _ _ _ _ => exact WF_stopBegin T _
  | stopDetached _ _ _ _ => exact WF_stopQuit (WF_stopBegin T _)
  | detachDone _ _ ih => exact WF_stopQuit ih
  | quitDone _ _ ih => exact WF_stopEnd ih

theorem splitOnByte_ne_nil (sep : Nat) (l : List Nat) : splitOnByte sep l ≠ [] := by
  induction l with
  | nil => simp [splitOnByte]
  | cons b bs ih =>
    unfold splitOnByte
    split
    · simp
    · split <;> simp

theorem splitOnByte_free (sep : Nat) (l : List Nat) (h : ∀ b ∈ l, b ≠ sep) :
    splitOnByte sep l = [l] := by
  induction l with
  | nil => rfl
  | cons b bs ih =>
    have hb : b ≠ sep := h b (List.mem_cons_self _ _)
    unfold splitOnByte
    rw [if_neg hb, ih (fun x hx => h x (List.mem_cons_of_mem _ hx))]

theorem splitOnByte_cons (sep x : Nat) (l : List Nat) :
    splitOnByte sep (x :: l) =
      if x = sep then [] :: splitOnByte sep l
      else match splitOnByte sep l with
        | hd :: tl => (x :: hd) :: tl
        | [] => [[x]] := by
  rw [splitOnByte]

theorem splitOnByte_append (sep : Nat) (a b : List Nat) :
    splitOnByte sep (a ++ sep :: b) = splitOnByte sep a ++ splitOnByte sep b := by
  induction a with
  | nil => simp [splitOnByte]
  | cons x a ih =>
    rw [List.cons_append, splitOnByte_cons, splitOnByte_cons, ih]
    by_cases hx : x = sep
    · rw [if_pos hx, if_pos hx]
      rfl
    · rw [if_neg hx, if_neg hx]
      cases hs : splitOnByte sep a with
      | nil => exact absurd hs (splitOnByte_ne_nil sep a)
      | cons hd tl => rfl

theorem intercalate_splitOnByte (sep : Nat) (l : List Nat) :
    List.intercalate [sep] (splitOnByte sep l) = l := by
  induction l with
  | nil => simp [splitOnByte, List.intercalate]
  | cons x l ih =>
    unfold splitOnByte
    cases hs : splitOnByte sep l with
    | nil => exact absurd hs (splitOnByte_ne_nil sep l)
    | cons hd tl =>
      rw [hs] at ih
      by_cases hx : x = sep
      · rw [if_pos hx]
        simp only [List.intercalate, List.intersperse, List.flatten, List.nil_append,
          List.singleton_append] at ih ⊢
        rw [ih, hx]
      · rw [if_neg hx]
        cases tl with
        | nil =>
          simp only [List.intercalate, List.intersperse, List.flatten, List.append_nil] at ih ⊢
          rw [ih]
        | cons t ts =>
          simp only [List.intercalate, List.intersperse, List.flatten, List.cons_append] at ih ⊢
          rw [ih]

theorem isDigit_ne_colon {d : Nat} (h : isDigit d = true) : d ≠ 58 := by
  unfold isDigit at h
  simp only [Bool.and_eq_true, decide_eq_true_eq] at h
  omega

theorem isLower_ne_colon {d : Nat} (h : isLower d = true) : d ≠ 58 := by
  unfold isLower at h
  simp only [Bool.and_eq_true, decide_eq_true_eq] at h
  omega

theorem isHex_ne_colon {d : Nat} (h : isHex d = true) : d ≠ 58 := by
  unfold isHex isDigit at h
  simp only [Bool.or_eq_true, Bool.and_eq_true, decide_eq_true_eq] at h
  omega

/-- The search of `regExp1` in a line `file:line:col:tag:0xhex` succeeds and
captures the file, the line number and the address. -/
theorem regExp1_locationLine (file line col tag hex : List Nat)
    (hl : line ≠ []) (hld : ∀ b ∈ line, isDigit b = true)
    (hc : col ≠ []) (hcd : ∀ b ∈ col, isDigit b = true)
    (ht : tag ≠ []) (htl : ∀ b ∈ tag, isLower b = true)
    (hh : hex ≠ []) (hhx : ∀ b ∈ hex, isHex b = true) :
    regExp1 (locationLine file line col tag hex) = some (file, line, 48 :: 120 :: hex) := by
  have ha : splitOnByte 58 (48 :: 120 :: hex) = [48 :: 120 :: hex] := by
    apply splitOnByte_free
    intro b hb
    simp only [List.mem_cons] at hb
    rcases hb with hb | hb | hb
    · rw [hb]; decide
    · rw [hb]; decide
    · exact isHex_ne_colon (hhx b hb)
  have hsplit : splitOnByte 58 (locationLine file line col tag hex) =
      splitOnByte 58 file ++ [line, col, tag, 48 :: 120 :: hex] := by
    unfold locationLine
    rw [splitOnByte_append, splitOnByte_append, splitOnByte_append, splitOnByte_append, ha,
      splitOnByte_free 58 line (fun b hb => isDigit_ne_colon (hld b hb)),
      splitOnByte_free 58 col (fun b hb => isDigit_ne_colon (hcd b hb)),
      splitOnByte_free 58 tag (fun b hb => isLower_ne_colon (htl b hb))]
    rfl
  obtain ⟨f, fs, hf⟩ : ∃ f fs, (splitOnByte 58 file).reverse = f :: fs := by
    cases h : (splitOnByte 58 file).reverse with
    | nil => exact absurd (List.reverse_eq_nil_iff.1 h) (splitOnByte_ne_nil 58 file)
    | cons f fs => exact ⟨f, fs, rfl⟩
  have hfile : List.intercalate [58] (f :: fs).reverse = file := by
    rw [← hf, List.reverse_reverse, intercalate_splitOnByte]
  unfold regExp1
  rw [hsplit]
  simp only [List.reverse_append, List.reverse_cons, List.reverse_nil, List.nil_append,
    List.cons_append, hf]
  have h1 : (hex != []) = true := by simpa using hh
  have h2 : hex.all isHex = true := List.all_eq_true.2 hhx
  have h3 : (tag != []) = true := by simpa using ht
  have h4 : tag.all isLower = true := List.all_eq_true.2 htl
  have h5 : (col != []) = true := by simpa using hc
  have h6 : col.all isDigit = true := List.all_eq_true.2 hcd
  have h7 : (line != []) = true := by simpa using hl
  have h8 : line.all isDigit = true := List.all_eq_true.2 hld
  have h9 : ((48 :: 120 :: hex).take 2 == [48, 120]) = true := by simp
  have h10 : (48 :: 120 :: hex).drop 2 = hex := rfl
  rw [h10, h9, h1, h2, h3, h4, h5, h6, h7, h8]
  simp only [Bool.and_self, if_true]
  rw [← List.reverse_cons, hfile]

theorem locationLine_clean (file line col tag hex : List Nat)
    (hfile : ∀ b ∈ file, b ≠ 0 ∧ b ≠ 10)
    (hld : ∀ b ∈ line, isDigit b = true) (hcd : ∀ b ∈ col, isDigit b = true)
    (htl : ∀ b ∈ tag, isLower b = true) (hhx : ∀ b ∈ hex, isHex b = true) :
    ∀ b ∈ locationLine file line col tag hex, b ≠ 0 ∧ b ≠ 10 := by
  have hd : ∀ b, isDigit b = true → b ≠ 0 ∧ b ≠ 10 := by
    intro b h
    unfold isDigit at h
    simp only [Bool.and_eq_true, decide_eq_true_eq] at h
    omega
  have hlo : ∀ b, isLower b = true → b ≠ 0 ∧ b ≠ 10 := by
    intro b h
    unfold isLower at h
    simp only [Bool.and_eq_true, decide_eq_true_eq] at h
    omega
  have hx : ∀ b, isHex b = true → b ≠ 0 ∧ b ≠ 10 := by
    intro b h
    unfold isHex isDigit at h
    simp only [Bool.or_eq_true, Bool.and_eq_true, decide_eq_true_eq] at h
    omega
  intro b hb
  unfold locationLine at hb
  simp only [List.mem_append, List.mem_cons] at hb
  rcases hb with hb | hb | hb | hb | hb | hb | hb | hb | hb | hb | hb
  · exact hfile b hb
  · rw [hb]; decide
  · exact hd b (hld b hb)
  · rw [hb]; decide
  · exact hd b (hcd b hb)
  · rw [hb]; decide
  · exact hlo b (htl b hb)
  · rw [hb]; decide
  · rw [hb]; decide
  · rw [hb]; decide
  · exact hx b (hhx b hb)

/-- C16 (refuted as stated): the bytes `/src/foo.cpp:42:7:beg:0x1000` and a
newline, delivered as a line of their own to a controller with AppBusy set and
Silent clear, emit no step-location event: `parseLine` hands a line to
`parseProgramLocation` only when it starts with a digit. -/
theorem C16_counterexample :
    busyController.state_.appBusy = true ∧ busyController.state_.silent = false ∧
    busyController.gdbOutputLen_ = 0 ∧
    (slotDbgStdout sampleEnv busyController (str "/src/foo.cpp:42:7:beg:0x1000\n")).log_.filter
      isStep = [] ∧
    Event.line (str "/src/foo.cpp:42:7:beg:0x1000") ∈
      (slotDbgStdout sampleEnv busyController (str "/src/foo.cpp:42:7:beg:0x1000\n")).log_ := by
  refine ⟨by decide, by decide, by decide, by decide, by decide⟩

/-- C16 (amended): for every reachable controller with AppBusy set, Silent
clear and nothing retained of earlier output, the line
`file:line:col:tag:0xhex` delivered as a source-position block (the marker
`\032\032`, the line, a newline) adds exactly one step-location event,
`showStepInSource(file, line number, 0xhex)`, leaves AppBusy clear and
consumes the block; for `/src/foo.cpp:42:7:beg:0x1000` the event carries
`/src/foo.cpp`, 42 and `0x1000`. -/
theorem C16_source_position_block_emits_step (T : Env) (c : GDBController)
    (file line col tag hex : List Nat)
    (hlen : c.gdbOutputLen_ = 0)
    (hf : T.FRAME ≠ SRC_POSITION) (hbp : T.SET_BREAKPT ≠ SRC_POSITION)
    (hfile : ∀ b ∈ file, b ≠ 0 ∧ b ≠ 10)
    (hl : line ≠ []) (hld : ∀ b ∈ line, isDigit b = true)
    (hc : col ≠ []) (hcd : ∀ b ∈ col, isDigit b = true)
    (ht : tag ≠ []) (htl : ∀ b ∈ tag, isLower b = true)
    (hh : hex ≠ []) (hhx : ∀ b ∈ hex, isHex b = true)
    (hb : c.state_.appBusy = true) (hsil : c.state_.silent = false)
    (p : Phase) (hr : Reachable T p c) :
    (slotDbgStdout T c (BLOCK_START :: SRC_POSITION ::
        (locationLine file line col tag hex ++ [10]))).log_.filter isStep =
      c.log_.filter isStep ++ [Event.showStepInSource file (toInt line) (48 :: 120 :: hex)] ∧
    (slotDbgStdout T c (BLOCK_START :: SRC_POSITION ::
        (locationLine file line col tag hex ++ [10]))).state_.appBusy = false ∧
    (slotDbgStdout T c (BLOCK_START :: SRC_POSITION ::
        (locationLine file line col tag hex ++ [10]))).gdbOutputLen_ = 0 ∧
    (digitsValue line < 2147483648 → toInt line = (digitsValue line : Int)) ∧
    locationLine (str "/src/foo.cpp") (str "42") (str "7") (str "beg") (str "1000") =
      str "/src/foo.cpp:42:7:beg:0x1000" ∧
    toInt (str "42") = 42 ∧ 48 :: 120 :: str "1000" = str "0x1000" := by
  have h := slotDbgStdout_position T c (locationLine file line col tag hex) file line
    (48 :: 120 :: hex) hlen hf hbp (locationLine_clean file line col tag hex hfile hld hcd htl hhx)
    (regExp1_locationLine file line col tag hex hl hld hc hcd ht htl hh hhx) hb hsil
    (QueueWF_reachable T hr)
  refine ⟨h.2.1.eq, h.1.idle, h.2.2, ?_, by decide, by decide, by decide⟩
  intro hlt
  unfold toInt
  rw [if_pos hlt]

theorem C16_witness :
    Reachable sampleEnv Phase.idle busyController ∧
    (slotDbgStdout sampleEnv busyController (BLOCK_START :: SRC_POSITION ::
        (locationLine (str "/src/foo.cpp") (str "42") (str "7") (str "beg") (str "1000") ++
          [10]))).log_.filter isStep =
      busyController.log_.filter isStep ++
        [Event.showStepInSource (str "/src/foo.cpp") (toInt (str "42")) (48 :: 120 :: str "1000")] ∧
    (slotDbgStdout sampleEnv busyController (BLOCK_START :: SRC_POSITION ::
        (locationLine (str "/src/foo.cpp") (str "42") (str "7") (str "beg") (str "1000") ++
          [10]))).state_.appBusy = false :=
  have hr : Reachable sampleEnv Phase.idle busyController :=
    Reachable.call Op.slotDbgWroteStdin (Reachable.call Op.slotRun
      (Reachable.call (Op.slotSelectFrame 2 5 false false)
        (reachable_runOps _ reachable_started)))
  have h := C16_source_position_block_emits_step sampleEnv busyController (str "/src/foo.cpp")
    (str "42") (str "7") (str "beg") (str "1000") (by decide) (by decide) (by decide) (by decide)
    (by decide) (by decide) (by decide) (by decide) (by decide) (by decide) (by decide) (by decide)
    (by decide) (by decide) Phase.idle hr
  ⟨hr, h.1, h.2.1⟩

/-- C21 as stated fails: `slotSelectFrame` stores the requested thread and
frame before it returns.  On the settled controller (thread -1, frame 0) the
request for frame 2 of thread 5 queues no command at all and the context is
(5, 2) at once; a following request for frame 1 of thread 7 writes `thread 7`
to gdb and the context is (7, 1) although no reply has been received. -/
theorem C21_counterexample :
    settledController.viewedThread_ = -1 ∧ settledController.currentFrame_ = 0 ∧
    (slotSelectFrame sampleEnv settledController 2 5 false false).log_ = settledController.log_ ∧
    (slotSelectFrame sampleEnv settledController 2 5 false false).cmdList_ = [] ∧
    (slotSelectFrame sampleEnv settledController 2 5 false false).viewedThread_ = 5 ∧
    (slotSelectFrame sampleEnv settledController 2 5 false false).currentFrame_ = 2 ∧
    (slotSelectFrame sampleEnv viewingController 1 7 false false).log_.drop
        viewingController.log_.length =
      [Event.writeStdin "thread 7"] ∧
    (slotSelectFrame sampleEnv viewingController 1 7 false false).viewedThread_ = 7 ∧
    (slotSelectFrame sampleEnv viewingController 1 7 false false).currentFrame_ = 1 := by
  refine ⟨by decide, by decide, by decide, by decide, by decide, by decide, by decide,
    by decide, by decide⟩

/-- C21 (amended): `slotSelectFrame` returns without any effect when AppBusy,
NotStarted or ShuttingDown is set; otherwise `viewedThread_` and
`currentFrame_` hold the requested thread and frame when it returns, before
any reply is read.  The handler of a thread-list reply, `parseThreadList`,
sets `viewedThread_` to the thread the frame stack reports and leaves
`currentFrame_`. -/
theorem C21_select_frame_sets_context_at_once (T : Env) (c : GDBController)
    (frameNo threadNo : Int) (needFrames needLocals : Bool) :
    (stateIsOn c.state_ (s_appBusy.bor (s_dbgNotStarted.bor s_shuttingDown)) = true →
      slotSelectFrame T c frameNo threadNo needFrames needLocals = c) ∧
    (stateIsOn c.state_ (s_appBusy.bor (s_dbgNotStarted.bor s_shuttingDown)) = false →
      (slotSelectFrame T c frameNo threadNo needFrames needLocals).viewedThread_ = threadNo ∧
      (slotSelectFrame T c frameNo threadNo needFrames needLocals).currentFrame_ = frameNo) ∧
    (∀ buf : List Nat,
      (parseThreadList T c buf).viewedThread_ = T.viewedThread buf ∧
      (parseThreadList T c buf).currentFrame_ = c.currentFrame_) := by
  refine ⟨?_, ?_, fun buf => ⟨rfl, rfl⟩⟩
  · intro h
    unfold slotSelectFrame
    rw [if_pos h]
  · intro h
    have key : ∀ (c1 : GDBController) (p : Prop) [Decidable p] (a b : DbgCommand),
        (if p then queueCmd (queueCmd (c1.setViewed threadNo frameNo) a false) b false
          else c1.setViewed threadNo frameNo).viewedThread_ = threadNo ∧
        (if p then queueCmd (queueCmd (c1.setViewed threadNo frameNo) a false) b false
          else c1.setViewed threadNo frameNo).currentFrame_ = frameNo := by
      intro c1 p _ a b
      split
      · rw [(queueCmd_view _ _ _).1, (queueCmd_view _ _ _).2, (queueCmd_view _ _ _).1,
          (queueCmd_view _ _ _).2]
        exact ⟨rfl, rfl⟩
      · exact ⟨rfl, rfl⟩
    unfold slotSelectFrame
    rw [if_neg (by rw [h]; decide)]
    exact key _ _ _ _

/-- A command queued at the tail of a well-formed queue is, when `queueCmd`
returns, the last pending command or the command in flight. -/
theorem queueCmd_tail_lands (c : GDBController) (cmd : DbgCommand) (hwf : QueueWF c)
    (hm : cmd.moreToSend = true) :
    (queueCmd c cmd false).cmdList_.getLast? = some cmd ∨
    (queueCmd c cmd false).currentCmd_ = some cmd.markSent := by
  have hq : QueueWF { c with cmdList_ := queuedList c.cmdList_ cmd false } := by
    refine ⟨hwf.sent, ?_⟩
    intro x hx
    have hx2 : x ∈ queuedList c.cmdList_ cmd false := hx
    unfold queuedList at hx2
    simp only [Bool.false_eq_true, if_false, List.mem_append, List.mem_singleton] at hx2
    rcases hx2 with h | h
    · split at h
      · exact hwf.unsent x (List.mem_of_mem_filter h)
      · exact hwf.unsent x h
    · rw [h]; exact hm
  obtain ⟨kept, hk⟩ : ∃ kept, queuedList c.cmdList_ cmd false = kept ++ [cmd] := by
    unfold queuedList
    simp only [Bool.false_eq_true, if_false]
    exact ⟨_, rfl⟩
  unfold queueCmd
  rw [queueCmdInsert_cmdList]
  rcases executeCmd_wf _ hq with ⟨_, he⟩ | ⟨_, _, ⟨hl, _⟩ | ⟨x, rest, hl, he⟩⟩
  · rw [he]
    left
    show (queuedList c.cmdList_ cmd false).getLast? = some cmd
    rw [hk]; simp
  · exfalso
    have hl2 : queuedList c.cmdList_ cmd false = [] := hl
    rw [hk] at hl2
    simp at hl2
  · rw [he]
    have hl2 : queuedList c.cmdList_ cmd false = x :: rest := hl
    rw [hk] at hl2
    cases kept with
    | nil =>
      right
      simp only [List.nil_append, List.cons.injEq] at hl2
      rw [(executeCmdWrite_spec _ x).1, ← hl2.1]
    | cons y ys =>
      left
      simp only [List.cons_append, List.cons.injEq] at hl2
      rw [executeCmdWrite_cmdList]
      show rest.getLast? = some cmd
      rw [← hl2.2]; simp

theorem qchars_latin1 (l : List Char) (h : ∀ ch ∈ l, ch.toNat ≤ 255) :
    (qchars (String.mk l)) = l.map Char.toNat := by
  unfold qchars
  show (l.flatMap _) = _
  induction l with
  | nil => rfl
  | cons a l ih =>
    have ha := h a (List.mem_cons_self _ _)
    have hlt : a.toNat < 65536 := by omega
    rw [List.flatMap_cons, List.map_cons, if_pos hlt,
      ih (fun ch hch => h ch (List.mem_cons_of_mem _ hch))]
    rfl

theorem latin1_verbatim (T : Env) (cmd : String) (h : ∀ ch ∈ cmd.toList, ch.toNat ≤ 255) :
    latin1 T cmd = cmd := by
  cases cmd with
  | mk l =>
    unfold latin1
    rw [qchars_latin1 l h]
    congr 1
    rw [List.map_map]
    conv_rhs => rw [← List.map_id l]
    apply List.map_congr_left
    intro ch hch
    have := h ch hch
    simp only [Function.comp_apply, id_eq]
    rw [if_pos this]
    exact Char.ofNat_toNat ch

theorem latin1_bytes (T : Env) (cmd : String) : ∀ ch ∈ (latin1 T cmd).toList, ch.toNat ≤ 255 := by
  intro ch hch
  unfold latin1 at hch
  have hch2 : ch ∈ (qchars cmd).map
      (fun u => Char.ofNat (if u ≤ 255 then u else T.latin1Other u % 256)) := hch
  obtain ⟨u, _, rfl⟩ := List.mem_map.1 hch2
  have hu : (if u ≤ 255 then u else T.latin1Other u % 256) ≤ 255 := by
    split
    · assumption
    · omega
  generalize (if u ≤ 255 then u else T.latin1Other u % 256) = n at hu
  have hv : n.isValidChar := Or.inl (by omega)
  rw [Char.ofNat, dif_pos hv]
  exact hu

theorem latin1_not_verbatim (T : Env) (cmd : String) (h : ∃ ch ∈ cmd.toList, 255 < ch.toNat) :
    latin1 T cmd ≠ cmd := by
  intro he
  obtain ⟨ch, hch, hgt⟩ := h
  have := latin1_bytes T cmd ch (by rw [he]; exact hch)
  omega

/-- C30 as stated fails for a text with a character above U+00FF: the command
`c` followed by U+4E2D begins with `c`, and what `slotUserGDBCmd` submits is
the 8-bit text of `cmd.latin1()`, here `c?`, not the text itself. -/
theorem C30_counterexample :
    wideCommand.toList.map Char.toNat = [99, 20013] ∧
    startsWith wideCommand "c" = true ∧
    slotUserGDBCmd sampleEnv settledController wideCommand false =
      (queueCmd settledController (GDBCommand "c?" RUNCMD NOTINFOCMD 0) false, false) ∧
    (slotUserGDBCmd sampleEnv settledController wideCommand false).1.log_.drop
        settledController.log_.length =
      [Event.writeStdin "c?", Event.dbgStatus [] (slotUserGDBCmd sampleEnv settledController
        wideCommand false).1.state_] ∧
    (GDBCommand "c?" RUNCMD NOTINFOCMD 0).rawDbgCommand ≠ wideCommand := by
  refine ⟨by decide, by decide, by decide, by decide, by decide⟩

/-- C30 (amended): `slotUserGDBCmd` first tests whether the text begins with
`step` or with `c`; if so it submits `cmd.latin1()` as a run-type, non-info
command without a tag, whatever the flags are (AppBusy, NotStarted and
ShuttingDown are not looked at).  A text that passes none of its tests
(`step`/`c`, `info lo`, `info ar`, `info th`, `ba`/`bt`, the search of
`^fr[ame]*\s+(\d+)`, the search of `^th[read]*\s+(\d+)`, `qu`) is submitted as
`cmd.latin1()` too, as an info-type command with the tag USERCMD.  Submitted
means `queueCmd` at the tail: on a well-formed queue the command is then the
last pending one or the one in flight.  The text `cmd.latin1()` is the text
itself exactly when no character of it is above U+00FF. -/
theorem C30_user_command_rules (T : Env) (c : GDBController) (cmd : String)
    (needLocals : Bool) :
    ((startsWith cmd "step" || startsWith cmd "c") = true →
      slotUserGDBCmd T c cmd needLocals =
        (queueCmd c (GDBCommand (latin1 T cmd) RUNCMD NOTINFOCMD 0) false, false) ∧
      (QueueWF c →
        (queueCmd c (GDBCommand (latin1 T cmd) RUNCMD NOTINFOCMD 0) false).cmdList_.getLast? =
          some (GDBCommand (latin1 T cmd) RUNCMD NOTINFOCMD 0) ∨
        (queueCmd c (GDBCommand (latin1 T cmd) RUNCMD NOTINFOCMD 0) false).currentCmd_ =
          some (GDBCommand (latin1 T cmd) RUNCMD NOTINFOCMD 0).markSent)) ∧
    ((startsWith cmd "step" || startsWith cmd "c") = false →
      startsWith cmd "info lo" = false → startsWith cmd "info ar" = false →
      startsWith cmd "info th" = false → (startsWith cmd "ba" || startsWith cmd "bt") = false →
      numberedCmd T (str "fr") (fun b => b == 97 || b == 109 || b == 101) (qchars cmd) = none →
      numberedCmd T (str "th") (fun b => b == 114 || b == 101 || b == 97 || b == 100)
        (qchars cmd) = none →
      startsWith cmd "qu" = false →
      slotUserGDBCmd T c cmd needLocals =
        (queueCmd c (GDBCommand (latin1 T cmd) NOTRUNCMD INFOCMD T.USERCMD) false, false) ∧
      (QueueWF c →
        (queueCmd c (GDBCommand (latin1 T cmd) NOTRUNCMD INFOCMD T.USERCMD)
            false).cmdList_.getLast? =
          some (GDBCommand (latin1 T cmd) NOTRUNCMD INFOCMD T.USERCMD) ∨
        (queueCmd c (GDBCommand (latin1 T cmd) NOTRUNCMD INFOCMD T.USERCMD)
            false).currentCmd_ =
          some (GDBCommand (latin1 T cmd) NOTRUNCMD INFOCMD T.USERCMD).markSent)) ∧
    ((GDBCommand (latin1 T cmd) RUNCMD NOTINFOCMD 0).rawDbgCommand = latin1 T cmd ∧
      (GDBCommand (latin1 T cmd) RUNCMD NOTINFOCMD 0).isARunCmd = true ∧
      (GDBCommand (latin1 T cmd) RUNCMD NOTINFOCMD 0).isAnInfoCmd = false) ∧
    ((GDBCommand (latin1 T cmd) NOTRUNCMD INFOCMD T.USERCMD).rawDbgCommand = latin1 T cmd ∧
      (GDBCommand (latin1 T cmd) NOTRUNCMD INFOCMD T.USERCMD).isARunCmd = false ∧
      (GDBCommand (latin1 T cmd) NOTRUNCMD INFOCMD T.USERCMD).isAnInfoCmd = true ∧
      (GDBCommand (latin1 T cmd) NOTRUNCMD INFOCMD T.USERCMD).prompt_ = T.USERCMD) ∧
    ((∀ ch ∈ cmd.toList, ch.toNat ≤ 255) → latin1 T cmd = cmd) ∧
    ((∃ ch ∈ cmd.toList, 255 < ch.toNat) → latin1 T cmd ≠ cmd) := by
  refine ⟨?_, ?_, ⟨rfl, rfl, rfl⟩, ⟨rfl, rfl, rfl, rfl⟩, latin1_verbatim T cmd,
    latin1_not_verbatim T cmd⟩
  · intro h
    refine ⟨?_, fun hwf => queueCmd_tail_lands c _ hwf rfl⟩
    unfold slotUserGDBCmd
    rw [if_pos h]
  · intro h1 h2 h3 h4 h5 h6 h7 h8
    refine ⟨?_, fun hwf => queueCmd_tail_lands c _ hwf rfl⟩
    unfold slotUserGDBCmd
    simp only [h1, h2, h3, h4, h5, h6, h7, h8, Bool.false_eq_true, if_false]

theorem C30_witness :
    busyController.state_.appBusy = true ∧
    latin1 sampleEnv "continue" = "continue" ∧
    slotUserGDBCmd sampleEnv busyController "continue" false =
      (queueCmd busyController (GDBCommand (latin1 sampleEnv "continue") RUNCMD NOTINFOCMD 0)
        false, false) ∧
    (queueCmd busyController (GDBCommand "continue" RUNCMD NOTINFOCMD 0) false).cmdList_ =
      [GDBCommand "continue" RUNCMD NOTINFOCMD 0] ∧
    initialController.state_.dbgNotStarted = true ∧
    (slotUserGDBCmd sampleEnv initialController "cd /tmp" false).1.cmdList_ =
      [GDBCommand "cd /tmp" RUNCMD NOTINFOCMD 0] ∧
    latin1 sampleEnv "print x" = "print x" ∧
    slotUserGDBCmd sampleEnv settledController "print x" false =
      (queueCmd settledController
        (GDBCommand (latin1 sampleEnv "print x") NOTRUNCMD INFOCMD sampleEnv.USERCMD)
        false, false) ∧
    (slotUserGDBCmd sampleEnv settledController "print x" false).1.currentCmd_ =
      some (GDBCommand "print x" NOTRUNCMD INFOCMD sampleEnv.USERCMD).markSent ∧
    sampleEnv.qIsSpace 160 = true ∧
    (slotUserGDBCmd sampleEnv settledController frameNbspCommand false).1.currentFrame_ = 5 ∧
    (written (slotUserGDBCmd sampleEnv settledController frameNbspCommand false).1.log_).drop
        (written settledController.log_).length = ["frame 5"] :=
  ⟨by decide, by decide,
   ((C30_user_command_rules sampleEnv busyController "continue" false).1 (by decide)).1,
   by decide, by decide, by decide, by decide,
   ((C30_user_command_rules sampleEnv settledController "print x" false).2.1
     (by decide) (by decide) (by decide) (by decide) (by decide) (by decide) (by decide)
     (by decide)).1,
   by decide, by decide, by decide, by decide⟩

/-- The test `strncmp(s, lit, n) == 0` looks at the first `n` bytes of `s` only. -/
theorem strncmpEq_take (lit : String) (p rest : List Nat) (n : Nat) (hn : n ≤ p.length) :
    strncmpEq (p ++ rest) lit n = (p.take n == (str lit ++ [0]).take n) := by
  unfold strncmpEq
  rw [List.append_assoc, List.take_append_of_le_length hn]

/-- What a dispatch writes to the log when Silent is set: the text, and a
status without message when the command is run-type. -/
theorem executeCmdWrite_log_silent (c : GDBController) (x : DbgCommand)
    (hs : c.state_.silent = true) :
    (executeCmdWrite c x).log_ = c.log_ ++ Event.writeStdin x.command_ ::
      (if x.isARunCmd = true then [Event.dbgStatus [] (executeCmdWrite c x).state_] else []) := by
  unfold executeCmdWrite
  simp only [GDBController.emit]
  cases hr : x.isARunCmd <;> simp [hs]

/-- What `executeCmd` adds to the log when Silent is set: nothing, or the text
of the command it writes, followed by a status without message that carries
AppBusy when that command is run-type. -/
theorem executeCmd_log_silent (d : GDBController) (hs : d.state_.silent = true) :
    ∃ added, (executeCmd d).log_ = d.log_ ++ added ∧
      ∀ ev ∈ added, (∃ t, ev = Event.writeStdin t) ∨
        (∃ st : DBGStateFlags, ev = Event.dbgStatus [] st ∧ st.appBusy = true) := by
  rcases executeCmd_cases d with h | ⟨e, x, hx, hst, hl, _⟩
  · exact ⟨[], by rw [h.1]; simp, fun ev hev => by cases hev⟩
  · have hes : e.state_.silent = true := by rw [hst]; exact hs
    refine ⟨Event.writeStdin x.command_ ::
      (if x.isARunCmd = true then [Event.dbgStatus [] (executeCmdWrite e x).state_] else []),
      ?_, ?_⟩
    · rw [hx, executeCmdWrite_log_silent e x hes, hl]
    · intro ev hev
      simp only [List.mem_cons] at hev
      rcases hev with h | h
      · exact Or.inl ⟨_, h⟩
      · right
        cases hr : x.isARunCmd
        · rw [hr] at h; simp at h
        · rw [hr] at h
          simp only [if_true, List.mem_singleton] at h
          refine ⟨_, h, ?_⟩
          rw [(executeCmdWrite_spec e x).2.2, hr]
          rfl

theorem queueCmd_log_silent (c : GDBController) (cmd : DbgCommand) (executeNext : Bool)
    (hs : c.state_.silent = true) :
    ∃ added, (queueCmd c cmd executeNext).log_ = c.log_ ++ added ∧
      ∀ ev ∈ added, (∃ t, ev = Event.writeStdin t) ∨
        (∃ st : DBGStateFlags, ev = Event.dbgStatus [] st ∧ st.appBusy = true) := by
  unfold queueCmd
  rw [queueCmdInsert_cmdList]
  exact executeCmd_log_silent _ hs

/-- C24: the line `Stopped due to shared library event` given to `parseLine`.
When the in-flight command has the raw text `run` or `continue`: Silent is set
and AppBusy cleared, `acceptPendingBPs` is emitted and one run-type `continue`
is submitted with `queueCmd`; thread and frame stay as they were, and apart
from the record of the line and `acceptPendingBPs` the only events are those
of a write to gdb (the text, and a status without message that carries
AppBusy), so no stop is reported.  With another in-flight command, or none,
the line is handled as `actOnProgramPause(line)`. -/
theorem C24_shared_library_event (T : Env) (c : GDBController) (buf : Nat) (rest : List Nat)
    (hline : cstr c.gdbOutput_ buf = str "Stopped due to shared library event" ++ rest) :
    (∀ cmd : DbgCommand, c.currentCmd_ = some cmd →
      (cmd.rawDbgCommand = "run" ∨ cmd.rawDbgCommand = "continue") →
      (∃ d : GDBController,
        d.state_ = { c.state_ with silent := true, appBusy := false } ∧
        d.log_ = c.log_ ++ [Event.line (cstr c.gdbOutput_ buf), Event.acceptPendingBPs] ∧
        d.cmdList_ = c.cmdList_ ∧ d.currentCmd_ = c.currentCmd_ ∧
        parseLine T c buf = queueCmd d (GDBCommand "continue" RUNCMD NOTINFOCMD 0) false) ∧
      (parseLine T c buf).viewedThread_ = c.viewedThread_ ∧
      (parseLine T c buf).currentFrame_ = c.currentFrame_ ∧
      (∃ added, (parseLine T c buf).log_ =
          c.log_ ++ [Event.line (cstr c.gdbOutput_ buf), Event.acceptPendingBPs] ++ added ∧
        ∀ ev ∈ added, (∃ t, ev = Event.writeStdin t) ∨
          (∃ st : DBGStateFlags, ev = Event.dbgStatus [] st ∧ st.appBusy = true))) ∧
    ((c.currentCmd_ = none ∨ ∃ cmd : DbgCommand, c.currentCmd_ = some cmd ∧
        cmd.rawDbgCommand ≠ "run" ∧ cmd.rawDbgCommand ≠ "continue") →
      parseLine T c buf =
        actOnProgramPause T (c.emit (Event.line (cstr c.gdbOutput_ buf)))
          (cstr c.gdbOutput_ buf)) := by
  have hp : ∀ (lit : String) (n : Nat), n ≤ 35 →
      strncmpEq (cstr c.gdbOutput_ buf) lit n =
        ((str "Stopped due to shared library event").take n == (str lit ++ [0]).take n) := by
    intro lit n hn
    rw [hline]
    exact strncmpEq_take lit _ rest n (by simpa [str] using hn)
  have h0 : cstr c.gdbOutput_ buf ≠ [] := by
    rw [hline]; simp [str]
  have e1 : strncmpEq (cstr c.gdbOutput_ buf) "Prog" 4 = false := by
    rw [hp _ _ (by decide)]; decide
  have e2 : strncmpEq (cstr c.gdbOutput_ buf) "Cann" 4 = false := by
    rw [hp _ _ (by decide)]; decide
  have e3 : strncmpEq (cstr c.gdbOutput_ buf) "[New Thread" 11 = false := by
    rw [hp _ _ (by decide)]; decide
  have e4 : strncmpEq (cstr c.gdbOutput_ buf) "[Switching to Thread" 20 = false := by
    rw [hp _ _ (by decide)]; decide
  have e5 : strncmpEq (cstr c.gdbOutput_ buf) "Current language:" 17 = false := by
    rw [hp _ _ (by decide)]; decide
  have e6 : strncmpEq (cstr c.gdbOutput_ buf) "Watc" 4 = false := by
    rw [hp _ _ (by decide)]; decide
  have e7 : strncmpEq (cstr c.gdbOutput_ buf) "Brea" 4 = false := by
    rw [hp _ _ (by decide)]; decide
  have e8 : strncmpEq (cstr c.gdbOutput_ buf) "Hard" 4 = false := by
    rw [hp _ _ (by decide)]; decide
  have e9 : strncmpEq (cstr c.gdbOutput_ buf) "Temp" 4 = false := by
    rw [hp _ _ (by decide)]; decide
  have e10 : strncmpEq (cstr c.gdbOutput_ buf) "Stop" 4 = true := by
    rw [hp _ _ (by decide)]; decide
  have e11 : strncmpEq (cstr c.gdbOutput_ buf) "Stopped due to shared library event" 35 = true := by
    rw [hp _ _ (by decide)]; decide
  have hr : parseLine T c buf =
      if (match c.currentCmd_ with
          | some cmd => cmd.rawDbgCommand == "run" || cmd.rawDbgCommand == "continue"
          | none => false) = true then
        queueCmd ((((c.emit (Event.line (cstr c.gdbOutput_ buf))).setOn s_silent).setOff
          s_appBusy).emit Event.acceptPendingBPs) (GDBCommand "continue" RUNCMD NOTINFOCMD 0) false
      else actOnProgramPause T (c.emit (Event.line (cstr c.gdbOutput_ buf)))
        (cstr c.gdbOutput_ buf) := by
    unfold parseLine
    simp only [h0, e1, e2, e3, e4, e5, e6, e7, e8, e9, e10, e11, if_false, if_true,
      Bool.false_eq_true, Bool.or_self]
    rfl
  constructor
  · intro cmd hcur hraw
    have hrun : (match c.currentCmd_ with
          | some cmd => cmd.rawDbgCommand == "run" || cmd.rawDbgCommand == "continue"
          | none => false) = true := by
      rw [hcur]
      rcases hraw with h | h <;> simp [h]
    have hd : (((c.emit (Event.line (cstr c.gdbOutput_ buf))).setOn s_silent).setOff
        s_appBusy).emit Event.acceptPendingBPs =
        { c with
          state_ := { c.state_ with silent := true, appBusy := false },
          log_ := c.log_ ++ [Event.line (cstr c.gdbOutput_ buf), Event.acceptPendingBPs] } := by
      simp [GDBController.emit, GDBController.setOn, GDBController.setOff]
    rw [hr, if_pos hrun, hd]
    obtain ⟨added, ha, hall⟩ := queueCmd_log_silent
      { c with
        state_ := { c.state_ with silent := true, appBusy := false },
        log_ := c.log_ ++ [Event.line (cstr c.gdbOutput_ buf), Event.acceptPendingBPs] }
      (GDBCommand "continue" RUNCMD NOTINFOCMD 0) false rfl
    exact ⟨⟨{ c with
          state_ := { c.state_ with silent := true, appBusy := false },
          log_ := c.log_ ++ [Event.line (cstr c.gdbOutput_ buf), Event.acceptPendingBPs] },
        rfl, rfl, rfl, rfl, rfl⟩,
      (queueCmd_view _ _ _).1, (queueCmd_view _ _ _).2, ⟨added, ha, hall⟩⟩
  · intro h
    have hrun : ¬ (match c.currentCmd_ with
          | some cmd => cmd.rawDbgCommand == "run" || cmd.rawDbgCommand == "continue"
          | none => false) = true := by
      rcases h with h | ⟨cmd, h, h1, h2⟩
      · rw [h]; simp
      · rw [h]; simp [h1, h2]
    rw [hr, if_neg hrun]
theorem C24_witness :
    cstr libEventController.gdbOutput_ 0 = str "Stopped due to shared library event" ++ [] ∧
    libEventController.currentCmd_ = some (GDBCommand "run" RUNCMD NOTINFOCMD 0).markSent ∧
    libEventController.viewedThread_ = 5 ∧
    (parseLine sampleEnv libEventController 0).viewedThread_ = libEventController.viewedThread_ ∧
    (parseLine sampleEnv libEventController 0).currentFrame_ = libEventController.currentFrame_ ∧
    (slotDbgStdout sampleEnv busyController
        (str "Stopped due to shared library event\n")).log_.drop busyController.log_.length =
      [Event.line (str "Stopped due to shared library event"), Event.acceptPendingBPs,
       Event.writeStdin "continue",
       Event.dbgStatus [] { noFlags with appBusy := true, waitForWrite := true }] :=
  have h := (C24_shared_library_event sampleEnv libEventController 0 [] (by decide)).1
    (GDBCommand "run" RUNCMD NOTINFOCMD 0).markSent (by decide) (Or.inl rfl)
  ⟨by decide, by decide, by decide, h.2.1, h.2.2.1, by decide⟩

/-- A command that is not run-type, queued at the tail while the queue is
blocked, is appended to the pending list and nothing else changes. -/
theorem queueCmd_tail_blocked (d : GDBController) (cmd : DbgCommand)
    (hnr : cmd.isARunCmd = false)
    (hb : stateIsOn d.state_ (s_dbgNotStarted.bor (s_waitForWrite.bor s_appBusy)) = true ∨
      (∃ y, d.currentCmd_ = some y ∧ y.moreToSend = false ∧ y.expectReply = true)) :
    queueCmd d cmd false = { d with cmdList_ := d.cmdList_ ++ [cmd] } := by
  have hq : queuedList d.cmdList_ cmd false = d.cmdList_ ++ [cmd] := by
    simp [queuedList, hnr]
  unfold queueCmd
  rw [queueCmdInsert_cmdList, hq]
  rcases hb with hb | ⟨y, hy, hy1, hy2⟩
  · exact executeCmd_blocked _ hb
  · exact executeCmd_in_flight _ y hy hy1 hy2

/-- A command that is not run-type, queued at the tail of a well-formed queue
that is free to send: the head of the extended list is written. -/
theorem queueCmd_tail_free (d : GDBController) (cmd : DbgCommand)
    (hnr : cmd.isARunCmd = false) (hm : cmd.moreToSend = true) (hwf : QueueWF d)
    (hfree : stateIsOn d.state_ (s_dbgNotStarted.bor (s_waitForWrite.bor s_appBusy)) = false)
    (hcur : ∀ y, d.currentCmd_ = some y → y.expectReply = false) :
    ∃ x more, d.cmdList_ ++ [cmd] = x :: more ∧
      (queueCmd d cmd false).currentCmd_ = some x.markSent ∧
      (queueCmd d cmd false).cmdList_ = more ∧
      (queueCmd d cmd false).log_ = d.log_ ++ [Event.writeStdin x.command_] ++
        (if (queueCmd d cmd false).state_.silent = true then []
         else [Event.dbgStatus [] (queueCmd d cmd false).state_]) ∧
      (queueCmd d cmd false).state_ =
        (if x.isARunCmd then
          { d.state_ with appBusy := true, waitForWrite := true, appNotStarted := false,
                          programExited := false, silent := false }
        else { d.state_ with waitForWrite := true }) := by
  have hql : queuedList d.cmdList_ cmd false = d.cmdList_ ++ [cmd] := by
    simp [queuedList, hnr]
  have hq : QueueWF { d with cmdList_ := d.cmdList_ ++ [cmd] } := by
    refine ⟨hwf.sent, ?_⟩
    intro x hx
    have hx2 : x ∈ d.cmdList_ ++ [cmd] := hx
    rcases List.mem_append.1 hx2 with h | h
    · exact hwf.unsent x h
    · rw [List.mem_singleton.1 h]; exact hm
  unfold queueCmd
  rw [queueCmdInsert_cmdList, hql]
  rcases executeCmd_wf _ hq with ⟨hb, _⟩ | ⟨_, _, ⟨hl, _⟩ | ⟨x, more, hl, he⟩⟩
  · exfalso
    rcases hb with hb | ⟨y, hy, hy2⟩
    · have hb2 : stateIsOn d.state_ (s_dbgNotStarted.bor (s_waitForWrite.bor s_appBusy)) = true :=
        hb
      rw [hfree] at hb2
      cases hb2
    · have := hcur y hy
      rw [this] at hy2
      cases hy2
  · exfalso
    have hl2 : d.cmdList_ ++ [cmd] = [] := hl
    simp at hl2
  · refine ⟨x, more, hl, ?_, ?_, ?_, ?_⟩
    · rw [he, (executeCmdWrite_spec _ x).1]
    · rw [he, executeCmdWrite_cmdList]
    · rw [he]
      unfold executeCmdWrite
      simp only [GDBController.emit]
      cases hr : x.isARunCmd <;> cases hs : d.state_.silent <;> simp [hs]
    · rw [he, (executeCmdWrite_spec _ x).2.2]

/-- C27 as stated fails: on the settled controller (nothing in flight, no write
outstanding) the line `Breakpoint 1, main () at main.cpp:10` makes `queueCmd`
write `info breakpoints` at once, which sets WaitingOnWrite; and when the line
follows, in one delivery, the reply to the in-flight command while a `run` is
pending, the `queueCmd` of the line writes that `run`, which sets AppBusy. -/
theorem C27_counterexample :
    settledController.state_.waitForWrite = false ∧
    (slotDbgStdout sampleEnv settledController
      (str "Breakpoint 1, main () at main.cpp:10\n")).state_.waitForWrite = true ∧
    (slotDbgStdout sampleEnv settledController
      (str "Breakpoint 1, main () at main.cpp:10\n")).log_.drop settledController.log_.length =
      [Event.line (str "Breakpoint 1, main () at main.cpp:10"),
       Event.writeStdin "info breakpoints"] ∧
    runPendingController.state_.appBusy = false ∧
    (slotDbgStdout sampleEnv runPendingController
      (registersReply ++ str "Breakpoint 1, main ()\n")).state_.appBusy = true ∧
    ((slotDbgStdout sampleEnv runPendingController
      (registersReply ++ str "Breakpoint 1, main ()\n")).log_.drop
        runPendingController.log_.length).take 4 =
      [Event.handler sampleEnv.REGISTERS (str "eax 0"), Event.rawGDBRegisters (str "eax 0"),
       Event.line (str "Breakpoint 1, main ()"), Event.writeStdin "run"] := by
  refine ⟨by decide, by decide, by decide, by decide, by decide, by decide⟩

/-- C27 (amended): a line that begins with `Brea` or `Hard`, given to
`parseLine`, is recorded and `info breakpoints` (tag BPLIST, neither run-type
nor info-type) is submitted once with `queueCmd`, at the tail; nothing else is
done, so thread and frame stay as they were.  The flags change only through
the dispatch that `queueCmd` may make: when a flag blocks the queue
(NotStarted, WaitingOnWrite or AppBusy) or the in-flight command awaits its
reply, the flags and the in-flight command are unchanged and the command is
the last pending one; otherwise, on a well-formed queue, the head of the
pending list is written, WaitingOnWrite becomes set, and AppBusy becomes set
(AppNotStarted, ProgramExited and Silent cleared) when that head is run-type. -/
theorem C27_breakpoint_line_refreshes_list (T : Env) (c : GDBController) (buf : Nat)
    (rest : List Nat)
    (hline : cstr c.gdbOutput_ buf = str "Brea" ++ rest ∨
      cstr c.gdbOutput_ buf = str "Hard" ++ rest) :
    parseLine T c buf =
      queueCmd (c.emit (Event.line (cstr c.gdbOutput_ buf)))
        (GDBCommand "info breakpoints" NOTRUNCMD NOTINFOCMD T.BPLIST) false ∧
    ((GDBCommand "info breakpoints" NOTRUNCMD NOTINFOCMD T.BPLIST).isARunCmd = false ∧
      (GDBCommand "info breakpoints" NOTRUNCMD NOTINFOCMD T.BPLIST).isAnInfoCmd = false ∧
      (GDBCommand "info breakpoints" NOTRUNCMD NOTINFOCMD T.BPLIST).prompt_ = T.BPLIST) ∧
    (parseLine T c buf).viewedThread_ = c.viewedThread_ ∧
    (parseLine T c buf).currentFrame_ = c.currentFrame_ ∧
    ((stateIsOn c.state_ (s_dbgNotStarted.bor (s_waitForWrite.bor s_appBusy)) = true ∨
        (∃ y, c.currentCmd_ = some y ∧ y.moreToSend = false ∧ y.expectReply = true)) →
      (parseLine T c buf).state_ = c.state_ ∧
      (parseLine T c buf).currentCmd_ = c.currentCmd_ ∧
      (parseLine T c buf).cmdList_ =
        c.cmdList_ ++ [GDBCommand "info breakpoints" NOTRUNCMD NOTINFOCMD T.BPLIST] ∧
      (parseLine T c buf).log_ = c.log_ ++ [Event.line (cstr c.gdbOutput_ buf)]) ∧
    (QueueWF c →
      stateIsOn c.state_ (s_dbgNotStarted.bor (s_waitForWrite.bor s_appBusy)) = false →
      (∀ y, c.currentCmd_ = some y → y.expectReply = false) →
      ∃ x more, c.cmdList_ ++ [GDBCommand "info breakpoints" NOTRUNCMD NOTINFOCMD T.BPLIST] =
          x :: more ∧
        (parseLine T c buf).currentCmd_ = some x.markSent ∧
        (parseLine T c buf).cmdList_ = more ∧
        (parseLine T c buf).state_ =
          (if x.isARunCmd then
            { c.state_ with appBusy := true, waitForWrite := true, appNotStarted := false,
                            programExited := false, silent := false }
          else { c.state_ with waitForWrite := true })) := by
  have hp : ∀ (lit : String), strncmpEq (cstr c.gdbOutput_ buf) lit 4 =
      ((cstr c.gdbOutput_ buf).take 4 == (str lit ++ [0]).take 4) := by
    intro lit
    rcases hline with h | h
    · have := strncmpEq_take lit (str "Brea") rest 4 (by decide)
      rw [h, this]
      simp [str]
    · have := strncmpEq_take lit (str "Hard") rest 4 (by decide)
      rw [h, this]
      simp [str]
  have ht : (cstr c.gdbOutput_ buf).take 4 = str "Brea" ∨
      (cstr c.gdbOutput_ buf).take 4 = str "Hard" := by
    rcases hline with h | h
    · left; rw [h]; simp [str]
    · right; rw [h]; simp [str]
  have h0 : cstr c.gdbOutput_ buf ≠ [] := by
    rcases hline with h | h <;> (rw [h]; simp [str])
  have hlong : ∀ (lit : String) (n : Nat), strncmpEq (cstr c.gdbOutput_ buf) lit 4 = false →
      4 ≤ n → n ≤ (str lit).length → strncmpEq (cstr c.gdbOutput_ buf) lit n = false := by
    intro lit n h4 hn hl
    unfold strncmpEq at h4 ⊢
    cases hcmp : ((cstr c.gdbOutput_ buf ++ [0]).take n == (str lit ++ [0]).take n)
    · rfl
    · exfalso
      have he := congrArg (List.take 4) (beq_iff_eq.1 hcmp)
      rw [List.take_take, List.take_take, Nat.min_eq_left hn] at he
      rw [he] at h4
      simp at h4
  have e1 : strncmpEq (cstr c.gdbOutput_ buf) "Prog" 4 = false := by
    rw [hp]; rcases ht with h | h <;> (rw [h]; decide)
  have e2 : strncmpEq (cstr c.gdbOutput_ buf) "Cann" 4 = false := by
    rw [hp]; rcases ht with h | h <;> (rw [h]; decide)
  have e3 : strncmpEq (cstr c.gdbOutput_ buf) "[New Thread" 11 = false :=
    hlong _ 11 (by rw [hp]; rcases ht with h | h <;> (rw [h]; decide)) (by decide) (by decide)
  have e4 : strncmpEq (cstr c.gdbOutput_ buf) "[Switching to Thread" 20 = false :=
    hlong _ 20 (by rw [hp]; rcases ht with h | h <;> (rw [h]; decide)) (by decide) (by decide)
  have e5 : strncmpEq (cstr c.gdbOutput_ buf) "Current language:" 17 = false :=
    hlong _ 17 (by rw [hp]; rcases ht with h | h <;> (rw [h]; decide)) (by decide) (by decide)
  have e6 : strncmpEq (cstr c.gdbOutput_ buf) "Watc" 4 = false := by
    rw [hp]; rcases ht with h | h <;> (rw [h]; decide)
  have e7 : (strncmpEq (cstr c.gdbOutput_ buf) "Brea" 4 ||
      strncmpEq (cstr c.gdbOutput_ buf) "Hard" 4) = true := by
    rw [hp, hp]; rcases ht with h | h <;> (rw [h]; decide)
  have hr : parseLine T c buf =
      queueCmd (c.emit (Event.line (cstr c.gdbOutput_ buf)))
        (GDBCommand "info breakpoints" NOTRUNCMD NOTINFOCMD T.BPLIST) false := by
    unfold parseLine
    simp only [h0, e1, e2, e3, e4, e5, e6, e7, if_false, if_true, Bool.false_eq_true]
  refine ⟨hr, ⟨rfl, rfl, rfl⟩, ?_, ?_, ?_, ?_⟩
  · rw [hr, (queueCmd_view _ _ _).1]; rfl
  · rw [hr, (queueCmd_view _ _ _).2]; rfl
  · intro hb
    rw [hr, queueCmd_tail_blocked (c.emit (Event.line (cstr c.gdbOutput_ buf)))
      (GDBCommand "info breakpoints" NOTRUNCMD NOTINFOCMD T.BPLIST) rfl hb]
    exact ⟨rfl, rfl, rfl, rfl⟩
  · intro hwf hfree hcur
    obtain ⟨x, more, h1, h2, h3, _, h5⟩ := queueCmd_tail_free
      (c.emit (Event.line (cstr c.gdbOutput_ buf)))
      (GDBCommand "info breakpoints" NOTRUNCMD NOTINFOCMD T.BPLIST) rfl rfl
      ⟨hwf.sent, hwf.unsent⟩ hfree hcur
    rw [hr]
    exact ⟨x, more, h1, h2, h3, h5⟩
theorem C27_witness :
    cstr breakLineController.gdbOutput_ 0 =
      str "Brea" ++ str "kpoint 1, main () at main.cpp:10" ∧
    parseLine sampleEnv breakLineController 0 =
      queueCmd (breakLineController.emit
          (Event.line (cstr breakLineController.gdbOutput_ 0)))
        (GDBCommand "info breakpoints" NOTRUNCMD NOTINFOCMD sampleEnv.BPLIST) false ∧
    (parseLine sampleEnv breakLineController 0).viewedThread_ =
      breakLineController.viewedThread_ ∧
    breakLineController.state_.waitForWrite = false ∧
    (parseLine sampleEnv breakLineController 0).state_ =
      { breakLineController.state_ with waitForWrite := true } ∧
    (parseLine sampleEnv breakLineController 0).currentCmd_ =
      some (GDBCommand "info breakpoints" NOTRUNCMD NOTINFOCMD sampleEnv.BPLIST).markSent :=
  have h := C27_breakpoint_line_refreshes_list sampleEnv breakLineController 0
    (str "kpoint 1, main () at main.cpp:10") (Or.inl (by decide))
  ⟨by decide, h.1, h.2.2.1, by decide, by decide, by decide⟩

/-- What `parseLine` does with a non-empty line that passes none of the tests
before the one for diagnostics. -/
theorem parseLine_fallthrough (T : Env) (c : GDBController) (buf : Nat)
    (h0 : cstr c.gdbOutput_ buf ≠ []) (he : earlierRule (cstr c.gdbOutput_ buf) = false) :
    parseLine T c buf =
      if isDiagnostic T (cstr c.gdbOutput_ buf) = true then
        programNoApp (c.emit (Event.line (cstr c.gdbOutput_ buf))) (cstr c.gdbOutput_ buf) true
      else if stateIsOn c.state_ s_appBusy = true then
        actOnProgramPause T (c.emit (Event.line (cstr c.gdbOutput_ buf)))
          (if (strncmpEq (cstr c.gdbOutput_ buf) "No " 3 &&
              hasSub (cstr c.gdbOutput_ buf) "not meaningful") = true
            then cstr c.gdbOutput_ buf else [])
      else c.emit (Event.line (cstr c.gdbOutput_ buf)) := by
  unfold earlierRule at he
  simp only [Bool.or_eq_false_iff] at he
  obtain ⟨⟨⟨⟨⟨⟨⟨⟨⟨⟨⟨⟨⟨⟨e1, e2⟩, e3⟩, e4⟩, e5⟩, e6⟩, e7⟩, e8⟩, e9⟩, e10⟩, e11⟩, e12⟩, e13⟩, e14⟩,
    e15⟩ := he
  unfold parseLine isDiagnostic
  simp only [h0, e1, e2, e3, e4, e5, e6, e7, e8, e9, e10, e11, e12, e13, e14, e15, if_false,
    Bool.false_eq_true, Bool.or_self]
  by_cases hd : (hasSub (cstr c.gdbOutput_ buf) "not in executable format:" ||
      hasSub (cstr c.gdbOutput_ buf) "No such file or directory." ||
      (strstr (cstr c.gdbOutput_ buf) T.noSuchFileLocal).isSome ||
      hasSub (cstr c.gdbOutput_ buf) "is not a core dump:" ||
      strncmpEq (cstr c.gdbOutput_ buf) "ptrace: No such process." 24 ||
      strncmpEq (cstr c.gdbOutput_ buf) "ptrace: Operation not permitted." 32) = true
  · rw [if_pos hd, if_pos hd]
  · rw [if_neg hd, if_neg hd]
    have hst : (c.emit (Event.line (cstr c.gdbOutput_ buf))).state_ = c.state_ := rfl
    rw [hst]
    by_cases hb : stateIsOn c.state_ s_appBusy = true
    · rw [if_pos hb, if_pos hb]
      by_cases hm : (strncmpEq (cstr c.gdbOutput_ buf) "No " 3 &&
          hasSub (cstr c.gdbOutput_ buf) "not meaningful") = true
      · rw [if_pos hm, if_pos hm]
      · rw [if_neg hm, if_neg hm]
    · rw [if_neg hb, if_neg hb]
/-- A line that begins with `No s` is ignored by `parseLine`. -/
theorem parseLine_no_s (T : Env) (c : GDBController) (buf : Nat) (rest : List Nat)
    (hline : cstr c.gdbOutput_ buf = str "No s" ++ rest) :
    parseLine T c buf = c.emit (Event.line (cstr c.gdbOutput_ buf)) := by
  have hp : ∀ (lit : String), strncmpEq (cstr c.gdbOutput_ buf) lit 4 =
      (str "No s" == (str lit ++ [0]).take 4) := by
    intro lit
    rw [hline, strncmpEq_take lit (str "No s") rest 4 (by decide)]
    rfl
  have hlong : ∀ (lit : String) (n : Nat), strncmpEq (cstr c.gdbOutput_ buf) lit 4 = false →
      4 ≤ n → strncmpEq (cstr c.gdbOutput_ buf) lit n = false := by
    intro lit n h4 hn
    unfold strncmpEq at h4 ⊢
    cases hcmp : ((cstr c.gdbOutput_ buf ++ [0]).take n == (str lit ++ [0]).take n)
    · rfl
    · exfalso
      have he := congrArg (List.take 4) (beq_iff_eq.1 hcmp)
      rw [List.take_take, List.take_take, Nat.min_eq_left hn] at he
      rw [he] at h4
      simp at h4
  have h0 : cstr c.gdbOutput_ buf ≠ [] := by
    rw [hline]; simp [str]
  have e1 : strncmpEq (cstr c.gdbOutput_ buf) "Prog" 4 = false := by rw [hp]; decide
  have e2 : strncmpEq (cstr c.gdbOutput_ buf) "Cann" 4 = false := by rw [hp]; decide
  have e3 : strncmpEq (cstr c.gdbOutput_ buf) "[New Thread" 11 = false :=
    hlong _ 11 (by rw [hp]; decide) (by decide)
  have e4 : strncmpEq (cstr c.gdbOutput_ buf) "[Switching to Thread" 20 = false :=
    hlong _ 20 (by rw [hp]; decide) (by decide)
  have e5 : strncmpEq (cstr c.gdbOutput_ buf) "Current language:" 17 = false :=
    hlong _ 17 (by rw [hp]; decide) (by decide)
  have e6 : strncmpEq (cstr c.gdbOutput_ buf) "Watc" 4 = false := by rw [hp]; decide
  have e7 : strncmpEq (cstr c.gdbOutput_ buf) "Brea" 4 = false := by rw [hp]; decide
  have e8 : strncmpEq (cstr c.gdbOutput_ buf) "Hard" 4 = false := by rw [hp]; decide
  have e9 : strncmpEq (cstr c.gdbOutput_ buf) "Temp" 4 = false := by rw [hp]; decide
  have e10 : strncmpEq (cstr c.gdbOutput_ buf) "Stop" 4 = false := by rw [hp]; decide
  have e11 : strncmpEq (cstr c.gdbOutput_ buf) "No s" 4 = true := by rw [hp]; decide
  unfold parseLine
  simp only [h0, e1, e2, e3, e4, e5, e6, e7, e8, e9, e10, e11, if_false, if_true,
    Bool.false_eq_true, Bool.or_self, Bool.true_or]

/-- C25 as stated fails: the line `No such file or directory.` contains a
diagnostic and begins with none of the patterns the specification lists before
that rule, but it begins with `No s`, which `parseLine` tests earlier and
ignores: delivered to the busy controller it leaves AppBusy set, AppNotStarted
and ProgramExited clear, the in-flight command in place, and raises no alert. -/
theorem C25_counterexample :
    listedRule (str "No such file or directory.") = false ∧
    isDiagnostic sampleEnv (str "No such file or directory.") = true ∧
    (slotDbgStdout sampleEnv busyController (str "No such file or directory.\n")).state_ =
      busyController.state_ ∧
    busyController.state_.appBusy = true ∧ busyController.state_.appNotStarted = false ∧
    (slotDbgStdout sampleEnv busyController (str "No such file or directory.\n")).currentCmd_ =
      busyController.currentCmd_ ∧
    busyController.currentCmd_ ≠ none ∧
    (slotDbgStdout sampleEnv busyController (str "No such file or directory.\n")).log_ =
      busyController.log_ ++ [Event.line (str "No such file or directory.")] := by
  refine ⟨by decide, by decide, by decide, by decide, by decide, by decide, by decide,
    by decide⟩

/-- C25 (amended): a non-empty line that is a file or ptrace diagnostic and
passes none of the tests `parseLine` makes before (the prefixes `Prog`, `Cann`,
`[New Thread`, `[Switching to Thread`, `Current language:`, `Watc`, `Brea`,
`Hard`, `Temp`, `Stop`, `No s`, `Sing`, `warn`, `Core`, a leading digit) makes
`parseLine` call `programNoApp(line, true)`: the flags are AppNotStarted and
ProgramExited with ViewLocals and ShuttingDown as they were (AppBusy clear),
the pending and the in-flight commands are destroyed, thread and frame are
reset and the last event is the message box with the line.  A line that begins
with `No s` is ignored, whatever it contains. -/
theorem C25_diagnostic_line_no_app (T : Env) (c : GDBController) (buf : Nat) :
    (cstr c.gdbOutput_ buf ≠ [] → earlierRule (cstr c.gdbOutput_ buf) = false →
      isDiagnostic T (cstr c.gdbOutput_ buf) = true →
      parseLine T c buf =
        programNoApp (c.emit (Event.line (cstr c.gdbOutput_ buf))) (cstr c.gdbOutput_ buf)
          true ∧
      (parseLine T c buf).state_ =
        { noFlags with appNotStarted := true, programExited := true,
                       viewLocals := c.state_.viewLocals,
                       shuttingDown := c.state_.shuttingDown } ∧
      (parseLine T c buf).state_.appBusy = false ∧
      (parseLine T c buf).cmdList_ = [] ∧
      (parseLine T c buf).currentCmd_ = none ∧
      (parseLine T c buf).viewedThread_ = -1 ∧
      (parseLine T c buf).currentFrame_ = 0 ∧
      (parseLine T c buf).log_.getLast? =
        some (Event.messageBox (str "gdb message:\n" ++ cstr c.gdbOutput_ buf))) ∧
    (∀ rest : List Nat, cstr c.gdbOutput_ buf = str "No s" ++ rest →
      parseLine T c buf = c.emit (Event.line (cstr c.gdbOutput_ buf))) := by
  refine ⟨?_, fun rest h => parseLine_no_s T c buf rest h⟩
  intro h0 he hd
  have hr := parseLine_fallthrough T c buf h0 he
  rw [if_pos hd] at hr
  rw [hr]
  simp [programNoApp, destroyCmds, GDBController.setState, GDBController.emit,
    GDBController.setViewed]

theorem C25_witness :
    cstr noFileController.gdbOutput_ 0 = str "/tmp/a.out: No such file or directory." ∧
    noFileController.state_.appBusy = true ∧
    (parseLine sampleEnv noFileController 0).state_ = s_appNotStarted.bor s_programExited ∧
    (parseLine sampleEnv noFileController 0).cmdList_ = [] ∧
    (parseLine sampleEnv noFileController 0).currentCmd_ = none ∧
    (parseLine sampleEnv noFileController 0).log_.getLast? =
      some (Event.messageBox (str "gdb message:\n" ++ cstr noFileController.gdbOutput_ 0)) :=
  have h := (C25_diagnostic_line_no_app sampleEnv noFileController 0).1 (by decide) (by decide)
    (by decide)
  ⟨by decide, by decide, by decide, h.2.2.2.1, h.2.2.2.2.1, h.2.2.2.2.2.2.2⟩

theorem Bad_ite_iff {k : List Event} {p : Prop} [Decidable p] {x y : GDBController} :
    Bad k (if p then x else y) ↔ (p → Bad k x) ∧ (¬ p → Bad k y) := by
  split <;> simp [*]

theorem Bad_congr {k : List Event} {c d : GDBController} (hl : d.log_ = c.log_) :
    Bad k d ↔ Bad k c :=
  ⟨fun h => ⟨hl ▸ h.eq⟩, fun h => ⟨hl.symm ▸ h.eq⟩⟩

theorem Bad_emit {k : List Event} {c : GDBController} {e : Event} (he : isBadLine e = false) :
    Bad k (c.emit e) ↔ Bad k c := by
  constructor
  · intro h
    have := h.eq
    simp only [GDBController.emit, List.filter_append, List.filter_cons, he, Bool.false_eq_true,
      if_false, List.filter_nil, List.append_nil] at this
    exact ⟨this⟩
  · intro h
    refine ⟨?_⟩
    simp only [GDBController.emit, List.filter_append, List.filter_cons, he, Bool.false_eq_true,
      if_false, List.filter_nil, List.append_nil]
    exact h.eq

theorem Bad_touch {k : List Event} {c : GDBController} {ok : Bool} :
    Bad k (c.touch ok) ↔ Bad k c := Bad_congr (touch_log c ok)

theorem Bad_poke {k : List Event} {c : GDBController} {p v : Nat} :
    Bad k (c.poke p v) ↔ Bad k c := Bad_congr rfl

theorem Bad_setOff {k : List Event} {c : GDBController} {m : DBGStateFlags} :
    Bad k (c.setOff m) ↔ Bad k c := Bad_congr rfl

theorem Bad_setViewed {k : List Event} {c : GDBController} {t f : Int} :
    Bad k (c.setViewed t f) ↔ Bad k c := Bad_congr rfl

theorem Bad_setBacktraceDue {k : List Event} {c : GDBController} {v : Bool} :
    Bad k (c.setBacktraceDue v) ↔ Bad k c := Bad_congr rfl

theorem Bad_clearCurrentCmd {k : List Event} {c : GDBController} :
    Bad k c.clearCurrentCmd ↔ Bad k c := Bad_congr rfl

theorem Bad_setBuffer {k : List Event} {c : GDBController} {n m : Nat} {mem : List Nat} :
    Bad k (c.setBuffer n m mem) ↔ Bad k c := Bad_congr rfl

theorem Bad_executeCmdWrite {k : List Event} {c : GDBController} (x : DbgCommand)
    (h : Bad k c) : Bad k (executeCmdWrite c x) := by
  refine ⟨?_⟩
  rw [← h.eq]
  unfold executeCmdWrite
  simp only [GDBController.emit]
  cases hr : x.isARunCmd <;> cases hs : c.state_.silent <;>
    simp [hs, isBadLine, List.filter_append]

theorem Bad_executeCmd {k : List Event} {c : GDBController} (h : Bad k c) :
    Bad k (executeCmd c) := by
  rcases executeCmd_cases c with h1 | ⟨e, x, hx, _, hl, _⟩
  · exact ⟨by rw [h1.1]; exact h.eq⟩
  · rw [hx]
    exact Bad_executeCmdWrite x ⟨by rw [hl]; exact h.eq⟩

theorem Bad_queueCmd {k : List Event} {c : GDBController} (cmd : DbgCommand)
    (executeNext : Bool) (h : Bad k c) : Bad k (queueCmd c cmd executeNext) := by
  unfold queueCmd
  apply Bad_executeCmd
  rw [queueCmdInsert_cmdList]
  exact ⟨h.eq⟩

theorem Bad_setOn {k : List Event} {c : GDBController} {m : DBGStateFlags} :
    Bad k (c.setOn m) ↔ Bad k c := Bad_congr rfl

theorem Bad_setState {k : List Event} {c : GDBController} {s : DBGStateFlags} :
    Bad k (c.setState s) ↔ Bad k c := Bad_congr rfl

theorem Bad_setViewedThread {k : List Event} {c : GDBController} {t : Int} :
    Bad k (c.setViewedThread t) ↔ Bad k c := Bad_congr rfl

theorem Bad_setProgramHasExited {k : List Event} {c : GDBController} {v : Bool} :
    Bad k (c.setProgramHasExited v) ↔ Bad k c := Bad_congr rfl

theorem Bad_setBadCore {k : List Event} {c : GDBController} {v : List Nat} :
    Bad k (c.setBadCore v) ↔ Bad k c := Bad_congr rfl

theorem Bad_setProcess {k : List Event} {c : GDBController} {p t : Bool} :
    Bad k (c.setProcess p t) ↔ Bad k c := Bad_congr rfl

theorem Bad_setConfig {k : List Event} {c : GDBController} {cfg : Config} :
    Bad k (c.setConfig cfg) ↔ Bad k c := Bad_congr rfl

theorem Bad_pauseApp {k : List Event} {c : GDBController} (hi : Bad k c) : Bad k (pauseApp c) := by
  refine ⟨?_⟩
  rw [(pauseApp_spec c).2.2.2.2, List.filter_append, hi.eq]
  split <;> simp [isBadLine]

theorem Bad_destroyCmds {k : List Event} {c : GDBController} :
    Bad k (destroyCmds c) ↔ Bad k c := Bad_congr rfl

theorem Bad_queueAll {k : List Event} (cmds : List DbgCommand) :
    ∀ c : GDBController, Bad k c → Bad k (queueAll c cmds) := by
  induction cmds with
  | nil => intro c hi; exact hi
  | cons x rest ih => intro c hi; exact ih _ (Bad_queueCmd x false hi)

theorem Bad_actOnProgramPause {k : List Event} (T : Env) {c : GDBController} (msg : List Nat)
    (hi : Bad k c) : Bad k (actOnProgramPause T c msg) := by
  unfold actOnProgramPause
  dsimp only
  repeat' first
    | with_reducible apply Bad_queueCmd
    | simp only [Bad_destroyCmds, Bad_ite_iff, Bad_setOn, Bad_setOff, Bad_setState, Bad_emit,
          isBadLine, Bad_setViewed, Bad_setBacktraceDue]
    | refine And.intro ?_ ?_
    | intro _
    | with_reducible exact hi

theorem Bad_programNoApp {k : List Event} {c : GDBController} (msg : List Nat) (msgBox : Bool)
    (hi : Bad k c) : Bad k (programNoApp c msg msgBox) := by
  unfold programNoApp
  dsimp only
  repeat' first
    | simp only [Bad_destroyCmds, Bad_ite_iff, Bad_setOn, Bad_setOff, Bad_setState, Bad_emit,
          isBadLine, Bad_setViewed]
    | refine And.intro ?_ ?_
    | intro _
    | with_reducible exact hi

theorem Bad_parseProgramLocation {k : List Event} (T : Env) {c : GDBController} (buf : List Nat)
    (hi : Bad k c) : Bad k (parseProgramLocation T c buf) := by
  unfold parseProgramLocation
  dsimp only
  repeat' first
    | with_reducible apply Bad_actOnProgramPause
    | simp only [Bad_destroyCmds, Bad_ite_iff, Bad_setOn, Bad_setOff, Bad_setState, Bad_emit,
          isBadLine]
    | refine And.intro ?_ ?_
    | intro _
    | with_reducible exact hi
    | split

theorem Bad_parseFrameSelected {k : List Event} (T : Env) {c : GDBController} (buf : Nat)
    (hi : Bad k c) : Bad k (parseFrameSelected T c buf) := by
  unfold parseFrameSelected
  dsimp only
  repeat' first
    | with_reducible apply Bad_parseProgramLocation
    | simp only [Bad_destroyCmds, Bad_ite_iff, Bad_setOn, Bad_setOff, Bad_setState, Bad_emit,
          isBadLine, Bad_poke]
    | refine And.intro ?_ ?_
    | intro _
    | with_reducible exact hi
    | split

theorem Bad_dispatchBlock {k : List Event} (T : Env) {c : GDBController} (cmdType buf : Nat)
    (hi : Bad k c) : Bad k (dispatchBlock T c cmdType buf) := by
  unfold dispatchBlock parseBreakpointSet parseItemReply parseLocals parseBacktraceList
    parseThreadList
  dsimp only
  repeat' first
    | with_reducible apply Bad_parseProgramLocation
    | with_reducible apply Bad_parseFrameSelected
    | simp only [Bad_destroyCmds, Bad_ite_iff, Bad_setOn, Bad_setOff, Bad_setState, Bad_emit,
          isBadLine, Bad_setBacktraceDue, Bad_setViewedThread]
    | refine And.intro ?_ ?_
    | intro _
    | with_reducible exact hi
    | split

theorem Bad_finishBlock {k : List Event} (T : Env) {c : GDBController} (buf : Nat)
    (hi : Bad k c) : Bad k (finishBlock T c buf) := by
  unfold finishBlock
  dsimp only
  repeat' first
    | with_reducible apply Bad_dispatchBlock
    | simp only [Bad_destroyCmds, Bad_ite_iff, Bad_setOn, Bad_setOff, Bad_setState, Bad_emit,
          isBadLine, Bad_clearCurrentCmd]
    | refine And.intro ?_ ?_
    | intro _
    | with_reducible exact hi
    | split

theorem Bad_parseCmdBlock {k : List Event} (T : Env) {c : GDBController} (buf : Nat)
    (hi : Bad k c) : Bad k (parseCmdBlock T c buf).2 := by
  unfold parseCmdBlock
  dsimp only
  repeat' first
    | with_reducible apply Bad_finishBlock
    | simp only [Bad_destroyCmds, Bad_ite_iff, Bad_setOn, Bad_setOff, Bad_setState, Bad_emit,
          isBadLine, Bad_touch, Bad_poke]
    | refine And.intro ?_ ?_
    | intro _
    | with_reducible exact hi
    | split

/-- The first byte of a C string is the byte at its start or, for the empty
string, NUL. -/
theorem cstr_head (mem : List Nat) (i : Nat) :
    (cstr mem i).headD 0 = byteAt mem i ∨ (cstr mem i).headD 0 = 0 := by
  unfold cstr byteAt
  cases hd : mem.drop i with
  | nil => right; rfl
  | cons b r =>
    have hb : mem[i]? = some b := by
      have := List.getElem?_drop mem i 0
      rw [hd] at this
      simpa using this.symm
    by_cases h0 : b = 0
    · right; simp [List.takeWhile, h0]
    · left
      have hne : (b != 0) = true := by simpa using h0
      rw [List.getD_eq_getElem?_getD, hb, List.takeWhile_cons, hne]
      rfl

theorem Bad_parseLine {k : List Event} (T : Env) {c : GDBController} (buf : Nat)
    (hb : byteAt c.gdbOutput_ buf ≠ BLOCK_START) (hi : Bad k c) :
    Bad k (parseLine T c buf) := by
  have hh : isBadLine (Event.line (cstr c.gdbOutput_ buf)) = false := by
    show ((cstr c.gdbOutput_ buf).headD 0 == BLOCK_START) = false
    rcases cstr_head c.gdbOutput_ buf with h | h
    · rw [h]; simpa using hb
    · rw [h]; decide
  have hi2 : Bad k (c.emit (Event.line (cstr c.gdbOutput_ buf))) := (Bad_emit hh).2 hi
  unfold parseLine
  dsimp only
  repeat' first
    | with_reducible apply Bad_queueCmd
    | with_reducible apply Bad_actOnProgramPause
    | with_reducible apply Bad_programNoApp
    | with_reducible apply Bad_parseProgramLocation
    | simp only [Bad_destroyCmds, Bad_ite_iff, Bad_setOn, Bad_setOff, Bad_setState, Bad_emit,
        isBadLine, Bad_touch, Bad_setProgramHasExited, Bad_setBadCore]
    | refine And.intro ?_ ?_
    | intro _
    | with_reducible exact hi2

theorem Bad_parseOtherLoop {k : List Event} (T : Env) (fuel : Nat) :
    ∀ (c : GDBController) (buf e : Nat), byteAt c.gdbOutput_ buf ≠ BLOCK_START →
      Bad k c → Bad k (parseOtherLoop T fuel c buf e).2 := by
  induction fuel with
  | zero => intro c buf e _ hi; exact hi
  | succ n ih =>
    intro c buf e hb hi
    have hpoke : ∀ v : Nat, v ≠ BLOCK_START → ∀ d : GDBController,
        d.gdbOutput_ = c.gdbOutput_ → byteAt (d.poke e v).gdbOutput_ buf ≠ BLOCK_START := by
      intro v hv d hd
      show byteAt (d.gdbOutput_.set e v) buf ≠ BLOCK_START
      rw [hd]
      rcases byteAt_set c.gdbOutput_ e v buf with h | h
      · rw [h]; exact hb
      · rw [h]; exact hv
    have htouch : ∀ (d : GDBController) (ok : Bool), d.gdbOutput_ = c.gdbOutput_ →
        (d.touch ok).gdbOutput_ = c.gdbOutput_ := by
      intro d ok hd
      rw [touch_gdbOutput, hd]
    have hc1 : ∀ (p : Prop) [Decidable p] (ok : Bool),
        (if p then c.touch ok else c).gdbOutput_ = c.gdbOutput_ := by
      intro p _ ok
      split
      · exact touch_gdbOutput c ok
      · rfl
    have hb1 : ∀ (p : Prop) [Decidable p] (ok : Bool), Bad k (if p then c.touch ok else c) := by
      intro p _ ok
      split
      · exact Bad_touch.2 hi
      · exact hi
    unfold parseOtherLoop
    dsimp only
    split
    · exact Bad_touch.2 hi
    · split
      · exact hi
      · split
        · split
          · exact ih _ _ _ (hpoke 32 (by decide) _ (hc1 _ _))
              (Bad_poke.2 (hb1 _ _))
          · split
            · exact ih _ _ _
                (hpoke 32 (by decide) _ (htouch _ _ (hc1 _ _)))
                (Bad_poke.2 (Bad_touch.2 (hb1 _ _)))
            · exact Bad_parseLine T buf (hpoke 0 (by decide) _ (htouch _ _ (hc1 _ _)))
                (Bad_poke.2 (Bad_touch.2 (hb1 _ _)))
        · split
          · exact hb1 _ _
          · exact ih _ _ _ (by rw [hc1]; exact hb) (hb1 _ _)
theorem Bad_parseOther {k : List Event} (T : Env) {c : GDBController} (buf : Nat)
    (hb : byteAt c.gdbOutput_ buf ≠ BLOCK_START) (hi : Bad k c) :
    Bad k (parseOther T c buf).2 :=
  Bad_parseOtherLoop T _ c buf buf hb hi

theorem Bad_parseLoop {k : List Event} (T : Env) (fuel : Nat) :
    ∀ (c : GDBController) (unparsed : Nat), Bad k c → Bad k (parseLoop T fuel c unparsed).2 := by
  induction fuel with
  | zero => intro c unparsed hi; exact hi
  | succ n ih =>
    intro c unparsed hi
    unfold parseLoop
    dsimp only
    have h1 : Bad k (c.touch (decide (unparsed < c.gdbOutput_.length))) := Bad_touch.2 hi
    split
    · exact h1
    · have h2 : Bad k (if byteAt c.gdbOutput_ unparsed = BLOCK_START then
          parseCmdBlock T (c.touch (decide (unparsed < c.gdbOutput_.length))) unparsed
          else parseOther T (c.touch (decide (unparsed < c.gdbOutput_.length))) unparsed).2 := by
        split
        · exact Bad_parseCmdBlock T _ h1
        · rename_i hne
          exact Bad_parseOther T _ (by rw [touch_gdbOutput]; exact hne) h1
      split
      · exact h2
      · exact ih _ _ h2

theorem Bad_parse {k : List Event} (T : Env) {c : GDBController} (buf : Nat)
    (hi : Bad k c) : Bad k (parse T c buf).2 :=
  Bad_parseLoop T _ c buf hi

theorem Bad_appendOutput {k : List Event} {c : GDBController} (buf : List Nat) (hi : Bad k c) :
    Bad k (appendOutput c buf) := by
  unfold appendOutput
  dsimp only
  simp only [Bad_setBuffer, Bad_touch, Bad_ite_iff]
  exact ⟨fun _ => hi, fun _ => hi⟩

theorem Bad_compactOutput {k : List Event} {r : Option Nat × GDBController} (hi : Bad k r.2) :
    Bad k (compactOutput r) := by
  unfold compactOutput
  split
  · simp only [Bad_setBuffer, Bad_touch]; exact hi
  · exact hi

theorem Bad_slotDbgStdout {k : List Event} (T : Env) {c : GDBController} (buf : List Nat)
    (hi : Bad k c) : Bad k (slotDbgStdout T c buf) :=
  Bad_executeCmd (Bad_compactOutput (Bad_parse T 0 (Bad_appendOutput buf hi)))

theorem Bad_configure {k : List Event} (T : Env) {c : GDBController} (cfg : Config)
    (hi : Bad k c) : Bad k (configure T c cfg) := by
  unfold configure
  dsimp only
  repeat' first
    | with_reducible apply Bad_queueCmd
    | with_reducible apply Bad_pauseApp
    | simp only [Bad_destroyCmds, Bad_ite_iff, Bad_setOn, Bad_setOff, Bad_setState, Bad_emit,
          isBadLine, Bad_setConfig]
    | refine And.intro ?_ ?_
    | intro _
    | with_reducible exact hi

theorem Bad_slotStart {k : List Event} (T : Env) {c : GDBController} (tty appDir : String)
    (envvars : List (String × String)) (hi : Bad k c) :
    Bad k (slotStart T c tty appDir envvars) := by
  unfold slotStart
  dsimp only
  repeat' first
    | with_reducible apply Bad_queueAll
    | simp only [Bad_destroyCmds, Bad_ite_iff, Bad_setOn, Bad_setOff, Bad_setState, Bad_emit,
          isBadLine, Bad_setProcess, Bad_setBadCore]
    | refine And.intro ?_ ?_
    | intro _
    | with_reducible exact hi

theorem Bad_queueRefresh {k : List Event} (T : Env) {c : GDBController} (hi : Bad k c) :
    Bad k (queueRefresh T c) := by
  unfold queueRefresh
  dsimp only
  repeat' first
    | with_reducible apply Bad_queueCmd
    | simp only [Bad_destroyCmds, Bad_ite_iff, Bad_setOn, Bad_setOff, Bad_setState, Bad_emit,
          isBadLine]
    | refine And.intro ?_ ?_
    | intro _
    | with_reducible exact hi

theorem Bad_modifyBreakpoint {k : List Event} (T : Env) {c : GDBController} (BP : Breakpoint)
    (hi : Bad k c) : Bad k (modifyBreakpoint T c BP) := by
  unfold modifyBreakpoint
  dsimp only
  repeat' first
    | with_reducible apply Bad_queueCmd
    | simp only [Bad_destroyCmds, Bad_ite_iff, Bad_setOn, Bad_setOff, Bad_setState, Bad_emit,
          isBadLine]
    | refine And.intro ?_ ?_
    | intro _
    | with_reducible exact hi

theorem Bad_slotSelectFrame {k : List Event} (T : Env) {c : GDBController} (frameNo threadNo : Int)
    (needFrames needLocals : Bool) (hi : Bad k c) :
    Bad k (slotSelectFrame T c frameNo threadNo needFrames needLocals) := by
  unfold slotSelectFrame
  dsimp only
  repeat' first
    | with_reducible apply Bad_queueCmd
    | simp only [Bad_destroyCmds, Bad_ite_iff, Bad_setOn, Bad_setOff, Bad_setState, Bad_emit,
          isBadLine, Bad_setViewed]
    | refine And.intro ?_ ?_
    | intro _
    | with_reducible exact hi

theorem Bad_applyOp {k : List Event} (T : Env) {c : GDBController} (op : Op) (hi : Bad k c) :
    Bad k (applyOp T c op) := by
  cases op <;>
  · unfold applyOp
    try unfold slotCoreFile
    try unfold slotAttachTo
    try unfold slotRun
    try unfold slotRunUntil
    try unfold slotStepInto
    try unfold slotStepIntoIns
    try unfold slotStepOver
    try unfold slotStepOverIns
    try unfold slotStepOutOff
    try unfold slotStep
    try unfold slotBreakInto
    try unfold slotBPState setBreakpoint clearBreakpoint
    try unfold slotClearAllBreakpoints
    try unfold slotDisassemble
    try unfold slotMemoryDump
    try unfold slotRegisters
    try unfold slotLibraries
    try unfold slotInfo
    try unfold slotVarItemConstructed
    try unfold slotExpandItem
    try unfold slotExpandUserItem
    try unfold slotSetLocalViewState
    try unfold slotDbgStderr
    try unfold slotDbgWroteStdin
    try unfold slotDbgProcessExited
    try unfold slotAbortTimedEvent
    try unfold slotUserGDBCmd
    try dsimp only
    repeat' first
      | with_reducible apply Bad_queueCmd
      | with_reducible apply Bad_executeCmd
      | with_reducible apply Bad_pauseApp
        | with_reducible apply Bad_configure
      | with_reducible apply Bad_slotStart
      | with_reducible apply Bad_queueRefresh
      | with_reducible apply Bad_modifyBreakpoint
      | with_reducible apply Bad_slotSelectFrame
      | with_reducible apply Bad_slotDbgStdout
            | simp only [Bad_destroyCmds, Bad_ite_iff, Bad_setOn, Bad_setOff, Bad_setState,
                  Bad_emit, isBadLine]
      | refine And.intro ?_ ?_
      | intro _
      | with_reducible exact hi
      | split

theorem Bad_stopBegin {k : List Event} (T : Env) {c : GDBController} (hi : Bad k c) :
    Bad k (stopBegin T c) := by
  unfold stopBegin
  dsimp only
  repeat' first
    | with_reducible apply Bad_queueCmd
    | with_reducible apply Bad_pauseApp
    | simp only [Bad_destroyCmds, Bad_ite_iff, Bad_setOn, Bad_setOff, Bad_setState, Bad_emit,
          isBadLine]
    | refine And.intro ?_ ?_
    | intro _
    | with_reducible exact hi


theorem Bad_stopQuit {k : List Event} {c : GDBController} (hi : Bad k c) :
    Bad k (stopQuit c) := by
  unfold stopQuit
  simp only [Bad_emit, Bad_setOn, isBadLine]
  exact hi

theorem Bad_stopEnd {k : List Event} {c : GDBController} (hi : Bad k c) :
    Bad k (stopEnd c) := by
  unfold stopEnd
  dsimp only
  simp only [Bad_emit, Bad_setState, Bad_setProcess, Bad_ite_iff, isBadLine]
  exact ⟨fun _ => hi, fun _ => hi⟩

/-- In every reachable state, no call of `parseLine` has been made on a line
that starts with the block marker. -/
theorem Bad_reachable (T : Env) {p : Phase} {c : GDBController} (h : Reachable T p c) :
    Bad [] c := by
  induction h with
  | construct cfg => exact Bad_configure T cfg ⟨rfl⟩
  | call op _ ih => exact Bad_applyOp T op ih
  | stopAttached _ _ _ ih => exact Bad_stopBegin T ih
  | stopDetached _ _ _ ih => exact Bad_stopQuit (Bad_stopBegin T ih)
  | detachDone _ _ ih => exact Bad_stopQuit ih
  | quitDone _ _ ih => exact Bad_stopEnd ih
theorem Disp_setState {k : List Event} {c : GDBController} {s : DBGStateFlags} :
    Disp k (c.setState s) ↔ Disp k c := Disp_congr rfl

theorem Disp_setProgramHasExited {k : List Event} {c : GDBController} {v : Bool} :
    Disp k (c.setProgramHasExited v) ↔ Disp k c := Disp_congr rfl

theorem Disp_setBadCore {k : List Event} {c : GDBController} {v : List Nat} :
    Disp k (c.setBadCore v) ↔ Disp k c := Disp_congr rfl

theorem Disp_destroyCmds {k : List Event} {c : GDBController} :
    Disp k (destroyCmds c) ↔ Disp k c := Disp_congr rfl

theorem Disp_programNoApp {k : List Event} {c : GDBController} (msg : List Nat) (msgBox : Bool)
    (hi : Disp k c) : Disp k (programNoApp c msg msgBox) := by
  unfold programNoApp
  dsimp only
  repeat' first
    | simp only [Disp_destroyCmds, Disp_ite_iff, Disp_emit, Disp_setViewed, Disp_setState,
        isDispatch]
    | refine And.intro ?_ ?_
    | intro _
    | with_reducible exact hi

/-- Each call of `parseLine` is recorded, once, with the line it is given. -/
theorem Disp_parseLine {k : List Event} (T : Env) {c : GDBController} (buf : Nat)
    (hi : Disp k c) : Disp (k ++ [Event.line (cstr c.gdbOutput_ buf)]) (parseLine T c buf) := by
  have hi2 : Disp (k ++ [Event.line (cstr c.gdbOutput_ buf)])
      (c.emit (Event.line (cstr c.gdbOutput_ buf))) := by
    refine ⟨?_⟩
    show dispatches (c.log_ ++ [Event.line (cstr c.gdbOutput_ buf)]) = _
    unfold dispatches
    rw [List.filter_append, ← hi.eq]
    rfl
  generalize k ++ [Event.line (cstr c.gdbOutput_ buf)] = kk at hi2 ⊢
  unfold parseLine
  dsimp only
  repeat' first
    | with_reducible apply Disp_queueCmd
    | with_reducible apply Disp_actOnProgramPause
    | with_reducible apply Disp_programNoApp
    | with_reducible apply Disp_parseProgramLocation
    | with_reducible exact hi2
    | simp only [Disp_destroyCmds, Disp_ite_iff, Disp_setOn, Disp_setOff, Disp_emit, isDispatch,
        Disp_touch, Disp_setProgramHasExited, Disp_setBadCore]
    | refine And.intro ?_ ?_
    | intro _
/-- C26: a non-empty line that passes none of the tests of `parseLine` (no
prefix rule, no leading digit, no diagnostic).  With AppBusy set the line is a
stop: `parseLine` calls `actOnProgramPause` (with the line as message when it
is a `No ... not meaningful` line, with an empty message otherwise), and on a
well-formed queue AppBusy is clear afterwards.  With AppBusy clear the line is
only recorded: flags, pending list, in-flight command, thread and frame are
unchanged.  Every call of `parseLine` is recorded with its line, and neither
`parse` nor `slotDbgStdout` ever calls it on a line that starts with the block
marker: no such call exists in any reachable state. -/
theorem C26_unclassified_line (T : Env) (c : GDBController) (buf : Nat) :
    (cstr c.gdbOutput_ buf ≠ [] → earlierRule (cstr c.gdbOutput_ buf) = false →
      isDiagnostic T (cstr c.gdbOutput_ buf) = false →
      (c.state_.appBusy = true →
        parseLine T c buf =
          actOnProgramPause T (c.emit (Event.line (cstr c.gdbOutput_ buf)))
            (if (strncmpEq (cstr c.gdbOutput_ buf) "No " 3 &&
                hasSub (cstr c.gdbOutput_ buf) "not meaningful") = true
              then cstr c.gdbOutput_ buf else []) ∧
        (QueueWF c → (parseLine T c buf).state_.appBusy = false)) ∧
      (c.state_.appBusy = false →
        parseLine T c buf = c.emit (Event.line (cstr c.gdbOutput_ buf)) ∧
        (parseLine T c buf).state_ = c.state_ ∧
        (parseLine T c buf).cmdList_ = c.cmdList_ ∧
        (parseLine T c buf).currentCmd_ = c.currentCmd_ ∧
        (parseLine T c buf).viewedThread_ = c.viewedThread_ ∧
        (parseLine T c buf).currentFrame_ = c.currentFrame_)) ∧
    dispatches (parseLine T c buf).log_ =
      dispatches c.log_ ++ [Event.line (cstr c.gdbOutput_ buf)] ∧
    (parse T c buf).2.log_.filter isBadLine = c.log_.filter isBadLine ∧
    (∀ bytes : List Nat,
      (slotDbgStdout T c bytes).log_.filter isBadLine = c.log_.filter isBadLine) ∧
    (∀ p : Phase, Reachable T p c → c.log_.filter isBadLine = []) := by
  refine ⟨?_, (Disp_parseLine T buf ⟨rfl⟩).eq, (Bad_parse T buf ⟨rfl⟩).eq,
    fun bytes => (Bad_slotDbgStdout T bytes ⟨rfl⟩).eq, fun p h => (Bad_reachable T h).eq⟩
  intro h0 he hd
  have hr := parseLine_fallthrough T c buf h0 he
  rw [if_neg (by rw [hd]; decide)] at hr
  constructor
  · intro hb
    have hb2 : stateIsOn c.state_ s_appBusy = true := by simp [hb]
    rw [if_pos hb2] at hr
    refine ⟨hr, ?_⟩
    intro hwf
    rw [hr]
    cases hs : c.state_.silent
    · exact (actOnProgramPause_paused T (c.emit (Event.line (cstr c.gdbOutput_ buf))) _ hb hs
        ⟨hwf.sent, hwf.unsent⟩).idle
    · rw [actOnProgramPause_silent T (c.emit (Event.line (cstr c.gdbOutput_ buf))) _ hs]
  · intro hb
    have hb2 : ¬ stateIsOn c.state_ s_appBusy = true := by simp [hb]
    rw [if_neg hb2] at hr
    rw [hr]
    exact ⟨rfl, rfl, rfl, rfl, rfl, rfl⟩

theorem C26_witness :
    cstr otherLineController.gdbOutput_ 0 = str "hello world" ∧
    otherLineController.state_.appBusy = true ∧
    (parseLine sampleEnv otherLineController 0).state_.appBusy = false ∧
    parseLine sampleEnv otherLineController 0 =
      actOnProgramPause sampleEnv
        (otherLineController.emit (Event.line (cstr otherLineController.gdbOutput_ 0))) [] ∧
    (slotDbgStdout sampleEnv settledController (str "hello world\n")).state_ =
      settledController.state_ ∧
    (slotDbgStdout sampleEnv settledController (str "hello world\n")).log_ =
      settledController.log_ ++ [Event.line (str "hello world")] :=
  have h := ((C26_unclassified_line sampleEnv otherLineController 0).1 (by decide) (by decide)
    (by decide)).1 (by decide)
  ⟨by decide, by decide, by decide, h.1, by decide, by decide⟩

theorem InFlight_ite_iff {x : DbgCommand} {p : Prop} [Decidable p] {a b : GDBController} :
    InFlight x (if p then a else b) ↔ (p → InFlight x a) ∧ (¬ p → InFlight x b) := by
  split <;> simp [*]

theorem InFlight_congr {x : DbgCommand} {c d : GDBController}
    (hc : d.currentCmd_ = c.currentCmd_) : InFlight x d ↔ InFlight x c :=
  ⟨fun h => ⟨hc ▸ h.cur⟩, fun h => ⟨hc.symm ▸ h.cur⟩⟩

theorem InFlight_emit {x : DbgCommand} {c : GDBController} {e : Event} :
    InFlight x (c.emit e) ↔ InFlight x c := InFlight_congr rfl

theorem InFlight_poke {x : DbgCommand} {c : GDBController} {p v : Nat} :
    InFlight x (c.poke p v) ↔ InFlight x c := InFlight_congr rfl

theorem InFlight_touch {x : DbgCommand} {c : GDBController} {ok : Bool} :
    InFlight x (c.touch ok) ↔ InFlight x c := InFlight_congr (touch_currentCmd c ok)

theorem InFlight_setOff {x : DbgCommand} {c : GDBController} {m : DBGStateFlags} :
    InFlight x (c.setOff m) ↔ InFlight x c := InFlight_congr rfl

theorem InFlight_setViewed {x : DbgCommand} {c : GDBController} {t f : Int} :
    InFlight x (c.setViewed t f) ↔ InFlight x c := InFlight_congr rfl

theorem InFlight_setViewedThread {x : DbgCommand} {c : GDBController} {t : Int} :
    InFlight x (c.setViewedThread t) ↔ InFlight x c := InFlight_congr rfl

theorem InFlight_setBacktraceDue {x : DbgCommand} {c : GDBController} {v : Bool} :
    InFlight x (c.setBacktraceDue v) ↔ InFlight x c := InFlight_congr rfl

/-- A command that has been written and awaits its reply stays in flight when
another command is queued. -/
theorem InFlight_queueCmd {x : DbgCommand} {c : GDBController} (hs : x.moreToSend = false)
    (hr : x.expectReply = true) (cmd : DbgCommand) (executeNext : Bool) (hi : InFlight x c) :
    InFlight x (queueCmd c cmd executeNext) := by
  unfold queueCmd
  rw [queueCmdInsert_cmdList,
    executeCmd_in_flight { c with cmdList_ := queuedList c.cmdList_ cmd executeNext } x hi.cur hs hr]
  exact ⟨hi.cur⟩

theorem InFlight_actOnProgramPause {x : DbgCommand} (T : Env) {c : GDBController} (msg : List Nat)
    (hs : x.moreToSend = false) (hr : x.expectReply = true) (hi : InFlight x c) : InFlight x (actOnProgramPause T c msg) := by
  unfold actOnProgramPause
  dsimp only
  repeat' first
    | with_reducible refine InFlight_queueCmd hs hr _ _ ?_
    | simp only [InFlight_ite_iff, InFlight_setOff, InFlight_emit, InFlight_setViewed, InFlight_setBacktraceDue]
    | refine And.intro ?_ ?_
    | intro _
    | with_reducible exact hi


theorem InFlight_parseProgramLocation {x : DbgCommand} (T : Env) {c : GDBController} (buf : List Nat)
    (hs : x.moreToSend = false) (hr : x.expectReply = true) (hi : InFlight x c) : InFlight x (parseProgramLocation T c buf) := by
  unfold parseProgramLocation
  dsimp only
  repeat' first
    | with_reducible refine InFlight_actOnProgramPause T _ hs hr ?_
    | simp only [InFlight_ite_iff, InFlight_setOff, InFlight_emit]
    | refine And.intro ?_ ?_
    | intro _
    | with_reducible exact hi
    | split


theorem InFlight_parseFrameSelected {x : DbgCommand} (T : Env) {c : GDBController} (buf : Nat)
    (hs : x.moreToSend = false) (hr : x.expectReply = true) (hi : InFlight x c) : InFlight x (parseFrameSelected T c buf) := by
  unfold parseFrameSelected
  dsimp only
  repeat' first
    | with_reducible refine InFlight_parseProgramLocation T _ hs hr ?_
    | simp only [InFlight_ite_iff, InFlight_setOff, InFlight_emit, InFlight_poke]
    | refine And.intro ?_ ?_
    | intro _
    | with_reducible exact hi
    | split


theorem InFlight_dispatchBlock {x : DbgCommand} (T : Env) {c : GDBController} (cmdType buf : Nat)
    (hs : x.moreToSend = false) (hr : x.expectReply = true) (hi : InFlight x c) : InFlight x (dispatchBlock T c cmdType buf) := by
  unfold dispatchBlock parseBreakpointSet parseItemReply parseLocals parseBacktraceList
    parseThreadList
  dsimp only
  repeat' first
    | with_reducible refine InFlight_parseProgramLocation T _ hs hr ?_
    | with_reducible refine InFlight_parseFrameSelected T _ hs hr ?_
    | simp only [InFlight_ite_iff, InFlight_setOff, InFlight_emit, InFlight_setBacktraceDue, InFlight_setViewedThread]
    | refine And.intro ?_ ?_
    | intro _
    | with_reducible exact hi
    | split


theorem byteAt_set_ne (l : List Nat) (p v i : Nat) (h : p ≠ i) :
    byteAt (l.set p v) i = byteAt l i := by
  unfold byteAt
  rw [List.getD_eq_getElem?_getD, List.getD_eq_getElem?_getD, List.getElem?_set_ne h]

theorem strchr_get (l : List Nat) (ch k : Nat) (h : strchr l ch = some k) : l[k]? = some ch := by
  induction l generalizing k with
  | nil => simp [strchr] at h
  | cons b r ih =>
    unfold strchr at h
    by_cases hb : b = ch
    · rw [if_pos hb] at h
      cases h
      simp [hb]
    · rw [if_neg hb] at h
      cases hr : strchr r ch with
      | none => rw [hr] at h; cases h
      | some j =>
        rw [hr] at h
        cases h
        simpa using ih j hr

theorem cstr_get (mem : List Nat) (i j v : Nat) (h : (cstr mem i)[j]? = some v) :
    byteAt mem (i + j) = v := by
  unfold cstr at h
  have hp : List.takeWhile (fun b => b != 0) (mem.drop i) <+: mem.drop i :=
    List.takeWhile_prefix _
  obtain ⟨t, ht⟩ := hp
  have h2 : (mem.drop i)[j]? = some v := by
    rw [← ht, List.getElem?_append_left]
    · exact h
    · exact (List.getElem?_eq_some_iff.1 h).1
  rw [List.getElem?_drop] at h2
  unfold byteAt
  rw [List.getD_eq_getElem?_getD, h2]
  rfl

/-- What `parseCmdBlock` does on a block whose tag is not idle: when the end of
the block is not there it calls no handler and changes nothing but what it
notes about its reads; when the end is there it stores the NUL and the rest is
`finishBlock` on the same tag. -/
theorem parseCmdBlock_cases (T : Env) (c : GDBController) (buf : Nat)
    (hti : byteAt c.gdbOutput_ (buf + 1) ≠ IDLE) :
    ((parseCmdBlock T c buf).1 = none ∧
      (parseCmdBlock T c buf).2.state_ = c.state_ ∧
      (parseCmdBlock T c buf).2.cmdList_ = c.cmdList_ ∧
      (parseCmdBlock T c buf).2.currentCmd_ = c.currentCmd_ ∧
      (parseCmdBlock T c buf).2.log_ = c.log_) ∨
    (∃ (e : Nat) (d : GDBController), (parseCmdBlock T c buf).1 = some e ∧
      d.state_ = c.state_ ∧ d.cmdList_ = c.cmdList_ ∧ d.currentCmd_ = c.currentCmd_ ∧
      d.log_ = c.log_ ∧ byteAt d.gdbOutput_ (buf + 1) = byteAt c.gdbOutput_ (buf + 1) ∧
      (parseCmdBlock T c buf).2 = finishBlock T d buf) := by
  unfold parseCmdBlock
  dsimp only
  rw [if_neg hti]
  by_cases hsrc : byteAt c.gdbOutput_ (buf + 1) = SRC_POSITION
  · rw [if_pos hsrc]
    simp only [touch_gdbOutput]
    cases hk : strchr (cstr c.gdbOutput_ buf) 10 with
    | none =>
      left
      simp only [touch_state, touch_cmdList, touch_currentCmd, touch_log, and_self]
    | some k =>
      right
      refine ⟨buf + k, _, rfl, ?_, ?_, ?_, ?_, ?_, rfl⟩
      · show ((c.touch _).touch _).state_ = _
        rw [touch_state, touch_state]
      · show ((c.touch _).touch _).cmdList_ = _
        rw [touch_cmdList, touch_cmdList]
      · show ((c.touch _).touch _).currentCmd_ = _
        rw [touch_currentCmd, touch_currentCmd]
      · show ((c.touch _).touch _).log_ = _
        rw [touch_log, touch_log]
      · show byteAt (((c.touch _).touch _).gdbOutput_.set (buf + k) 0) (buf + 1) = _
        rw [touch_gdbOutput, touch_gdbOutput]
        apply byteAt_set_ne
        intro hk1
        have hk2 : k = 1 := by omega
        have := cstr_get _ _ _ _ (strchr_get _ _ _ hk)
        rw [hk2, hsrc] at this
        exact absurd this (by decide)
  · rw [if_neg hsrc]
    simp only [touch_gdbOutput]
    cases hk : strstr (cstr c.gdbOutput_ (buf + 2))
        (if byteAt c.gdbOutput_ (buf + 1) = 0 then [BLOCK_START]
          else [BLOCK_START, byteAt c.gdbOutput_ (buf + 1)]) with
    | none =>
      left
      simp only [touch_state, touch_cmdList, touch_currentCmd, touch_log, and_self]
    | some k =>
      right
      refine ⟨buf + 2 + k + 1, _, rfl, ?_, ?_, ?_, ?_, ?_, rfl⟩
      · show ((c.touch _).touch _).state_ = _
        rw [touch_state, touch_state]
      · show ((c.touch _).touch _).cmdList_ = _
        rw [touch_cmdList, touch_cmdList]
      · show ((c.touch _).touch _).currentCmd_ = _
        rw [touch_currentCmd, touch_currentCmd]
      · show ((c.touch _).touch _).log_ = _
        rw [touch_log, touch_log]
      · show byteAt (((c.touch _).touch _).gdbOutput_.set (buf + 2 + k) 0) (buf + 1) = _
        rw [touch_gdbOutput, touch_gdbOutput]
        exact byteAt_set_ne _ _ _ _ (by omega)
theorem finishBlock_removes (T : Env) (c : GDBController) (buf : Nat) (cmd : DbgCommand)
    (hcur : c.currentCmd_ = some cmd) (hs : cmd.moreToSend = false)
    (hm : cmd.typeMatch (byteAt c.gdbOutput_ (buf + 1)) = true) :
    finishBlock T c buf =
      (dispatchBlock T c (byteAt c.gdbOutput_ (buf + 1)) (buf + 2)).clearCurrentCmd := by
  have hr : cmd.expectReply = true := by
    unfold DbgCommand.typeMatch at hm
    unfold DbgCommand.expectReply
    simp only [Bool.and_eq_true] at hm
    exact hm.1
  have h := (InFlight_dispatchBlock T (byteAt c.gdbOutput_ (buf + 1)) (buf + 2) hs hr
    ⟨hcur⟩).cur
  unfold finishBlock
  dsimp only
  rw [h]
  simp only [hm, if_true]

/-- C23: `parseCmdBlock` on a block whose tag `t` is not idle.  When the end of
the block has not arrived it returns no position, calls no handler and leaves
flags, pending list, in-flight command and log as they are.  When the end is
there, the handler of `t` runs (`dispatchBlock`) and then the in-flight
command, if its tag matches `t`, is removed: no command is in flight
afterwards; otherwise the result is that of the handler.  A command that was
in flight, written, with a matching tag when the block arrived is still the
one in flight after the handler, so it is the one removed. -/
theorem C23_matching_command_is_removed (T : Env) (c : GDBController) (buf : Nat) :
    (∀ cmd : DbgCommand,
      (dispatchBlock T c (byteAt c.gdbOutput_ (buf + 1)) (buf + 2)).currentCmd_ = some cmd →
      cmd.typeMatch (byteAt c.gdbOutput_ (buf + 1)) = true →
      finishBlock T c buf =
        (dispatchBlock T c (byteAt c.gdbOutput_ (buf + 1)) (buf + 2)).clearCurrentCmd ∧
      (finishBlock T c buf).currentCmd_ = none) ∧
    (((dispatchBlock T c (byteAt c.gdbOutput_ (buf + 1)) (buf + 2)).currentCmd_ = none ∨
        ∃ cmd : DbgCommand,
          (dispatchBlock T c (byteAt c.gdbOutput_ (buf + 1)) (buf + 2)).currentCmd_ = some cmd ∧
          cmd.typeMatch (byteAt c.gdbOutput_ (buf + 1)) = false) →
      finishBlock T c buf = dispatchBlock T c (byteAt c.gdbOutput_ (buf + 1)) (buf + 2)) ∧
    (∀ cmd : DbgCommand, c.currentCmd_ = some cmd → cmd.moreToSend = false →
      cmd.typeMatch (byteAt c.gdbOutput_ (buf + 1)) = true →
      (dispatchBlock T c (byteAt c.gdbOutput_ (buf + 1)) (buf + 2)).currentCmd_ = some cmd ∧
      (finishBlock T c buf).currentCmd_ = none) ∧
    (byteAt c.gdbOutput_ (buf + 1) ≠ IDLE →
      ((parseCmdBlock T c buf).1 = none →
        (parseCmdBlock T c buf).2.state_ = c.state_ ∧
        (parseCmdBlock T c buf).2.cmdList_ = c.cmdList_ ∧
        (parseCmdBlock T c buf).2.currentCmd_ = c.currentCmd_ ∧
        (parseCmdBlock T c buf).2.log_ = c.log_) ∧
      ((parseCmdBlock T c buf).1 ≠ none →
        (∃ d : GDBController, d.state_ = c.state_ ∧ d.cmdList_ = c.cmdList_ ∧
          d.currentCmd_ = c.currentCmd_ ∧ d.log_ = c.log_ ∧
          byteAt d.gdbOutput_ (buf + 1) = byteAt c.gdbOutput_ (buf + 1) ∧
          (parseCmdBlock T c buf).2 = finishBlock T d buf) ∧
        (∀ cmd : DbgCommand, c.currentCmd_ = some cmd → cmd.moreToSend = false →
          cmd.typeMatch (byteAt c.gdbOutput_ (buf + 1)) = true →
          (parseCmdBlock T c buf).2.currentCmd_ = none))) := by
  refine ⟨?_, ?_, ?_, ?_⟩
  · intro cmd hcur hm
    have h : finishBlock T c buf =
        (dispatchBlock T c (byteAt c.gdbOutput_ (buf + 1)) (buf + 2)).clearCurrentCmd := by
      unfold finishBlock
      dsimp only
      rw [hcur]
      simp only [hm, if_true]
    exact ⟨h, by rw [h]; rfl⟩
  · intro h
    unfold finishBlock
    dsimp only
    rcases h with h | ⟨cmd, h, hm⟩
    · rw [h]
    · rw [h]
      simp only [hm, Bool.false_eq_true, if_false]
  · intro cmd hcur hs hm
    have hr : cmd.expectReply = true := by
      unfold DbgCommand.typeMatch at hm
      unfold DbgCommand.expectReply
      simp only [Bool.and_eq_true] at hm
      exact hm.1
    refine ⟨(InFlight_dispatchBlock T (byteAt c.gdbOutput_ (buf + 1)) (buf + 2) hs hr
      ⟨hcur⟩).cur, ?_⟩
    rw [finishBlock_removes T c buf cmd hcur hs hm]
    rfl
  · intro hti
    rcases parseCmdBlock_cases T c buf hti with ⟨h1, h2⟩ | ⟨e, d, h1, h2, h3, h4, h5, h6, h7⟩
    · refine ⟨fun _ => h2, fun hne => absurd h1 hne⟩
    · refine ⟨fun hn => ?_, fun _ => ⟨⟨d, h2, h3, h4, h5, h6, h7⟩, ?_⟩⟩
      · rw [h1] at hn; cases hn
      · intro cmd hcur hs hm
        rw [h7, finishBlock_removes T d buf cmd (by rw [h4]; exact hcur) hs (by rw [h6]; exact hm)]
        rfl

theorem C23_witness :
    registersInFlight.currentCmd_ =
      some (GDBCommand "info all-registers" NOTRUNCMD INFOCMD sampleEnv.REGISTERS).markSent ∧
    (slotDbgStdout sampleEnv registersInFlight
      ([BLOCK_START, sampleEnv.REGISTERS] ++ str "eax 0" ++ [BLOCK_START])).currentCmd_ =
      registersInFlight.currentCmd_ ∧
    (slotDbgStdout sampleEnv registersInFlight
      ([BLOCK_START, sampleEnv.REGISTERS] ++ str "eax 0" ++ [BLOCK_START])).log_ =
      registersInFlight.log_ ∧
    (slotDbgStdout sampleEnv registersInFlight registersReply).currentCmd_ = none ∧
    (finishBlock sampleEnv
      ((appendOutput registersInFlight registersReply).poke 7 0) 0).currentCmd_ = none :=
  have h := (C23_matching_command_is_removed sampleEnv
    ((appendOutput registersInFlight registersReply).poke 7 0) 0).2.2.1
    (GDBCommand "info all-registers" NOTRUNCMD INFOCMD sampleEnv.REGISTERS).markSent
    (by decide) (by decide) (by decide)
  ⟨by decide, by decide, by decide, by decide, h.2⟩
theorem dispatchBlock_raw (T : Env) (c : GDBController) (t buf : Nat) (hd : T.distinctCases) :
    (t = T.BPLIST → dispatchBlock T c t buf =
      (c.emit (Event.handler t (cstr c.gdbOutput_ buf))).emit
        (Event.rawGDBBreakpointList (cstr c.gdbOutput_ buf))) ∧
    (t = T.DISASSEMBLE → dispatchBlock T c t buf =
      (c.emit (Event.handler t (cstr c.gdbOutput_ buf))).emit
        (Event.rawGDBDisassemble (cstr c.gdbOutput_ buf))) ∧
    (t = T.MEMDUMP → dispatchBlock T c t buf =
      (c.emit (Event.handler t (cstr c.gdbOutput_ buf))).emit
        (Event.rawGDBMemoryDump (cstr c.gdbOutput_ buf))) ∧
    (t = T.REGISTERS → dispatchBlock T c t buf =
      (c.emit (Event.handler t (cstr c.gdbOutput_ buf))).emit
        (Event.rawGDBRegisters (cstr c.gdbOutput_ buf))) ∧
    (t = T.LIBRARIES → dispatchBlock T c t buf =
      (c.emit (Event.handler t (cstr c.gdbOutput_ buf))).emit
        (Event.rawGDBLibraries (cstr c.gdbOutput_ buf))) ∧
    (t = T.DETACH → dispatchBlock T c t buf =
      (c.emit (Event.handler t (cstr c.gdbOutput_ buf))).setOff s_attached) ∧
    (t = T.DATAREQUEST → dispatchBlock T c t buf =
      parseItemReply (c.emit (Event.handler t (cstr c.gdbOutput_ buf))) "updateValue"
        (cstr c.gdbOutput_ buf)) := by
  unfold Env.distinctCases Env.handled at hd
  simp only [List.nodup_cons, List.mem_cons, List.mem_singleton, List.not_mem_nil, not_or,
    List.nodup_nil, and_true, or_false] at hd
  refine ⟨?_, ?_, ?_, ?_, ?_, ?_, ?_⟩ <;>
  · intro ht
    subst ht
    unfold dispatchBlock
    simp_all [eq_comm]
theorem dispatchBlock_no_case (T : Env) (c : GDBController) (t buf : Nat)
    (h1 : t ∉ T.handled) (h2 : t ≠ SRC_POSITION) : dispatchBlock T c t buf = c := by
  unfold Env.handled at h1
  simp only [List.mem_cons, List.mem_singleton, List.not_mem_nil, not_or, or_false] at h1
  unfold dispatchBlock
  simp_all

/-- When the handler leaves the in-flight command as it was and that command
does not match the tag, `finishBlock` is the handler alone. -/
theorem finishBlock_stale (T : Env) (c : GDBController) (buf : Nat)
    (hsame : (dispatchBlock T c (byteAt c.gdbOutput_ (buf + 1)) (buf + 2)).currentCmd_ =
      c.currentCmd_)
    (hstale : c.currentCmd_ = none ∨ ∃ cmd : DbgCommand, c.currentCmd_ = some cmd ∧
      cmd.typeMatch (byteAt c.gdbOutput_ (buf + 1)) = false) :
    finishBlock T c buf = dispatchBlock T c (byteAt c.gdbOutput_ (buf + 1)) (buf + 2) := by
  unfold finishBlock
  dsimp only
  rw [hsame]
  rcases hstale with h | ⟨cmd, h, hm⟩
  · rw [h]
  · rw [h]
    simp only [hm, Bool.false_eq_true, if_false]

theorem queueCmd_stuck_keeps (d : GDBController) (cmd : DbgCommand) (b : Bool) (h : Stuck d) :
    Stuck (queueCmd d cmd b) ∧ (queueCmd d cmd b).currentCmd_ = d.currentCmd_ ∧
    (queueCmd d cmd b).state_ = d.state_ := by
  rw [queueCmd_stuck d cmd b h]
  exact ⟨h, rfl, rfl⟩

theorem queueCmd_head_cases (d : GDBController) (cmd : DbgCommand) (hwf : QueueWF d)
    (hr : cmd.isARunCmd = false) (hm : cmd.moreToSend = true) :
    Stuck (queueCmd d cmd true) ∧
    ((queueCmd d cmd true).currentCmd_ = d.currentCmd_ ∨
      (queueCmd d cmd true).currentCmd_ = some cmd.markSent) := by
  by_cases hst : Stuck d
  · have := queueCmd_stuck_keeps d cmd true hst
    exact ⟨this.1, Or.inl this.2.1⟩
  · unfold Stuck at hst
    simp only [not_or, Bool.not_eq_true, not_exists, not_and] at hst
    obtain ⟨hw, hn, hb, hc⟩ := hst
    have hcur : ∀ x, d.currentCmd_ = some x → x.moreToSend = false ∧ x.expectReply = false :=
      fun x hx => ⟨hwf.sent x hx, hc x hx (hwf.sent x hx)⟩
    rw [queueCmd_free_head d cmd hw hn hb hcur hr hm]
    have hs := executeCmdWrite_spec { d with currentCmd_ := some cmd } cmd
    refine ⟨Or.inl ?_, Or.inr hs.1⟩
    rw [hs.2.2, hr]
    rfl

theorem actOnProgramPause_current (T : Env) (c : GDBController) (msg : List Nat)
    (hwf : QueueWF c) :
    (actOnProgramPause T c msg).currentCmd_ = c.currentCmd_ ∨
    (actOnProgramPause T c msg).currentCmd_ =
      some (GDBCommand "info thread" NOTRUNCMD INFOCMD T.INFOTHREAD).markSent ∨
    (actOnProgramPause T c msg).currentCmd_ =
      some (GDBCommand "backtrace" NOTRUNCMD INFOCMD T.BACKTRACE).markSent := by
  unfold actOnProgramPause
  by_cases hb : stateIsOn c.state_ s_appBusy = true
  · rw [if_pos hb]
    dsimp only
    by_cases hs : stateIsOn (c.setOff s_appBusy).state_ s_silent = true
    · rw [if_pos hs]; exact Or.inl rfl
    · rw [if_neg hs]
      have h5 : QueueWF (((((c.setOff s_appBusy).emit (Event.dbgStatus msg
          (c.setOff s_appBusy).state_)).setViewed (-1) 0).emit
          (Event.widget "setActiveFlag" [])).setBacktraceDue true) := ⟨hwf.sent, hwf.unsent⟩
      have c5 : (((((c.setOff s_appBusy).emit (Event.dbgStatus msg
          (c.setOff s_appBusy).state_)).setViewed (-1) 0).emit
          (Event.widget "setActiveFlag" [])).setBacktraceDue true).currentCmd_ = c.currentCmd_ :=
        rfl
      generalize ((((c.setOff s_appBusy).emit (Event.dbgStatus msg
          (c.setOff s_appBusy).state_)).setViewed (-1) 0).emit
          (Event.widget "setActiveFlag" [])).setBacktraceDue true = d at h5 c5 ⊢
      -- the two head insertions
      have h7 : Stuck (queueCmd (if stateIsOn d.state_ s_viewThreads = true then
            queueCmd d (GDBCommand "info thread" NOTRUNCMD INFOCMD T.INFOTHREAD) true else d)
            (GDBCommand "backtrace" NOTRUNCMD INFOCMD T.BACKTRACE) true) ∧
          ((queueCmd (if stateIsOn d.state_ s_viewThreads = true then
            queueCmd d (GDBCommand "info thread" NOTRUNCMD INFOCMD T.INFOTHREAD) true else d)
            (GDBCommand "backtrace" NOTRUNCMD INFOCMD T.BACKTRACE) true).currentCmd_
              = c.currentCmd_ ∨
           (queueCmd (if stateIsOn d.state_ s_viewThreads = true then
            queueCmd d (GDBCommand "info thread" NOTRUNCMD INFOCMD T.INFOTHREAD) true else d)
            (GDBCommand "backtrace" NOTRUNCMD INFOCMD T.BACKTRACE) true).currentCmd_
              = some (GDBCommand "info thread" NOTRUNCMD INFOCMD T.INFOTHREAD).markSent ∨
           (queueCmd (if stateIsOn d.state_ s_viewThreads = true then
            queueCmd d (GDBCommand "info thread" NOTRUNCMD INFOCMD T.INFOTHREAD) true else d)
            (GDBCommand "backtrace" NOTRUNCMD INFOCMD T.BACKTRACE) true).currentCmd_
              = some (GDBCommand "backtrace" NOTRUNCMD INFOCMD T.BACKTRACE).markSent) := by
        by_cases hv : stateIsOn d.state_ s_viewThreads = true
        · rw [if_pos hv]
          have h6 := queueCmd_head_cases d
            (GDBCommand "info thread" NOTRUNCMD INFOCMD T.INFOTHREAD) h5 rfl rfl
          have h := queueCmd_stuck_keeps _
            (GDBCommand "backtrace" NOTRUNCMD INFOCMD T.BACKTRACE) true h6.1
          refine ⟨h.1, ?_⟩
          rw [h.2.1]
          rcases h6.2 with e | e
          · exact Or.inl (e.trans c5)
          · exact Or.inr (Or.inl e)
        · rw [if_neg hv]
          have h6 := queueCmd_head_cases d
            (GDBCommand "backtrace" NOTRUNCMD INFOCMD T.BACKTRACE) h5 rfl rfl
          refine ⟨h6.1, ?_⟩
          rcases h6.2 with e | e
          · exact Or.inl (e.trans c5)
          · exact Or.inr (Or.inr e)
      generalize queueCmd (if stateIsOn d.state_ s_viewThreads = true then
            queueCmd d (GDBCommand "info thread" NOTRUNCMD INFOCMD T.INFOTHREAD) true else d)
            (GDBCommand "backtrace" NOTRUNCMD INFOCMD T.BACKTRACE) true = e at h7 ⊢
      have hem : ∀ (x : GDBController) (ev : Event), (x.emit ev).currentCmd_ = x.currentCmd_ :=
        fun _ _ => rfl
      simp only [hem]
      by_cases hl : stateIsOn e.state_ s_viewLocals = true
      · rw [if_pos hl]
        have h8 := queueCmd_stuck_keeps e (GDBCommand "info args" NOTRUNCMD INFOCMD T.ARGS)
          false h7.1
        have h9 := queueCmd_stuck_keeps _ (GDBCommand "info local" NOTRUNCMD INFOCMD T.LOCALS)
          false h8.1
        rw [h9.2.1, h8.2.1]
        exact h7.2
      · rw [if_neg hl]
        exact h7.2
  · rw [if_neg hb]
    exact Or.inl rfl

theorem StopHandled_congr {T : Env} {c d r : GDBController} (hs : d.state_ = c.state_)
    (hl : d.cmdList_ = c.cmdList_) (hc : d.currentCmd_ = c.currentCmd_)
    (h : StopHandled T d r) : StopHandled T c r := by
  refine ⟨?_, ?_, ?_⟩
  · intro h1
    have := h.silent (by rw [hs]; exact h1)
    rw [hs, hl, hc] at this
    exact this
  · intro h1 h2
    have := h.idle (by rw [hs]; exact h1) (by rw [hs]; exact h2)
    rw [hs, hl, hc] at this
    exact this
  · intro h1 h2
    have := h.stop (by rw [hs]; exact h1) (by rw [hs]; exact h2)
    rw [hc] at this
    exact this

theorem actOnProgramPause_idle (T : Env) (c : GDBController) (msg : List Nat)
    (hb : c.state_.appBusy = false) : actOnProgramPause T c msg = c := by
  unfold actOnProgramPause
  rw [if_neg (by simp [hb])]

theorem setOff_appBusy_state (c : GDBController) :
    (c.setOff s_appBusy).state_ = { c.state_ with appBusy := false } := by
  cases c with
  | mk a1 a2 a3 a4 a5 a6 a7 a8 a9 a10 st a12 a13 a14 a15 a16 a17 a18 a19 a20 a21 a22 a23 =>
    cases st
    simp [GDBController.setOff]

theorem parseProgramLocation_stop (T : Env) (d : GDBController) (txt : List Nat)
    (hwf : QueueWF d) : StopHandled T d (parseProgramLocation T d txt) := by
  refine ⟨?_, ?_, ?_⟩
  · intro hs
    unfold parseProgramLocation
    rw [if_pos (by simp [hs])]
    exact ⟨setOff_appBusy_state d, rfl, rfl⟩
  · intro hs hb
    unfold parseProgramLocation
    rw [if_neg (by simp [hs])]
    cases regExp1 txt with
    | some m =>
      obtain ⟨file, line, addr⟩ := m
      dsimp only
      rw [actOnProgramPause_idle T d [] hb]
      exact ⟨rfl, rfl, rfl⟩
    | none =>
      dsimp only
      rw [if_neg (by simp [hb])]
      cases regExp3 txt <;> exact ⟨rfl, rfl, rfl⟩
  · intro hs hb
    have hp : ∀ msg, (actOnProgramPause T d msg).state_.appBusy = false ∧
        ((actOnProgramPause T d msg).currentCmd_ = d.currentCmd_ ∨
          (actOnProgramPause T d msg).currentCmd_ =
            some (GDBCommand "info thread" NOTRUNCMD INFOCMD T.INFOTHREAD).markSent ∨
          (actOnProgramPause T d msg).currentCmd_ =
            some (GDBCommand "backtrace" NOTRUNCMD INFOCMD T.BACKTRACE).markSent) :=
      fun msg => ⟨(actOnProgramPause_paused T d msg hb hs hwf).idle,
        actOnProgramPause_current T d msg hwf⟩
    unfold parseProgramLocation
    rw [if_neg (by simp [hs])]
    cases regExp1 txt with
    | some m =>
      obtain ⟨file, line, addr⟩ := m
      exact hp []
    | none =>
      dsimp only
      rw [if_pos (by simp [hb])]
      cases regExp3 txt <;> exact hp _

theorem parseFrameSelected_stop (T : Env) (d : GDBController) (buf k : Nat)
    (hk : strstr (cstr d.gdbOutput_ buf) [BLOCK_START, SRC_POSITION] = some k)
    (hwf : QueueWF d) : StopHandled T d (parseFrameSelected T d buf) := by
  unfold parseFrameSelected
  dsimp only
  rw [hk]
  dsimp only
  cases strchr (cstr d.gdbOutput_ (buf + k)) 10 with
  | some j =>
    exact StopHandled_congr (d := d.poke (buf + k + j) 0) rfl rfl rfl
      (parseProgramLocation_stop T _ _ ⟨hwf.sent, hwf.unsent⟩)
  | none => exact parseProgramLocation_stop T _ _ hwf

theorem parseFrameSelected_plain (T : Env) (d : GDBController) (buf : Nat)
    (hk : strstr (cstr d.gdbOutput_ buf) [BLOCK_START, SRC_POSITION] = none) :
    parseFrameSelected T d buf =
      if d.state_.silent = true then d
      else (d.emit (Event.showStepInSource [] (-1) [])).emit
        (Event.dbgStatus (str "No source: " ++ cstr d.gdbOutput_ buf) d.state_) := by
  unfold parseFrameSelected
  dsimp only
  rw [hk]
  dsimp only
  cases hs : d.state_.silent <;> simp [hs]

/-- When no command that matches the tag is in flight after the handler,
`finishBlock` is the handler alone. -/
theorem finishBlock_no_match (T : Env) (c : GDBController) (buf : Nat)
    (h : ∀ cmd, (dispatchBlock T c (byteAt c.gdbOutput_ (buf + 1)) (buf + 2)).currentCmd_ =
      some cmd → cmd.typeMatch (byteAt c.gdbOutput_ (buf + 1)) = false) :
    finishBlock T c buf = dispatchBlock T c (byteAt c.gdbOutput_ (buf + 1)) (buf + 2) := by
  unfold finishBlock
  dsimp only
  cases hc : (dispatchBlock T c (byteAt c.gdbOutput_ (buf + 1)) (buf + 2)).currentCmd_ with
  | none => rfl
  | some cmd =>
    dsimp only
    rw [h cmd hc]
    rfl

theorem refresh_no_match (text : String) (tag t : Nat) (h : tag ≠ t) :
    (GDBCommand text NOTRUNCMD INFOCMD tag).markSent.typeMatch t = false := by
  simp [DbgCommand.typeMatch, DbgCommand.markSent, GDBCommand, h]

theorem setOff_attached_state (c : GDBController) :
    (c.setOff s_attached).state_ = { c.state_ with attached := false } := by
  cases c with
  | mk a1 a2 a3 a4 a5 a6 a7 a8 a9 a10 st a12 a13 a14 a15 a16 a17 a18 a19 a20 a21 a22 a23 =>
    cases st
    simp [GDBController.setOff]

theorem parseBreakpointSet_fields (d : GDBController) (s : List Nat) :
    (parseBreakpointSet d s).cmdList_ = d.cmdList_ ∧
    (parseBreakpointSet d s).currentCmd_ = d.currentCmd_ ∧
    (parseBreakpointSet d s).state_ = d.state_ := by
  unfold parseBreakpointSet
  cases hc : d.currentCmd_ with
  | none => exact ⟨rfl, hc, rfl⟩
  | some cmd =>
    dsimp only
    cases cmd.kind_ with
    | plain => exact ⟨rfl, hc, rfl⟩
    | item i => exact ⟨rfl, hc, rfl⟩
    | setBreakpoint key =>
      dsimp only
      by_cases hk : (key != -1) = true
      · rw [if_pos hk]; exact ⟨rfl, hc, rfl⟩
      · rw [if_neg hk]; exact ⟨rfl, hc, rfl⟩

theorem parseItemReply_fields (d : GDBController) (m : String) (s : List Nat) :
    (parseItemReply d m s).cmdList_ = d.cmdList_ ∧
    (parseItemReply d m s).currentCmd_ = d.currentCmd_ ∧
    (parseItemReply d m s).state_ = d.state_ := by
  unfold parseItemReply
  cases hc : d.currentCmd_ with
  | none => exact ⟨rfl, hc, rfl⟩
  | some cmd =>
    dsimp only
    cases cmd.kind_ <;> exact ⟨rfl, hc, rfl⟩

theorem parseLocals_fields (T : Env) (d : GDBController) (t : Nat) (s : List Nat) :
    (parseLocals T d t s).cmdList_ = d.cmdList_ ∧
    (parseLocals T d t s).currentCmd_ = d.currentCmd_ ∧
    (parseLocals T d t s).state_ = d.state_ := by
  unfold parseLocals
  by_cases h : t = T.ARGS
  · rw [if_pos h]; exact ⟨rfl, rfl, rfl⟩
  · rw [if_neg h]; exact ⟨rfl, rfl, rfl⟩

theorem parseBacktraceList_fields (d : GDBController) (s : List Nat) :
    (parseBacktraceList d s).cmdList_ = d.cmdList_ ∧
    (parseBacktraceList d s).currentCmd_ = d.currentCmd_ ∧
    (parseBacktraceList d s).state_ = d.state_ := by
  unfold parseBacktraceList
  dsimp only
  by_cases h : (d.emit (Event.widget "parseGDBBacktraceList" s)).backtraceDueToProgramStop_
      = true
  · rw [if_pos h]; exact ⟨rfl, rfl, rfl⟩
  · rw [if_neg h]; exact ⟨rfl, rfl, rfl⟩

/-- The handlers of all tags but FRAME and the program location leave the
queue alone, and only the one of DETACH touches a flag. -/
theorem dispatchBlock_quiet (T : Env) (c : GDBController) (t buf : Nat)
    (h1 : t ≠ T.FRAME) (h2 : t ≠ SRC_POSITION) :
    (dispatchBlock T c t buf).cmdList_ = c.cmdList_ ∧
    (dispatchBlock T c t buf).currentCmd_ = c.currentCmd_ ∧
    (t ≠ T.DETACH → (dispatchBlock T c t buf).state_ = c.state_) ∧
    ((dispatchBlock T c t buf).state_ = c.state_ ∨
      (dispatchBlock T c t buf).state_ = { c.state_ with attached := false }) := by
  have key : ∀ P : GDBController → Prop,
      (∀ r : GDBController, r.cmdList_ = c.cmdList_ → r.currentCmd_ = c.currentCmd_ →
        r.state_ = c.state_ → P r) →
      (t = T.DETACH → ∀ r : GDBController, r.cmdList_ = c.cmdList_ →
        r.currentCmd_ = c.currentCmd_ → r.state_ = { c.state_ with attached := false } → P r) →
      P (dispatchBlock T c t buf) := by
    intro P hP hD
    have hite : ∀ (p : Prop) [Decidable p] (a b : GDBController),
        (p → P a) → (¬ p → P b) → P (if p then a else b) := by
      intro p _ a b ha hb
      by_cases h : p
      · rw [if_pos h]; exact ha h
      · rw [if_neg h]; exact hb h
    unfold dispatchBlock
    dsimp only
    rw [if_neg h1]
    refine hite _ _ _ (fun _ => hP _ (parseBreakpointSet_fields _ _).1
      (parseBreakpointSet_fields _ _).2.1 (parseBreakpointSet_fields _ _).2.2) (fun _ => ?_)
    refine hite _ _ _ (fun h => absurd h h2) (fun _ => ?_)
    refine hite _ _ _ (fun _ => hP _ (parseLocals_fields T _ _ _).1
      (parseLocals_fields T _ _ _).2.1 (parseLocals_fields T _ _ _).2.2) (fun _ => ?_)
    refine hite _ _ _ (fun _ => hP _ (parseItemReply_fields _ _ _).1
      (parseItemReply_fields _ _ _).2.1 (parseItemReply_fields _ _ _).2.2) (fun _ => ?_)
    refine hite _ _ _ (fun _ => hP _ (parseItemReply_fields _ _ _).1
      (parseItemReply_fields _ _ _).2.1 (parseItemReply_fields _ _ _).2.2) (fun _ => ?_)
    refine hite _ _ _ (fun _ => hP _ rfl rfl rfl) (fun _ => ?_)
    refine hite _ _ _ (fun _ => hP _ (parseBacktraceList_fields _ _).1
      (parseBacktraceList_fields _ _).2.1 (parseBacktraceList_fields _ _).2.2) (fun _ => ?_)
    refine hite _ _ _ (fun _ => hP _ rfl rfl rfl) (fun _ => ?_)
    refine hite _ _ _ (fun _ => hP _ rfl rfl rfl) (fun _ => ?_)
    refine hite _ _ _ (fun _ => hP _ rfl rfl rfl) (fun _ => ?_)
    refine hite _ _ _ (fun _ => hP _ rfl rfl rfl) (fun _ => ?_)
    refine hite _ _ _ (fun _ => hP _ rfl rfl rfl) (fun _ => ?_)
    exact hite _ _ _ (fun h => hD h _ rfl rfl (setOff_attached_state _))
      (fun _ => hP _ rfl rfl rfl)
  refine key (fun r => r.cmdList_ = c.cmdList_ ∧ r.currentCmd_ = c.currentCmd_ ∧
    (t ≠ T.DETACH → r.state_ = c.state_) ∧
    (r.state_ = c.state_ ∨ r.state_ = { c.state_ with attached := false })) ?_ ?_
  · intro r h1 h2 h3
    exact ⟨h1, h2, fun _ => h3, Or.inl h3⟩
  · intro hd r h1 h2 h3
    exact ⟨h1, h2, fun hn => absurd hd hn, Or.inr h3⟩

theorem dispatchBlock_more (T : Env) (c : GDBController) (t buf : Nat) (hd : T.distinctCases) :
    (t = T.SET_BREAKPT → dispatchBlock T c t buf =
      parseBreakpointSet (c.emit (Event.handler t (cstr c.gdbOutput_ buf)))
        (cstr c.gdbOutput_ buf)) ∧
    (t = T.ARGS → dispatchBlock T c t buf =
      (c.emit (Event.handler t (cstr c.gdbOutput_ buf))).emit
        (Event.widget "setParams" (cstr c.gdbOutput_ buf))) ∧
    (t = T.LOCALS → dispatchBlock T c t buf =
      ((c.emit (Event.handler t (cstr c.gdbOutput_ buf))).emit
        (Event.widget "setLocals" (cstr c.gdbOutput_ buf))).emit (Event.widget "trim" [])) ∧
    (t = T.WHATIS → dispatchBlock T c t buf =
      parseItemReply (c.emit (Event.handler t (cstr c.gdbOutput_ buf))) "updateType"
        (cstr c.gdbOutput_ buf)) ∧
    (t = T.BACKTRACE → dispatchBlock T c t buf =
      parseBacktraceList (c.emit (Event.handler t (cstr c.gdbOutput_ buf)))
        (cstr c.gdbOutput_ buf)) ∧
    (t = T.INFOTHREAD → dispatchBlock T c t buf =
      parseThreadList T (c.emit (Event.handler t (cstr c.gdbOutput_ buf)))
        (cstr c.gdbOutput_ buf)) ∧
    (t = T.FRAME → dispatchBlock T c t buf =
      parseFrameSelected T (c.emit (Event.handler t (cstr c.gdbOutput_ buf))) buf) ∧
    (t = SRC_POSITION → dispatchBlock T c t buf =
      parseProgramLocation T (c.emit (Event.handler t (cstr c.gdbOutput_ buf)))
        (cstr c.gdbOutput_ buf)) := by
  unfold Env.distinctCases Env.handled at hd
  simp only [List.nodup_cons, List.mem_cons, List.mem_singleton, List.not_mem_nil, not_or,
    List.nodup_nil, and_true, or_false] at hd
  refine ⟨?_, ?_, ?_, ?_, ?_, ?_, ?_, ?_⟩ <;>
  · intro ht
    subst ht
    unfold dispatchBlock parseLocals
    simp_all [eq_comm]

theorem StopHandled_current {T : Env} {c r : GDBController} (h : StopHandled T c r) :
    r.currentCmd_ = c.currentCmd_ ∨
    r.currentCmd_ = some (GDBCommand "info thread" NOTRUNCMD INFOCMD T.INFOTHREAD).markSent ∨
    r.currentCmd_ = some (GDBCommand "backtrace" NOTRUNCMD INFOCMD T.BACKTRACE).markSent := by
  cases hs : c.state_.silent with
  | true => exact Or.inl (h.silent hs).2.2
  | false =>
    cases hb : c.state_.appBusy with
    | false => exact Or.inl (h.idle hs hb).2.2
    | true => exact (h.stop hs hb).2

theorem distinctCases_refresh (T : Env) (hd : T.distinctCases) :
    T.INFOTHREAD ≠ SRC_POSITION ∧ T.BACKTRACE ≠ SRC_POSITION ∧
    T.INFOTHREAD ≠ T.FRAME ∧ T.BACKTRACE ≠ T.FRAME := by
  unfold Env.distinctCases Env.handled at hd
  simp only [List.nodup_cons, List.mem_cons, List.mem_singleton, List.not_mem_nil, not_or,
    List.nodup_nil, and_true, or_false] at hd
  refine ⟨?_, ?_, ?_, ?_⟩ <;>
  · intro h
    simp_all

/-- A block of a program location or of a selected frame, with no matching
command in flight and a well-formed queue: `finishBlock` is the handler, and no
command is removed behind it. -/
theorem finishBlock_stop (T : Env) (c : GDBController) (buf : Nat)
    (hstale : c.currentCmd_ = none ∨ ∃ cmd : DbgCommand, c.currentCmd_ = some cmd ∧
      cmd.typeMatch (byteAt c.gdbOutput_ (buf + 1)) = false)
    (h1 : T.INFOTHREAD ≠ byteAt c.gdbOutput_ (buf + 1))
    (h2 : T.BACKTRACE ≠ byteAt c.gdbOutput_ (buf + 1))
    (hs : StopHandled T c (dispatchBlock T c (byteAt c.gdbOutput_ (buf + 1)) (buf + 2))) :
    finishBlock T c buf = dispatchBlock T c (byteAt c.gdbOutput_ (buf + 1)) (buf + 2) := by
  apply finishBlock_no_match
  intro cmd hc
  rcases StopHandled_current hs with e | e | e
  · rw [e] at hc
    rcases hstale with hn | ⟨x, hx, hm⟩
    · rw [hn] at hc; cases hc
    · rw [hx] at hc; cases hc; exact hm
  · rw [e] at hc
    cases hc
    exact refresh_no_match _ _ _ h1
  · rw [e] at hc
    cases hc
    exact refresh_no_match _ _ _ h2

theorem distinctCases_quiet (T : Env) (hd : T.distinctCases) :
    ∀ x ∈ [T.SET_BREAKPT, T.ARGS, T.LOCALS, T.DATAREQUEST, T.WHATIS, T.BPLIST, T.BACKTRACE,
      T.INFOTHREAD, T.DISASSEMBLE, T.MEMDUMP, T.REGISTERS, T.LIBRARIES, T.DETACH],
      x ≠ T.FRAME ∧ x ≠ SRC_POSITION := by
  intro x hx
  unfold Env.distinctCases Env.handled at hd
  have h1 := (List.nodup_cons.1 hd).1
  have h2 := (List.nodup_cons.1 (List.nodup_cons.1 hd).2).1
  constructor
  · intro h
    rw [h] at hx
    exact h2 hx
  · intro h
    rw [h] at hx
    exact h1 (List.mem_cons_of_mem _ hx)

/-- C22 as stated fails: with nothing in flight, a complete breakpoint-list
block makes the controller emit `rawGDBBreakpointList` with its text; with a
command of another tag in flight, a complete detach block clears Attached; and
a program-location block that arrives while the application runs, with the
`run` command (no tag) in flight, clears AppBusy, and the queue writes the
refresh command `backtrace`, which replaces `run` as the command in flight. -/
theorem C22_counterexample :
    settledController.currentCmd_ = none ∧
    (slotDbgStdout sampleEnv settledController
      ([BLOCK_START, sampleEnv.BPLIST] ++ str "x" ++ [BLOCK_START, sampleEnv.BPLIST])).log_ =
      settledController.log_ ++
        [Event.handler sampleEnv.BPLIST (str "x"), Event.rawGDBBreakpointList (str "x")] ∧
    attachedController.currentCmd_ =
      some (GDBCommand "set edit off" NOTRUNCMD NOTINFOCMD 0).markSent ∧
    (GDBCommand "set edit off" NOTRUNCMD NOTINFOCMD 0).markSent.typeMatch sampleEnv.DETACH
      = false ∧
    attachedController.state_.attached = true ∧
    (slotDbgStdout sampleEnv attachedController
      ([BLOCK_START, sampleEnv.DETACH] ++ str "x" ++
        [BLOCK_START, sampleEnv.DETACH])).state_.attached = false ∧
    (slotDbgStdout sampleEnv attachedController
      ([BLOCK_START, sampleEnv.DETACH] ++ str "x" ++
        [BLOCK_START, sampleEnv.DETACH])).currentCmd_ = attachedController.currentCmd_ ∧
    busyController.currentCmd_ = some (GDBCommand "run" RUNCMD NOTINFOCMD 0).markSent ∧
    (GDBCommand "run" RUNCMD NOTINFOCMD 0).markSent.typeMatch SRC_POSITION = false ∧
    busyController.state_.appBusy = true ∧
    (slotDbgStdout sampleEnv busyController
      ([BLOCK_START, SRC_POSITION] ++ str "/x.c:1:1:beg:0x1\n")).state_.appBusy = false ∧
    (slotDbgStdout sampleEnv busyController
      ([BLOCK_START, SRC_POSITION] ++ str "/x.c:1:1:beg:0x1\n")).currentCmd_ =
      some (GDBCommand "backtrace" NOTRUNCMD INFOCMD sampleEnv.BACKTRACE).markSent ∧
    (written (slotDbgStdout sampleEnv busyController
      ([BLOCK_START, SRC_POSITION] ++ str "/x.c:1:1:beg:0x1\n")).log_).drop
        (written busyController.log_).length = ["backtrace"] := by
  refine ⟨by decide, by decide, by decide, by decide, by decide, by decide, by decide,
    by decide, by decide, by decide, by decide, by decide, by decide⟩

/-- C22 (amended): a complete block with tag `t` and text `s`, while no command
is in flight or the one in flight does not match `t`.  `parseCmdBlock` runs the
handler of `t` as for an awaited reply (the model records the call as
`handler t s`) and removes no command.  (1) The block is dropped without any
effect only when there is no `case` for `t`.  (2) For every tag but FRAME and
the program location the pending list and the in-flight command are unchanged,
and so are the flags unless the tag is DETACH.  (3) These handlers are: the raw
event with `s` for the tags of the breakpoint list, the disassembly, the memory
dump, the registers and the libraries; Attached cleared for DETACH; for a data
request, a type request and a breakpoint confirmation the in-flight command is
asked for its item or its key, so nothing is emitted when none is in flight,
and `updateValue(s)` reaches the item of an in-flight item command whatever its
tag; the variable tree and the frame stack receive `s` for the tags of the
arguments, the locals, the backtrace and the thread list.  (4) For a program
location, and for a FRAME block that holds one, the handler is the one of a
stop (`StopHandled`): under Silent it clears AppBusy, without AppBusy it
changes neither flags nor queue, and otherwise it acts on the stop, which
clears AppBusy and queues the refresh commands, one of which may become the
command in flight; a FRAME block without a location only reports
`No source`. -/
theorem C22_stale_block_reaches_handler (T : Env) (c : GDBController) (buf : Nat)
    (hstale : c.currentCmd_ = none ∨ ∃ cmd : DbgCommand, c.currentCmd_ = some cmd ∧
      cmd.typeMatch (byteAt c.gdbOutput_ (buf + 1)) = false) :
    (byteAt c.gdbOutput_ (buf + 1) ∉ T.handled → byteAt c.gdbOutput_ (buf + 1) ≠ SRC_POSITION →
      finishBlock T c buf = c) ∧
    (byteAt c.gdbOutput_ (buf + 1) ≠ T.FRAME → byteAt c.gdbOutput_ (buf + 1) ≠ SRC_POSITION →
      finishBlock T c buf = dispatchBlock T c (byteAt c.gdbOutput_ (buf + 1)) (buf + 2) ∧
      (finishBlock T c buf).cmdList_ = c.cmdList_ ∧
      (finishBlock T c buf).currentCmd_ = c.currentCmd_ ∧
      (byteAt c.gdbOutput_ (buf + 1) ≠ T.DETACH → (finishBlock T c buf).state_ = c.state_)) ∧
    (T.distinctCases →
      (byteAt c.gdbOutput_ (buf + 1) = T.BPLIST → finishBlock T c buf =
        (c.emit (Event.handler T.BPLIST (cstr c.gdbOutput_ (buf + 2)))).emit
          (Event.rawGDBBreakpointList (cstr c.gdbOutput_ (buf + 2)))) ∧
      (byteAt c.gdbOutput_ (buf + 1) = T.DISASSEMBLE → finishBlock T c buf =
        (c.emit (Event.handler T.DISASSEMBLE (cstr c.gdbOutput_ (buf + 2)))).emit
          (Event.rawGDBDisassemble (cstr c.gdbOutput_ (buf + 2)))) ∧
      (byteAt c.gdbOutput_ (buf + 1) = T.MEMDUMP → finishBlock T c buf =
        (c.emit (Event.handler T.MEMDUMP (cstr c.gdbOutput_ (buf + 2)))).emit
          (Event.rawGDBMemoryDump (cstr c.gdbOutput_ (buf + 2)))) ∧
      (byteAt c.gdbOutput_ (buf + 1) = T.REGISTERS → finishBlock T c buf =
        (c.emit (Event.handler T.REGISTERS (cstr c.gdbOutput_ (buf + 2)))).emit
          (Event.rawGDBRegisters (cstr c.gdbOutput_ (buf + 2)))) ∧
      (byteAt c.gdbOutput_ (buf + 1) = T.LIBRARIES → finishBlock T c buf =
        (c.emit (Event.handler T.LIBRARIES (cstr c.gdbOutput_ (buf + 2)))).emit
          (Event.rawGDBLibraries (cstr c.gdbOutput_ (buf + 2)))) ∧
      (byteAt c.gdbOutput_ (buf + 1) = T.DETACH →
        finishBlock T c buf =
          (c.emit (Event.handler T.DETACH (cstr c.gdbOutput_ (buf + 2)))).setOff s_attached ∧
        (finishBlock T c buf).state_.attached = false) ∧
      (byteAt c.gdbOutput_ (buf + 1) = T.DATAREQUEST →
        (c.currentCmd_ = none → finishBlock T c buf =
          c.emit (Event.handler T.DATAREQUEST (cstr c.gdbOutput_ (buf + 2)))) ∧
        (∀ (cmd : DbgCommand) (item : Nat), c.currentCmd_ = some cmd →
          cmd.kind_ = CmdKind.item item →
          finishBlock T c buf =
            (c.emit (Event.handler T.DATAREQUEST (cstr c.gdbOutput_ (buf + 2)))).emit
              (Event.widget "updateValue" (cstr c.gdbOutput_ (buf + 2))))) ∧
      (byteAt c.gdbOutput_ (buf + 1) = T.WHATIS →
        finishBlock T c buf =
          parseItemReply (c.emit (Event.handler T.WHATIS (cstr c.gdbOutput_ (buf + 2))))
            "updateType" (cstr c.gdbOutput_ (buf + 2)) ∧
        (c.currentCmd_ = none → finishBlock T c buf =
          c.emit (Event.handler T.WHATIS (cstr c.gdbOutput_ (buf + 2))))) ∧
      (byteAt c.gdbOutput_ (buf + 1) = T.SET_BREAKPT →
        finishBlock T c buf =
          parseBreakpointSet (c.emit (Event.handler T.SET_BREAKPT (cstr c.gdbOutput_ (buf + 2))))
            (cstr c.gdbOutput_ (buf + 2)) ∧
        (c.currentCmd_ = none → finishBlock T c buf =
          c.emit (Event.handler T.SET_BREAKPT (cstr c.gdbOutput_ (buf + 2))))) ∧
      (byteAt c.gdbOutput_ (buf + 1) = T.ARGS → finishBlock T c buf =
        (c.emit (Event.handler T.ARGS (cstr c.gdbOutput_ (buf + 2)))).emit
          (Event.widget "setParams" (cstr c.gdbOutput_ (buf + 2)))) ∧
      (byteAt c.gdbOutput_ (buf + 1) = T.LOCALS → finishBlock T c buf =
        ((c.emit (Event.handler T.LOCALS (cstr c.gdbOutput_ (buf + 2)))).emit
          (Event.widget "setLocals" (cstr c.gdbOutput_ (buf + 2)))).emit
            (Event.widget "trim" [])) ∧
      (byteAt c.gdbOutput_ (buf + 1) = T.BACKTRACE → finishBlock T c buf =
        parseBacktraceList (c.emit (Event.handler T.BACKTRACE (cstr c.gdbOutput_ (buf + 2))))
          (cstr c.gdbOutput_ (buf + 2))) ∧
      (byteAt c.gdbOutput_ (buf + 1) = T.INFOTHREAD → finishBlock T c buf =
        parseThreadList T (c.emit (Event.handler T.INFOTHREAD (cstr c.gdbOutput_ (buf + 2))))
          (cstr c.gdbOutput_ (buf + 2)))) ∧
    (T.distinctCases → QueueWF c →
      (byteAt c.gdbOutput_ (buf + 1) = SRC_POSITION →
        finishBlock T c buf =
          parseProgramLocation T
            (c.emit (Event.handler SRC_POSITION (cstr c.gdbOutput_ (buf + 2))))
            (cstr c.gdbOutput_ (buf + 2)) ∧
        StopHandled T c (finishBlock T c buf)) ∧
      (byteAt c.gdbOutput_ (buf + 1) = T.FRAME →
        finishBlock T c buf =
          parseFrameSelected T (c.emit (Event.handler T.FRAME (cstr c.gdbOutput_ (buf + 2))))
            (buf + 2) ∧
        (strstr (cstr c.gdbOutput_ (buf + 2)) [BLOCK_START, SRC_POSITION] = none →
          finishBlock T c buf =
            if c.state_.silent = true then
              c.emit (Event.handler T.FRAME (cstr c.gdbOutput_ (buf + 2)))
            else
              ((c.emit (Event.handler T.FRAME (cstr c.gdbOutput_ (buf + 2)))).emit
                (Event.showStepInSource [] (-1) [])).emit
                  (Event.dbgStatus (str "No source: " ++ cstr c.gdbOutput_ (buf + 2))
                    c.state_)) ∧
        (strstr (cstr c.gdbOutput_ (buf + 2)) [BLOCK_START, SRC_POSITION] ≠ none →
          StopHandled T c (finishBlock T c buf)))) := by
  have hq : byteAt c.gdbOutput_ (buf + 1) ≠ T.FRAME →
      byteAt c.gdbOutput_ (buf + 1) ≠ SRC_POSITION →
      finishBlock T c buf = dispatchBlock T c (byteAt c.gdbOutput_ (buf + 1)) (buf + 2) ∧
      (finishBlock T c buf).cmdList_ = c.cmdList_ ∧
      (finishBlock T c buf).currentCmd_ = c.currentCmd_ ∧
      (byteAt c.gdbOutput_ (buf + 1) ≠ T.DETACH → (finishBlock T c buf).state_ = c.state_) := by
    intro h1 h2
    have hf := dispatchBlock_quiet T c _ (buf + 2) h1 h2
    have he := finishBlock_stale T c buf hf.2.1 hstale
    rw [he]
    exact ⟨rfl, hf.1, hf.2.1, hf.2.2.1⟩
  refine ⟨?_, hq, ?_, ?_⟩
  · intro h1 h2
    have hd := dispatchBlock_no_case T c _ (buf + 2) h1 h2
    rw [finishBlock_stale T c buf (by rw [hd]) hstale, hd]
  · intro hd
    have hraw := dispatchBlock_raw T c (byteAt c.gdbOutput_ (buf + 1)) (buf + 2) hd
    have hmore := dispatchBlock_more T c (byteAt c.gdbOutput_ (buf + 1)) (buf + 2) hd
    have hdq := distinctCases_quiet T hd
    have hfin : ∀ t' : Nat, byteAt c.gdbOutput_ (buf + 1) = t' →
        t' ∈ [T.SET_BREAKPT, T.ARGS, T.LOCALS, T.DATAREQUEST, T.WHATIS, T.BPLIST, T.BACKTRACE,
          T.INFOTHREAD, T.DISASSEMBLE, T.MEMDUMP, T.REGISTERS, T.LIBRARIES, T.DETACH] →
        finishBlock T c buf = dispatchBlock T c (byteAt c.gdbOutput_ (buf + 1)) (buf + 2) :=
      fun t' ht hm => (hq (by rw [ht]; exact (hdq t' hm).1) (by rw [ht]; exact (hdq t' hm).2)).1
    have hn : ∀ d : GDBController, d.currentCmd_ = none →
        (∀ m s, parseItemReply d m s = d) ∧ (∀ s, parseBreakpointSet d s = d) := by
      intro d hdn
      constructor
      · intro m s; unfold parseItemReply; rw [hdn]
      · intro s; unfold parseBreakpointSet; rw [hdn]
    refine ⟨?_, ?_, ?_, ?_, ?_, ?_, ?_, ?_, ?_, ?_, ?_, ?_, ?_⟩
    · intro ht
      rw [hfin _ ht (by simp), hraw.1 ht, ht]
    · intro ht
      rw [hfin _ ht (by simp), hraw.2.1 ht, ht]
    · intro ht
      rw [hfin _ ht (by simp), hraw.2.2.1 ht, ht]
    · intro ht
      rw [hfin _ ht (by simp), hraw.2.2.2.1 ht, ht]
    · intro ht
      rw [hfin _ ht (by simp), hraw.2.2.2.2.1 ht, ht]
    · intro ht
      rw [hfin _ ht (by simp), hraw.2.2.2.2.2.1 ht, ht]
      exact ⟨rfl, by simp [GDBController.setOff, GDBController.emit]⟩
    · intro ht
      rw [hfin _ ht (by simp), hraw.2.2.2.2.2.2 ht, ht]
      constructor
      · intro hc
        exact (hn (c.emit (Event.handler T.DATAREQUEST (cstr c.gdbOutput_ (buf + 2)))) hc).1 _ _
      · intro cmd item hc hk
        unfold parseItemReply
        have : (c.emit (Event.handler T.DATAREQUEST (cstr c.gdbOutput_ (buf + 2)))).currentCmd_
            = some cmd := hc
        rw [this]
        simp only [hk]
    · intro ht
      rw [hfin _ ht (by simp), hmore.2.2.2.1 ht, ht]
      exact ⟨rfl, fun hc =>
        (hn (c.emit (Event.handler T.WHATIS (cstr c.gdbOutput_ (buf + 2)))) hc).1 _ _⟩
    · intro ht
      rw [hfin _ ht (by simp), hmore.1 ht, ht]
      exact ⟨rfl, fun hc =>
        (hn (c.emit (Event.handler T.SET_BREAKPT (cstr c.gdbOutput_ (buf + 2)))) hc).2 _⟩
    · intro ht
      rw [hfin _ ht (by simp), hmore.2.1 ht, ht]
    · intro ht
      rw [hfin _ ht (by simp), hmore.2.2.1 ht, ht]
    · intro ht
      rw [hfin _ ht (by simp), hmore.2.2.2.2.1 ht, ht]
    · intro ht
      rw [hfin _ ht (by simp), hmore.2.2.2.2.2.1 ht, ht]
  · intro hd hwf
    have hmore := dispatchBlock_more T c (byteAt c.gdbOutput_ (buf + 1)) (buf + 2) hd
    have hr := distinctCases_refresh T hd
    have hwfh : ∀ e : Event, QueueWF (c.emit e) := fun e => ⟨hwf.sent, hwf.unsent⟩
    constructor
    · intro ht
      have he := hmore.2.2.2.2.2.2.2 ht
      have hs : StopHandled T c (dispatchBlock T c (byteAt c.gdbOutput_ (buf + 1)) (buf + 2)) := by
        rw [he]
        exact StopHandled_congr
          (d := c.emit (Event.handler (byteAt c.gdbOutput_ (buf + 1))
            (cstr c.gdbOutput_ (buf + 2)))) rfl rfl rfl
          (parseProgramLocation_stop T _ _ (hwfh _))
      have hf := finishBlock_stop T c buf hstale (by rw [ht]; exact hr.1) (by rw [ht]; exact hr.2.1)
        hs
      rw [hf]
      refine ⟨?_, hs⟩
      rw [he, ht]
    · intro ht
      have he := hmore.2.2.2.2.2.2.1 ht
      have hplain := parseFrameSelected_plain T
        (c.emit (Event.handler (byteAt c.gdbOutput_ (buf + 1)) (cstr c.gdbOutput_ (buf + 2))))
        (buf + 2)
      by_cases hk : strstr (cstr c.gdbOutput_ (buf + 2)) [BLOCK_START, SRC_POSITION] = none
      · have hp : parseFrameSelected T
            (c.emit (Event.handler (byteAt c.gdbOutput_ (buf + 1)) (cstr c.gdbOutput_ (buf + 2))))
            (buf + 2) =
            if c.state_.silent = true then
              c.emit (Event.handler (byteAt c.gdbOutput_ (buf + 1)) (cstr c.gdbOutput_ (buf + 2)))
            else
              ((c.emit (Event.handler (byteAt c.gdbOutput_ (buf + 1))
                (cstr c.gdbOutput_ (buf + 2)))).emit
                (Event.showStepInSource [] (-1) [])).emit
                  (Event.dbgStatus (str "No source: " ++ cstr c.gdbOutput_ (buf + 2))
                    c.state_) := hplain hk
        have hsame : (dispatchBlock T c (byteAt c.gdbOutput_ (buf + 1)) (buf + 2)).currentCmd_ =
            c.currentCmd_ := by
          rw [he, hp]
          by_cases hsil : c.state_.silent = true
          · rw [if_pos hsil]; rfl
          · rw [if_neg hsil]; rfl
        rw [finishBlock_stale T c buf hsame hstale, he]
        refine ⟨by rw [ht], fun _ => ?_, fun hne => absurd hk hne⟩
        rw [hp, ht]
      · obtain ⟨k, hk2⟩ := Option.ne_none_iff_exists'.1 hk
        have hs : StopHandled T c
            (dispatchBlock T c (byteAt c.gdbOutput_ (buf + 1)) (buf + 2)) := by
          rw [he]
          exact StopHandled_congr
            (d := c.emit (Event.handler (byteAt c.gdbOutput_ (buf + 1))
              (cstr c.gdbOutput_ (buf + 2)))) rfl rfl rfl
            (parseFrameSelected_stop T _ (buf + 2) k hk2 (hwfh _))
        have hf := finishBlock_stop T c buf hstale (by rw [ht]; exact hr.2.2.1)
          (by rw [ht]; exact hr.2.2.2) hs
        rw [hf]
        refine ⟨by rw [he, ht], fun h => absurd h hk, fun _ => hs⟩

theorem C22_witness :
    staleListController.currentCmd_ = none ∧
    byteAt staleListController.gdbOutput_ 1 = sampleEnv.BPLIST ∧
    cstr staleListController.gdbOutput_ 2 = str "x" ∧
    finishBlock sampleEnv staleListController 0 =
      (staleListController.emit
        (Event.handler sampleEnv.BPLIST (cstr staleListController.gdbOutput_ (0 + 2)))).emit
          (Event.rawGDBBreakpointList (cstr staleListController.gdbOutput_ (0 + 2))) ∧
    byteAt positionBlockController.gdbOutput_ 1 = SRC_POSITION ∧
    cstr positionBlockController.gdbOutput_ 2 = str "/x.c:1:1:beg:0x1" ∧
    positionBlockController.state_.appBusy = true ∧
    (finishBlock sampleEnv positionBlockController 0).state_.appBusy = false ∧
    (finishBlock sampleEnv positionBlockController 0).currentCmd_ =
      some (GDBCommand "backtrace" NOTRUNCMD INFOCMD sampleEnv.BACKTRACE).markSent :=
  have hcur : positionBlockController.currentCmd_ =
      some (GDBCommand "run" RUNCMD NOTINFOCMD 0).markSent := by decide
  have hl : positionBlockController.cmdList_ = [] := by decide
  have hwf : QueueWF positionBlockController :=
    ⟨fun x hx => by rw [hcur] at hx; cases hx; rfl, fun x hx => by rw [hl] at hx; cases hx⟩
  have hs := (((C22_stale_block_reaches_handler sampleEnv positionBlockController 0
    (Or.inr ⟨_, hcur, by decide⟩)).2.2.2 (by decide) hwf).1 (by decide)).2
  ⟨by decide, by decide, by decide,
   ((C22_stale_block_reaches_handler sampleEnv staleListController 0
      (Or.inl (by decide))).2.2.1 (by decide)).1 (by decide),
   by decide, by decide, by decide, (hs.stop (by decide) (by decide)).1, by decide⟩

theorem byteAt_drop (mem : List Nat) (buf i : Nat) :
    byteAt mem (buf + i) = (mem.drop buf).getD i 0 := by
  unfold byteAt
  rw [List.getD_eq_getElem?_getD, List.getD_eq_getElem?_getD, List.getElem?_drop]

theorem touch_touch (c : GDBController) (a b : Bool) : (c.touch a).touch b = c.touch (a && b) := by
  cases a <;> cases b <;> rfl

/-- The loop of `parseOther` steps over the bytes of a plain text. -/
theorem parseOtherLoop_scan (T : Env) (l : List Nat) :
    ∀ (fuel : Nat) (c : GDBController) (buf e : Nat) (after : List Nat),
      c.gdbOutput_.drop e = l ++ after → (∀ x ∈ l, x ≠ 0 ∧ x ≠ 10 ∧ x ≠ BLOCK_START) →
      (∀ i < l.length,
        ((l ++ after).drop i).take 31 ≠ str "(no debugging symbols found)...") →
      ∃ ok : Bool, parseOtherLoop T (fuel + l.length) c buf e =
        parseOtherLoop T fuel (c.touch ok) buf (e + l.length) := by
  induction l with
  | nil => intro fuel c buf e after _ _ _; exact ⟨true, rfl⟩
  | cons b l ih =>
    intro fuel c buf e after hmem hbytes hns
    have hb := hbytes b (List.mem_cons_self _ _)
    have hch : byteAt c.gdbOutput_ e = b := by
      have := byteAt_drop c.gdbOutput_ e 0
      rw [hmem] at this
      simpa using this
    have h0 : ¬ (byteAt c.gdbOutput_ e = 40 ∧
        (c.gdbOutput_.drop e).take 31 = str "(no debugging symbols found)...") := by
      intro h
      have := hns 0 (by simp)
      rw [List.drop_zero, ← hmem] at this
      exact this h.2
    have hb2 : ∀ x ∈ l, x ≠ 0 ∧ x ≠ 10 ∧ x ≠ BLOCK_START :=
      fun x hx => hbytes x (List.mem_cons_of_mem _ hx)
    have hn2 : ∀ i < l.length,
        ((l ++ after).drop i).take 31 ≠ str "(no debugging symbols found)..." := by
      intro i hi
      have := hns (i + 1) (by simpa using hi)
      simpa using this
    obtain ⟨ok1, hc1⟩ : ∃ ok1 : Bool,
        (if byteAt c.gdbOutput_ e = 40 then
          c.touch (!(decide ((c.gdbOutput_.drop e).length < 31) &&
            (c.gdbOutput_.drop e).isPrefixOf (str "(no debugging symbols found)...")))
        else c) = c.touch ok1 := by
      split
      · exact ⟨_, rfl⟩
      · exact ⟨true, rfl⟩
    have hmem2 : (c.touch ok1).gdbOutput_.drop (e + 1) = l ++ after := by
      rw [touch_gdbOutput, ← List.drop_drop, hmem]
      rfl
    obtain ⟨ok2, h2⟩ := ih fuel (c.touch ok1) buf (e + 1) after hmem2 hb2 hn2
    refine ⟨ok1 && ok2, ?_⟩
    have hlen : fuel + (b :: l).length = (fuel + l.length) + 1 := by
      simp only [List.length_cons]; omega
    rw [hlen]
    conv_lhs => unfold parseOtherLoop
    dsimp only
    rw [if_neg (by rw [hch]; exact hb.1), if_neg h0, hc1, if_neg (by rw [hch]; exact hb.2.1),
      if_neg (by rw [hch]; exact hb.2.2), h2, touch_touch]
    have : e + 1 + l.length = e + (b :: l).length := by
      simp only [List.length_cons]; omega
    rw [this]

theorem plainText_noSymbols (l : List Nat) (x : Nat) (rest : List Nat)
    (hx : x ∉ str "(no debugging symbols found)...")
    (h : ¬ str "(no debugging symbols found)..." <:+: l) :
    ∀ i < l.length,
      ((l ++ x :: rest).drop i).take 31 ≠ str "(no debugging symbols found)..." := by
  intro i hi heq
  by_cases hle : i + 31 ≤ l.length
  · apply h
    refine ⟨l.take i, (l.drop i).drop 31, ?_⟩
    have h1 : (l ++ x :: rest).drop i = l.drop i ++ x :: rest :=
      List.drop_append_of_le_length (by omega)
    rw [h1, List.take_append_of_le_length (by rw [List.length_drop]; omega)] at heq
    rw [← heq, List.append_assoc, List.take_append_drop, List.take_append_drop]
  · apply hx
    have h1 : (l ++ x :: rest).drop i = l.drop i ++ x :: rest :=
      List.drop_append_of_le_length (by omega)
    rw [h1] at heq
    have h2 : ((l.drop i ++ x :: rest).take 31)[l.length - i]? = some x := by
      rw [List.getElem?_take_of_lt (by omega), List.getElem?_append_right (by
        rw [List.length_drop])]
      simp
    rw [heq] at h2
    obtain ⟨hlt, hx2⟩ := List.getElem?_eq_some.1 h2
    rw [← hx2]
    exact List.getElem_mem _

theorem drop_set_mid (mem : List Nat) (buf : Nat) (t : List Nat) (x v : Nat) (after : List Nat)
    (h : mem.drop buf = t ++ x :: after) :
    (mem.set (buf + t.length) v).drop buf = t ++ v :: after := by
  rw [List.drop_set, if_neg (by omega), h]
  have : buf + t.length - buf = t.length := by omega
  rw [this]
  simp

theorem touch_poke_form (c : GDBController) (m : List Nat) (u ok : Bool) (p v : Nat) :
    (({ c with gdbOutput_ := m, undefinedRead_ := u } : GDBController).touch ok).poke p v =
      { c with gdbOutput_ := m.set p v, undefinedRead_ := u || !ok } := by
  cases ok <;> cases u <;> rfl

theorem touch_form (c : GDBController) (m : List Nat) (u ok : Bool) :
    (({ c with gdbOutput_ := m, undefinedRead_ := u } : GDBController).touch ok) =
      { c with gdbOutput_ := m, undefinedRead_ := u || !ok } := by
  cases ok <;> cases u <;> rfl

/-- The scan of `parseOther` over a line and the newline behind it; `t` is the
text already joined in front of the line. -/
theorem parseOtherLoop_line (T : Env) (fuel : Nat) (c : GDBController) (buf : Nat)
    (t l after : List Nat) (hmem : c.gdbOutput_.drop buf = (t ++ l) ++ 10 :: after)
    (hp : PlainText l) (hne : t ++ l ≠ []) :
    ∃ ok : Bool, parseOtherLoop T (fuel + 1 + l.length) c buf (buf + t.length) =
      if continuation (t ++ l) = true then
        parseOtherLoop T fuel ((c.touch ok).poke (buf + (t ++ l).length) 32) buf
          (buf + (t ++ l).length + 1)
      else
        (some (buf + (t ++ l).length),
          parseLine T ((c.touch ok).poke (buf + (t ++ l).length) 0) buf) := by
  have hmem1 : c.gdbOutput_.drop (buf + t.length) = l ++ 10 :: after := by
    rw [← List.drop_drop, hmem, List.append_assoc, List.drop_left]
  obtain ⟨ok, hscan⟩ := parseOtherLoop_scan T l (fuel + 1) c buf (buf + t.length)
    (10 :: after) hmem1 hp.bytes
    (plainText_noSymbols l 10 after (by decide) hp.noSymbols)
  refine ⟨ok, ?_⟩
  rw [hscan]
  have hpos : buf + t.length + l.length = buf + (t ++ l).length := by
    rw [List.length_append]; omega
  rw [hpos]
  generalize hs : t ++ l = s at hmem hne
  have hlen : 0 < s.length := List.length_pos.2 hne
  have hm : (c.touch ok).gdbOutput_ = c.gdbOutput_ := touch_gdbOutput c ok
  have hget : ∀ i, i ≤ s.length →
      byteAt (c.touch ok).gdbOutput_ (buf + i) = (s ++ 10 :: after).getD i 0 := by
    intro i _
    rw [hm, byteAt_drop, hmem]
  have hch : byteAt (c.touch ok).gdbOutput_ (buf + s.length) = 10 := by
    rw [hget _ (le_refl _), List.getD_eq_getElem?_getD, List.getElem?_append_right (le_refl _)]
    simp
  have h1 : byteAt (c.touch ok).gdbOutput_ (buf + s.length - 1) = s.getD (s.length - 1) 0 := by
    have : buf + s.length - 1 = buf + (s.length - 1) := by omega
    rw [this, hget _ (by omega), List.getD_append _ _ _ _ (by omega)]
  have h2 : 2 < s.length →
      byteAt (c.touch ok).gdbOutput_ (buf + s.length - 2) = s.getD (s.length - 2) 0 := by
    intro h
    have : buf + s.length - 2 = buf + (s.length - 2) := by omega
    rw [this, hget _ (by omega), List.getD_append _ _ _ _ (by omega)]
  conv_lhs => unfold parseOtherLoop
  dsimp only
  have n0 : ¬ byteAt (c.touch ok).gdbOutput_ (buf + s.length) = 0 := by rw [hch]; decide
  have n40 : ¬ byteAt (c.touch ok).gdbOutput_ (buf + s.length) = 40 := by rw [hch]; decide
  have n40a : ∀ p : Prop, ¬ (byteAt (c.touch ok).gdbOutput_ (buf + s.length) = 40 ∧ p) :=
    fun _ h => n40 h.1
  rw [if_neg n0, if_neg (n40a _), if_neg n40, if_pos hch, h1]
  have hsub : buf + s.length - buf = s.length := by omega
  rw [hsub]
  have hpos0 : 0 < buf + s.length := by omega
  unfold continuation
  have hy : ∃ y, (decide (s.length > 2) &&
      (s.getD (s.length - 1) 0 == 32 &&
        byteAt (c.touch ok).gdbOutput_ (buf + s.length - 2) == 44)) = y ∧
      (decide (s.length > 2) &&
        (s.getD (s.length - 1) 0 == 32 && s.getD (s.length - 2) 0 == 44)) = y := by
    by_cases hlong : 2 < s.length
    · rw [h2 hlong]; exact ⟨_, rfl, rfl⟩
    · refine ⟨false, ?_, ?_⟩ <;> simp [hlong]
  obtain ⟨y, hy1, hy2⟩ := hy
  rw [hy1, hy2]
  generalize s.getD (s.length - 1) 0 = x
  cases y
  · by_cases hb : x = 58
    · simp [hb, hpos0, touch_true]
    · simp [hb, hpos0, touch_true]
  · simp

/-- The scan of `parseOther` over a line that ends at a NUL. -/
theorem parseOtherLoop_end (T : Env) (fuel : Nat) (c : GDBController) (buf e : Nat)
    (l after : List Nat) (hmem : c.gdbOutput_.drop e = l ++ 0 :: after) (hp : PlainText l) :
    ∃ ok : Bool, parseOtherLoop T (fuel + 1 + l.length) c buf e = (none, c.touch ok) := by
  obtain ⟨ok, hscan⟩ := parseOtherLoop_scan T l (fuel + 1) c buf e (0 :: after) hmem hp.bytes
    (plainText_noSymbols l 0 after (by decide) hp.noSymbols)
  have hch : byteAt (c.touch ok).gdbOutput_ (e + l.length) = 0 := by
    rw [touch_gdbOutput, byteAt_drop, hmem, List.getD_eq_getElem?_getD,
      List.getElem?_append_right (le_refl _)]
    simp
  refine ⟨ok && decide (e + l.length < (c.touch ok).gdbOutput_.length), ?_⟩
  rw [hscan]
  conv_lhs => unfold parseOtherLoop
  dsimp only
  rw [if_pos hch, touch_touch]

theorem parseOther_fuel (T : Env) (c : GDBController) (buf : Nat) (x : Nat) (rest : List Nat)
    (h : c.gdbOutput_.drop buf = x :: rest) :
    parseOther T c buf = parseOtherLoop T (rest.length + 2) c buf buf := by
  unfold parseOther
  have := congrArg List.length h
  rw [List.length_drop, List.length_cons] at this
  have e : c.gdbOutput_.length + 1 - buf = rest.length + 2 := by omega
  rw [e]

/-- The line `l` at `buf`, followed by a newline: `parseOther` replaces the
newline by a space and scans on when the test of line 1054 holds, and hands the
line to `parseLine` otherwise. -/
theorem parseOther_line (T : Env) (c : GDBController) (buf : Nat) (l after : List Nat)
    (hmem : c.gdbOutput_.drop buf = l ++ 10 :: after) (hp : PlainText l) (hne : l ≠ []) :
    ∃ ok : Bool, parseOther T c buf =
      if continuation l = true then
        parseOtherLoop T (after.length + 1) ((c.touch ok).poke (buf + l.length) 32) buf
          (buf + l.length + 1)
      else (some (buf + l.length), parseLine T ((c.touch ok).poke (buf + l.length) 0) buf) := by
  obtain ⟨x, l', rfl⟩ := List.exists_cons_of_ne_nil hne
  rw [parseOther_fuel T c buf x (l' ++ 10 :: after) hmem]
  obtain ⟨ok, h⟩ := parseOtherLoop_line T (after.length + 1) c buf [] (x :: l') after
    (by simpa using hmem) hp (by simp)
  refine ⟨ok, ?_⟩
  simp only [List.nil_append, List.length_nil, Nat.add_zero] at h
  rw [← h]
  congr 1
  simp only [List.length_append, List.length_cons]
  omega

theorem plainText_ne_zero {l : List Nat} (hp : PlainText l) : ∀ b ∈ l, b ≠ 0 :=
  fun b hb => (hp.bytes b hb).1

/-- Two lines of which the first passes the test of line 1054 and the joined
text does not: one call of `parseLine` on the joined text. -/
theorem parseOther_join (T : Env) (c : GDBController) (buf : Nat) (l1 l2 tail : List Nat)
    (hmem : c.gdbOutput_.drop buf = l1 ++ 10 :: (l2 ++ 10 :: tail))
    (h1 : PlainText l1) (h2 : PlainText l2) (hne : l1 ≠ [])
    (hc1 : continuation l1 = true) (hc2 : continuation (l1 ++ 32 :: l2) = false) :
    ∃ (mem : List Nat) (u : Bool),
      parseOther T c buf = (some (buf + l1.length + 1 + l2.length),
        parseLine T { c with gdbOutput_ := mem, undefinedRead_ := u } buf) ∧
      cstr mem buf = l1 ++ 32 :: l2 := by
  obtain ⟨ok, h⟩ := parseOther_line T c buf l1 (l2 ++ 10 :: tail) hmem h1 hne
  rw [if_pos hc1] at h
  have hm1 : ((c.touch ok).poke (buf + l1.length) 32).gdbOutput_.drop buf =
      ((l1 ++ [32]) ++ l2) ++ 10 :: tail := by
    show ((c.touch ok).gdbOutput_.set (buf + l1.length) 32).drop buf = _
    rw [touch_gdbOutput, drop_set_mid _ _ _ _ _ _ hmem]
    simp
  obtain ⟨ok2, h3⟩ := parseOtherLoop_line T (tail.length + 1)
    ((c.touch ok).poke (buf + l1.length) 32) buf (l1 ++ [32]) l2 tail hm1 h2 (by simp)
  have e1 : (l1 ++ [32]) ++ l2 = l1 ++ 32 :: l2 := by simp
  have e2 : buf + (l1 ++ [32]).length = buf + l1.length + 1 := by
    rw [List.length_append, List.length_singleton]; omega
  have e3 : (l2 ++ 10 :: tail).length + 1 = tail.length + 1 + 1 + l2.length := by
    rw [List.length_append, List.length_cons]; omega
  have e4 : buf + (l1 ++ 32 :: l2).length = buf + l1.length + 1 + l2.length := by
    rw [List.length_append, List.length_cons]; omega
  rw [e1, e2, if_neg (by rw [hc2]; decide), e4] at h3
  rw [e3, h3] at h
  have hcs : cstr ((((c.touch ok).poke (buf + l1.length) 32).touch ok2).gdbOutput_.set
      (buf + l1.length + 1 + l2.length) 0) buf = l1 ++ 32 :: l2 := by
    apply cstr_of_drop _ _ _ tail
    · rw [← e4, touch_gdbOutput]
      rw [e1] at hm1
      exact drop_set_mid _ _ _ _ _ _ hm1
    · intro b hb
      rcases List.mem_append.1 hb with hb | hb
      · exact plainText_ne_zero h1 b hb
      · rcases List.mem_cons.1 hb with hb | hb
        · rw [hb]; decide
        · exact plainText_ne_zero h2 b hb
  refine ⟨_, ((c.touch ok).touch ok2).undefinedRead_, ?_, hcs⟩
  rw [h]
  cases ok <;> cases ok2 <;> rfl

/-- A line that fails the test of line 1054: one call of `parseLine` on it. -/
theorem parseOther_alone (T : Env) (c : GDBController) (buf : Nat) (l tail : List Nat)
    (hmem : c.gdbOutput_.drop buf = l ++ 10 :: tail)
    (hp : PlainText l) (hne : l ≠ []) (hc : continuation l = false) :
    ∃ (mem : List Nat) (u : Bool),
      parseOther T c buf = (some (buf + l.length),
        parseLine T { c with gdbOutput_ := mem, undefinedRead_ := u } buf) ∧
      cstr mem buf = l := by
  obtain ⟨ok, h⟩ := parseOther_line T c buf l tail hmem hp hne
  rw [if_neg (by rw [hc]; decide)] at h
  have hcs : cstr ((c.touch ok).gdbOutput_.set (buf + l.length) 0) buf = l := by
    apply cstr_of_drop _ _ _ tail
    · rw [touch_gdbOutput]
      exact drop_set_mid _ _ _ _ _ _ hmem
    · exact plainText_ne_zero hp
  refine ⟨_, (c.touch ok).undefinedRead_, ?_, hcs⟩
  rw [h]
  cases ok <;> rfl

/-- The second line has no newline yet: nothing is parsed and `parseLine` is
not called; the first newline has become a space. -/
theorem parseOther_pending (T : Env) (c : GDBController) (buf : Nat) (l1 l2 tail : List Nat)
    (hmem : c.gdbOutput_.drop buf = l1 ++ 10 :: (l2 ++ 0 :: tail))
    (h1 : PlainText l1) (h2 : PlainText l2) (hne : l1 ≠ [])
    (hc1 : continuation l1 = true) :
    ∃ u : Bool, parseOther T c buf =
      (none, { c with gdbOutput_ := c.gdbOutput_.set (buf + l1.length) 32,
                      undefinedRead_ := u }) := by
  obtain ⟨ok, h⟩ := parseOther_line T c buf l1 (l2 ++ 0 :: tail) hmem h1 hne
  rw [if_pos hc1] at h
  have hm1 : ((c.touch ok).poke (buf + l1.length) 32).gdbOutput_.drop (buf + l1.length + 1) =
      l2 ++ 0 :: tail := by
    show ((c.touch ok).gdbOutput_.set (buf + l1.length) 32).drop (buf + l1.length + 1) = _
    rw [touch_gdbOutput, List.drop_set, if_pos (by omega), Nat.add_assoc, ← List.drop_drop, hmem,
      List.drop_append]
    rfl
  obtain ⟨ok2, h3⟩ := parseOtherLoop_end T (tail.length + 1)
    ((c.touch ok).poke (buf + l1.length) 32) buf (buf + l1.length + 1) l2 tail hm1 h2
  have e3 : (l2 ++ 0 :: tail).length + 1 = tail.length + 1 + 1 + l2.length := by
    rw [List.length_append, List.length_cons]; omega
  rw [e3, h3] at h
  refine ⟨(((c.touch ok).poke (buf + l1.length) 32).touch ok2).undefinedRead_, ?_⟩
  rw [h]
  cases ok <;> cases ok2 <;> rfl

theorem continuation_iff (l : List Nat) :
    continuation l = true ↔ (2 < l.length ∧ str ", " <:+ l) ∨ str ":" <:+ l := by
  have hs1 : ∀ (init : List Nat) (a x : Nat), [x] <:+ init ++ [a] ↔ a = x := by
    intro init a x
    constructor
    · rintro ⟨p, hp⟩
      have := List.append_inj_right' hp rfl
      simpa using this.symm
    · rintro rfl; exact ⟨init, rfl⟩
  have hs2 : ∀ (init : List Nat) (b a x y : Nat),
      [x, y] <:+ init ++ [b, a] ↔ b = x ∧ a = y := by
    intro init b a x y
    constructor
    · rintro ⟨p, hp⟩
      have := List.append_inj_right' hp rfl
      simpa using this.symm
    · rintro ⟨rfl, rfl⟩; exact ⟨init, rfl⟩
  rcases List.eq_nil_or_concat l with rfl | ⟨init, a, rfl⟩
  · decide
  · rw [List.concat_eq_append]
    rcases List.eq_nil_or_concat init with rfl | ⟨init2, b, rfl⟩
    · have h1 := hs1 [] a 58
      simp only [List.nil_append] at h1
      show continuation [a] = true ↔ (2 < 1 ∧ _) ∨ [58] <:+ [a]
      rw [h1]
      simp [continuation]
    · have e : init2 ++ [b] ++ [a] = init2 ++ [b, a] := by simp
      rw [List.concat_eq_append, e]
      have h1 := hs1 (init2 ++ [b]) a 58
      rw [e] at h1
      have h2 := hs2 init2 b a 44 32
      show _ ↔ (_ ∧ [44, 32] <:+ _) ∨ [58] <:+ _
      rw [h1, h2]
      have g1 : (init2 ++ [b, a]).getD ((init2 ++ [b, a]).length - 1) 0 = a := by
        have : (init2 ++ [b, a]).length - 1 = init2.length + 1 := by simp
        rw [this, List.getD_eq_getElem?_getD, List.getElem?_append_right (by omega)]
        simp
      have g2 : (init2 ++ [b, a]).getD ((init2 ++ [b, a]).length - 2) 0 = b := by
        have : (init2 ++ [b, a]).length - 2 = init2.length := by simp
        rw [this, List.getD_eq_getElem?_getD, List.getElem?_append_right (by omega)]
        simp
      unfold continuation
      rw [g1, g2]
      simp only [List.length_append, List.length_cons, List.length_nil, gt_iff_lt, Bool.or_eq_true,
        Bool.and_eq_true, decide_eq_true_eq, beq_iff_eq]
      tauto

/-- C28 (refuted as stated): the line `, ` ends in `, ` immediately before its
newline, yet it is not joined with the line `foo` behind it: both are handed to
`parseLine` separately, because the test of line 1054 asks for more than two
bytes in front of the newline. And the line `foo:` followed by the text
`(no debugging symbols found)...` is neither joined nor handed to `parseLine`
at all: the scan returns at the parenthesis. -/
theorem C28_counterexample :
    dispatches (slotDbgStdout sampleEnv settledController (str ", \nfoo\n")).log_ =
      dispatches settledController.log_ ++ [Event.line (str ", "), Event.line (str "foo")] ∧
    continuation (str ", ") = false ∧
    dispatches (slotDbgStdout sampleEnv settledController
        (str "foo:\n(no debugging symbols found)...\nbar\n")).log_ =
      dispatches settledController.log_ ++ [Event.line [], Event.line (str "bar")] := by
  refine ⟨by decide, by decide, by decide⟩

/-- C28 (amended): `continuation` is the test of line 1054: the text in front
of the newline has more than two bytes and ends in `, `, or it ends in `:`. For
lines without NUL, newline, block marker and `(no debugging symbols found)...`,
the first one not empty: (1) when the first line passes the test and the joined
text does not, `parseOther` stores a space over the first newline, calls
`parseLine` once, on the joined text, and returns the position of the second
newline, so exactly one line is dispatched; (2) while the second line has no
newline yet, `parseOther` returns nothing parsed and dispatches nothing, the
first newline being already replaced by a space; (3) a line that fails the test
is handed to `parseLine` on its own. -/
theorem C28_continuation_lines_joined (T : Env) (c : GDBController) (buf : Nat) :
    (∀ l : List Nat, continuation l = true ↔
      (2 < l.length ∧ str ", " <:+ l) ∨ str ":" <:+ l) ∧
    (∀ l1 l2 tail : List Nat, c.gdbOutput_.drop buf = l1 ++ 10 :: (l2 ++ 10 :: tail) →
      PlainText l1 → PlainText l2 → l1 ≠ [] →
      continuation l1 = true → continuation (l1 ++ 32 :: l2) = false →
      (∃ (mem : List Nat) (u : Bool),
        parseOther T c buf = (some (buf + l1.length + 1 + l2.length),
          parseLine T { c with gdbOutput_ := mem, undefinedRead_ := u } buf) ∧
        cstr mem buf = l1 ++ 32 :: l2) ∧
      dispatches (parseOther T c buf).2.log_ =
        dispatches c.log_ ++ [Event.line (l1 ++ 32 :: l2)]) ∧
    (∀ l1 l2 tail : List Nat, c.gdbOutput_.drop buf = l1 ++ 10 :: (l2 ++ 0 :: tail) →
      PlainText l1 → PlainText l2 → l1 ≠ [] → continuation l1 = true →
      (parseOther T c buf).1 = none ∧ (parseOther T c buf).2.log_ = c.log_ ∧
      (parseOther T c buf).2.gdbOutput_ = c.gdbOutput_.set (buf + l1.length) 32) ∧
    (∀ l tail : List Nat, c.gdbOutput_.drop buf = l ++ 10 :: tail →
      PlainText l → l ≠ [] → continuation l = false →
      (∃ (mem : List Nat) (u : Bool),
        parseOther T c buf = (some (buf + l.length),
          parseLine T { c with gdbOutput_ := mem, undefinedRead_ := u } buf) ∧
        cstr mem buf = l) ∧
      dispatches (parseOther T c buf).2.log_ = dispatches c.log_ ++ [Event.line l]) := by
  refine ⟨continuation_iff, ?_, ?_, ?_⟩
  · intro l1 l2 tail hmem h1 h2 hne hc1 hc2
    obtain ⟨mem, u, hr, hcs⟩ := parseOther_join T c buf l1 l2 tail hmem h1 h2 hne hc1 hc2
    refine ⟨⟨mem, u, hr, hcs⟩, ?_⟩
    rw [hr]
    have := (Disp_parseLine T (c := { c with gdbOutput_ := mem, undefinedRead_ := u }) buf
      ⟨rfl⟩).eq
    rw [this]
    show dispatches c.log_ ++ [Event.line (cstr mem buf)] = _
    rw [hcs]
  · intro l1 l2 tail hmem h1 h2 hne hc1
    obtain ⟨u, hr⟩ := parseOther_pending T c buf l1 l2 tail hmem h1 h2 hne hc1
    rw [hr]
    exact ⟨rfl, rfl, rfl⟩
  · intro l tail hmem hp hne hc
    obtain ⟨mem, u, hr, hcs⟩ := parseOther_alone T c buf l tail hmem hp hne hc
    refine ⟨⟨mem, u, hr, hcs⟩, ?_⟩
    rw [hr]
    have := (Disp_parseLine T (c := { c with gdbOutput_ := mem, undefinedRead_ := u }) buf
      ⟨rfl⟩).eq
    rw [this]
    show dispatches c.log_ ++ [Event.line (cstr mem buf)] = _
    rw [hcs]

theorem C28_witness :
    joinController.gdbOutput_.drop 0 = str "a, " ++ 10 :: (str "foo" ++ 10 :: [0]) ∧
    continuation (str "a, ") = true ∧ continuation (str "a, " ++ 32 :: str "foo") = false ∧
    dispatches (parseOther sampleEnv joinController 0).2.log_ =
      dispatches joinController.log_ ++ [Event.line (str "a,  foo")] ∧
    dispatches (slotDbgStdout sampleEnv settledController (str "a, \nfoo\n")).log_ =
      dispatches settledController.log_ ++ [Event.line (str "a,  foo")] :=
  have h := ((C28_continuation_lines_joined sampleEnv joinController 0).2.1 (str "a, ")
    (str "foo") [0] (by decide) ⟨by decide, by decide⟩ ⟨by decide, by decide⟩ (by decide)
    (by decide) (by decide)).2
  ⟨by decide, by decide, by decide, h, by decide⟩

theorem parseCmdBlock_progress (T : Env) (c : GDBController) (buf p : Nat)
    (h : (parseCmdBlock T c buf).1 = some p) : buf ≤ p := by
  unfold parseCmdBlock at h
  dsimp only at h
  split at h
  · simp only [Option.some.injEq] at h; omega
  · split at h
    · split at h
      · simp only [Option.some.injEq] at h; omega
      · exact absurd h (by simp)
    · split at h
      · simp only [Option.some.injEq] at h; omega
      · exact absurd h (by simp)

theorem parseOtherLoop_progress (T : Env) (fuel : Nat) :
    ∀ (c : GDBController) (buf e p : Nat), buf ≤ e →
      (e = buf → byteAt c.gdbOutput_ buf ≠ BLOCK_START) →
      (parseOtherLoop T fuel c buf e).1 = some p → buf ≤ p := by
  induction fuel with
  | zero => intro c buf e p _ _ h; exact absurd h (by simp [parseOtherLoop])
  | succ n ih =>
    intro c buf e p hle hb h
    unfold parseOtherLoop at h
    dsimp only at h
    split at h
    · exact absurd h (by simp)
    · split at h
      · simp only [Option.some.injEq] at h; omega
      · split at h
        · split at h
          · exact ih _ buf (e + 1) p (by omega) (fun he => absurd he (by omega)) h
          · split at h
            · exact ih _ buf (e + 1) p (by omega) (fun he => absurd he (by omega)) h
            · simp only [Option.some.injEq] at h; omega
        · split at h
          · rename_i hbs
            simp only [Option.some.injEq] at h
            have : e ≠ buf := fun he => hb he (he ▸ hbs)
            omega
          · exact ih _ buf (e + 1) p (by omega) (fun he => absurd he (by omega)) h

theorem parseLoop_progress (T : Env) (fuel : Nat) :
    ∀ (c : GDBController) (unparsed : Nat), unparsed ≤ (parseLoop T fuel c unparsed).1 := by
  induction fuel with
  | zero => intro c u; exact le_refl _
  | succ n ih =>
    intro c u
    unfold parseLoop
    dsimp only
    split
    · exact le_refl _
    · rename_i h0
      split
      · exact le_refl _
      · rename_i parsed hr
        have hp : u ≤ parsed := by
          split at hr
          · exact parseCmdBlock_progress T _ u parsed hr
          · rename_i hb
            exact parseOtherLoop_progress T _ _ u u parsed (le_refl _)
              (fun _ => by rw [touch_gdbOutput]; exact hb) hr
        exact le_trans (by omega) (ih _ (parsed + 1))

/-- C29, the code at the failing input. Every parser that returns a position
returns one at or behind its start, so each iteration of the loop of `parse`
consumes at least one byte and `parse` returns nothing parsed or a position
strictly behind the buffer start. The bound fails: after `staleStream` the
buffer is empty and the array still holds `x NUL \032 i Z Z NUL`; the fragment
`\032` makes it `\032 NUL \032 i Z Z NUL` with `gdbOutputLen_` 1 and the
terminating NUL at index 1. `parseCmdBlock` takes that NUL for the tag and
finds the old marker at index 2 behind it, so `parse` returns position 4, which
is beyond `gdbOutputLen_ + 1`: the `Q_ASSERT` of `slotDbgStdout` fails. The
compaction then retains the two old bytes `ZZ`, more than the one byte the
buffer held, and the next fragment `i` newline is dispatched as the line `ZZi`. -/
theorem C29_parse_passes_terminating_nul :
    (∀ (T : Env) (c : GDBController) (buf p : Nat),
      (parseCmdBlock T c buf).1 = some p → buf < p + 1) ∧
    (∀ (T : Env) (c : GDBController) (buf p : Nat),
      byteAt c.gdbOutput_ buf ≠ BLOCK_START → (parseOther T c buf).1 = some p → buf < p + 1) ∧
    (∀ (T : Env) (c : GDBController) (buf p : Nat), (parse T c buf).1 = some p → buf < p) ∧
    (deliver sampleEnv startedController [staleStream]).gdbOutputLen_ = 0 ∧
    (deliver sampleEnv startedController [staleStream]).gdbOutput_ =
      [120, 0, 26, 105, 90, 90, 0, 0] ∧
    loneMarkerController.gdbOutput_ = [26, 0, 26, 105, 90, 90, 0, 0] ∧
    loneMarkerController.gdbOutputLen_ = 1 ∧
    byteAt loneMarkerController.gdbOutput_ loneMarkerController.gdbOutputLen_ = 0 ∧
    (parse sampleEnv loneMarkerController 0).1 = some 4 ∧
    ¬ (4 ≤ loneMarkerController.gdbOutputLen_ + 1) ∧
    (parse sampleEnv loneMarkerController 0).2.undefinedRead_ = false ∧
    (compactOutput (parse sampleEnv loneMarkerController 0)).gdbOutputLen_ = 2 ∧
    cstr (compactOutput (parse sampleEnv loneMarkerController 0)).gdbOutput_ 0 = str "ZZ" ∧
    dispatches (deliver sampleEnv startedController
        [staleStream, [BLOCK_START], [IDLE, 10]]).log_ =
      [Event.line (str "x"), Event.line (str "ZZ"), Event.line (str "ZZi")] ∧
    dispatches (deliver sampleEnv startedController
        [staleStream ++ [BLOCK_START] ++ [IDLE, 10]]).log_ =
      [Event.line (str "x"), Event.line (str "ZZ"), Event.line []] := by
  refine ⟨?_, ?_, ?_, by decide, by decide, by decide, by decide, by decide, by decide,
    by decide, by decide, by decide, by decide, by decide, by decide⟩
  · intro T c buf p h
    exact Nat.lt_succ_of_le (parseCmdBlock_progress T c buf p h)
  · intro T c buf p hb h
    exact Nat.lt_succ_of_le (parseOtherLoop_progress T _ c buf buf p (le_refl _) (fun _ => hb) h)
  · intro T c buf p h
    unfold parse at h
    dsimp only at h
    have hle := parseLoop_progress T (c.gdbOutput_.length + 1 - buf) c buf
    split at h
    · exact absurd h (by simp)
    · rename_i hne
      simp only [Option.some.injEq] at h
      omega

theorem C29_witness :
    (parse sampleEnv loneMarkerController 0).1 = some 4 ∧ 0 < 4 ∧
    ¬ (4 ≤ loneMarkerController.gdbOutputLen_ + 1) :=
  ⟨by decide, C29_parse_passes_terminating_nul.2.2.1 sampleEnv loneMarkerController 0 4
    (by decide), by decide⟩

theorem C21_witness :
    stateIsOn settledController.state_
      (s_appBusy.bor (s_dbgNotStarted.bor s_shuttingDown)) = false ∧
    (slotSelectFrame sampleEnv settledController 2 5 false false).viewedThread_ = 5 ∧
    (slotSelectFrame sampleEnv settledController 2 5 false false).currentFrame_ = 2 :=
  ⟨by decide,
    (C21_select_frame_sets_context_at_once sampleEnv settledController 2 5 false false).2.1
      (by decide)⟩

/-- C18: in a state with AppBusy set and `config_forceBPSet_` on, a request that
passes the guards of `slotBPState`, whatever its action, sets Silent and changes
no other flag, writes nothing to gdb and leaves the in-flight command as it
was; the pending list then ends with the run-type command `continue` and holds
no other run-type command, and the queue stays well formed.  Later, in every
well-formed state that has this `continue` at the head of the pending list,
`executeCmd` either does nothing (a flag blocks the queue or the in-flight
command awaits its reply) or writes the `continue`, whether a command that
awaits no reply, such as the `run` written before, is still in flight or none
is: then Silent is cleared, AppBusy is set and `continue` is the command in
flight. -/
theorem C18_forced_breakpoint_ends_with_continue (T : Env) (c : GDBController)
    (BP : Breakpoint)
    (hstarted : c.state_.dbgNotStarted = false) (hshut : c.state_.shuttingDown = false)
    (hpending : BP.isPending = true) (hdie : BP.isActionDie = false)
    (hbusy : c.state_.appBusy = true) (hforce : c.config_forceBPSet_ = true) :
    (slotBPState T c BP).state_ = { c.state_ with silent := true } ∧
    (slotBPState T c BP).currentCmd_ = c.currentCmd_ ∧
    (slotBPState T c BP).log_ =
      c.log_ ++ (if c.dbgProcess_ = true then [Event.kill Signal.SIGINT] else []) ∧
    (∃ pre, (slotBPState T c BP).cmdList_ = pre ++ [GDBCommand "continue" RUNCMD NOTINFOCMD 0] ∧
      ∀ x ∈ pre, x.isARunCmd = false) ∧
    (GDBCommand "continue" RUNCMD NOTINFOCMD 0).isARunCmd = true ∧
    (QueueWF c → QueueWF (slotBPState T c BP)) ∧
    (∀ (d : GDBController) (rest : List DbgCommand), QueueWF d →
      d.cmdList_ = GDBCommand "continue" RUNCMD NOTINFOCMD 0 :: rest →
      ((stateIsOn d.state_ (s_dbgNotStarted.bor (s_waitForWrite.bor s_appBusy)) = true ∨
          (∃ y, d.currentCmd_ = some y ∧ y.expectReply = true)) ∧ executeCmd d = d) ∨
      (stateIsOn d.state_ (s_dbgNotStarted.bor (s_waitForWrite.bor s_appBusy)) = false ∧
        (∀ y, d.currentCmd_ = some y → y.expectReply = false) ∧
        (executeCmd d).state_.silent = false ∧ (executeCmd d).state_.appBusy = true ∧
        (executeCmd d).currentCmd_ =
          some (GDBCommand "continue" RUNCMD NOTINFOCMD 0).markSent ∧
        (executeCmd d).cmdList_ = rest ∧
        ∃ more, (executeCmd d).log_ = d.log_ ++ Event.writeStdin "continue" :: more)) := by
  have hp := pauseApp_spec (c.setOn s_silent)
  have hs1 : (pauseApp (c.setOn s_silent)).state_ = { c.state_ with silent := true } := by
    rw [hp.2.2.1]
    simp [GDBController.setOn]
  have hb1 : (pauseApp (c.setOn s_silent)).state_.appBusy = true := by
    rw [hs1]; exact hbusy
  have hl1 : (pauseApp (c.setOn s_silent)).log_ =
      c.log_ ++ (if c.dbgProcess_ = true then [Event.kill Signal.SIGINT] else []) := by
    rw [hp.2.2.2.2]
    simp [GDBController.setOn, hbusy]
  -- the breakpoint commands
  have hmid : ∀ d : GDBController,
      d = (if BP.isActionAdd then setBreakpoint T (pauseApp (c.setOn s_silent)) BP.dbgSetCommand
            BP.key
          else if BP.isActionClear then
            clearBreakpoint T (pauseApp (c.setOn s_silent)) BP.dbgRemoveCommand
          else if BP.isActionModify then modifyBreakpoint T (pauseApp (c.setOn s_silent)) BP
          else pauseApp (c.setOn s_silent)) →
      d.state_ = (pauseApp (c.setOn s_silent)).state_ ∧
      d.currentCmd_ = (pauseApp (c.setOn s_silent)).currentCmd_ ∧
      d.log_ = (pauseApp (c.setOn s_silent)).log_ := by
    intro d hd
    rw [hd]
    split
    · exact queueCmd_busy_fields _ _ _ hb1
    · split
      · unfold clearBreakpoint
        have h1 := queueCmd_busy_fields (pauseApp (c.setOn s_silent))
          (GDBCommand BP.dbgRemoveCommand NOTRUNCMD NOTINFOCMD T.defaultPrompt) false hb1
        have h2 := queueCmd_busy_fields _
          (GDBCommand "info breakpoints" NOTRUNCMD NOTINFOCMD T.BPLIST) false
          (by rw [h1.1]; exact hb1)
        exact ⟨h2.1.trans h1.1, h2.2.1.trans h1.2.1, h2.2.2.trans h1.2.2⟩
      · split
        · exact modifyBreakpoint_busy_fields T _ BP hb1
        · exact ⟨rfl, rfl, rfl⟩
  have hr : slotBPState T c BP =
      queueCmd (if BP.isActionAdd then setBreakpoint T (pauseApp (c.setOn s_silent))
            BP.dbgSetCommand BP.key
          else if BP.isActionClear then
            clearBreakpoint T (pauseApp (c.setOn s_silent)) BP.dbgRemoveCommand
          else if BP.isActionModify then modifyBreakpoint T (pauseApp (c.setOn s_silent)) BP
          else pauseApp (c.setOn s_silent))
        (GDBCommand "continue" RUNCMD NOTINFOCMD 0) false := by
    unfold slotBPState
    simp [hstarted, hshut, hpending, hdie, hbusy, hforce]
  have hm := hmid _ rfl
  have hwfk : QueueWF c → QueueWF (slotBPState T c BP) := fun hwf =>
    WF_applyOp T (Op.slotBPState BP) hwf
  rw [hr, queueCmd_busy _ _ _ (by rw [hm.1]; exact hb1)]
  rw [hr, queueCmd_busy _ _ _ (by rw [hm.1]; exact hb1)] at hwfk
  refine ⟨hm.1.trans hs1, hm.2.1.trans hp.2.2.2.1, hm.2.2.trans hl1, ?_, rfl, hwfk, ?_⟩
  · refine ⟨_, rfl, ?_⟩
    intro x hx
    have := (List.mem_filter.1 hx).2
    simp only [Bool.not_eq_true', Bool.or_eq_false_iff] at this
    simpa using this.2
  · intro d rest hwf hl
    rcases executeCmd_wf d hwf with h | ⟨hfree, hcur, ⟨hnil, _⟩ | ⟨x, rest2, hl2, he⟩⟩
    · exact Or.inl h
    · rw [hl] at hnil
      cases hnil
    · right
      rw [hl] at hl2
      simp only [List.cons.injEq] at hl2
      rw [he, ← hl2.1, ← hl2.2]
      have hw := executeCmdWrite_spec
        { d with currentCmd_ := some (GDBCommand "continue" RUNCMD NOTINFOCMD 0),
                 cmdList_ := rest }
        (GDBCommand "continue" RUNCMD NOTINFOCMD 0)
      refine ⟨hfree, hcur, ?_, ?_, hw.1, executeCmdWrite_cmdList _ _, hw.2.1⟩
      · rw [hw.2.2]; rfl
      · rw [hw.2.2]; rfl

theorem C18_witness :
    (slotBPState sampleEnv runningController sampleBreakpoint).state_ =
      { runningController.state_ with silent := true } ∧
    (slotBPState sampleEnv runningController sampleBreakpoint).state_.appBusy = true ∧
    (slotBPState sampleEnv runningController sampleBreakpoint).cmdList_ =
      [GDBSetBreakpointCommand sampleEnv "break main.cpp:10" 7,
       GDBCommand "continue" RUNCMD NOTINFOCMD 0] ∧
    (slotBPState sampleEnv runningController unnumberedBreakpoint).cmdList_ =
      [GDBCommand "continue" RUNCMD NOTINFOCMD 0] ∧
    (runOps sampleEnv (slotBPState sampleEnv runningController sampleBreakpoint)
      confirmBreakpoint).state_.silent = false ∧
    (runOps sampleEnv (slotBPState sampleEnv runningController sampleBreakpoint)
      confirmBreakpoint).state_.appBusy = true ∧
    (written (runOps sampleEnv (slotBPState sampleEnv runningController sampleBreakpoint)
      confirmBreakpoint).log_).drop (written runningController.log_).length =
      ["break main.cpp:10", "continue"] ∧
    (runOps sampleEnv (slotBPState sampleEnv runningController sampleBreakpoint)
      confirmBreakpoint).cmdList_ = [] ∧
    (runOps sampleEnv (slotBPState sampleEnv runningController unnumberedBreakpoint)
      (confirmBreakpoint.take 1)).currentCmd_ =
      some (GDBCommand "run" RUNCMD NOTINFOCMD 0).markSent ∧
    (runOps sampleEnv (slotBPState sampleEnv runningController unnumberedBreakpoint)
      (confirmBreakpoint.take 2)).state_.silent = false ∧
    (runOps sampleEnv (slotBPState sampleEnv runningController unnumberedBreakpoint)
      (confirmBreakpoint.take 2)).state_.appBusy = true ∧
    (runOps sampleEnv (slotBPState sampleEnv runningController unnumberedBreakpoint)
      (confirmBreakpoint.take 2)).currentCmd_ =
      some (GDBCommand "continue" RUNCMD NOTINFOCMD 0).markSent ∧
    (written (runOps sampleEnv (slotBPState sampleEnv runningController unnumberedBreakpoint)
      (confirmBreakpoint.take 2)).log_).drop (written runningController.log_).length =
      ["continue"] :=
  have h := C18_forced_breakpoint_ends_with_continue sampleEnv runningController sampleBreakpoint
    (by decide) (by decide) (by decide) (by decide) (by decide) (by decide)
  ⟨h.1, by decide, by decide, by decide, by decide, by decide, by decide, by decide,
    by decide, by decide, by decide, by decide, by decide⟩

end GDBDebugger
